import Mathlib

/-!
# Terminal window support (`src/terminal.c`): a shallow embedding

The definitions below follow the C functions of `src/terminal.c` one by one and
keep their names.  Conventions of the embedding:

* a C `int` is an `Int` (or a `Nat` where the code only counts upwards); signed
  overflow is undefined behaviour in C and is not modelled;
* an `uint8_t` field that is assigned from an `int` is reduced `% 256`;
* a pointer that may be `NULL` is an `Option`;
* a `garray_T` is a `List`; a loop of the C code that can fail to terminate is
  run with an explicit amount of fuel and answers `none` when it runs out;
* memory allocation succeeds unless a function takes the outcome of an
  allocation as an argument.
-/

namespace Terminal

/-! ## Constants of headers that are outside `src/` -/

/-- Modelled from the spec: the constant `VTERM_ANSI_INDEX_NONE` of
`libvterm/include/vterm.h` (not under `src/`): the palette index `none`,
"true RGB, no palette origin". -/
def VTERM_ANSI_INDEX_NONE : Nat := 255

/-- Modelled from the spec: the constant `VTERM_ANSI_INDEX_DEFAULT` of
`libvterm/include/vterm.h` (not under `src/`): the fixed default index. -/
def VTERM_ANSI_INDEX_DEFAULT : Nat := 0

/-- Modelled from the spec: `VTERM_MAX_CHARS_PER_CELL` of
`libvterm/include/vterm.h` (not under `src/`). -/
def VTERM_MAX_CHARS_PER_CELL : Nat := 6

/-- Modelled from the spec: style flag `HL_INVERSE` of `vim.h` (not under `src/`). -/
def HL_INVERSE : Nat := 0x01
/-- Modelled from the spec: style flag `HL_BOLD` of `vim.h` (not under `src/`). -/
def HL_BOLD : Nat := 0x02
/-- Modelled from the spec: style flag `HL_ITALIC` of `vim.h` (not under `src/`). -/
def HL_ITALIC : Nat := 0x04
/-- Modelled from the spec: style flag `HL_UNDERLINE` of `vim.h` (not under `src/`). -/
def HL_UNDERLINE : Nat := 0x08
/-- Modelled from the spec: style flag `HL_STRIKETHROUGH` of `vim.h` (not under `src/`). -/
def HL_STRIKETHROUGH : Nat := 0x80

/-! ## Data model -/

/-- The `VTermColor` of libvterm: three channels and the palette index. -/
structure VTermColor where
  red : Nat
  green : Nat
  blue : Nat
  ansi_index : Nat
deriving DecidableEq, Repr, Inhabited

/-- The bit fields of `VTermScreenCellAttrs`. -/
structure VTermScreenCellAttrs where
  bold : Nat
  underline : Nat
  italic : Nat
  blink : Nat
  reverse : Nat
  strike : Nat
  font : Nat
  dwl : Nat
  dhl : Nat
deriving DecidableEq, Repr, Inhabited

/-- The `VTermScreenCell` of libvterm; `chars` is the NUL-terminated array of
code points, read with `getD _ 0`. -/
structure VTermScreenCell where
  chars : List Nat
  width : Nat
  attrs : VTermScreenCellAttrs
  fg : VTermColor
  bg : VTermColor
deriving DecidableEq, Repr, Inhabited

/-- The `cellattr_T` of terminal.c: "VTermScreenCell without the characters". -/
structure cellattr_T where
  attrs : VTermScreenCellAttrs
  width : Nat
  fg : VTermColor
  bg : VTermColor
deriving DecidableEq, Repr, Inhabited

/-- The `sb_line_T` of terminal.c; `sb_cells` is `none` for a `NULL` pointer. -/
structure sb_line_T where
  sb_cols : Int
  sb_cells : Option (List cellattr_T)
  sb_fill_attr : cellattr_T
deriving DecidableEq, Repr, Inhabited

/-- All bits zero, the result of `vim_memset(.., 0, ..)` on a colour. -/
def VTermColor.zero : VTermColor := ⟨0, 0, 0, 0⟩

/-- All bits zero, the result of `vim_memset(.., 0, ..)` on the attributes. -/
def VTermScreenCellAttrs.zero : VTermScreenCellAttrs := ⟨0, 0, 0, 0, 0, 0, 0, 0, 0⟩

/-- All bits zero, the result of `vim_memset(.., 0, ..)` on a `cellattr_T`. -/
def cellattr_T.zero : cellattr_T :=
  ⟨VTermScreenCellAttrs.zero, 0, VTermColor.zero, VTermColor.zero⟩

/-- All bits zero, the result of `vim_memset(.., 0, ..)` on a screen cell. -/
def VTermScreenCell.zero : VTermScreenCell :=
  ⟨[], 0, VTermScreenCellAttrs.zero, VTermColor.zero, VTermColor.zero⟩

/-! ## Color resolver -/

/-- The display as `color2index` sees it: the global `t_colors` and the
function `lookup_color` of syntax.c (not under `src/`), which returns a colour
number and the new value of `*boldp`. -/
structure Display where
  t_colors : Int
  lookup_color : Int → Int → Int → Int × Int

/-- The loop `for (i = 0; i < n; ++i) if (v < cutoff[i]) ...`: the first index,
counted from `i`, whose threshold is above `v`, if there is one. -/
def cutoff_scan (v : Int) : List Int → Nat → Option Nat
  | [], _ => none
  | c :: cs, i => if v < c then some i else cutoff_scan v cs (i + 1)

/-- The table `cutoff[23]` of the greyscale branch. -/
def grey_cutoff : List Int :=
  [0x0D, 0x17, 0x21, 0x2B, 0x35, 0x3F, 0x49, 0x53, 0x5D, 0x67,
   0x71, 0x7B, 0x85, 0x8F, 0x99, 0xA3, 0xAD, 0xB7, 0xC1, 0xCB,
   0xD5, 0xDF, 0xE9]

/-- The table `cutoff[5]` of the colour cube branch. -/
def cube_cutoff : List Int := [0x2F, 0x73, 0x9B, 0xC3, 0xEB]

/-- The loop `for (ri = 0; ri < 5; ++ri) if (v < cutoff[ri]) break;`: the value
of the counter after the loop. -/
def cube_level (v : Int) : Int :=
  match cutoff_scan v cube_cutoff 0 with
  | some i => i
  | none => 5

/-- The function `color2index`: "Reverse engineer the RGB value into a cterm
color index.  First color is 1.  Return 0 if no match found (default color)."
The result is the returned index and the value of `*boldp` afterwards. -/
def color2index (d : Display) (color : VTermColor) (fg : Int) (boldp : Int) : Int × Int :=
  let red : Int := color.red
  let blue : Int := color.blue
  let green : Int := color.green
  let look (idx : Int) : Int × Int :=
    let r := d.lookup_color idx fg boldp
    (r.1 + 1, r.2)
  let rest : Int × Int :=
    if d.t_colors ≥ 256 then
      if red = blue ∧ red = green then
        if red < 5 then (17, boldp)
        else if red > 245 then (232, boldp)
        else
          match cutoff_scan red grey_cutoff 0 with
          | some i => ((i : Int) + 233, boldp)
          | none => (256, boldp)
      else
        (17 + cube_level red * 36 + cube_level green * 6 + cube_level blue, boldp)
    else (0, boldp)
  if color.ansi_index ≠ VTERM_ANSI_INDEX_NONE then
    if d.t_colors ≥ 16 then ((color.ansi_index : Int), boldp)
    else
      match color.ansi_index with
      | 0 => (0, boldp)
      | 1 => look 0
      | 2 => look 4
      | 3 => look 2
      | 4 => look 6
      | 5 => look 1
      | 6 => look 5
      | 7 => look 3
      | 8 => look 8
      | 9 => look 12
      | 10 => look 20
      | 11 => look 16
      | 12 => look 24
      | 13 => look 14
      | 14 => look 22
      | 15 => look 18
      | 16 => look 26
      | _ => rest
  else rest

/-- The table `ansi_table[16]`. -/
def ansi_table : List VTermColor :=
  [⟨0, 0, 0, 1⟩, ⟨224, 0, 0, 2⟩, ⟨0, 224, 0, 3⟩, ⟨224, 224, 0, 4⟩,
   ⟨0, 0, 224, 5⟩, ⟨224, 0, 224, 6⟩, ⟨0, 224, 224, 7⟩, ⟨224, 224, 224, 8⟩,
   ⟨128, 128, 128, 9⟩, ⟨255, 64, 64, 10⟩, ⟨64, 255, 64, 11⟩, ⟨255, 255, 64, 12⟩,
   ⟨64, 64, 255, 13⟩, ⟨255, 64, 255, 14⟩, ⟨64, 255, 255, 15⟩, ⟨255, 255, 255, 16⟩]

/-- The table `cube_value[]`. -/
def cube_value : List Nat := [0x00, 0x5F, 0x87, 0xAF, 0xD7, 0xFF]

/-- The table `grey_ramp[]`. -/
def grey_ramp : List Nat :=
  [0x08, 0x12, 0x1C, 0x26, 0x30, 0x3A, 0x44, 0x4E, 0x58, 0x62, 0x6C, 0x76,
   0x80, 0x8A, 0x94, 0x9E, 0xA8, 0xB2, 0xBC, 0xC6, 0xD0, 0xDA, 0xE4, 0xEE]

/-- The function `cterm_color2rgb`: "Convert a cterm color number 0 - 255 to
RGB."  The colour `rgb` is the caller's, left as it is when `nr >= 256`. -/
def cterm_color2rgb (nr : Nat) (rgb : VTermColor) : VTermColor :=
  if nr < 16 then ansi_table.getD nr rgb
  else if nr < 232 then
    let idx := nr - 16
    { blue := cube_value.getD (idx % 6) 0
      green := cube_value.getD (idx / 6 % 6) 0
      red := cube_value.getD (idx / 36 % 6) 0
      ansi_index := VTERM_ANSI_INDEX_NONE }
  else if nr < 256 then
    let idx := nr - 232
    { blue := grey_ramp.getD idx 0
      green := grey_ramp.getD idx 0
      red := grey_ramp.getD idx 0
      ansi_index := VTERM_ANSI_INDEX_NONE }
  else rgb

/-! ## Host primitives that are outside `src/` -/

/-- Modelled from the spec: the status `OK` of `vim.h` (not under `src/`). -/
def OK : Int := 1

/-- Modelled from the spec: the status `FAIL` of `vim.h` (not under `src/`). -/
def FAIL : Int := 0

/-- Conversion of an `uint32_t` code point to `int`, as in `int c = cell.chars[i]`. -/
def to_int (x : Nat) : Int :=
  if x % 4294967296 < 2147483648 then (x % 4294967296 : Nat)
  else ((x % 4294967296 : Nat) : Int) - 4294967296

/-- Modelled from the spec: `utf_char2bytes` of mbyte.c (not under `src/`), the
"single exchange encoding" UTF-8 of a character, of one to six bytes; a
character below 0x80 (a negative `int` included) is stored as one `char_u`. -/
def utf_char2bytes (c : Int) : List Nat :=
  let u := c.toNat
  if c < 0x80 then [(c % 256).toNat]
  else if c < 0x800 then [0xc0 + u / 64, 0x80 + u % 64]
  else if c < 0x10000 then [0xe0 + u / 4096, 0x80 + u / 64 % 64, 0x80 + u % 64]
  else if c < 0x200000 then
    [0xf0 + u / 262144, 0x80 + u / 4096 % 64, 0x80 + u / 64 % 64, 0x80 + u % 64]
  else if c < 0x4000000 then
    [0xf8 + u / 16777216, 0x80 + u / 262144 % 64, 0x80 + u / 4096 % 64,
     0x80 + u / 64 % 64, 0x80 + u % 64]
  else
    [0xfc + u / 1073741824, 0x80 + u / 16777216 % 64, 0x80 + u / 262144 % 64,
     0x80 + u / 4096 % 64, 0x80 + u / 64 % 64, 0x80 + u % 64]

/-- The bytes of a C string: what precedes the first NUL. -/
def c_string (s : List Nat) : List Nat := s.takeWhile (fun b => b ≠ 0)

/-- The text container of a buffer, `buf->b_ml`: its lines (each the bytes of a
C string, without the NUL) and the flag `ML_EMPTY` of `ml_flags`. -/
structure memline_T where
  ml_lines : List (List Nat)
  ml_empty : Bool
deriving DecidableEq, Repr, Inhabited

/-- The field `ml_line_count`. -/
def memline_T.ml_line_count (ml : memline_T) : Int := ml.ml_lines.length

/-- Modelled from the spec: `ml_append` and `ml_append_buf` of memline.c (not
under `src/`), the host primitive that appends the text line `line` (the bytes
of the C string) after line `lnum`; it fails when `lnum` is beyond the last
line and clears `ML_EMPTY`. -/
def ml_append (ml : memline_T) (lnum : Int) (line : List Nat) : Int × memline_T :=
  if lnum < 0 ∨ lnum > ml.ml_line_count then (FAIL, ml)
  else
    (OK, { ml_lines := ml.ml_lines.take lnum.toNat ++ [line] ++ ml.ml_lines.drop lnum.toNat,
           ml_empty := false })

/-- Modelled from the spec: `ml_delete` of memline.c (not under `src/`), the
host primitive that deletes line `lnum`; deleting the only line leaves one
empty line and sets `ML_EMPTY`. -/
def ml_delete (ml : memline_T) (lnum : Int) : Int × memline_T :=
  if lnum < 1 ∨ lnum > ml.ml_line_count then (FAIL, ml)
  else if ml.ml_line_count = 1 then (OK, { ml_lines := [[]], ml_empty := true })
  else (OK, { ml with ml_lines := ml.ml_lines.eraseIdx (lnum - 1).toNat })

/-- Modelled from the spec: `ml_get` of memline.c (not under `src/`), the host
primitive that reads line `lnum`; a number beyond the last line reads "???". -/
def ml_get (ml : memline_T) (lnum : Int) : List Nat :=
  if lnum > ml.ml_line_count then [63, 63, 63]
  else ml.ml_lines.getD ((if lnum ≤ 0 then 1 else lnum) - 1).toNat []

/-- A buffer: `b_fnum` stands for the identity of the `buf_T`. -/
structure buf_T where
  b_fnum : Nat
  b_ml : memline_T
deriving DecidableEq, Repr, Inhabited

/-- The fields of a window that terminal.c reads and writes; `w_buffer` is the
`b_fnum` of the buffer shown. -/
structure win_T where
  w_buffer : Nat
  w_height : Int
  w_width : Int
  w_cursor_lnum : Int
  w_cursor_col : Int
  w_topline : Int
  w_valid : Int
deriving DecidableEq, Repr, Inhabited

/-- The `VTermPos` of libvterm. -/
structure VTermPos where
  row : Int
  col : Int
deriving DecidableEq, Repr, Inhabited

/-- The engine as terminal.c reads it: the cell grid of its screen (a list of
rows), its default colours and its cursor position. -/
structure VTerm where
  screen : List (List VTermScreenCell)
  default_fg : VTermColor
  default_bg : VTermColor
  cursor_pos : VTermPos
deriving DecidableEq, Repr, Inhabited

/-- Modelled from the spec: `vterm_screen_get_cell` of libvterm (not under
`src/`), the read of one cell of the engine's grid; `none` is the result 0 for
a position outside the grid, which leaves the caller's cell as it was. -/
def vterm_screen_get_cell (vt : VTerm) (pos : VTermPos) : Option VTermScreenCell :=
  if pos.row < 0 ∨ pos.col < 0 then none
  else
    match vt.screen[pos.row.toNat]? with
    | none => none
    | some r => r[pos.col.toNat]?

/-- The `struct terminal_S` of terminal.c, without its strings and handles;
`tl_job` is the identity of the `job_T` it points to, `tl_kill` the bytes of the
string. -/
structure term_T where
  tl_vterm : Option VTerm
  tl_buffer : buf_T
  tl_vterm_size_changed : Int
  tl_normal_mode : Int
  tl_channel_closed : Int
  tl_finish : Nat
  tl_rows : Int
  tl_cols : Int
  tl_rows_fixed : Int
  tl_cols_fixed : Int
  tl_dirty_row_start : Int
  tl_dirty_row_end : Int
  tl_scrollback : List sb_line_T
  tl_scrollback_scrolled : Int
  tl_default_color : cellattr_T
  tl_top_diff_rows : Int
  tl_bot_diff_rows : Int
  tl_cursor_pos : VTermPos
  tl_cursor_visible : Int
  tl_using_altscreen : Int
  tl_job : Option Nat
  tl_kill : Option (List Nat)
deriving DecidableEq, Repr, Inhabited

/-- The contents of memory that the C code reads or keeps without having
written it: the local `cell` of `move_terminal_to_buffer` before the first
successful `vterm_screen_get_cell`, and the cells of a fresh `alloc`. -/
structure Uninit where
  cell : VTermScreenCell
  attr : cellattr_T
deriving DecidableEq, Repr, Inhabited

/-! ## Cell/Scrollback store -/

/-- The function `add_scrollback_line_to_buffer` (the branch that is not
`WIN3264`): "Add the last line of the scrollback buffer to the buffer in the
window."  The argument `len` of the C function is the length of `text`. -/
def add_scrollback_line_to_buffer (term : term_T) (text : List Nat) : term_T :=
  let buf := term.tl_buffer
  let empty := buf.b_ml.ml_empty
  let lnum := buf.b_ml.ml_line_count
  let ml1 := (ml_append buf.b_ml lnum (c_string text)).2
  let ml2 := if empty then (ml_delete ml1 1).2 else ml1
  { term with tl_buffer := { buf with b_ml := ml2 } }

/-- The function `cell2cellattr`, which overwrites all four fields of `attr`. -/
def cell2cellattr (cell : VTermScreenCell) : cellattr_T :=
  { width := cell.width, attrs := cell.attrs, fg := cell.fg, bg := cell.bg }

/-- The function `equal_celattr`: "Comparing the colors should be sufficient." -/
def equal_celattr (a b : cellattr_T) : Bool :=
  a.fg.red == b.fg.red && a.fg.green == b.fg.green && a.fg.blue == b.fg.blue
    && a.bg.red == b.bg.red && a.bg.green == b.bg.green && a.bg.blue == b.bg.blue

/-- The loop `for (i = 0; i < ga_len - lnum; ++i) { *line = *(line - 1); --line; }`
of `add_empty_scrollback`, on the array `a` with `line` an index into it. -/
def add_empty_scrollback_shift : Nat → List sb_line_T → Nat → List sb_line_T × Nat
  | 0, a, line => (a, line)
  | n + 1, a, line =>
    add_empty_scrollback_shift n (a.set line (a.getD (line - 1) default)) (line - 1)

/-- The function `add_empty_scrollback`: "Add an empty scrollback line to
"term".  When "lnum" is not zero, add the line at this position.  Otherwise at
the end."  The array is grown by one slot, whose content is overwritten. -/
def add_empty_scrollback (term : term_T) (fill_attr : cellattr_T) (lnum : Int) :
    Int × term_T :=
  let ga_len := term.tl_scrollback.length
  let a0 := term.tl_scrollback ++ [default]
  let r := if lnum > 0 then
      add_empty_scrollback_shift ((ga_len : Int) - lnum).toNat a0 ga_len
    else (a0, ga_len)
  (OK, { term with tl_scrollback := r.1.set r.2 ⟨0, none, fill_attr⟩ })

/-- The tail of the loop `for (i = 0; (c = cell.chars[i]) > 0 || i == 0; ++i)`:
the characters after the first, up to the first that is not above zero. -/
def cell_chars_bytes_rest : List Nat → List Nat
  | [] => []
  | c :: cs =>
    if to_int c > 0 then utf_char2bytes (to_int c) ++ cell_chars_bytes_rest cs else []

/-- The loop `for (i = 0; (c = cell.chars[i]) > 0 || i == 0; ++i)
ga.ga_len += utf_char2bytes(c == NUL ? ' ' : c, ..)`: the bytes of one cell. -/
def cell_chars_bytes (chars : List Nat) : List Nat :=
  let c := to_int (chars.getD 0 0)
  utf_char2bytes (if c = 0 then 32 else c) ++ cell_chars_bytes_rest chars.tail

/-- The state of the column scan of a row: `len`, `new_fill_attr` (or
`fill_attr` in `handle_pushline`) and the local `cell`. -/
structure RowScan where
  len : Nat
  fill : cellattr_T
  cell : VTermScreenCell
deriving DecidableEq, Repr, Inhabited

/-- One step of the loop `for (pos.col = 0; pos.col < term->tl_cols; ++pos.col)`
of `move_terminal_to_buffer`, which finds `len` and the filler attribute. -/
def move_scan_step (vt : VTerm) (dflt : cellattr_T) (row : Int) (st : RowScan)
    (col : Nat) : RowScan :=
  match vterm_screen_get_cell vt ⟨row, col⟩ with
  | some c =>
    if c.chars.getD 0 0 ≠ 0 then { len := col + 1, fill := dflt, cell := c }
    else { len := st.len, fill := cell2cellattr c, cell := c }
  | none => { st with fill := cell2cellattr st.cell }

/-- The loop `for (pos.col = 0; pos.col < len; pos.col += width)` of
`move_terminal_to_buffer`, which fills `p` and the text `ga`; `none` when the
fuel is used up, as happens for a cell of width 0, on which the C loop does
not advance. -/
def move_store_cols (vt : VTerm) (row : Int) (len : Nat) :
    Nat → Nat → VTermScreenCell → List cellattr_T → List Nat →
      Option (VTermScreenCell × List cellattr_T × List Nat)
  | 0, col, cell, p, ga => if col < len then none else some (cell, p, ga)
  | fuel + 1, col, cell, p, ga =>
    if col < len then
      match vterm_screen_get_cell vt ⟨row, col⟩ with
      | none =>
        move_store_cols vt row len fuel (col + 1) cell (p.set col cellattr_T.zero)
          (ga ++ utf_char2bytes 32)
      | some c =>
        move_store_cols vt row len fuel (col + c.width) c (p.set col (cell2cellattr c))
          (ga ++ cell_chars_bytes c.chars)
    else some (cell, p, ga)

/-- The loop `while (lines_skipped > 0)` of `move_terminal_to_buffer`: "Line
was skipped, add an empty line." -/
def move_flush_skipped : Nat → cellattr_T → term_T → term_T
  | 0, _, term => term
  | n + 1, fill, term =>
    let r := add_empty_scrollback term fill 0
    move_flush_skipped n fill
      (if r.1 = OK then add_scrollback_line_to_buffer r.2 [] else r.2)

/-- The locals of `move_terminal_to_buffer` that live across rows, with the
terminal. -/
structure MoveState where
  term : term_T
  lines_skipped : Nat
  fill_attr : cellattr_T
  new_fill_attr : cellattr_T
  cell : VTermScreenCell
deriving DecidableEq, Repr, Inhabited

/-- The body of the loop `for (pos.row = 0; pos.row < term->tl_rows; ++pos.row)`
of `move_terminal_to_buffer`. -/
def move_row (vt : VTerm) (u : Uninit) (st : MoveState) (row : Nat) : Option MoveState :=
  let scan := (List.range st.term.tl_cols.toNat).foldl
    (move_scan_step vt st.term.tl_default_color row) ⟨0, st.new_fill_attr, st.cell⟩
  if scan.len = 0 ∧ equal_celattr scan.fill st.fill_attr = true then
    some { st with lines_skipped := st.lines_skipped + 1,
                   new_fill_attr := scan.fill, cell := scan.cell }
  else
    let term1 := move_flush_skipped st.lines_skipped st.fill_attr st.term
    match move_store_cols vt row scan.len scan.len 0 scan.cell
        (List.replicate scan.len u.attr) [] with
    | none => none
    | some (cell, p, ga) =>
      let line : sb_line_T :=
        { sb_cols := scan.len, sb_cells := if scan.len = 0 then none else some p,
          sb_fill_attr := scan.fill }
      let term2 := { term1 with tl_scrollback := term1.tl_scrollback ++ [line] }
      some { term := add_scrollback_line_to_buffer term2 ga, lines_skipped := 0,
             fill_attr := scan.fill, new_fill_attr := scan.fill, cell := cell }

/-- The row loop of `move_terminal_to_buffer` over the rows still to do. -/
def move_rows (vt : VTerm) (u : Uninit) : List Nat → MoveState → Option MoveState
  | [], st => some st
  | row :: rows, st =>
    match move_row vt u st row with
    | none => none
    | some st1 => move_rows vt u rows st1

/-- The body of `FOR_ALL_WINDOWS(wp)` at the end of `move_terminal_to_buffer`. -/
def move_update_win (term : term_T) (wp : win_T) : win_T :=
  if wp.w_buffer = term.tl_buffer.b_fnum then
    let lnum := term.tl_buffer.b_ml.ml_line_count
    let min_topline := lnum - wp.w_height + 1
    { wp with w_cursor_lnum := lnum, w_cursor_col := 0, w_valid := 0,
              w_topline := if lnum ≥ wp.w_height ∧ wp.w_topline < min_topline
                           then min_topline else wp.w_topline }
  else wp

/-- The function `move_terminal_to_buffer`: "Add the current lines of the
terminal to scrollback and to the buffer.  Called after the job has ended and
when switching to Terminal-Normal mode."  The windows are those of
`FOR_ALL_WINDOWS`; `none` when the C function does not return. -/
def move_terminal_to_buffer (u : Uninit) (term : term_T) (wins : List win_T) :
    Option (term_T × List win_T) :=
  match term.tl_vterm with
  | none => some (term, wins)
  | some vt =>
    match move_rows vt u (List.range term.tl_rows.toNat)
        ⟨term, 0, term.tl_default_color, term.tl_default_color, u.cell⟩ with
    | none => none
    | some st =>
      let term1 := { st.term with
        tl_default_color :=
          { st.term.tl_default_color with fg := vt.default_fg, bg := vt.default_bg } }
      some (term1, wins.map (move_update_win term1))

/-- The outcomes of the allocations of one `handle_pushline` call:
`ga_grow(&term->tl_scrollback, 1)`, `alloc(sizeof(cellattr_T) * len)`,
`ga_grow(&ga, MB_MAXBYTES)` at each column and the last `ga_grow(&ga, 1)`. -/
structure PushAlloc where
  sb_grow : Bool
  cells : Bool
  text_grow : Nat → Bool
  nul_grow : Bool

/-- One step of the loop `for (i = 0; i < cols; ++i)` of `handle_pushline`: "do
not store empty cells at the end". -/
def pushline_scan_step (cells : List VTermScreenCell) (st : RowScan) (i : Nat) : RowScan :=
  let c := cells.getD i VTermScreenCell.zero
  if c.chars.getD 0 0 ≠ 0 then { st with len := i + 1 }
  else { st with fill := cell2cellattr c }

/-- The loop `for (col = 0; col < len; col += cells[col].width)` of
`handle_pushline`; `none` when the fuel is used up (a cell of width 0). -/
def pushline_store_cols (cells : List VTermScreenCell) (a : PushAlloc) (len : Nat) :
    Nat → Nat → List cellattr_T → List Nat → Option (List cellattr_T × List Nat)
  | 0, col, p, ga => if col < len then none else some (p, ga)
  | fuel + 1, col, p, ga =>
    if col < len then
      if a.text_grow col = false then some (p, [])
      else
        let c := cells.getD col VTermScreenCell.zero
        pushline_store_cols cells a len fuel (col + c.width)
          (p.set col (cell2cellattr c)) (ga ++ cell_chars_bytes c.chars)
    else some (p, ga)

/-- The function `handle_pushline`: "Handle a line that is pushed off the top
of the screen."  The array `cells` has `cols` entries; `none` when the C
function does not return. -/
def handle_pushline (u : Uninit) (a : PushAlloc) (cols : Int)
    (cells : List VTermScreenCell) (term : term_T) : Option term_T :=
  if a.sb_grow then
    let scan := (List.range cols.toNat).foldl (pushline_scan_step cells)
      ⟨0, term.tl_default_color, VTermScreenCell.zero⟩
    let len := scan.len
    let stored : Option (Option (List cellattr_T) × List Nat) :=
      if len > 0 ∧ a.cells = true then
        match pushline_store_cols cells a len len 0 (List.replicate len u.attr) [] with
        | none => none
        | some (p, ga) => some (some p, ga)
      else some (none, [])
    match stored with
    | none => none
    | some (p, ga) =>
      let term1 := add_scrollback_line_to_buffer term (if a.nul_grow then ga else [])
      let line : sb_line_T := { sb_cols := len, sb_cells := p, sb_fill_attr := scan.fill }
      some { term1 with tl_scrollback := term1.tl_scrollback ++ [line],
                        tl_scrollback_scrolled := term1.tl_scrollback_scrolled + 1 }
  else some term

/-- A sequence of `handle_pushline` calls, each with its allocation outcomes,
its `cols` and its cells. -/
def handle_pushline_seq (u : Uninit) :
    List (PushAlloc × Int × List VTermScreenCell) → term_T → Option term_T
  | [], term => some term
  | (a, cols, cells) :: rest, term =>
    match handle_pushline u a cols cells term with
    | none => none
    | some term1 => handle_pushline_seq u rest term1

/-! ## Dump/Diff codec: swapping the two halves of a diff -/

/-- The function `term_is_finished`, on `buf->b_term`: "Return TRUE if "wp" is a
terminal window where the job has finished." -/
def term_is_finished (b_term : Option term_T) : Bool :=
  match b_term with
  | none => false
  | some term => term.tl_vterm.isNone

/-- The body of the first loop of `term_swap_diff`: "move lines from top to
above the bottom part". -/
def swap_top_step (bot_start : Int) (ml : memline_T) : memline_T :=
  let p := ml_get ml 1
  let ml1 := (ml_append ml bot_start p).2
  (ml_delete ml1 1).2

/-- The loop `for (lnum = 1; lnum <= top_rows; ++lnum)` of `term_swap_diff`,
with the number of iterations still to do. -/
def swap_top_loop (bot_start : Int) : Nat → memline_T → memline_T
  | 0, ml => ml
  | n + 1, ml => swap_top_loop bot_start n (swap_top_step bot_start ml)

/-- The body of the second loop of `term_swap_diff`: "move lines from bottom to
the top". -/
def swap_bot_step (bot_start : Int) (ml : memline_T) (lnum : Int) : memline_T :=
  let p := ml_get ml (bot_start + lnum)
  let ml1 := (ml_delete ml (bot_start + lnum)).2
  (ml_append ml1 (lnum - 1) p).2

/-- The loop `for (lnum = 1; lnum <= bot_rows; ++lnum)` of `term_swap_diff`,
with the number of iterations still to do and the current `lnum`. -/
def swap_bot_loop (bot_start : Int) : Nat → Int → memline_T → memline_T
  | 0, _, ml => ml
  | n + 1, lnum, ml => swap_bot_loop bot_start n (lnum + 1) (swap_bot_step bot_start ml lnum)

/-- The body of the loop that exchanges the cell properties when "rows counts
are equal": `temp = sb[lnum]; sb[lnum] = sb[bot_start + lnum];
sb[bot_start + lnum] = temp`. -/
def swap_sb_step (bot_start : Int) (sb : List sb_line_T) (lnum : Nat) : List sb_line_T :=
  let temp := sb.getD lnum default
  let sb1 := sb.set lnum (sb.getD (bot_start + lnum).toNat default)
  sb1.set (bot_start + lnum).toNat temp

/-- The loop `for (lnum = 0; lnum < top_rows; ++lnum)` of `term_swap_diff`, with
the number of iterations still to do and the current `lnum`. -/
def swap_sb_loop (bot_start : Int) : Nat → Nat → List sb_line_T → List sb_line_T
  | 0, _, sb => sb
  | n + 1, lnum, sb => swap_sb_loop bot_start n (lnum + 1) (swap_sb_step bot_start sb lnum)

/-- The call `mch_memmove(dst + off, src, sizeof(sb_line_T) * src.length)` on
arrays of scrollback lines. -/
def memmove_at (dst : List sb_line_T) (off : Nat) (src : List sb_line_T) : List sb_line_T :=
  dst.take off ++ src ++ dst.drop (off + src.length)

/-- The function `term_swap_diff`, on `curbuf->b_term`: "If the current buffer
shows the output of term_dumpdiff(), swap the top and bottom files.  Return
FAIL when this is not possible." -/
def term_swap_diff (b_term : Option term_T) : Int × Option term_T :=
  match b_term with
  | none => (FAIL, none)
  | some term =>
    if term_is_finished (some term) = false ∨ term.tl_top_diff_rows = 0
        ∨ term.tl_scrollback.length = 0 then (FAIL, some term)
    else
      let line_count := term.tl_buffer.b_ml.ml_line_count
      let top_rows := term.tl_top_diff_rows
      let bot_rows := term.tl_bot_diff_rows
      let bot_start := line_count - bot_rows
      let ml1 := swap_top_loop bot_start top_rows.toNat term.tl_buffer.b_ml
      let ml2 := swap_bot_loop bot_start bot_rows.toNat 1 ml1
      let temp := term.tl_scrollback
      let sb :=
        if top_rows = bot_rows then
          swap_sb_loop bot_start top_rows.toNat 0 term.tl_scrollback
        else
          let d1 := memmove_at term.tl_scrollback 0
            ((temp.drop bot_start.toNat).take bot_rows.toNat)
          let d2 := memmove_at d1 bot_rows.toNat
            ((temp.drop top_rows.toNat).take (line_count - top_rows - bot_rows).toNat)
          memmove_at d2 (line_count - top_rows).toNat (temp.take top_rows.toNat)
      (OK, some { term with
        tl_buffer := { term.tl_buffer with b_ml := ml2 },
        tl_scrollback := sb,
        tl_top_diff_rows := bot_rows,
        tl_bot_diff_rows := top_rows })

/-- A scenario: the finished terminal of `term_dumpdiff` on a first dump of one
row `a` and an empty second dump: the row, a separator row `=`, the comparison
row `-` and the second separator row `=`; one top row, no bottom row. -/
def scenario_diff_term : term_T :=
  { (default : term_T) with
    tl_vterm := none,
    tl_buffer := ⟨1, ⟨[[97], [61], [45], [61]], false⟩⟩,
    tl_scrollback :=
      [⟨1, some [⟨VTermScreenCellAttrs.zero, 1, ⟨240, 240, 240, 0⟩, ⟨0, 0, 0, 0⟩⟩], default⟩,
       ⟨0, none, default⟩, ⟨0, none, default⟩, ⟨0, none, default⟩],
    tl_top_diff_rows := 1, tl_bot_diff_rows := 0 }

/-- A scenario: the finished terminal of `term_dumpdiff` on two dumps of one
row each, `a` and `b`: the row `a`, a separator row `=`, the comparison row
`X`, the second separator row `=` and the row `b`. -/
def scenario_diff_term_ab : term_T :=
  { (default : term_T) with
    tl_vterm := none,
    tl_buffer := ⟨1, ⟨[[97], [61], [88], [61], [98]], false⟩⟩,
    tl_scrollback :=
      [⟨1, some [⟨VTermScreenCellAttrs.zero, 1, ⟨240, 240, 240, 0⟩, ⟨0, 0, 0, 0⟩⟩], default⟩,
       ⟨0, none, default⟩, ⟨0, none, default⟩, ⟨0, none, default⟩,
       ⟨1, some [⟨VTermScreenCellAttrs.zero, 1, ⟨255, 0, 0, 10⟩, ⟨0, 0, 0, 0⟩⟩], default⟩],
    tl_top_diff_rows := 1, tl_bot_diff_rows := 1 }

/-! ## Dump/Diff codec: writing and reading a dump -/

/-- The test `attr & flag` of C for a flag of one bit, read in the two's
complement of `attr`. -/
def has_flag (attr : Int) (flag : Nat) : Bool := (attr / (flag : Int)) % 2 == 1

/-- The function `vtermAttr2hl`: "Convert Vterm attributes to highlight
flags." -/
def vtermAttr2hl (cellattrs : VTermScreenCellAttrs) : Nat :=
  (if cellattrs.bold ≠ 0 then HL_BOLD else 0)
  ||| (if cellattrs.underline ≠ 0 then HL_UNDERLINE else 0)
  ||| (if cellattrs.italic ≠ 0 then HL_ITALIC else 0)
  ||| (if cellattrs.strike ≠ 0 then HL_STRIKETHROUGH else 0)
  ||| (if cellattrs.reverse ≠ 0 then HL_INVERSE else 0)

/-- The function `hl2vtermAttr`: "Store Vterm attributes in "cell" from
highlight flags." -/
def hl2vtermAttr (attr : Int) (cell : cellattr_T) : cellattr_T :=
  { cell with attrs :=
    { VTermScreenCellAttrs.zero with
      bold := if has_flag attr HL_BOLD then 1 else 0
      underline := if has_flag attr HL_UNDERLINE then 1 else 0
      italic := if has_flag attr HL_ITALIC then 1 else 0
      strike := if has_flag attr HL_STRIKETHROUGH then 1 else 0
      reverse := if has_flag attr HL_INVERSE then 1 else 0 } }

/-- The function `same_color`. -/
def same_color (a b : VTermColor) : Bool :=
  a.red == b.red && a.green == b.green && a.blue == b.blue && a.ansi_index == b.ansi_index

/-- The bytes that `fprintf(fd, "%d", n)` writes for a number that is not
negative. -/
def fprintf_d (n : Nat) : List Nat := (Nat.toDigits 10 n).map Char.toNat

/-- The bytes that `fprintf(fd, "%02x", n)` writes. -/
def fprintf_02x (n : Nat) : List Nat :=
  if n < 16 then 48 :: (Nat.toDigits 16 n).map Char.toNat
  else (Nat.toDigits 16 n).map Char.toNat

/-- The function `dump_term_color`: `fprintf(fd, "%02x%02x%02x%d", ..)`. -/
def dump_term_color (color : VTermColor) : List Nat :=
  fprintf_02x color.red ++ fprintf_02x color.green ++ fprintf_02x color.blue
    ++ fprintf_d color.ansi_index

/-- The loop `for (i = 0; i < VTERM_MAX_CHARS_PER_CELL; ++i)` of
`f_term_dumpwrite` that computes `same_chars`, with the number of iterations
still to do.  The C code also computes `c` and `pc`, in which "NUL is the same
as space", and never reads them: the comparison is on `cell.chars[i]` and
`prev_cell.chars[i]`. -/
def same_chars_loop (chars prev_chars : List Nat) : Nat → Nat → Bool → Bool
  | 0, _, same => same
  | n + 1, i, same =>
    let same1 := if chars.getD i 0 ≠ prev_chars.getD i 0 then false else same
    if chars.getD i 0 = 0 ∨ prev_chars.getD i 0 = 0 then same1
    else same_chars_loop chars prev_chars n (i + 1) same1

/-- The loop `for (i = 0; i < VTERM_MAX_CHARS_PER_CELL && cell.chars[i] != NUL;
++i)` of `f_term_dumpwrite`, which writes `utf_char2bytes(cell.chars[0], ..)`
at every iteration. -/
def dump_chars_loop (chars : List Nat) : Nat → Nat → List Nat
  | 0, _ => []
  | n + 1, i =>
    if chars.getD i 0 ≠ 0 then
      utf_char2bytes (to_int (chars.getD 0 0)) ++ dump_chars_loop chars n (i + 1)
    else []

/-- The locals of `f_term_dumpwrite` that live across cells, with the bytes
written to the file so far; `rep` is the local `repeat`. -/
structure DumpWrite where
  out : List Nat
  prev_cell : VTermScreenCell
  rep : Nat
deriving DecidableEq, Repr, Inhabited

/-- The body of the column loop of `f_term_dumpwrite` for the cell at `col`:
the new state and the value of `pos.col` at the end of the body. -/
def dump_cell (vt : VTerm) (row : Int) (col : Nat) (st : DumpWrite) : DumpWrite × Nat :=
  let is_cursor_pos := ((col : Int) = vt.cursor_pos.col ∧ row = vt.cursor_pos.row)
  let cell := match vterm_screen_get_cell vt ⟨row, col⟩ with
    | some c => c
    | none => VTermScreenCell.zero
  let prev_cell := st.prev_cell
  let same_chars := same_chars_loop cell.chars prev_cell.chars VTERM_MAX_CHARS_PER_CELL 0 true
  let same_attr := vtermAttr2hl cell.attrs == vtermAttr2hl prev_cell.attrs
    && same_color cell.fg prev_cell.fg && same_color cell.bg prev_cell.bg
  if same_chars = true ∧ cell.width = prev_cell.width ∧ same_attr = true ∧ ¬ is_cursor_pos then
    ({ st with rep := st.rep + 1 }, col)
  else
    let out1 := if st.rep > 0 then st.out ++ [64] ++ fprintf_d st.rep else st.out
    let out2 := out1 ++ (if is_cursor_pos then [62] else [124])
    let out3 := out2 ++ (if cell.chars.getD 0 0 = 0 then [32]
      else dump_chars_loop cell.chars VTERM_MAX_CHARS_PER_CELL 0)
    if cell.width ≠ prev_cell.width ∨ same_attr = false then
      let out4 := out3 ++ (if cell.width = 2 then [42] else [43])
      let col1 := if cell.width = 2 then col + 1 else col
      let out5 :=
        if same_attr then out4 ++ [38]
        else
          out4 ++ fprintf_d (vtermAttr2hl cell.attrs)
            ++ (if same_color cell.fg prev_cell.fg then [38]
                else [35] ++ dump_term_color cell.fg)
            ++ (if same_color cell.bg prev_cell.bg then [38]
                else [35] ++ dump_term_color cell.bg)
      ({ out := out5, prev_cell := cell, rep := 0 }, col1)
    else ({ out := out3, prev_cell := cell, rep := 0 }, col)

/-- The loop `for (pos.col = 0; (max_width == 0 || pos.col < max_width) &&
pos.col < term->tl_cols; ++pos.col)` of `f_term_dumpwrite`; the fuel is the
number of columns, which bounds the number of iterations. -/
def dump_cols (vt : VTerm) (row : Int) (max_width tl_cols : Int) :
    Nat → Nat → DumpWrite → DumpWrite
  | 0, _, st => st
  | fuel + 1, col, st =>
    if (max_width = 0 ∨ (col : Int) < max_width) ∧ (col : Int) < tl_cols then
      let r := dump_cell vt row col st
      dump_cols vt row max_width tl_cols fuel (r.2 + 1) r.1
    else st

/-- The body of the row loop of `f_term_dumpwrite`. -/
def dump_row (vt : VTerm) (max_width tl_cols : Int) (st : DumpWrite) (row : Nat) : DumpWrite :=
  let st1 := dump_cols vt row max_width tl_cols tl_cols.toNat 0 { st with rep := 0 }
  let out1 := if st1.rep > 0 then st1.out ++ [64] ++ fprintf_d st1.rep else st1.out
  { st1 with out := out1 ++ [10] }

/-- The function `f_term_dumpwrite` from `vim_memset(&prev_cell, 0, ..)` to
`fclose(fd)`: the bytes written to the file, for the options `rows`
(`max_height`) and `columns` (`max_width`).  The checks of the arguments and of
the file name come before and are not modelled; `none` when the terminal has
no engine, which the C code does not check. -/
def term_dumpwrite (term : term_T) (max_height max_width : Int) : Option (List Nat) :=
  match term.tl_vterm with
  | none => none
  | some vt =>
    let rows := (List.range term.tl_rows.toNat).filter
      (fun (row : Nat) => decide (max_height = 0 ∨ (row : Int) < max_height))
    some (rows.foldl (dump_row vt max_width term.tl_cols)
      { out := [], prev_cell := VTermScreenCell.zero, rep := 0 }).out

/-- Modelled from the spec: `fgetc` of the C library, on the bytes still to
read: the next byte, or `EOF` (-1) at the end. -/
def fgetc : List Nat → Int × List Nat
  | [] => (-1, [])
  | b :: rest => ((b : Int), rest)

/-- Modelled from the spec: `isdigit` of the C library. -/
def isdigit (c : Int) : Bool := decide (48 ≤ c ∧ c ≤ 57)

/-- Modelled from the spec: `hex2nr` of charset.c (not under `src/`), the value
of a hexadecimal digit; for another character it is `c - '0'`. -/
def hex2nr (c : Int) : Int :=
  if 97 ≤ c ∧ c ≤ 102 then c - 97 + 10
  else if 65 ≤ c ∧ c ≤ 70 then c - 65 + 10
  else c - 48

/-- The text "CORRUPT" that `dump_is_corrupt` concatenates. -/
def CORRUPT : List Nat := [67, 79, 82, 82, 85, 80, 84]

/-- The locals of `read_dump_file`, the bytes of `fd` still to read and the
terminal of the current buffer; `ga_text_data` tells whether
`ga_text.ga_data` is not NULL. -/
structure DumpRead where
  c : Int
  fd : List Nat
  ga_text : List Nat
  ga_text_data : Bool
  ga_cell : List cellattr_T
  prev_char : Option (List Nat)
  attr : Int
  cell : cellattr_T
  term : term_T
  cursor_pos : VTermPos
  max_cells : Int
deriving DecidableEq, Repr, Inhabited

/-- The function `dump_is_corrupt`, on `ga_text`: "Called when a dump is
corrupted." -/
def dump_is_corrupt (st : DumpRead) : DumpRead :=
  { st with ga_text := st.ga_text ++ CORRUPT, ga_text_data := true }

/-- The call `c = fgetc(fd)`. -/
def read_next (st : DumpRead) : DumpRead :=
  { st with c := (fgetc st.fd).1, fd := (fgetc st.fd).2 }

/-- The loop `for (;;) { c = fgetc(fd); if (c == '+' || ..) break;
ga_append(&ga_text, c); }` that reads the bytes of a glyph: the byte that
ended it, the bytes after it and the glyph bytes read. -/
def read_glyph : List Nat → List Nat → Int × List Nat × List Nat
  | [], acc => (-1, [], acc)
  | b :: rest, acc =>
    if b = 43 ∨ b = 42 ∨ b = 124 ∨ b = 62 ∨ b = 64 ∨ b = 10 then ((b : Int), rest, acc)
    else read_glyph rest (acc ++ [b])

/-- The loop `while (isdigit(c)) { n = n * 10 + (c - '0'); c = fgetc(fd); }`:
the number, the character that ended it and the bytes after it. -/
def read_number : List Nat → Int → Int → Int × Int × List Nat
  | [], c, n => if isdigit c then (n * 10 + (c - 48), -1, []) else (n, c, [])
  | b :: rest, c, n =>
    if isdigit c then read_number rest (b : Int) (n * 10 + (c - 48)) else (n, c, b :: rest)

/-- The body of the loop `for (is_bg = 0; is_bg <= 1; ++is_bg)` of
`read_dump_file`, which reads one colour. -/
def read_color (is_bg : Bool) (st : DumpRead) : DumpRead :=
  if st.c = 38 then read_next st
  else if st.c = 35 then
    let s1 := read_next st
    let s2 := read_next s1
    let red := hex2nr s1.c * 16 + hex2nr s2.c
    let s3 := read_next s2
    let s4 := read_next s3
    let green := hex2nr s3.c * 16 + hex2nr s4.c
    let s5 := read_next s4
    let s6 := read_next s5
    let blue := hex2nr s5.c * 16 + hex2nr s6.c
    let s7 := read_next s6
    let s8 := if isdigit s7.c then s7 else dump_is_corrupt s7
    let r := read_number s8.fd s8.c 0
    let color : VTermColor :=
      { red := (red % 256).toNat, green := (green % 256).toNat, blue := (blue % 256).toNat,
        ansi_index := (r.1 % 256).toNat }
    { s8 with c := r.2.1, fd := r.2.2,
              cell := if is_bg then { s8.cell with bg := color }
                      else { s8.cell with fg := color } }
  else dump_is_corrupt st

/-- The branch `else if (c == '+' || c == '*')` of `read_dump_file`, which reads
the width, the attributes and the two colours of a cell. -/
def read_attrs (st : DumpRead) : DumpRead :=
  let s0 := { st with cell := { st.cell with width := if st.c = 43 then 1 else 2 } }
  let s1 := read_next s0
  let s2 :=
    if s1.c = 38 then read_next s1
    else if isdigit s1.c then
      let r := read_number s1.fd s1.c 0
      { s1 with attr := r.1, c := r.2.1, fd := r.2.2, cell := hl2vtermAttr r.1 s1.cell }
    else dump_is_corrupt s1
  read_color true (read_color false s2)

/-- The branch `else if (c == '|' || c == '>')` of `read_dump_file`, which reads
one cell. -/
def read_cell (start_row : Int) (st : DumpRead) : DumpRead :=
  let prev_len := st.ga_text.length
  let s1 : DumpRead :=
    if st.c = 62 then
      let s := if st.cursor_pos.row ≠ -1 then dump_is_corrupt st else st
      { s with cursor_pos :=
          { row := (st.term.tl_scrollback.length : Int) - start_row,
            col := (st.ga_cell.length : Int) } }
    else st
  let s2 := read_next s1
  let s3 : DumpRead :=
    if s2.c ≠ -1 then { s2 with ga_text := s2.ga_text ++ [s2.c.toNat], ga_text_data := true }
    else s2
  let g := read_glyph s3.fd []
  let s4 : DumpRead :=
    { s3 with c := g.1, fd := g.2.1, ga_text := s3.ga_text ++ g.2.2,
              ga_text_data := s3.ga_text_data || !g.2.2.isEmpty }
  let s5 : DumpRead :=
    if s4.ga_text_data then { s4 with prev_char := some (s4.ga_text.drop prev_len) } else s4
  let s6 : DumpRead :=
    if s5.c = 64 ∨ s5.c = 124 ∨ s5.c = 62 ∨ s5.c = 10 then s5
    else if s5.c = 43 ∨ s5.c = 42 then read_attrs s5
    else dump_is_corrupt s5
  { s6 with ga_cell := s6.ga_cell ++ [s6.cell] }

/-- The loop `for (;;) { c = fgetc(fd); if (!isdigit(c)) break;
count = count * 10 + (c - '0'); }` of the branch `@`: the count, the character
that ended it and the bytes after it. -/
def read_count : List Nat → Nat → Nat × Int × List Nat
  | [], n => (n, -1, [])
  | b :: rest, n =>
    if isdigit (b : Int) then read_count rest (n * 10 + (b - 48)) else (n, (b : Int), rest)

/-- The loop `while (count-- > 0) { ga_concat(&ga_text, prev_char);
append_cell(&ga_cell, &cell); }`. -/
def read_repeat (prev_char : List Nat) : Nat → DumpRead → DumpRead
  | 0, st => st
  | n + 1, st =>
    read_repeat prev_char n
      { st with ga_text := st.ga_text ++ c_string prev_char, ga_text_data := true,
                ga_cell := st.ga_cell ++ [st.cell] }

/-- The branch `if (c == '\n')` of `read_dump_file`: "End of a line: append it
to the buffer." -/
def read_newline (st : DumpRead) : DumpRead :=
  let s1 := if st.ga_text_data = false then dump_is_corrupt st else st
  let line : sb_line_T :=
    { sb_cols := (s1.ga_cell.length : Int),
      sb_cells := if s1.ga_cell.isEmpty then none else some s1.ga_cell,
      sb_fill_attr := s1.term.tl_default_color }
  let ml := (ml_append s1.term.tl_buffer.b_ml s1.term.tl_buffer.b_ml.ml_line_count
    (c_string s1.ga_text)).2
  read_next { s1 with
    max_cells := if s1.max_cells < (s1.ga_cell.length : Int) then (s1.ga_cell.length : Int)
                 else s1.max_cells,
    term := { s1.term with tl_scrollback := s1.term.tl_scrollback ++ [line],
                           tl_buffer := { s1.term.tl_buffer with b_ml := ml } },
    ga_cell := [], ga_text := [] }

/-- One iteration of the loop `for (;;)` of `read_dump_file`; `none` when the
loop is left at `EOF`. -/
def read_dump_step (start_row : Int) (st : DumpRead) : Option DumpRead :=
  if st.c = -1 then none
  else if st.c = 10 then some (read_newline st)
  else if st.c = 124 ∨ st.c = 62 then some (read_cell start_row st)
  else if st.c = 64 then
    match st.prev_char with
    | none => some (dump_is_corrupt st)
    | some prev_char =>
      let r := read_count st.fd 0
      some (read_repeat prev_char r.1 { st with c := r.2.1, fd := r.2.2 })
  else some (read_next (dump_is_corrupt st))

/-- The loop `for (;;)` of `read_dump_file`, run for at most `fuel` iterations:
the state in which the loop is left, or `none` when it is still running after
`fuel` iterations. -/
def read_dump_loop (start_row : Int) : Nat → DumpRead → Option DumpRead
  | 0, _ => none
  | fuel + 1, st =>
    match read_dump_step start_row st with
    | none => some st
    | some st1 => read_dump_loop start_row fuel st1

/-- The function `read_dump_file`: "Read the dump file from "fd" and append
lines to the current buffer.  Return the cell width of the longest line."  The
result is the returned width, the cursor position and the terminal of the
current buffer; `none` when the loop is still running after `fuel`
iterations. -/
def read_dump_file (fuel : Nat) (fd : List Nat) (term : term_T) :
    Option (Int × VTermPos × term_T) :=
  let st0 : DumpRead :=
    { c := (fgetc fd).1, fd := (fgetc fd).2, ga_text := [], ga_text_data := false,
      ga_cell := [], prev_char := none, attr := 0, cell := cellattr_T.zero, term := term,
      cursor_pos := ⟨-1, -1⟩, max_cells := 0 }
  match read_dump_loop (term.tl_scrollback.length : Int) fuel st0 with
  | none => none
  | some st =>
    let term1 :=
      if st.ga_text.length > 0 then
        { st.term with tl_buffer := { st.term.tl_buffer with
            b_ml := (ml_append st.term.tl_buffer.b_ml st.term.tl_buffer.b_ml.ml_line_count
              (c_string (st.ga_text ++ CORRUPT))).2 } }
      else st.term
    some (st.max_cells, st.cursor_pos, term1)

/-- A scenario: an engine whose 1 x 3 grid holds `a`, the double-width
character U+4E2D and its right half, all light grey on black, with the cursor
on the first cell. -/
def scenario_vterm_wide : VTerm :=
  { screen :=
      [[⟨[97], 1, VTermScreenCellAttrs.zero, ⟨240, 240, 240, 0⟩, ⟨0, 0, 0, 0⟩⟩,
        ⟨[0x4E2D], 2, VTermScreenCellAttrs.zero, ⟨240, 240, 240, 0⟩, ⟨0, 0, 0, 0⟩⟩,
        ⟨[0xFFFFFFFF], 1, VTermScreenCellAttrs.zero, ⟨240, 240, 240, 0⟩, ⟨0, 0, 0, 0⟩⟩]],
    default_fg := ⟨240, 240, 240, 0⟩, default_bg := ⟨0, 0, 0, 0⟩,
    cursor_pos := ⟨0, 0⟩ }

/-- A scenario: the 1 x 3 terminal on that engine. -/
def scenario_term_wide : term_T :=
  { (default : term_T) with
    tl_vterm := some scenario_vterm_wide, tl_rows := 1, tl_cols := 3,
    tl_buffer := ⟨1, ⟨[[]], true⟩⟩ }

/-- A scenario: the fresh terminal without job into which `term_dumpload` reads
a dump: no engine, empty scrollback, empty text buffer. -/
def scenario_term_load : term_T :=
  { (default : term_T) with tl_vterm := none, tl_buffer := ⟨2, ⟨[[]], true⟩⟩ }

/-- A scenario: the dump text of the spec, the bytes of
`|a+0#ff000010#00000020|b&` and a newline. -/
def scenario_dump_ab : List Nat :=
  [124, 97, 43, 48, 35, 102, 102, 48, 48, 48, 48, 49, 48, 35, 48, 48, 48, 48, 48, 48, 50, 48,
   124, 98, 38, 10]

/-- A blank cell (first character NUL) that carries the attributes `a`. -/
def blank_cell (a : cellattr_T) : VTermScreenCell :=
  { chars := [], width := a.width, attrs := a.attrs, fg := a.fg, bg := a.bg }

/-- A proof device for `move_terminal_to_buffer`: the terminal `t1` is `t` with
`k` scrollback entries appended and, when the buffer of `t` was not flagged
empty, with `k` text lines appended; the fields read by the row loop are the
same. -/
def Grows (t t1 : term_T) (k : Nat) : Prop :=
  t1.tl_vterm = t.tl_vterm ∧ t1.tl_cols = t.tl_cols ∧ t1.tl_rows = t.tl_rows ∧
  t1.tl_default_color = t.tl_default_color ∧
  (∃ es, es.length = k ∧ t1.tl_scrollback = t.tl_scrollback ++ es) ∧
  1 ≤ t1.tl_buffer.b_ml.ml_lines.length ∧
  (t.tl_buffer.b_ml.ml_empty = false → t1.tl_buffer.b_ml.ml_empty = false ∧
    ∃ ls, ls.length = k ∧ t1.tl_buffer.b_ml.ml_lines = t.tl_buffer.b_ml.ml_lines ++ ls) ∧
  (0 < k → t1.tl_buffer.b_ml.ml_empty = false)

/-- A scenario: the cell that holds `a`, light grey on black. -/
def scenario_cell_a : VTermScreenCell :=
  ⟨[97], 1, VTermScreenCellAttrs.zero, ⟨240, 240, 240, 0⟩, ⟨0, 0, 0, 0⟩⟩

/-- A scenario: an engine whose 1 x 1 grid holds `a`. -/
def scenario_vterm_a : VTerm :=
  { screen := [[scenario_cell_a]], default_fg := ⟨240, 240, 240, 0⟩,
    default_bg := ⟨0, 0, 0, 0⟩, cursor_pos := ⟨0, 0⟩ }

/-- A scenario: a fresh 1 x 1 terminal on that engine, its text buffer empty. -/
def scenario_term_a : term_T :=
  { (default : term_T) with
    tl_vterm := some scenario_vterm_a, tl_rows := 1, tl_cols := 1,
    tl_buffer := ⟨1, ⟨[[]], true⟩⟩ }

/-! ## Input translation -/

/-- Modelled from the spec: the key codes of keymap.h and ascii.h (not under
`src/`) that the `switch` of `term_convert_key` and of `term_mouse_click`
names, one constructor for each; `other c` is a code `c` that is none of
them. -/
inductive Key where
  | K_BS | ESC | K_DEL | K_DOWN | K_S_DOWN | K_END | K_S_END | K_C_END
  | K_F1 | K_F2 | K_F3 | K_F4 | K_F5 | K_F6 | K_F7 | K_F8 | K_F9 | K_F10 | K_F11 | K_F12
  | K_HOME | K_S_HOME | K_C_HOME | K_INS
  | K_K0 | K_K1 | K_K2 | K_K3 | K_K4 | K_K5 | K_K6 | K_K7 | K_K8 | K_K9
  | K_KDEL | K_KDIVIDE | K_KEND | K_KENTER | K_KHOME | K_KINS | K_KMINUS | K_KMULTIPLY
  | K_KPAGEDOWN | K_KPAGEUP | K_KPLUS | K_KPOINT
  | K_LEFT | K_S_LEFT | K_C_LEFT | K_PAGEDOWN | K_PAGEUP | K_RIGHT | K_S_RIGHT | K_C_RIGHT
  | K_UP | K_S_UP | TAB | K_S_TAB
  | K_MOUSEUP | K_MOUSEDOWN | K_MOUSELEFT | K_MOUSERIGHT
  | K_LEFTMOUSE | K_LEFTMOUSE_NM | K_LEFTDRAG | K_LEFTRELEASE | K_LEFTRELEASE_NM
  | K_MOUSEMOVE | K_MIDDLEMOUSE | K_MIDDLEDRAG | K_MIDDLERELEASE
  | K_RIGHTMOUSE | K_RIGHTDRAG | K_RIGHTRELEASE
  | K_X1MOUSE | K_X1DRAG | K_X1RELEASE | K_X2MOUSE | K_X2DRAG | K_X2RELEASE
  | K_IGNORE | K_NOP | K_UNDO | K_HELP | K_XF1 | K_XF2 | K_XF3 | K_XF4 | K_SELECT
  | K_VER_SCROLLBAR | K_HOR_SCROLLBAR | K_TABLINE | K_TABMENU | K_F21 | K_DROP
  | K_CURSORHOLD | K_PS | K_PE
  | other (c : Int)
deriving Repr, Inhabited

/-- Modelled from the spec: the `VTermKey` of libvterm (not under `src/`), the
values that `term_convert_key` uses; `VTERM_KEY_FUNCTION n` is the macro
`VTERM_KEY_FUNCTION(n)`. -/
inductive VTermKey where
  | VTERM_KEY_NONE | VTERM_KEY_ESCAPE | VTERM_KEY_DEL | VTERM_KEY_DOWN | VTERM_KEY_END
  | VTERM_KEY_FUNCTION (n : Nat) | VTERM_KEY_HOME | VTERM_KEY_INS
  | VTERM_KEY_KP_0 | VTERM_KEY_KP_1 | VTERM_KEY_KP_2 | VTERM_KEY_KP_3 | VTERM_KEY_KP_4
  | VTERM_KEY_KP_5 | VTERM_KEY_KP_6 | VTERM_KEY_KP_7 | VTERM_KEY_KP_8 | VTERM_KEY_KP_9
  | VTERM_KEY_KP_DIVIDE | VTERM_KEY_KP_ENTER | VTERM_KEY_KP_MINUS | VTERM_KEY_KP_MULT
  | VTERM_KEY_KP_PLUS | VTERM_KEY_KP_PERIOD | VTERM_KEY_LEFT | VTERM_KEY_PAGEDOWN
  | VTERM_KEY_PAGEUP | VTERM_KEY_RIGHT | VTERM_KEY_UP | VTERM_KEY_TAB
deriving DecidableEq, Repr, Inhabited

/-- Modelled from the spec: the `VTermModifier` of libvterm (not under `src/`),
the values that `term_convert_key` uses. -/
inductive VTermModifier where
  | VTERM_MOD_NONE | VTERM_MOD_SHIFT | VTERM_MOD_CTRL
deriving DecidableEq, Repr, Inhabited

/-- Modelled from the spec: the length `KEY_BUF_LEN` of the buffer that
receives the converted key is the `#define KEY_BUF_LEN 200` of terminal.c. -/
def KEY_BUF_LEN : Nat := 200

/-- Modelled from the spec: `MOUSE_LEFT` of vim.h (not under `src/`). -/
def MOUSE_LEFT : Int := 0

/-- Modelled from the spec: `MOUSE_RIGHT` of vim.h (not under `src/`). -/
def MOUSE_RIGHT : Int := 2

/-- The calls that `term_convert_key` and the functions it calls make into the
engine (`vterm_mouse_move`, `vterm_mouse_button`, `vterm_keyboard_key`,
`vterm_keyboard_unichar`, `vterm_keyboard_start_paste`,
`vterm_keyboard_end_paste`, `vterm_output_read`) and into the host
(`clip_modeless` with the mouse position it sees, `insert_reg`), in the order
in which they are made. -/
inductive KeyCall where
  | vterm_mouse_move (row col : Int) (mod : VTermModifier)
  | vterm_mouse_button (button pressed : Int) (mod : VTermModifier)
  | vterm_keyboard_key (key : VTermKey) (mod : VTermModifier)
  | vterm_keyboard_unichar (c : Key) (mod : VTermModifier)
  | vterm_keyboard_start_paste
  | vterm_keyboard_end_paste
  | vterm_output_read (len : Nat)
  | clip_modeless (button is_click is_drag mouse_col mouse_row : Int)
  | insert_reg
deriving Repr, Inhabited

/-- What `term_convert_key` reads and does not write: the features compiled in
(`FEAT_GUI`, `FEAT_GUI_TABLINE`, `FEAT_NETBEANS_INTG`, `FEAT_DND`,
`FEAT_CLIPBOARD`), the global `term_backspace_char`, the mouse position
`mouse_row`, `mouse_col`, the position `W_WINROW(curwin)`, `curwin->w_wincol`
of the window, the `flags` of the engine's mouse state, `clip_star.available`,
the results of the host functions `mouse_model_popup` and `get_mouse_button`
(button, `is_click`, `is_drag`), and the number of bytes that the engine has
ready after a sequence of calls. -/
structure KeyEnv where
  feat_gui : Bool
  feat_gui_tabline : Bool
  feat_netbeans_intg : Bool
  feat_dnd : Bool
  feat_clipboard : Bool
  term_backspace_char : Int
  mouse_row : Int
  mouse_col : Int
  winrow : Int
  wincol : Int
  mouse_flags : Int
  clip_available : Bool
  mouse_model_popup : Bool
  get_mouse_button : Key → Int × Int × Int
  vterm_output : List KeyCall → Nat

/-- The variables that `term_mouse_click` writes: its static
`ignore_drag_release`, the statics `enter_mouse_col` and `enter_mouse_row`, and
the bit `MOD_MASK_SHIFT` of the global `mod_mask`. -/
structure KeyState where
  ignore_drag_release : Bool
  enter_mouse_col : Int
  enter_mouse_row : Int
  mod_mask_shift : Bool
deriving DecidableEq, Repr, Inhabited

/-- The function `term_send_mouse`: "Send a mouse position and click to the
vterm"; it returns TRUE. -/
def term_send_mouse (env : KeyEnv) (button pressed : Int) : List KeyCall :=
  [KeyCall.vterm_mouse_move (env.mouse_row - env.winrow) (env.mouse_col - env.wincol)
      VTermModifier.VTERM_MOD_NONE] ++
  (if button ≠ 0 then
    [KeyCall.vterm_mouse_button button pressed VTermModifier.VTERM_MOD_NONE] else [])

/-- The part `if (clip_star.available) { .. clip_modeless(button, is_click,
is_drag); }` of `term_mouse_click`, reached for the left and right button. -/
def mouse_click_modeless (env : KeyEnv) (st : KeyState) (key : Key) :
    List KeyCall × KeyState :=
  let st1 := { st with
    ignore_drag_release :=
      match key with
      | Key.K_LEFTRELEASE | Key.K_RIGHTRELEASE => true
      | _ => false }
  if env.clip_available then
    let b := env.get_mouse_button key
    let shifted := env.mouse_model_popup ∧ b.1 = MOUSE_LEFT ∧ st1.mod_mask_shift = true
    let button := if shifted then MOUSE_RIGHT else b.1
    let st2 := if shifted then { st1 with mod_mask_shift := false } else st1
    ([KeyCall.clip_modeless button b.2.1 b.2.2 env.mouse_col env.mouse_row], st2)
  else ([], st1)

/-- The function `term_mouse_click`: "Handle a mouse click, drag or release.
Return TRUE when a mouse event is sent to the terminal." -/
def term_mouse_click (env : KeyEnv) (st : KeyState) (key : Key) :
    Bool × List KeyCall × KeyState :=
  if env.feat_clipboard ∧ env.mouse_flags = 0 then
    let r : List KeyCall × KeyState :=
      match key with
      | Key.K_LEFTDRAG | Key.K_LEFTRELEASE | Key.K_RIGHTDRAG | Key.K_RIGHTRELEASE =>
        if st.ignore_drag_release then
          if st.enter_mouse_col < 0 then ([], st)
          else
            let m := mouse_click_modeless env st key
            (KeyCall.clip_modeless MOUSE_LEFT 1 0 st.enter_mouse_col st.enter_mouse_row :: m.1,
             m.2)
        else mouse_click_modeless env st key
      | Key.K_LEFTMOUSE | Key.K_RIGHTMOUSE => mouse_click_modeless env st key
      | Key.K_MIDDLEMOUSE => (if env.clip_available then [KeyCall.insert_reg] else [], st)
      | _ => ([], st)
    (false, r.1, { r.2 with enter_mouse_col := -1 })
  else
    let st1 := { st with enter_mouse_col := -1 }
    let calls : List KeyCall :=
      match key with
      | Key.K_LEFTMOUSE | Key.K_LEFTMOUSE_NM => term_send_mouse env 1 1
      | Key.K_LEFTDRAG => term_send_mouse env 1 1
      | Key.K_LEFTRELEASE | Key.K_LEFTRELEASE_NM => term_send_mouse env 1 0
      | Key.K_MOUSEMOVE => term_send_mouse env 0 0
      | Key.K_MIDDLEMOUSE => term_send_mouse env 2 1
      | Key.K_MIDDLEDRAG => term_send_mouse env 2 1
      | Key.K_MIDDLERELEASE => term_send_mouse env 2 0
      | Key.K_RIGHTMOUSE => term_send_mouse env 3 1
      | Key.K_RIGHTDRAG => term_send_mouse env 3 1
      | Key.K_RIGHTRELEASE => term_send_mouse env 3 0
      | _ => []
    (true, calls, st1)

/-- What the `switch (c)` of `term_convert_key` leaves behind: either the
function has returned 0 there, or it goes on with `c`, `key`, `mod`, `other`. -/
inductive KeySwitch where
  | returned (calls : List KeyCall) (st : KeyState)
  | goes_on (c : Key) (key : VTermKey) (mod : VTermModifier) (other : Bool)
      (calls : List KeyCall) (st : KeyState)

/-- The `switch (c)` of `term_convert_key`. -/
def convert_key_switch (env : KeyEnv) (st : KeyState) (c : Key) : KeySwitch :=
  let k (key : VTermKey) : KeySwitch :=
    KeySwitch.goes_on c key VTermModifier.VTERM_MOD_NONE false [] st
  let km (m : VTermModifier) (key : VTermKey) : KeySwitch :=
    KeySwitch.goes_on c key m false [] st
  let dflt : KeySwitch :=
    KeySwitch.goes_on c VTermKey.VTERM_KEY_NONE VTermModifier.VTERM_MOD_NONE false [] st
  let mouse (button pressed : Int) : KeySwitch :=
    KeySwitch.goes_on c VTermKey.VTERM_KEY_NONE VTermModifier.VTERM_MOD_NONE true
      (term_send_mouse env button pressed) st
  let click : KeySwitch :=
    let r := term_mouse_click env st c
    if r.1 = false then KeySwitch.returned r.2.1 r.2.2
    else KeySwitch.goes_on c VTermKey.VTERM_KEY_NONE VTermModifier.VTERM_MOD_NONE true
      r.2.1 r.2.2
  match c with
  | Key.K_BS =>
    KeySwitch.goes_on (Key.other env.term_backspace_char) VTermKey.VTERM_KEY_NONE
      VTermModifier.VTERM_MOD_NONE false [] st
  | Key.ESC => k VTermKey.VTERM_KEY_ESCAPE
  | Key.K_DEL => k VTermKey.VTERM_KEY_DEL
  | Key.K_DOWN => k VTermKey.VTERM_KEY_DOWN
  | Key.K_S_DOWN => km VTermModifier.VTERM_MOD_SHIFT VTermKey.VTERM_KEY_DOWN
  | Key.K_END => k VTermKey.VTERM_KEY_END
  | Key.K_S_END => km VTermModifier.VTERM_MOD_SHIFT VTermKey.VTERM_KEY_END
  | Key.K_C_END => km VTermModifier.VTERM_MOD_CTRL VTermKey.VTERM_KEY_END
  | Key.K_F10 => k (VTermKey.VTERM_KEY_FUNCTION 10)
  | Key.K_F11 => k (VTermKey.VTERM_KEY_FUNCTION 11)
  | Key.K_F12 => k (VTermKey.VTERM_KEY_FUNCTION 12)
  | Key.K_F1 => k (VTermKey.VTERM_KEY_FUNCTION 1)
  | Key.K_F2 => k (VTermKey.VTERM_KEY_FUNCTION 2)
  | Key.K_F3 => k (VTermKey.VTERM_KEY_FUNCTION 3)
  | Key.K_F4 => k (VTermKey.VTERM_KEY_FUNCTION 4)
  | Key.K_F5 => k (VTermKey.VTERM_KEY_FUNCTION 5)
  | Key.K_F6 => k (VTermKey.VTERM_KEY_FUNCTION 6)
  | Key.K_F7 => k (VTermKey.VTERM_KEY_FUNCTION 7)
  | Key.K_F8 => k (VTermKey.VTERM_KEY_FUNCTION 8)
  | Key.K_F9 => k (VTermKey.VTERM_KEY_FUNCTION 9)
  | Key.K_HOME => k VTermKey.VTERM_KEY_HOME
  | Key.K_S_HOME => km VTermModifier.VTERM_MOD_SHIFT VTermKey.VTERM_KEY_HOME
  | Key.K_C_HOME => km VTermModifier.VTERM_MOD_CTRL VTermKey.VTERM_KEY_HOME
  | Key.K_INS => k VTermKey.VTERM_KEY_INS
  | Key.K_K0 => k VTermKey.VTERM_KEY_KP_0
  | Key.K_K1 => k VTermKey.VTERM_KEY_KP_1
  | Key.K_K2 => k VTermKey.VTERM_KEY_KP_2
  | Key.K_K3 => k VTermKey.VTERM_KEY_KP_3
  | Key.K_K4 => k VTermKey.VTERM_KEY_KP_4
  | Key.K_K5 => k VTermKey.VTERM_KEY_KP_5
  | Key.K_K6 => k VTermKey.VTERM_KEY_KP_6
  | Key.K_K7 => k VTermKey.VTERM_KEY_KP_7
  | Key.K_K8 => k VTermKey.VTERM_KEY_KP_8
  | Key.K_K9 => k VTermKey.VTERM_KEY_KP_9
  | Key.K_KDEL => k VTermKey.VTERM_KEY_DEL
  | Key.K_KDIVIDE => k VTermKey.VTERM_KEY_KP_DIVIDE
  | Key.K_KEND => k VTermKey.VTERM_KEY_KP_1
  | Key.K_KENTER => k VTermKey.VTERM_KEY_KP_ENTER
  | Key.K_KHOME => k VTermKey.VTERM_KEY_KP_7
  | Key.K_KINS => k VTermKey.VTERM_KEY_KP_0
  | Key.K_KMINUS => k VTermKey.VTERM_KEY_KP_MINUS
  | Key.K_KMULTIPLY => k VTermKey.VTERM_KEY_KP_MULT
  | Key.K_KPAGEDOWN => k VTermKey.VTERM_KEY_KP_3
  | Key.K_KPAGEUP => k VTermKey.VTERM_KEY_KP_9
  | Key.K_KPLUS => k VTermKey.VTERM_KEY_KP_PLUS
  | Key.K_KPOINT => k VTermKey.VTERM_KEY_KP_PERIOD
  | Key.K_LEFT => k VTermKey.VTERM_KEY_LEFT
  | Key.K_S_LEFT => km VTermModifier.VTERM_MOD_SHIFT VTermKey.VTERM_KEY_LEFT
  | Key.K_C_LEFT => km VTermModifier.VTERM_MOD_CTRL VTermKey.VTERM_KEY_LEFT
  | Key.K_PAGEDOWN => k VTermKey.VTERM_KEY_PAGEDOWN
  | Key.K_PAGEUP => k VTermKey.VTERM_KEY_PAGEUP
  | Key.K_RIGHT => k VTermKey.VTERM_KEY_RIGHT
  | Key.K_S_RIGHT => km VTermModifier.VTERM_MOD_SHIFT VTermKey.VTERM_KEY_RIGHT
  | Key.K_C_RIGHT => km VTermModifier.VTERM_MOD_CTRL VTermKey.VTERM_KEY_RIGHT
  | Key.K_UP => k VTermKey.VTERM_KEY_UP
  | Key.K_S_UP => km VTermModifier.VTERM_MOD_SHIFT VTermKey.VTERM_KEY_UP
  | Key.TAB => k VTermKey.VTERM_KEY_TAB
  | Key.K_S_TAB => km VTermModifier.VTERM_MOD_SHIFT VTermKey.VTERM_KEY_TAB
  | Key.K_MOUSEUP => mouse 5 1
  | Key.K_MOUSEDOWN => mouse 4 1
  | Key.K_MOUSELEFT => KeySwitch.returned [] st
  | Key.K_MOUSERIGHT => KeySwitch.returned [] st
  | Key.K_LEFTMOUSE | Key.K_LEFTMOUSE_NM | Key.K_LEFTDRAG | Key.K_LEFTRELEASE
  | Key.K_LEFTRELEASE_NM | Key.K_MOUSEMOVE | Key.K_MIDDLEMOUSE | Key.K_MIDDLEDRAG
  | Key.K_MIDDLERELEASE | Key.K_RIGHTMOUSE | Key.K_RIGHTDRAG | Key.K_RIGHTRELEASE => click
  | Key.K_X1MOUSE => KeySwitch.returned [] st
  | Key.K_X1DRAG => KeySwitch.returned [] st
  | Key.K_X1RELEASE => KeySwitch.returned [] st
  | Key.K_X2MOUSE => KeySwitch.returned [] st
  | Key.K_X2DRAG => KeySwitch.returned [] st
  | Key.K_X2RELEASE => KeySwitch.returned [] st
  | Key.K_IGNORE => KeySwitch.returned [] st
  | Key.K_NOP => KeySwitch.returned [] st
  | Key.K_UNDO => KeySwitch.returned [] st
  | Key.K_HELP => KeySwitch.returned [] st
  | Key.K_XF1 => k (VTermKey.VTERM_KEY_FUNCTION 1)
  | Key.K_XF2 => k (VTermKey.VTERM_KEY_FUNCTION 2)
  | Key.K_XF3 => k (VTermKey.VTERM_KEY_FUNCTION 3)
  | Key.K_XF4 => k (VTermKey.VTERM_KEY_FUNCTION 4)
  | Key.K_SELECT => KeySwitch.returned [] st
  | Key.K_VER_SCROLLBAR => if env.feat_gui then KeySwitch.returned [] st else dflt
  | Key.K_HOR_SCROLLBAR => if env.feat_gui then KeySwitch.returned [] st else dflt
  | Key.K_TABLINE => if env.feat_gui_tabline then KeySwitch.returned [] st else dflt
  | Key.K_TABMENU => if env.feat_gui_tabline then KeySwitch.returned [] st else dflt
  | Key.K_F21 =>
    if env.feat_netbeans_intg then k (VTermKey.VTERM_KEY_FUNCTION 21) else dflt
  | Key.K_DROP => if env.feat_dnd then KeySwitch.returned [] st else dflt
  | Key.K_CURSORHOLD => KeySwitch.returned [] st
  | Key.K_PS =>
    KeySwitch.goes_on c VTermKey.VTERM_KEY_NONE VTermModifier.VTERM_MOD_NONE true
      [KeyCall.vterm_keyboard_start_paste] st
  | Key.K_PE =>
    KeySwitch.goes_on c VTermKey.VTERM_KEY_NONE VTermModifier.VTERM_MOD_NONE true
      [KeyCall.vterm_keyboard_end_paste] st
  | Key.other _ => dflt

/-- The function `term_convert_key`: "Convert typed key "c" into bytes to send
to the job.  Return the number of bytes in "buf"."  The result is the number
returned, the calls made and the variables written. -/
def term_convert_key (env : KeyEnv) (st : KeyState) (c : Key) :
    Int × List KeyCall × KeyState :=
  match convert_key_switch env st c with
  | KeySwitch.returned calls st1 => (0, calls, st1)
  | KeySwitch.goes_on c1 key mod other calls st1 =>
    let calls1 :=
      if key ≠ VTermKey.VTERM_KEY_NONE then calls ++ [KeyCall.vterm_keyboard_key key mod]
      else if other = false then calls ++ [KeyCall.vterm_keyboard_unichar c1 mod]
      else calls
    ((min (env.vterm_output calls1) KEY_BUF_LEN : Nat),
     calls1 ++ [KeyCall.vterm_output_read KEY_BUF_LEN], st1)

/-! ## Stopping the job -/

/-- Modelled from the spec: `JOB_ENDED` of the `jobstatus_T` of structs.h (not
under `src/`), whose values are `JOB_FAILED`, `JOB_STARTED`, `JOB_ENDED`,
`JOB_FINISHED` in this order. -/
def JOB_ENDED : Int := 2

/-- Modelled from the spec: `VIM_YES` of vim.h (not under `src/`). -/
def VIM_YES : Int := 2

/-- Modelled from the spec: `VIM_CANCEL` of vim.h (not under `src/`). -/
def VIM_CANCEL : Int := 4

/-- What one round of the loop of `term_try_stop_job` finds when it looks at
`buf`: `buf_valid(buf)` is false, or `buf->b_term` is NULL, or
`buf->b_term->tl_job` is NULL, or the job is there and has the status
`jv_status` after the call of `job_status`. -/
inductive StopView where
  | buf_invalid
  | no_term
  | no_job
  | job (jv_status : Int)
deriving DecidableEq, Repr, Inhabited

/-- The calls that `term_try_stop_job` makes, in the order in which they are
made. -/
inductive StopCall where
  | vim_dialog_yesnocancel
  | job_stop (how : List Nat)
  | buf_valid
  | job_status
  | ui_delay (msec : Int)
  | mch_check_messages
  | parse_queued_messages
deriving DecidableEq, Repr, Inhabited

/-- The loop `for (count = 0; count < 100; ++count)` of `term_try_stop_job`,
with `n` rounds left; `world count` is what round `count` finds. -/
def try_stop_job_loop (world : Nat → StopView) :
    Nat → Nat → List StopCall → Int × List StopCall
  | 0, _, calls => (FAIL, calls)
  | n + 1, count, calls =>
    match world count with
    | StopView.job jv_status =>
      if jv_status ≥ JOB_ENDED then (OK, calls ++ [StopCall.buf_valid, StopCall.job_status])
      else
        try_stop_job_loop world n (count + 1)
          (calls ++ [StopCall.buf_valid, StopCall.job_status, StopCall.ui_delay 10,
                     StopCall.mch_check_messages, StopCall.parse_queued_messages])
    | _ => (OK, calls ++ [StopCall.buf_valid])

/-- The test `how == NULL || *how == NUL` of `term_try_stop_job`. -/
def how_empty (how : Option (List Nat)) : Bool :=
  match how with
  | none => true
  | some l => l.headD 0 == 0

/-- The function `term_try_stop_job`: "Used when exiting: kill the job in "buf"
if so desired.  Return OK when the job finished.  Return FAIL when the job is
still running."  `feat_dialog` is `FEAT_GUI_DIALOG || FEAT_CON_DIALOG`,
`confirm` is `p_confirm || cmdmod.confirm`, `answer` is what
`vim_dialog_yesnocancel` returns, `tl_kill` is `buf->b_term->tl_kill`. -/
def term_try_stop_job (feat_dialog confirm : Bool) (answer : Int)
    (tl_kill : Option (List Nat)) (world : Nat → StopView) : Int × List StopCall :=
  let asks : Bool := feat_dialog && how_empty tl_kill && confirm
  let calls : List StopCall := if asks then [StopCall.vim_dialog_yesnocancel] else []
  let how : Option (List Nat) :=
    if asks = true ∧ answer = VIM_YES then some [107, 105, 108, 108] else tl_kill
  if asks = true ∧ answer ≠ VIM_YES ∧ answer = VIM_CANCEL then (FAIL, calls)
  else if how_empty how = true then (FAIL, calls)
  else try_stop_job_loop world 100 0 (calls ++ [StopCall.job_stop (how.getD [])])

/-! ## Display sync: the size of the engine -/

/-- The `#define MAX_ROW 999999` of terminal.c: "used for tl_dirty_row_end to
update all rows". -/
def MAX_ROW : Int := 999999

/-- Modelled from the spec: `SOME_VALID` of vim.h (not under `src/`), the
redraw type from which on all rows of a window are drawn again. -/
def SOME_VALID : Int := 35

/-- The calls by which `term_update_window` pushes a size: `vterm_set_size` to
the engine and `term_report_winsize` to the job. -/
inductive SizeCall where
  | vterm_set_size (rows cols : Int)
  | term_report_winsize (rows cols : Int)
deriving DecidableEq, Repr, Inhabited

/-- The body of `FOR_ALL_WINDOWS(twp)` in `term_update_window`: "When more than
one window shows the same terminal, use the smallest size."  The pair is
`(rows, cols)`. -/
def update_window_smallest (term : term_T) (rc : Int × Int) (twp : win_T) : Int × Int :=
  if twp.w_buffer = term.tl_buffer.b_fnum then
    (if term.tl_rows_fixed = 0 ∧ rc.1 > twp.w_height then twp.w_height else rc.1,
     if term.tl_cols_fixed = 0 ∧ rc.2 > twp.w_width then twp.w_width else rc.2)
  else rc

/-- The function `term_update_window`: "Called to update a window that contains
an active terminal.  Returns FAIL when there is no terminal running in this
window or in Terminal-Normal mode."  `wins` are the windows of
`FOR_ALL_WINDOWS`, `b_term` is `wp->w_buffer->b_term` and `w_redr_type` the
field of `wp`.  The result is the status, the terminal and the size calls made.
The cursor position given to the window and the painting of the dirty rows
write the window and the screen only and are not part of the result; what the
engine does inside `vterm_set_size` is not part of the function. -/
def term_update_window (wins : List win_T) (wp : win_T) (w_redr_type : Int)
    (b_term : Option term_T) : Int × Option term_T × List SizeCall :=
  match b_term with
  | none => (FAIL, none, [])
  | some term =>
    if term.tl_vterm = none ∨ term.tl_normal_mode ≠ 0 then (FAIL, some term, [])
    else
      let term1 : term_T :=
        if w_redr_type ≥ SOME_VALID then
          { term with tl_dirty_row_start := 0, tl_dirty_row_end := MAX_ROW }
        else term
      let r : term_T × List SizeCall :=
        if (term1.tl_rows_fixed = 0 ∧ term1.tl_rows ≠ wp.w_height)
            ∨ (term1.tl_cols_fixed = 0 ∧ term1.tl_cols ≠ wp.w_width) then
          let rows := if term1.tl_rows_fixed ≠ 0 then term1.tl_rows else wp.w_height
          let cols := if term1.tl_cols_fixed ≠ 0 then term1.tl_cols else wp.w_width
          let rc := wins.foldl (update_window_smallest term1) (rows, cols)
          ({ term1 with tl_vterm_size_changed := 1 },
           [SizeCall.vterm_set_size rc.1 rc.2, SizeCall.term_report_winsize rc.1 rc.2])
        else (term1, [])
      (OK, some { r.1 with tl_dirty_row_start := MAX_ROW, tl_dirty_row_end := 0 }, r.2)

/-- A scenario: a window of 24 x 80 that shows buffer 1. -/
def scenario_win_24x80 : win_T := ⟨1, 24, 80, 1, 0, 1, 0⟩

/-- A scenario: a window of 10 x 100 that shows buffer 1. -/
def scenario_win_10x100 : win_T := ⟨1, 10, 100, 1, 0, 1, 0⟩

/-- A scenario: a terminal of 24 x 80 in buffer 1 with a live engine, its size
not fixed. -/
def scenario_term_24x80 : term_T :=
  { scenario_term_a with tl_rows := 24, tl_cols := 80 }

/-! ## Session lifecycle -/

/-- The `#define TL_FINISH_CLOSE 'c'` of terminal.c: "++close or :terminal
without argument". -/
def TL_FINISH_CLOSE : Nat := 99

/-- The function `set_terminal_mode`, without the status text and the title. -/
def set_terminal_mode (term : term_T) (normal_mode : Int) : term_T :=
  { term with tl_normal_mode := normal_mode }

/-- The function `term_free_vterm`: "Free the terminal emulator part of
"term"." -/
def term_free_vterm (term : term_T) : term_T :=
  { term with tl_vterm := none }

/-- The function `cleanup_vterm`: "Called after the job if finished and
Terminal mode is not active: Move the vterm contents into the scrollback buffer
and free the vterm."  `none` when `move_terminal_to_buffer` does not return. -/
def cleanup_vterm (u : Uninit) (term : term_T) (wins : List win_T) :
    Option (term_T × List win_T) :=
  match (if term.tl_finish ≠ TL_FINISH_CLOSE then move_terminal_to_buffer u term wins
         else some (term, wins)) with
  | none => none
  | some (term1, wins1) => some (set_terminal_mode (term_free_vterm term1) 0, wins1)

/-- The loop `while (curbuf->b_ml.ml_line_count > term->tl_scrollback_scrolled
&& gap->ga_len > 0)` of `term_enter_job_mode`, with `n` rounds of fuel; every
round takes one entry off the scrollback. -/
def enter_job_mode_loop : Nat → term_T → Option term_T
  | 0, term =>
    if term.tl_buffer.b_ml.ml_line_count > term.tl_scrollback_scrolled
        ∧ term.tl_scrollback.length > 0 then none
    else some term
  | n + 1, term =>
    if term.tl_buffer.b_ml.ml_line_count > term.tl_scrollback_scrolled
        ∧ term.tl_scrollback.length > 0 then
      enter_job_mode_loop n
        { term with
          tl_buffer := { term.tl_buffer with
            b_ml := (ml_delete term.tl_buffer.b_ml term.tl_buffer.b_ml.ml_line_count).2 },
          tl_scrollback := term.tl_scrollback.dropLast }
    else some term

/-- The function `term_enter_job_mode`: "Switch from Terminal-Normal mode to
Terminal-Job mode.  Restores updating the terminal window."  `term` is
`curbuf->b_term`, whose buffer is `curbuf`; the cursor check and the redraw
write the window only and are not part of the result.  `none` when the C
function does not return. -/
def term_enter_job_mode (u : Uninit) (term : term_T) (wins : List win_T) :
    Option (term_T × List win_T) :=
  match enter_job_mode_loop term.tl_scrollback.length term with
  | none => none
  | some term1 =>
    let term2 := set_terminal_mode term1 0
    if term2.tl_channel_closed ≠ 0 then cleanup_vterm u term2 wins
    else some (term2, wins)

/-- A scenario: a terminal in Terminal-Normal mode whose two screen rows `a`
and `b` were moved to the buffer, nothing having scrolled off before. -/
def scenario_term_normal : term_T :=
  { scenario_term_a with
    tl_normal_mode := 1, tl_scrollback_scrolled := 0,
    tl_scrollback := [⟨1, some [cellattr_T.zero], cellattr_T.zero⟩,
                      ⟨1, some [cellattr_T.zero], cellattr_T.zero⟩],
    tl_buffer := ⟨1, ⟨[[97], [98]], false⟩⟩ }

/-! ## Cell/Scrollback store: the line invariant -/

/-- The line invariant of a scrollback line: when `sb_cells` is not NULL it
holds exactly `sb_cols` cell attributes, and `sb_cols == 0` implies
`sb_cells == NULL`. -/
def sb_line_inv (l : sb_line_T) : Prop :=
  (∀ cells, l.sb_cells = some cells → (cells.length : Int) = l.sb_cols) ∧
  (l.sb_cols = 0 → l.sb_cells = none)

/-- A call of one of the four functions that create scrollback lines, with its
arguments other than the terminal. -/
inductive SbOp where
  | pushline (u : Uninit) (a : PushAlloc) (cols : Int) (cells : List VTermScreenCell)
  | move (u : Uninit) (wins : List win_T)
  | add_empty (fill_attr : cellattr_T) (lnum : Int)
  | read_dump (fuel : Nat) (fd : List Nat)

/-- The terminal after the call `op`; `none` when the call does not return. -/
def sb_op_run (op : SbOp) (term : term_T) : Option term_T :=
  match op with
  | SbOp.pushline u a cols cells => handle_pushline u a cols cells term
  | SbOp.move u wins => (move_terminal_to_buffer u term wins).map (fun r => r.1)
  | SbOp.add_empty fill_attr lnum => some (add_empty_scrollback term fill_attr lnum).2
  | SbOp.read_dump fuel fd => (read_dump_file fuel fd term).map (fun r => r.2.2)

/-- The terminal after a sequence of calls. -/
def sb_ops_run : List SbOp → term_T → Option term_T
  | [], term => some term
  | op :: ops, term =>
    match sb_op_run op term with
    | none => none
    | some term1 => sb_ops_run ops term1

/-- The loop `for (;;)` of `read_dump_file` after at most `n` iterations: the
state reached, which is the state in which the loop was left when `EOF` was met
before. -/
def read_dump_run (start_row : Int) : Nat → DumpRead → DumpRead
  | 0, st => st
  | n + 1, st =>
    match read_dump_step start_row st with
    | none => st
    | some st1 => read_dump_run start_row n st1

/-- A scenario: a row of one `a` that the engine pushes off the screen. -/
def scenario_pushed_row : SbOp :=
  SbOp.pushline ⟨VTermScreenCell.zero, cellattr_T.zero⟩ ⟨true, true, fun _ => true, true⟩ 1
    [scenario_cell_a]

/-- The bytes that the reader has not handled yet: the character `c`, unless it
is `EOF`, and the bytes of `fd` still to read. -/
def unread (c : Int) (fd : List Nat) : List Int :=
  (if c = -1 then [] else [c]) ++ fd.map Int.ofNat

/-- A scenario: a dump of three rows, the bytes of `>a>b`, `|` and `|c`, each
followed by a newline; the first row has a second cursor cell, the second row
is a cell without glyph. -/
def scenario_dump_second_cursor : List Nat := [62, 97, 62, 98, 10, 124, 10, 124, 99, 10]

/-! ## Dump/Diff codec: loading one dump or the diff of two -/

/-- The chain of tests in the loop `for (col = 0; col < width && *p1 != NUL &&
*p2 != NUL; ++col)` of `term_load_dump` that sets `textline[col]`, for the
strings `p1` and `p2` at this column, whose first characters have the lengths
`len1` and `len2`; `STRNCMP(p1, p2, len1)` compares the first `len1` bytes. -/
def diff_mark (len1 len2 : Nat) (p1 p2 : List Nat) (lnum : Int) (col : Nat)
    (cursor_pos1 cursor_pos2 : VTermPos) (cellattr1 cellattr2 : Option (List cellattr_T)) :
    Nat :=
  if len1 ≠ len2 ∨ p1.take len1 ≠ p2.take len1 then 88
  else if lnum = cursor_pos1.row + 1 ∧ (col : Int) = cursor_pos1.col
      ∧ (cursor_pos1.row ≠ cursor_pos2.row ∨ cursor_pos1.col ≠ cursor_pos2.col) then 62
  else if lnum = cursor_pos2.row + 1 ∧ (col : Int) = cursor_pos2.col
      ∧ (cursor_pos1.row ≠ cursor_pos2.row ∨ cursor_pos1.col ≠ cursor_pos2.col) then 60
  else
    match cellattr1, cellattr2 with
    | some a1, some a2 =>
      if (a1.getD col default).width ≠ (a2.getD col default).width then 119
      else if same_color (a1.getD col default).fg (a2.getD col default).fg = false then 102
      else if same_color (a1.getD col default).bg (a2.getD col default).bg = false then 98
      else if vtermAttr2hl (a1.getD col default).attrs
          ≠ vtermAttr2hl (a2.getD col default).attrs then 97
      else 32
    | _, _ => 32

/-- The loop `for (col = 0; col < width && *p1 != NUL && *p2 != NUL; ++col)` of
`term_load_dump`, with `n` the number of columns up to `width` still to do: the
marks written so far, `col`, `p1` and `p2`.  `utfc_ptr2len` of mbyte.c is not
under `src/` and is a parameter. -/
def diff_both_cols (utfc_ptr2len : List Nat → Nat) (lnum : Int)
    (cursor_pos1 cursor_pos2 : VTermPos) (cellattr1 cellattr2 : Option (List cellattr_T)) :
    Nat → Nat → List Nat → List Nat → List Nat → List Nat × Nat × List Nat × List Nat
  | 0, col, p1, p2, textline => (textline, col, p1, p2)
  | n + 1, col, p1, p2, textline =>
    if p1 ≠ [] ∧ p2 ≠ [] then
      diff_both_cols utfc_ptr2len lnum cursor_pos1 cursor_pos2 cellattr1 cellattr2 n (col + 1)
        (p1.drop (utfc_ptr2len p1)) (p2.drop (utfc_ptr2len p2))
        (textline ++ [diff_mark (utfc_ptr2len p1) (utfc_ptr2len p2) p1 p2 lnum col
          cursor_pos1 cursor_pos2 cellattr1 cellattr2])
    else (textline, col, p1, p2)

/-- The loop `while (col < width)` of `term_load_dump` for the columns that one
of the two rows does not have, with `n` the number of columns still to do. -/
def diff_rest_cols (utfc_ptr2len : List Nat → Nat) :
    Nat → List Nat → List Nat → List Nat → List Nat
  | 0, _, _, textline => textline
  | n + 1, p1, p2, textline =>
    if p1 = [] ∧ p2 = [] then diff_rest_cols utfc_ptr2len n p1 p2 (textline ++ [63])
    else if p1 = [] then
      diff_rest_cols utfc_ptr2len n p1 (p2.drop (utfc_ptr2len p2)) (textline ++ [43])
    else diff_rest_cols utfc_ptr2len n (p1.drop (utfc_ptr2len p1)) p2 (textline ++ [45])

/-- The `textline` that `term_load_dump` builds for a row present in both
dumps, from `line1`, `line2` and the cells of the two rows.  Every branch of
the C code overwrites `textline[0 .. width)` in full, so the row is built
anew. -/
def diff_row (utfc_ptr2len : List Nat → Nat) (width : Nat) (lnum : Int)
    (cursor_pos1 cursor_pos2 : VTermPos) (line1 line2 : List Nat)
    (cellattr1 cellattr2 : Option (List cellattr_T)) : List Nat :=
  let r := diff_both_cols utfc_ptr2len lnum cursor_pos1 cursor_pos2 cellattr1 cellattr2
    width 0 line1 line2 []
  diff_rest_cols utfc_ptr2len (width - r.2.1) r.2.2.1 r.2.2.2 r.1

/-- The end of the body of both row loops of `term_load_dump`:
`if (add_empty_scrollback(term, &term->tl_default_color, term->tl_top_diff_rows)
== OK) ml_append(term->tl_top_diff_rows + lnum, textline, 0, FALSE);`. -/
def load_dump_add_row (term : term_T) (lnum : Int) (textline : List Nat) : term_T :=
  let r := add_empty_scrollback term term.tl_default_color term.tl_top_diff_rows
  if r.1 = OK then
    { r.2 with tl_buffer := { r.2.tl_buffer with
        b_ml := (ml_append r.2.tl_buffer.b_ml (r.2.tl_top_diff_rows + lnum)
          (c_string textline)).2 } }
  else r.2

/-- The body of the loop `for (lnum = 1; lnum <= term->tl_top_diff_rows;
++lnum)` of `term_load_dump`, on the terminal and `bot_lnum`.  An index past
the end of the scrollback array, which C leaves undefined, reads a line
without cells. -/
def load_dump_top_row (utfc_ptr2len : List Nat → Nat) (width : Nat)
    (cursor_pos1 cursor_pos2 : VTermPos) (st : term_T × Int) (lnum : Nat) : term_T × Int :=
  let term := st.1
  let bot_lnum := st.2
  let ml := term.tl_buffer.b_ml
  let textline : List Nat :=
    if (lnum : Int) + bot_lnum > ml.ml_line_count then List.replicate width 45
    else
      diff_row utfc_ptr2len width lnum cursor_pos1 cursor_pos2 (ml_get ml lnum)
        (ml_get ml ((lnum : Int) + bot_lnum))
        (term.tl_scrollback.getD (lnum - 1) default).sb_cells
        (term.tl_scrollback.getD ((lnum : Int) + bot_lnum - 1).toNat default).sb_cells
  (load_dump_add_row term lnum textline, bot_lnum + 1)

/-- The loop `while (lnum + bot_lnum <= curbuf->b_ml.ml_line_count)` of
`term_load_dump`: "bottom part has more rows, fill with "+"", run for at most
`fuel` iterations; `none` when it is still running then. -/
def load_dump_bot_rows (width : Nat) : Nat → term_T → Int → Int → Option term_T
  | 0, term, lnum, bot_lnum =>
    if lnum + bot_lnum ≤ term.tl_buffer.b_ml.ml_line_count then none else some term
  | fuel + 1, term, lnum, bot_lnum =>
    if lnum + bot_lnum ≤ term.tl_buffer.b_ml.ml_line_count then
      load_dump_bot_rows width fuel (load_dump_add_row term lnum (List.replicate width 43))
        (lnum + 1) (bot_lnum + 1)
    else some term

/-- The part of `term_load_dump` that adds the two rows of `=`: `textline` is
filled with `width` times `=`, and twice `if (add_empty_scrollback(term,
&term->tl_default_color, 0) == OK) ml_append(curbuf->b_ml.ml_line_count,
textline, 0, FALSE);`. -/
def load_dump_separators (width : Nat) (term : term_T) : term_T :=
  let add (t : term_T) : term_T :=
    let r := add_empty_scrollback t t.tl_default_color 0
    if r.1 = OK then
      { r.2 with tl_buffer := { r.2.tl_buffer with
          b_ml := (ml_append r.2.tl_buffer.b_ml r.2.tl_buffer.b_ml.ml_line_count
            (c_string (List.replicate width 61))).2 } }
    else r.2
  add (add term)

/-- The function `term_load_dump`, "Common for "term_dumpdiff()" and
"term_dumpload()"", from `read_dump_file(fd1, ..)` on: `term` is the terminal
that `term_start` made with `TERM_START_NOJOB`, whose buffer is the current
one, `fd1` and `fd2` are the bytes of the two files, `fuel` bounds the
iterations of each `read_dump_file`.  The allocations succeed; the cursor of
the window is not part of the result.  `none` when the C function does not
return. -/
def term_load_dump (utfc_ptr2len : List Nat → Nat) (fuel : Nat) (do_diff : Bool)
    (fd1 fd2 : List Nat) (term : term_T) : Option term_T :=
  match read_dump_file fuel fd1 term with
  | none => none
  | some (width1, cursor_pos1, term1) =>
    let term2 : term_T :=
      { term1 with tl_buffer := { term1.tl_buffer with
          b_ml := (ml_delete term1.tl_buffer.b_ml 1).2 } }
    if do_diff = false then some term2
    else
      let term3 : term_T :=
        { term2 with tl_top_diff_rows := term2.tl_buffer.b_ml.ml_line_count }
      let term4 := load_dump_separators width1.toNat term3
      let bot_lnum := term4.tl_buffer.b_ml.ml_line_count
      match read_dump_file fuel fd2 term4 with
      | none => none
      | some (width2, cursor_pos2, term5) =>
        let width := if width2 > width1 then width2 else width1
        let term6 : term_T :=
          { term5 with tl_bot_diff_rows := term5.tl_buffer.b_ml.ml_line_count - bot_lnum }
        let top := (List.range term6.tl_top_diff_rows.toNat).foldl
          (fun st i => load_dump_top_row utfc_ptr2len width.toNat cursor_pos1 cursor_pos2 st
            (i + 1)) (term6, bot_lnum)
        match load_dump_bot_rows width.toNat
            (top.1.tl_buffer.b_ml.ml_line_count + 1 - (term6.tl_top_diff_rows + 1) - top.2).toNat
            top.1 (term6.tl_top_diff_rows + 1) top.2 with
        | none => none
        | some term7 => some { term7 with tl_cols := width }

/-- A scenario: the dump of one row with the one cell `a`. -/
def scenario_dump_a : List Nat :=
  [124, 97, 43, 48, 35, 102, 102, 48, 48, 48, 48, 49, 48, 35, 48, 48, 48, 48, 48, 48, 50, 48, 10]

/-- A scenario: `utfc_ptr2len` on text of one-byte characters. -/
def scenario_utfc_ptr2len (p : List Nat) : Nat := if p = [] then 0 else 1

/-- The string `p` of the comparison loop of `term_load_dump` after `n` rounds
of `p += utfc_ptr2len(p)`. -/
def diff_advance (utfc_ptr2len : List Nat → Nat) : Nat → List Nat → List Nat
  | 0, p => p
  | n + 1, p => diff_advance utfc_ptr2len n (p.drop (utfc_ptr2len p))

/-- A scenario: the dump of two rows, the cell `a` with a green foreground and
the cell `b`. -/
def scenario_dump_a_b : List Nat :=
  [124, 97, 43, 48, 35, 48, 48, 102, 102, 48, 48, 49, 48, 35, 48, 48, 48, 48, 48, 48, 50, 48, 10,
   124, 98, 10]

/-- A scenario: an engine whose 1 x 3 grid holds the double-width character
U+4E2D, light grey on black, its right half, and `a`, red on black, with the
cursor on the cell at `pos`. -/
def scenario_vterm_cursor_wide (pos : VTermPos) : VTerm :=
  { screen :=
      [[⟨[0x4E2D], 2, VTermScreenCellAttrs.zero, ⟨240, 240, 240, 0⟩, ⟨0, 0, 0, 0⟩⟩,
        ⟨[0xFFFFFFFF], 1, VTermScreenCellAttrs.zero, ⟨240, 240, 240, 0⟩, ⟨0, 0, 0, 0⟩⟩,
        ⟨[97], 1, VTermScreenCellAttrs.zero, ⟨255, 0, 0, 10⟩, ⟨0, 0, 0, 0⟩⟩]],
    default_fg := ⟨240, 240, 240, 0⟩, default_bg := ⟨0, 0, 0, 0⟩,
    cursor_pos := pos }

/-- A scenario: the 1 x 3 terminal on that engine. -/
def scenario_term_cursor_wide (pos : VTermPos) : term_T :=
  { (default : term_T) with
    tl_vterm := some (scenario_vterm_cursor_wide pos), tl_rows := 1, tl_cols := 3,
    tl_buffer := ⟨1, ⟨[[]], true⟩⟩ }

/-- The level `q(v)` in the words of the specification: the number of
thresholds in the fixed table {0x2F, 0x73, 0x9B, 0xC3, 0xEB} that are at most
`v`. -/
def spec_cube_q (v : Nat) : Int :=
  ((([0x2F, 0x73, 0x9B, 0xC3, 0xEB] : List Nat).filter (fun c => decide (c ≤ v))).length : Nat)

/-! ## Engine callbacks: damage, move, resize -/

/-- The macro `# define MIN(x,y) ((x) < (y) ? (x) : (y))` of terminal.c. -/
def MIN (x y : Int) : Int := if x < y then x else y

/-- The macro `# define MAX(x,y) ((x) > (y) ? (x) : (y))` of terminal.c. -/
def MAX (x y : Int) : Int := if x > y then x else y

/-- Modelled from the spec: the `VTermRect` of `libvterm/include/vterm.h` (not
under `src/`); the rows are `start_row` up to `end_row`, which is not
included. -/
structure VTermRect where
  start_row : Int
  end_row : Int
  start_col : Int
  end_col : Int
deriving DecidableEq, Repr, Inhabited

/-- Modelled from the spec: `NOT_VALID` of vim.h (not under `src/`), the redraw
type "buffer needs complete redraw". -/
def NOT_VALID : Int := 40

/-- The calls into the host that the callbacks make: `redraw_buf_later` for a
buffer (its `b_fnum`) and `win_del_lines` for a window (its place in
`FOR_ALL_WINDOWS`), with `row`, `line_count` and `clear_attr`. -/
inductive HostCall where
  | redraw_buf_later (buf : Nat) (type : Int)
  | win_del_lines (wp : Nat) (row line_count clear_attr : Int)
deriving DecidableEq, Repr, Inhabited

/-- The function `handle_damage`: the status returned, the terminal and the
calls made. -/
def handle_damage (rect : VTermRect) (term : term_T) : Int × term_T × List HostCall :=
  let term1 : term_T :=
    { term with tl_dirty_row_start := MIN term.tl_dirty_row_start rect.start_row }
  let term2 : term_T :=
    { term1 with tl_dirty_row_end := MAX term1.tl_dirty_row_end rect.end_row }
  (1, term2, [HostCall.redraw_buf_later term2.tl_buffer.b_fnum NOT_VALID])

/-- The body of `FOR_ALL_WINDOWS(wp)` in `handle_moverect`, for the window at
place `i`. -/
def moverect_del_lines (term : term_T) (dest src : VTermRect) (clear_attr : Int)
    (i : Nat) (wp : win_T) : List HostCall :=
  if wp.w_buffer = term.tl_buffer.b_fnum then
    [HostCall.win_del_lines i dest.start_row (src.start_row - dest.start_row) clear_attr]
  else []

/-- The function `handle_moverect`: the status returned, the terminal and the
calls made.  `wins` are the windows of `FOR_ALL_WINDOWS`; `clear_attr` is the
value of `cell2attr(attr, fg, bg)` for the default colours of the engine, "the
color to clear lines with". -/
def handle_moverect (dest src : VTermRect) (term : term_T) (wins : List win_T)
    (clear_attr : Int) : Int × term_T × List HostCall :=
  let calls : List HostCall :=
    if dest.start_col = src.start_col ∧ dest.end_col = src.end_col
        ∧ dest.start_row < src.start_row then
      (wins.enum.map (fun p => moverect_del_lines term dest src clear_attr p.1 p.2)).flatten
    else []
  let term1 : term_T :=
    { term with tl_dirty_row_start := MIN term.tl_dirty_row_start dest.start_row }
  let term2 : term_T :=
    { term1 with tl_dirty_row_end := MIN term1.tl_dirty_row_end dest.end_row }
  (1, term2, calls ++ [HostCall.redraw_buf_later term2.tl_buffer.b_fnum NOT_VALID])

/-- Modelled from the spec: `win_setheight_win` of window.c (not under
`src/`), which gives the window the height. -/
def win_setheight_win (height : Int) (wp : win_T) : win_T := { wp with w_height := height }

/-- Modelled from the spec: `win_setwidth_win` of window.c (not under `src/`),
which gives the window the width. -/
def win_setwidth_win (width : Int) (wp : win_T) : win_T := { wp with w_width := width }

/-- The function `handle_resize`: "The job running in the terminal resized the
terminal."  The result is the status, the terminal, the windows of
`FOR_ALL_WINDOWS` and the calls made. -/
def handle_resize (rows cols : Int) (term : term_T) (wins : List win_T) :
    Int × term_T × List win_T × List HostCall :=
  let term1 : term_T := { term with tl_rows := rows, tl_cols := cols }
  if term1.tl_vterm_size_changed ≠ 0 then
    (1, { term1 with tl_vterm_size_changed := 0 }, wins, [])
  else
    (1, term1,
     wins.map (fun wp =>
       if wp.w_buffer = term1.tl_buffer.b_fnum then
         win_setwidth_win cols (win_setheight_win rows wp)
       else wp),
     [HostCall.redraw_buf_later term1.tl_buffer.b_fnum NOT_VALID])

/-- A scenario: a terminal whose dirty rows are 3 up to 10. -/
def scenario_term_dirty : term_T :=
  { scenario_term_24x80 with tl_dirty_row_start := 3, tl_dirty_row_end := 10 }

/-! ## Cell/Scrollback store: the rows that `move_terminal_to_buffer` stores -/

/-- The column scan of `move_terminal_to_buffer` for the row `row`, the loop
`for (pos.col = 0; pos.col < term->tl_cols; ++pos.col)`, started with
`new_fill_attr` at the default colour and the local `cell` at `cell`: it leaves
`len`, one past the last cell that is not blank, and the fill attribute of the
row. -/
def move_scan_row (vt : VTerm) (dflt : cellattr_T) (cols : Nat) (cell : VTermScreenCell)
    (row : Nat) : RowScan :=
  (List.range cols).foldl (move_scan_step vt dflt row) ⟨0, dflt, cell⟩

/-- In the words of the specification: which rows are forcing, for the scans of
the rows in their order and the fill colour `prev` of the previously stored
row.  A row is forcing when it has a non-blank cell (`len` is not 0) or when it
is all blank but its fill colour differs from `prev`; a forcing row is stored
and its fill colour becomes the colour of the previously stored row. -/
def spec_forcing : cellattr_T → List RowScan → List Bool
  | _, [] => []
  | prev, s :: rest =>
    if s.len ≠ 0 ∨ equal_celattr s.fill prev = false then
      true :: spec_forcing s.fill rest
    else false :: spec_forcing prev rest

/-- A proof device: the index of the last `true` of a list plus one, or zero
when the list has none. -/
def last_true_succ : List Bool → Nat
  | [] => 0
  | b :: rest =>
    if last_true_succ rest ≠ 0 then last_true_succ rest + 1
    else if b then 1 else 0

/-- A proof device for `move_terminal_to_buffer`: the terminal `t1` is `t` with
the scrollback entries `es` appended and as many text lines added, the first
of which takes the place of the empty line of a buffer that was flagged
empty. -/
def Stores (t t1 : term_T) (es : List sb_line_T) : Prop :=
  Grows t t1 es.length ∧ t1.tl_scrollback = t.tl_scrollback ++ es ∧
  (es = [] → t1.tl_buffer = t.tl_buffer) ∧
  t1.tl_buffer.b_ml.ml_lines.length
      + (if t.tl_buffer.b_ml.ml_empty = true ∧ 0 < es.length then 1 else 0)
    = t.tl_buffer.b_ml.ml_lines.length + es.length

/-- A scenario: an engine whose 4 x 2 grid holds the row `a` and a blank cell,
a blank row, a blank row that ends on a blue background and one more blank row
on blue. -/
def scenario_vterm_rows : VTerm :=
  { screen :=
      [[⟨[97], 1, VTermScreenCellAttrs.zero, ⟨240, 240, 240, 0⟩, ⟨0, 0, 0, 0⟩⟩,
        blank_cell ⟨VTermScreenCellAttrs.zero, 1, ⟨240, 240, 240, 0⟩, ⟨0, 0, 0, 0⟩⟩],
       [blank_cell ⟨VTermScreenCellAttrs.zero, 1, ⟨240, 240, 240, 0⟩, ⟨0, 0, 0, 0⟩⟩,
        blank_cell ⟨VTermScreenCellAttrs.zero, 1, ⟨240, 240, 240, 0⟩, ⟨0, 0, 0, 0⟩⟩],
       [blank_cell ⟨VTermScreenCellAttrs.zero, 1, ⟨240, 240, 240, 0⟩, ⟨0, 0, 0, 0⟩⟩,
        blank_cell ⟨VTermScreenCellAttrs.zero, 1, ⟨240, 240, 240, 0⟩, ⟨0, 0, 255, 0⟩⟩],
       [blank_cell ⟨VTermScreenCellAttrs.zero, 1, ⟨240, 240, 240, 0⟩, ⟨0, 0, 255, 0⟩⟩,
        blank_cell ⟨VTermScreenCellAttrs.zero, 1, ⟨240, 240, 240, 0⟩, ⟨0, 0, 255, 0⟩⟩]],
    default_fg := ⟨240, 240, 240, 0⟩, default_bg := ⟨0, 0, 0, 0⟩,
    cursor_pos := ⟨0, 0⟩ }

/-- A scenario: the 4 x 2 terminal on that engine, light grey on black, its
text buffer empty. -/
def scenario_term_rows : term_T :=
  { (default : term_T) with
    tl_vterm := some scenario_vterm_rows, tl_rows := 4, tl_cols := 2,
    tl_default_color := ⟨VTermScreenCellAttrs.zero, 1, ⟨240, 240, 240, 0⟩, ⟨0, 0, 0, 0⟩⟩,
    tl_buffer := ⟨1, ⟨[[]], true⟩⟩ }

/-- A scenario: a row of two cells, a blank cell on a blue background and the
cell `a` on black. -/
def scenario_row_blank_a : List VTermScreenCell :=
  [blank_cell ⟨VTermScreenCellAttrs.zero, 1, ⟨240, 240, 240, 0⟩, ⟨0, 0, 255, 0⟩⟩,
   ⟨[97], 1, VTermScreenCellAttrs.zero, ⟨240, 240, 240, 0⟩, ⟨0, 0, 0, 0⟩⟩]

/-- A scenario: the default colour light grey on black. -/
def scenario_default_color : cellattr_T :=
  ⟨VTermScreenCellAttrs.zero, 1, ⟨240, 240, 240, 0⟩, ⟨0, 0, 0, 0⟩⟩

/-- A scenario: an engine whose 1 x 2 grid holds a cell with a space and a
blank cell (first character NUL) of the same width, style and colours, with
the cursor on the first cell. -/
def scenario_vterm_space_nul : VTerm :=
  { screen :=
      [[⟨[32], 1, VTermScreenCellAttrs.zero, ⟨240, 240, 240, 0⟩, ⟨0, 0, 0, 0⟩⟩,
        ⟨[], 1, VTermScreenCellAttrs.zero, ⟨240, 240, 240, 0⟩, ⟨0, 0, 0, 0⟩⟩]],
    default_fg := ⟨240, 240, 240, 0⟩, default_bg := ⟨0, 0, 0, 0⟩,
    cursor_pos := ⟨0, 0⟩ }

/-- A scenario: an engine whose 1 x 2 grid holds a blank cell (first character
NUL) and a cell with a space of the same width, style and colours, with the
cursor on the first cell. -/
def scenario_vterm_nul_space : VTerm :=
  { screen :=
      [[⟨[], 1, VTermScreenCellAttrs.zero, ⟨240, 240, 240, 0⟩, ⟨0, 0, 0, 0⟩⟩,
        ⟨[32], 1, VTermScreenCellAttrs.zero, ⟨240, 240, 240, 0⟩, ⟨0, 0, 0, 0⟩⟩]],
    default_fg := ⟨240, 240, 240, 0⟩, default_bg := ⟨0, 0, 0, 0⟩,
    cursor_pos := ⟨0, 0⟩ }

/-- A scenario: an engine whose 1 x 2 grid holds two cells with a space, of
the same width, style and colours, with the cursor on the first cell. -/
def scenario_vterm_space_space : VTerm :=
  { screen :=
      [[⟨[32], 1, VTermScreenCellAttrs.zero, ⟨240, 240, 240, 0⟩, ⟨0, 0, 0, 0⟩⟩,
        ⟨[32], 1, VTermScreenCellAttrs.zero, ⟨240, 240, 240, 0⟩, ⟨0, 0, 0, 0⟩⟩]],
    default_fg := ⟨240, 240, 240, 0⟩, default_bg := ⟨0, 0, 0, 0⟩,
    cursor_pos := ⟨0, 0⟩ }

/-- A scenario: the dump of the two rows `a`, red on black, and `b`, green on
black, cut off before the newline of its last row. -/
def scenario_dump_a_b_cut : List Nat :=
  [124, 97, 43, 48, 35, 102, 102, 48, 48, 48, 48, 49, 48, 35, 48, 48, 48, 48, 48, 48, 50, 48, 10,
   124, 98, 43, 48, 35, 48, 48, 102, 102, 48, 48, 49, 48, 35, 48, 48, 48, 48, 48, 48, 50, 48]

/-- A scenario: the dump of the same two rows, complete. -/
def scenario_dump_a_b_full : List Nat :=
  [124, 97, 43, 48, 35, 102, 102, 48, 48, 48, 48, 49, 48, 35, 48, 48, 48, 48, 48, 48, 50, 48, 10,
   124, 98, 43, 48, 35, 48, 48, 102, 102, 48, 48, 49, 48, 35, 48, 48, 48, 48, 48, 48, 50, 48, 10]

/-- The index that `color2index` computes on a display with at least 256
colours; a proof device used to evaluate `color2index` for every display. -/
def index256 (c : VTermColor) : Int :=
  (color2index ⟨256, fun _ _ b => (0, b)⟩ c 0 0).1

/-! # Theorems -/

/-! ## Color resolver -/

theorem cutoff_scan_bounds (v : Int) :
    ∀ (l : List Int) (i k : Nat), cutoff_scan v l i = some k → i ≤ k ∧ k < i + l.length := by
  intro l
  induction l with
  | nil => intro i k h; simp [cutoff_scan] at h
  | cons c cs ih =>
    intro i k h
    simp only [cutoff_scan] at h
    split at h
    · simp only [Option.some.injEq] at h
      subst h
      simp
    · have := ih (i + 1) k h
      simp only [List.length_cons]
      omega

theorem color2index_eq_index256 (d : Display) (c : VTermColor) (fg boldp : Int)
    (h256 : d.t_colors ≥ 256) :
    color2index d c fg boldp = (index256 c, boldp) := by
  have h16 : d.t_colors ≥ 16 := by omega
  simp only [color2index, index256, h256, h16, if_true, ge_iff_le, le_refl]
  norm_num
  split_ifs <;> first | rfl | (split <;> rfl)

theorem cterm_color2rgb_indep (nr : Nat) (h : nr < 256) (rgb rgb' : VTermColor) :
    cterm_color2rgb nr rgb = cterm_color2rgb nr rgb' := by
  unfold cterm_color2rgb
  by_cases h16 : nr < 16
  · simp only [h16, if_true]
    have hlen : nr < ansi_table.length := by simpa [ansi_table] using h16
    simp [List.getD_eq_getElem?_getD, List.getElem?_eq_getElem hlen]
  · simp only [h16, if_false, h, if_true]

set_option maxRecDepth 1000000 in
theorem index256_table :
    ∀ nr : Fin 256, index256 (cterm_color2rgb nr.val VTermColor.zero) =
      if nr.val = 59 then 242 else if nr.val = 102 then 246
      else if nr.val = 145 then 250 else if nr.val = 188 then 254
      else (nr.val : Int) + 1 := by
  decide

/-- C8: on a display with at least 256 colours a colour without palette index
whose three channels are equal resolves to the black sentinel 17 (value below
5), the white sentinel 232 (value above 245) or a grey ramp index 233..256, and
never to one of the other cube indexes 18..231. -/
theorem color2index_grey_never_cube (d : Display) (c : VTermColor) (fg boldp : Int)
    (h256 : d.t_colors ≥ 256) (hnone : c.ansi_index = VTERM_ANSI_INDEX_NONE)
    (hrg : c.red = c.green) (hgb : c.green = c.blue) :
    (c.red < 5 → (color2index d c fg boldp).1 = 17) ∧
    (c.red > 245 → (color2index d c fg boldp).1 = 232) ∧
    (5 ≤ c.red → c.red ≤ 245 →
      233 ≤ (color2index d c fg boldp).1 ∧ (color2index d c fg boldp).1 ≤ 256) ∧
    ¬ (18 ≤ (color2index d c fg boldp).1 ∧ (color2index d c fg boldp).1 ≤ 231) := by
  have hrb : (c.red : Int) = (c.blue : Int) := by rw [hrg, hgb]
  have hrg' : (c.red : Int) = (c.green : Int) := by rw [hrg]
  have key : (color2index d c fg boldp).1 =
      if (c.red : Int) < 5 then 17
      else if (c.red : Int) > 245 then 232
      else match cutoff_scan (c.red : Int) grey_cutoff 0 with
        | some i => (i : Int) + 233
        | none => 256 := by
    simp only [color2index, hnone, ne_eq, not_true_eq_false, if_false, h256, if_true,
      hrb.symm, hrg'.symm, and_self]
    split_ifs <;> first | rfl | (split <;> rfl)
  rw [key]
  have hscan : ∀ k, cutoff_scan (c.red : Int) grey_cutoff 0 = some k → k < 23 := by
    intro k hk
    have := cutoff_scan_bounds _ _ _ _ hk
    simpa [grey_cutoff] using this.2
  refine ⟨?_, ?_, ?_, ?_⟩
  · intro h
    have : (c.red : Int) < 5 := by exact_mod_cast h
    simp [this]
  · intro h
    have h1 : ¬ (c.red : Int) < 5 := by
      have : (5 : Int) ≤ c.red := by exact_mod_cast (by omega : 5 ≤ c.red)
      omega
    have h2 : (c.red : Int) > 245 := by exact_mod_cast h
    simp [h1, h2]
  · intro h5 h245
    have h1 : ¬ (c.red : Int) < 5 := by
      have : (5 : Int) ≤ c.red := by exact_mod_cast h5
      omega
    have h2 : ¬ (c.red : Int) > 245 := by
      have : (c.red : Int) ≤ 245 := by exact_mod_cast h245
      omega
    simp only [h1, h2, if_false]
    split
    · next i hi =>
      have := hscan i hi
      show (233 : Int) ≤ (i : Int) + 233 ∧ (i : Int) + 233 ≤ 256
      omega
    · omega
  · split_ifs
    · omega
    · omega
    · split
      · next i hi =>
        have := hscan i hi
        show ¬ ((18 : Int) ≤ (i : Int) + 233 ∧ (i : Int) + 233 ≤ 231)
        omega
      · omega

/-- Witness of C8: the grey (128, 128, 128) on a 256 colour display. -/
theorem color2index_grey_never_cube_witness :
    (color2index ⟨256, fun _ _ b => (0, b)⟩ ⟨128, 128, 128, 255⟩ 1 0).1 = 245 ∧
    ¬ (18 ≤ (color2index ⟨256, fun _ _ b => (0, b)⟩ ⟨128, 128, 128, 255⟩ 1 0).1 ∧
       (color2index ⟨256, fun _ _ b => (0, b)⟩ ⟨128, 128, 128, 255⟩ 1 0).1 ≤ 231) :=
  ⟨by decide,
   (color2index_grey_never_cube ⟨256, fun _ _ b => (0, b)⟩ ⟨128, 128, 128, 255⟩ 1 0
      (by decide) rfl rfl rfl).2.2.2⟩

/-- Counterexample to C9: the cube entry 59 is the grey (95, 95, 95), which
`color2index` resolves through the grey ramp to 242 and not to 59 + 1. -/
theorem color2index_cterm_color2rgb_59 :
    cterm_color2rgb 59 VTermColor.zero = ⟨95, 95, 95, VTERM_ANSI_INDEX_NONE⟩ ∧
    color2index ⟨256, fun _ _ b => (0, b)⟩ (cterm_color2rgb 59 VTermColor.zero) 1 0
      = (242, 0) ∧
    (color2index ⟨256, fun _ _ b => (0, b)⟩ (cterm_color2rgb 59 VTermColor.zero) 1 0).1
      ≠ (59 : Int) + 1 := by
  refine ⟨by decide, by decide, by decide⟩

/-- C9 as amended: on a display with at least 256 colours, for every cterm
colour number below 256 other than the four grey cube entries 59, 102, 145 and
188, `color2index` of `cterm_color2rgb nr` is `nr + 1`; those four resolve to
the grey ramp indexes 242, 246, 250 and 254; `*boldp` is left as it was. -/
theorem color2index_cterm_color2rgb (d : Display) (nr : Nat) (rgb : VTermColor)
    (fg boldp : Int) (h256 : d.t_colors ≥ 256) (hnr : nr < 256) :
    color2index d (cterm_color2rgb nr rgb) fg boldp =
      (if nr = 59 then 242 else if nr = 102 then 246
       else if nr = 145 then 250 else if nr = 188 then 254
       else (nr : Int) + 1, boldp) := by
  rw [color2index_eq_index256 d _ fg boldp h256,
    cterm_color2rgb_indep nr hnr rgb VTermColor.zero]
  exact congrArg (fun x => (x, boldp)) (index256_table ⟨nr, hnr⟩)

/-- Witness of the amended C9: the cube entry 196 (pure red). -/
theorem color2index_cterm_color2rgb_witness :
    color2index ⟨256, fun _ _ b => (0, b)⟩ (cterm_color2rgb 196 VTermColor.zero) 1 0
      = (197, 0) :=
  color2index_cterm_color2rgb ⟨256, fun _ _ b => (0, b)⟩ 196 VTermColor.zero 1 0
    (by decide) (by decide)

/-- C10: when the display has at least 16 colours and the colour carries a
palette index, `color2index` returns that index whatever the channels are (0
for the default index 0) and leaves `*boldp` untouched. -/
theorem color2index_ansi_index (d : Display) (c : VTermColor) (fg boldp : Int)
    (h16 : d.t_colors ≥ 16) (hidx : c.ansi_index ≠ VTERM_ANSI_INDEX_NONE) :
    color2index d c fg boldp = ((c.ansi_index : Int), boldp) ∧
    (c.ansi_index = VTERM_ANSI_INDEX_DEFAULT → (color2index d c fg boldp).1 = 0) := by
  have key : color2index d c fg boldp = ((c.ansi_index : Int), boldp) := by
    simp only [color2index, hidx, ne_eq, not_false_eq_true, if_true, h16]
  refine ⟨key, ?_⟩
  intro h0
  rw [key, h0]
  rfl

/-- Witness of C10: palette index 10 with channels that would otherwise map
into the colour cube, on a 16 colour display. -/
theorem color2index_ansi_index_witness :
    color2index ⟨16, fun _ _ _ => (7, 1)⟩ ⟨12, 200, 77, 10⟩ 1 0 = (10, 0) :=
  (color2index_ansi_index ⟨16, fun _ _ _ => (7, 1)⟩ ⟨12, 200, 77, 10⟩ 1 0
    (by decide) (by decide)).1

/-! ## Cell/Scrollback store -/

theorem ml_append_at_end (ml : memline_T) (line : List Nat) :
    ml_append ml ml.ml_line_count line =
      (OK, { ml_lines := ml.ml_lines ++ [line], ml_empty := false }) := by
  unfold ml_append
  have h : ¬ (ml.ml_line_count < 0 ∨ ml.ml_line_count > ml.ml_line_count) := by
    unfold memline_T.ml_line_count
    omega
  simp only [h, if_false]
  simp [memline_T.ml_line_count]

theorem ml_delete_first (ml : memline_T) (h : 2 ≤ ml.ml_lines.length) :
    ml_delete ml 1 = (OK, { ml with ml_lines := ml.ml_lines.tail }) := by
  unfold ml_delete
  have h1 : ¬ ((1 : Int) < 1 ∨ (1 : Int) > ml.ml_line_count) := by
    unfold memline_T.ml_line_count
    omega
  have h2 : ¬ (ml.ml_line_count = 1) := by
    unfold memline_T.ml_line_count
    omega
  simp only [h1, h2, if_false]
  cases hl : ml.ml_lines <;> simp

theorem add_line_not_empty (term : term_T) (text : List Nat)
    (h : term.tl_buffer.b_ml.ml_empty = false) :
    (add_scrollback_line_to_buffer term text).tl_buffer.b_ml =
      { ml_lines := term.tl_buffer.b_ml.ml_lines ++ [c_string text], ml_empty := false } := by
  simp [add_scrollback_line_to_buffer, ml_append_at_end, h]

theorem add_line_empty (term : term_T) (text : List Nat)
    (h : term.tl_buffer.b_ml.ml_empty = true) (hl : 1 ≤ term.tl_buffer.b_ml.ml_lines.length) :
    (add_scrollback_line_to_buffer term text).tl_buffer.b_ml =
      { ml_lines := term.tl_buffer.b_ml.ml_lines.tail ++ [c_string text],
        ml_empty := false } := by
  have h2 : 2 ≤ (term.tl_buffer.b_ml.ml_lines ++ [c_string text]).length := by
    simp only [List.length_append, List.length_singleton]
    omega
  simp only [add_scrollback_line_to_buffer, ml_append_at_end, h, if_true]
  rw [ml_delete_first _ h2]
  cases hc : term.tl_buffer.b_ml.ml_lines with
  | nil => rw [hc] at hl; simp at hl
  | cons x xs => simp

theorem add_line_count (term : term_T) (text : List Nat)
    (hl : 1 ≤ term.tl_buffer.b_ml.ml_lines.length) :
    (add_scrollback_line_to_buffer term text).tl_buffer.b_ml.ml_empty = false ∧
    (add_scrollback_line_to_buffer term text).tl_buffer.b_ml.ml_lines.length
        + (if term.tl_buffer.b_ml.ml_empty = true then 1 else 0)
      = term.tl_buffer.b_ml.ml_lines.length + 1 := by
  cases he : term.tl_buffer.b_ml.ml_empty with
  | false =>
    rw [add_line_not_empty term text he]
    simp
  | true =>
    rw [add_line_empty term text he hl]
    simp only [List.length_append, List.length_tail, List.length_singleton, if_true]
    refine ⟨trivial, ?_⟩
    omega

theorem add_line_frame (term : term_T) (text : List Nat) :
    (add_scrollback_line_to_buffer term text).tl_scrollback = term.tl_scrollback ∧
    (add_scrollback_line_to_buffer term text).tl_scrollback_scrolled
      = term.tl_scrollback_scrolled ∧
    (add_scrollback_line_to_buffer term text).tl_vterm = term.tl_vterm ∧
    (add_scrollback_line_to_buffer term text).tl_default_color = term.tl_default_color ∧
    (add_scrollback_line_to_buffer term text).tl_cols = term.tl_cols ∧
    (add_scrollback_line_to_buffer term text).tl_rows = term.tl_rows ∧
    (add_scrollback_line_to_buffer term text).tl_buffer.b_fnum = term.tl_buffer.b_fnum :=
  ⟨rfl, rfl, rfl, rfl, rfl, rfl, rfl⟩

theorem pushline_scan_len_le (cells : List VTermScreenCell) (n : Nat) (st : RowScan)
    (h : st.len ≤ n) :
    ∀ m, ((List.range' n m).foldl (pushline_scan_step cells) st).len ≤ n + m := by
  intro m
  induction m generalizing n st with
  | zero => simpa using h
  | succ m ih =>
    simp only [List.range', List.foldl_cons]
    have hstep : (pushline_scan_step cells st n).len ≤ n + 1 := by
      simp only [pushline_scan_step]
      split_ifs
      · exact le_refl _
      · exact Nat.le_succ_of_le h
    have := ih (n + 1) _ hstep
    omega

theorem pushline_store_cols_some (cells : List VTermScreenCell) (a : PushAlloc) (len : Nat)
    (hw : ∀ i, i < len → 1 ≤ (cells.getD i VTermScreenCell.zero).width) :
    ∀ (fuel col : Nat) (p : List cellattr_T) (ga : List Nat), len ≤ col + fuel →
      ∃ r, pushline_store_cols cells a len fuel col p ga = some r := by
  intro fuel
  induction fuel with
  | zero =>
    intro col p ga h
    have : ¬ col < len := by omega
    exact ⟨(p, ga), by simp [pushline_store_cols, this]⟩
  | succ fuel ih =>
    intro col p ga h
    unfold pushline_store_cols
    by_cases hc : col < len
    · simp only [hc, if_true]
      by_cases hg : a.text_grow col = false
      · exact ⟨(p, []), by simp [hg]⟩
      · simp only [hg, if_false]
        have := hw col hc
        exact ih _ _ _ (by omega)
    · exact ⟨(p, ga), by simp [hc]⟩

/-- The effect of one `handle_pushline` call whose `ga_grow` of the scrollback
succeeds, on a row of `cols` cells of width at least 1. -/
theorem handle_pushline_one (u : Uninit) (a : PushAlloc) (cols : Int)
    (cells : List VTermScreenCell) (term : term_T)
    (hgrow : a.sb_grow = true) (hcols : cols = cells.length)
    (hw : ∀ c ∈ cells, 1 ≤ c.width)
    (hl : 1 ≤ term.tl_buffer.b_ml.ml_lines.length) :
    ∃ term1, handle_pushline u a cols cells term = some term1 ∧
      term1.tl_scrollback_scrolled = term.tl_scrollback_scrolled + 1 ∧
      term1.tl_scrollback.length = term.tl_scrollback.length + 1 ∧
      term1.tl_buffer.b_ml.ml_empty = false ∧
      term1.tl_buffer.b_ml.ml_lines.length
          + (if term.tl_buffer.b_ml.ml_empty = true then 1 else 0)
        = term.tl_buffer.b_ml.ml_lines.length + 1 := by
  have hlen : ((List.range cols.toNat).foldl (pushline_scan_step cells)
      ⟨0, term.tl_default_color, VTermScreenCell.zero⟩).len ≤ cells.length := by
    have := pushline_scan_len_le cells 0 ⟨0, term.tl_default_color, VTermScreenCell.zero⟩
      (le_refl 0) cols.toNat
    rw [List.range_eq_range']
    rw [hcols] at this ⊢
    simpa using this
  have hw' : ∀ i, i < ((List.range cols.toNat).foldl (pushline_scan_step cells)
      ⟨0, term.tl_default_color, VTermScreenCell.zero⟩).len →
      1 ≤ (cells.getD i VTermScreenCell.zero).width := by
    intro i hi
    have hi' : i < cells.length := by omega
    rw [List.getD_eq_getElem _ _ hi']
    exact hw _ (List.getElem_mem _)
  unfold handle_pushline
  simp only [hgrow, if_true]
  split
  · next heq =>
    split_ifs at heq with hc
    · obtain ⟨r, hr⟩ := pushline_store_cols_some cells a _ hw' _ 0
        (List.replicate _ u.attr) [] (Nat.zero_add _).symm.le
      rw [hr] at heq
      simp at heq
  · next p ga heq =>
    refine ⟨_, rfl, ?_, ?_, ?_, ?_⟩
    · simp [(add_line_frame term _).2.1]
    · simp [(add_line_frame term _).1]
    · exact (add_line_count term _ hl).1
    · exact (add_line_count term _ hl).2

/-- Counterexample to C5: on a terminal whose text buffer is still empty (one
empty line, `ML_EMPTY` set) one `handle_pushline` call raises the scrolled
counter and the scrollback length from 0 to 1, but the line count stays 1: the
pushed line replaces the empty line. -/
theorem handle_pushline_empty_buffer :
    ∃ term1, handle_pushline default ⟨true, true, fun _ => true, true⟩ 1
        [⟨[97], 1, VTermScreenCellAttrs.zero, VTermColor.zero, VTermColor.zero⟩]
        { (default : term_T) with
          tl_buffer := ⟨1, ⟨[[]], true⟩⟩, tl_scrollback := [], tl_scrollback_scrolled := 0 }
        = some term1 ∧
      term1.tl_scrollback_scrolled = 1 ∧ term1.tl_scrollback.length = 1 ∧
      term1.tl_buffer.b_ml.ml_lines = [[97]] ∧
      term1.tl_buffer.b_ml.ml_line_count = 1 ∧
      term1.tl_buffer.b_ml.ml_line_count ≠ (1 : Int) + 1 :=
  ⟨_, rfl, by decide, by decide, by decide, by decide, by decide⟩

/-- C5 as amended: after a sequence of n `handle_pushline` calls whose
scrollback `ga_grow` succeeds, on rows of cells of width at least 1, the
scrolled counter and the scrollback length have grown by exactly n; the line
count of the text buffer has grown by n when the buffer was not flagged
`ML_EMPTY`, and by n - 1 (for n > 0) when it was, because the first line then
replaces the empty line of the empty buffer. -/
theorem handle_pushline_seq_counts (u : Uninit)
    (calls : List (PushAlloc × Int × List VTermScreenCell)) (term : term_T)
    (hcalls : ∀ c ∈ calls, c.1.sb_grow = true ∧ c.2.1 = c.2.2.length ∧
      ∀ x ∈ c.2.2, 1 ≤ x.width)
    (hl : 1 ≤ term.tl_buffer.b_ml.ml_lines.length) :
    ∃ term1, handle_pushline_seq u calls term = some term1 ∧
      term1.tl_scrollback_scrolled = term.tl_scrollback_scrolled + calls.length ∧
      term1.tl_scrollback.length = term.tl_scrollback.length + calls.length ∧
      term1.tl_buffer.b_ml.ml_lines.length
          + (if term.tl_buffer.b_ml.ml_empty = true ∧ 0 < calls.length then 1 else 0)
        = term.tl_buffer.b_ml.ml_lines.length + calls.length := by
  induction calls generalizing term with
  | nil => exact ⟨term, rfl, by simp, by simp, by simp⟩
  | cons c rest ih =>
    obtain ⟨a, cols, cells⟩ := c
    have hc := hcalls (a, cols, cells) (List.mem_cons_self _ _)
    obtain ⟨t1, h1, hs1, hb1, he1, hn1⟩ :=
      handle_pushline_one u a cols cells term hc.1 hc.2.1 hc.2.2 hl
    have hl1 : 1 ≤ t1.tl_buffer.b_ml.ml_lines.length := by
      split_ifs at hn1 <;> omega
    obtain ⟨t2, h2, hs2, hb2, hn2⟩ :=
      ih t1 (fun c hcm => hcalls c (List.mem_cons_of_mem _ hcm)) hl1
    refine ⟨t2, ?_, ?_, ?_, ?_⟩
    · simp only [handle_pushline_seq, h1, h2]
    · rw [hs2, hs1]
      simp only [List.length_cons, Nat.cast_add, Nat.cast_one]
      ring
    · rw [hb2, hb1]
      simp only [List.length_cons]
      ring
    · simp only [he1, Bool.false_eq_true, false_and, if_false, add_zero] at hn2
      simp only [List.length_cons, Nat.zero_lt_succ, and_true]
      omega

/-- Witness of the amended C5: two pushed rows on an empty buffer. -/
theorem handle_pushline_seq_counts_witness :
    ∃ term1, handle_pushline_seq default
        [(⟨true, true, fun _ => true, true⟩, 1,
          [⟨[97], 1, VTermScreenCellAttrs.zero, VTermColor.zero, VTermColor.zero⟩]),
         (⟨true, true, fun _ => true, true⟩, 1,
          [⟨[98], 1, VTermScreenCellAttrs.zero, VTermColor.zero, VTermColor.zero⟩])]
        { (default : term_T) with tl_buffer := ⟨1, ⟨[[]], true⟩⟩ } = some term1 ∧
      term1.tl_scrollback_scrolled = (0 : Int) + (2 : Nat) ∧
      term1.tl_scrollback.length = 0 + 2 ∧
      term1.tl_buffer.b_ml.ml_lines.length + 1 = 1 + 2 := by
  have h := handle_pushline_seq_counts default
    [(⟨true, true, fun _ => true, true⟩, 1,
      [⟨[97], 1, VTermScreenCellAttrs.zero, VTermColor.zero, VTermColor.zero⟩]),
     (⟨true, true, fun _ => true, true⟩, 1,
      [⟨[98], 1, VTermScreenCellAttrs.zero, VTermColor.zero, VTermColor.zero⟩])]
    { (default : term_T) with tl_buffer := ⟨1, ⟨[[]], true⟩⟩ }
    (by decide) (by decide)
  obtain ⟨t, h1, h2, h3, h4⟩ := h
  exact ⟨t, h1, h2, h3, h4⟩


theorem add_empty_scrollback_tail (term : term_T) (fill : cellattr_T) :
    add_empty_scrollback term fill 0 =
      (OK, { term with tl_scrollback := term.tl_scrollback ++ [⟨0, none, fill⟩] }) := by
  simp [add_empty_scrollback]

theorem move_store_cols_some (vt : VTerm) (row : Int) (len : Nat)
    (hw : ∀ c col, col < len → vterm_screen_get_cell vt ⟨row, (col : Nat)⟩ = some c →
      1 ≤ c.width) :
    ∀ (fuel col : Nat) (cell : VTermScreenCell) (p : List cellattr_T) (ga : List Nat),
      len ≤ col + fuel →
      ∃ r, move_store_cols vt row len fuel col cell p ga = some r ∧
        r.2.1.length = p.length := by
  intro fuel
  induction fuel with
  | zero =>
    intro col cell p ga h
    have : ¬ col < len := by omega
    exact ⟨(cell, p, ga), by simp [move_store_cols, this], rfl⟩
  | succ fuel ih =>
    intro col cell p ga h
    unfold move_store_cols
    by_cases hc : col < len
    · simp only [hc, if_true]
      cases hg : vterm_screen_get_cell vt ⟨row, (col : Nat)⟩ with
      | none =>
        obtain ⟨r, hr, hlen⟩ := ih (col + 1) cell (p.set col cellattr_T.zero)
          (ga ++ utf_char2bytes 32) (by omega)
        exact ⟨r, hr, by simpa using hlen⟩
      | some c =>
        have := hw c col hc hg
        obtain ⟨r, hr, hlen⟩ := ih (col + c.width) c (p.set col (cell2cellattr c))
          (ga ++ cell_chars_bytes c.chars) (by omega)
        exact ⟨r, hr, by simpa using hlen⟩
    · exact ⟨(cell, p, ga), by simp [hc], rfl⟩

theorem cell2cellattr_blank_cell (a : cellattr_T) : cell2cellattr (blank_cell a) = a := rfl

/-- Counterexample to C6: the fill attribute of row 1 differs from A only in the
bold flag; `equal_celattr` compares colours only, the blank row is skipped and
a single scrollback line is appended. -/
theorem move_terminal_to_buffer_bold_fill :
    ∃ term1 wins1, move_terminal_to_buffer default
        { (default : term_T) with
          tl_vterm := some
            { screen :=
                [[⟨[97], 1, VTermScreenCellAttrs.zero, ⟨240, 240, 240, 0⟩, ⟨0, 0, 0, 0⟩⟩,
                  ⟨[98], 1, VTermScreenCellAttrs.zero, ⟨240, 240, 240, 0⟩, ⟨0, 0, 0, 0⟩⟩,
                  blank_cell ⟨VTermScreenCellAttrs.zero, 1, ⟨240, 240, 240, 0⟩, ⟨0, 0, 0, 0⟩⟩],
                 [blank_cell ⟨⟨1, 0, 0, 0, 0, 0, 0, 0, 0⟩, 1, ⟨240, 240, 240, 0⟩, ⟨0, 0, 0, 0⟩⟩,
                  blank_cell ⟨⟨1, 0, 0, 0, 0, 0, 0, 0, 0⟩, 1, ⟨240, 240, 240, 0⟩, ⟨0, 0, 0, 0⟩⟩,
                  blank_cell ⟨⟨1, 0, 0, 0, 0, 0, 0, 0, 0⟩, 1, ⟨240, 240, 240, 0⟩, ⟨0, 0, 0, 0⟩⟩]],
              default_fg := ⟨240, 240, 240, 0⟩, default_bg := ⟨0, 0, 0, 0⟩,
              cursor_pos := ⟨0, 0⟩ },
          tl_rows := 2, tl_cols := 3, tl_buffer := ⟨1, ⟨[[]], true⟩⟩ } [] =
        some (term1, wins1) ∧
      (⟨⟨1, 0, 0, 0, 0, 0, 0, 0, 0⟩, 1, ⟨240, 240, 240, 0⟩, ⟨0, 0, 0, 0⟩⟩ : cellattr_T)
        ≠ ⟨VTermScreenCellAttrs.zero, 1, ⟨240, 240, 240, 0⟩, ⟨0, 0, 0, 0⟩⟩ ∧
      term1.tl_scrollback.length = 1 ∧
      term1.tl_scrollback.map (fun l => l.sb_cols) = [2] ∧
      term1.tl_buffer.b_ml.ml_lines = [[97, 98]] :=
  ⟨_, _, rfl, by decide, by decide, by decide, by decide⟩


theorem move_terminal_to_buffer_live (u : Uninit) (term : term_T) (wins : List win_T)
    (vt : VTerm) (st : MoveState) (hvt : term.tl_vterm = some vt)
    (h : move_rows vt u (List.range term.tl_rows.toNat)
      ⟨term, 0, term.tl_default_color, term.tl_default_color, u.cell⟩ = some st) :
    move_terminal_to_buffer u term wins =
      some ({ st.term with tl_default_color :=
                { st.term.tl_default_color with fg := vt.default_fg, bg := vt.default_bg } },
            wins.map (move_update_win { st.term with tl_default_color :=
                { st.term.tl_default_color with fg := vt.default_fg, bg := vt.default_bg } })) := by
  unfold move_terminal_to_buffer
  rw [hvt]
  simp only
  rw [h]

theorem move_rows_cons (vt : VTerm) (u : Uninit) (row : Nat) (rows : List Nat)
    (st st1 : MoveState) (h : move_row vt u st row = some st1) :
    move_rows vt u (row :: rows) st = move_rows vt u rows st1 := by
  simp only [move_rows, h]

/-- C6 as amended: migrating a 2-row, 3-column grid whose row 0 holds two
glyph cells and one blank cell with attribute A, and whose row 1 is entirely
blank with a fill attribute B whose foreground or background RGB differs from
A's, appends exactly two scrollback lines, the first with `sb_cols` 2 (and two
stored cells) and fill attribute A, the second with `sb_cols` 0, `sb_cells`
NULL and fill attribute B. -/
theorem move_terminal_to_buffer_two_rows (u : Uninit) (term : term_T) (wins : List win_T)
    (vt : VTerm) (ca cb : VTermScreenCell) (A B : cellattr_T)
    (hvt : term.tl_vterm = some vt)
    (hscreen : vt.screen = [[ca, cb, blank_cell A], [blank_cell B, blank_cell B, blank_cell B]])
    (hrows : term.tl_rows = 2) (hcols : term.tl_cols = 3)
    (ha : ca.chars.getD 0 0 ≠ 0) (hb : cb.chars.getD 0 0 ≠ 0)
    (hwa : 1 ≤ ca.width) (hwb : 1 ≤ cb.width)
    (hAB : equal_celattr B A = false) :
    ∃ term1 wins1 p, move_terminal_to_buffer u term wins = some (term1, wins1) ∧
      term1.tl_scrollback = term.tl_scrollback ++ [⟨2, some p, A⟩, ⟨0, none, B⟩] ∧
      p.length = 2 := by
  have g00 : vterm_screen_get_cell vt ⟨((0 : Nat) : Int), ((0 : Nat) : Int)⟩ = some ca := by
    simp [vterm_screen_get_cell, hscreen]
  have g01 : vterm_screen_get_cell vt ⟨((0 : Nat) : Int), ((1 : Nat) : Int)⟩ = some cb := by
    simp [vterm_screen_get_cell, hscreen]
  have g02 : vterm_screen_get_cell vt ⟨((0 : Nat) : Int), ((2 : Nat) : Int)⟩
      = some (blank_cell A) := by
    simp [vterm_screen_get_cell, hscreen]
  have g10 : vterm_screen_get_cell vt ⟨((1 : Nat) : Int), ((0 : Nat) : Int)⟩
      = some (blank_cell B) := by
    simp [vterm_screen_get_cell, hscreen]
  have g11 : vterm_screen_get_cell vt ⟨((1 : Nat) : Int), ((1 : Nat) : Int)⟩
      = some (blank_cell B) := by
    simp [vterm_screen_get_cell, hscreen]
  have g12 : vterm_screen_get_cell vt ⟨((1 : Nat) : Int), ((2 : Nat) : Int)⟩
      = some (blank_cell B) := by
    simp [vterm_screen_get_cell, hscreen]
  have hblank : ∀ a : cellattr_T, (blank_cell a).chars.getD 0 0 = 0 := fun _ => rfl
  have hw0 : ∀ c col, col < 2 →
      vterm_screen_get_cell vt ⟨((0 : Nat) : Int), (col : Nat)⟩ = some c → 1 ≤ c.width := by
    intro c col hcol hc
    interval_cases col
    · rw [g00] at hc
      cases hc
      exact hwa
    · rw [g01] at hc
      cases hc
      exact hwb
  obtain ⟨r, hr, hrl⟩ := move_store_cols_some vt ((0 : Nat) : Int) 2 hw0 2 0 (blank_cell A)
    (List.replicate 2 u.attr) [] (by omega)
  obtain ⟨c0, p0, ga0⟩ := r
  have hrl2 : p0.length = 2 := by simpa using hrl
  have r2 : List.range (2 : Int).toNat = [0, 1] := rfl
  have r3 : List.range 3 = [0, 1, 2] := rfl
  have hc3 : term.tl_cols.toNat = 3 := by rw [hcols]; rfl
  have hr' : move_store_cols vt 0 2 2 0 (blank_cell A) [u.attr, u.attr] []
      = some (c0, p0, ga0) := hr
  have z0 : ((0 : Nat) : Int) = 0 := rfl
  have z1 : ((1 : Nat) : Int) = 1 := rfl
  have z2 : ((2 : Nat) : Int) = 2 := rfl
  simp only [z0, z1, z2] at g00 g01 g02 g10 g11 g12
  have hs1 : move_store_cols vt 1 0 0 0 (blank_cell B) [] [] = some (blank_cell B, [], []) := rfl
  have hrow0 : move_row vt u ⟨term, 0, term.tl_default_color, term.tl_default_color, u.cell⟩ 0
      = some ⟨add_scrollback_line_to_buffer
          { term with tl_scrollback := term.tl_scrollback ++ [⟨2, some p0, A⟩] } ga0,
          0, A, A, c0⟩ := by
    simp only [move_row, hc3, r3, List.foldl_cons, List.foldl_nil, move_scan_step,
      Nat.cast_zero, Nat.cast_one, Nat.cast_ofNat, g00, g01, g02, ha, hb, hblank,
      cell2cellattr_blank_cell, ne_eq, not_false_eq_true, not_true_eq_false, if_true, if_false,
      move_flush_skipped, List.replicate, z0, z1, z2]
    norm_num
    rw [hr']
  have hrow1 : ∀ t : term_T, t.tl_cols.toNat = 3 → move_row vt u ⟨t, 0, A, A, c0⟩ 1
      = some ⟨add_scrollback_line_to_buffer
          { t with tl_scrollback := t.tl_scrollback ++ [⟨0, none, B⟩] } [],
          0, B, B, blank_cell B⟩ := by
    intro t ht
    simp only [move_row, ht, r3, List.foldl_cons, List.foldl_nil, move_scan_step,
      Nat.cast_zero, Nat.cast_one, Nat.cast_ofNat, g10, g11, g12, hblank,
      cell2cellattr_blank_cell, ne_eq, not_true_eq_false, if_false,
      move_flush_skipped, List.replicate, z0, z1, z2, hAB, Bool.false_eq_true, and_false, hs1]
    norm_num
  have hc3' : (add_scrollback_line_to_buffer
      { term with tl_scrollback := term.tl_scrollback ++ [⟨2, some p0, A⟩] } ga0).tl_cols.toNat
      = 3 := hc3
  have hr2 : List.range term.tl_rows.toNat = [0, 1] := by rw [hrows]; rfl
  have hrs := move_rows_cons vt u 0 [1] _ _ hrow0
  rw [move_rows_cons vt u 1 [] _ _ (hrow1 _ hc3'), ← hr2] at hrs
  have hmove := move_terminal_to_buffer_live u term wins vt _ hvt hrs
  exact ⟨_, _, p0, hmove, by simp [add_scrollback_line_to_buffer], hrl2⟩

/-- Witness of the amended C6: row 0 is "ab" and a blank cell on black, row 1 is
blank on blue. -/
theorem move_terminal_to_buffer_two_rows_witness :
    ∃ term1 wins1 p, move_terminal_to_buffer default
        { (default : term_T) with
          tl_vterm := some
            { screen :=
                [[⟨[97], 1, VTermScreenCellAttrs.zero, ⟨240, 240, 240, 0⟩, ⟨0, 0, 0, 0⟩⟩,
                  ⟨[98], 1, VTermScreenCellAttrs.zero, ⟨240, 240, 240, 0⟩, ⟨0, 0, 0, 0⟩⟩,
                  blank_cell ⟨VTermScreenCellAttrs.zero, 1, ⟨240, 240, 240, 0⟩, ⟨0, 0, 0, 0⟩⟩],
                 [blank_cell ⟨VTermScreenCellAttrs.zero, 1, ⟨240, 240, 240, 0⟩, ⟨0, 0, 255, 0⟩⟩,
                  blank_cell ⟨VTermScreenCellAttrs.zero, 1, ⟨240, 240, 240, 0⟩, ⟨0, 0, 255, 0⟩⟩,
                  blank_cell ⟨VTermScreenCellAttrs.zero, 1, ⟨240, 240, 240, 0⟩, ⟨0, 0, 255, 0⟩⟩]],
              default_fg := ⟨240, 240, 240, 0⟩, default_bg := ⟨0, 0, 0, 0⟩,
              cursor_pos := ⟨0, 0⟩ },
          tl_rows := 2, tl_cols := 3, tl_buffer := ⟨1, ⟨[[]], true⟩⟩ } [] =
        some (term1, wins1) ∧
      term1.tl_scrollback = ([] : List sb_line_T) ++
        [⟨2, some p, ⟨VTermScreenCellAttrs.zero, 1, ⟨240, 240, 240, 0⟩, ⟨0, 0, 0, 0⟩⟩⟩,
         ⟨0, none, ⟨VTermScreenCellAttrs.zero, 1, ⟨240, 240, 240, 0⟩, ⟨0, 0, 255, 0⟩⟩⟩] ∧
      p.length = 2 :=
  move_terminal_to_buffer_two_rows default _ [] _
    ⟨[97], 1, VTermScreenCellAttrs.zero, ⟨240, 240, 240, 0⟩, ⟨0, 0, 0, 0⟩⟩
    ⟨[98], 1, VTermScreenCellAttrs.zero, ⟨240, 240, 240, 0⟩, ⟨0, 0, 0, 0⟩⟩
    ⟨VTermScreenCellAttrs.zero, 1, ⟨240, 240, 240, 0⟩, ⟨0, 0, 0, 0⟩⟩
    ⟨VTermScreenCellAttrs.zero, 1, ⟨240, 240, 240, 0⟩, ⟨0, 0, 255, 0⟩⟩
    rfl rfl rfl rfl (by decide) (by decide) (by decide) (by decide) (by decide)


theorem Grows.refl (t : term_T) (h : 1 ≤ t.tl_buffer.b_ml.ml_lines.length) : Grows t t 0 :=
  ⟨rfl, rfl, rfl, rfl, ⟨[], rfl, by simp⟩, h, fun he => ⟨he, [], rfl, by simp⟩,
    fun hk => absurd hk (lt_irrefl 0)⟩

theorem Grows.trans {t t1 t2 : term_T} {k1 k2 : Nat} (h1 : Grows t t1 k1)
    (h2 : Grows t1 t2 k2) : Grows t t2 (k1 + k2) := by
  obtain ⟨a1, b1, c1, d1, ⟨es1, hes1, e1⟩, f1, g1, i1⟩ := h1
  obtain ⟨a2, b2, c2, d2, ⟨es2, hes2, e2⟩, f2, g2, i2⟩ := h2
  refine ⟨a2.trans a1, b2.trans b1, c2.trans c1, d2.trans d1,
    ⟨es1 ++ es2, by simp [hes1, hes2], by rw [e2, e1, List.append_assoc]⟩, f2, ?_, ?_⟩
  · intro he
    obtain ⟨he1, ls1, hl1, hls1⟩ := g1 he
    obtain ⟨he2, ls2, hl2, hls2⟩ := g2 he1
    exact ⟨he2, ls1 ++ ls2, by simp [hl1, hl2], by rw [hls2, hls1, List.append_assoc]⟩
  · intro hk
    by_cases hk2 : 0 < k2
    · exact i2 hk2
    · have hk1 : 0 < k1 := by omega
      have hz : k2 = 0 := by omega
      have he1 := i1 hk1
      exact (g2 he1).1

/-- Appending one scrollback entry and one text line. -/
theorem Grows.add_line_of (t t1 : term_T) (line : sb_line_T) (text : List Nat)
    (hv : t1.tl_vterm = t.tl_vterm) (hc : t1.tl_cols = t.tl_cols)
    (hr : t1.tl_rows = t.tl_rows) (hd : t1.tl_default_color = t.tl_default_color)
    (hs : t1.tl_scrollback = t.tl_scrollback ++ [line]) (hb : t1.tl_buffer = t.tl_buffer)
    (h : 1 ≤ t.tl_buffer.b_ml.ml_lines.length) :
    Grows t (add_scrollback_line_to_buffer t1 text) 1 := by
  have h1 : 1 ≤ t1.tl_buffer.b_ml.ml_lines.length := by rw [hb]; exact h
  have hcnt := add_line_count t1 text h1
  refine ⟨hv, hc, hr, hd, ⟨[line], rfl, hs⟩, ?_, ?_, fun _ => hcnt.1⟩
  · have := hcnt.2
    split_ifs at this <;> omega
  · intro he
    have he1 : t1.tl_buffer.b_ml.ml_empty = false := by rw [hb]; exact he
    refine ⟨hcnt.1, [c_string text], rfl, ?_⟩
    rw [add_line_not_empty t1 text he1, hb]

theorem Grows.add_line (t : term_T) (line : sb_line_T) (text : List Nat)
    (h : 1 ≤ t.tl_buffer.b_ml.ml_lines.length) :
    Grows t (add_scrollback_line_to_buffer
      { t with tl_scrollback := t.tl_scrollback ++ [line] } text) 1 :=
  Grows.add_line_of t _ line text rfl rfl rfl rfl rfl rfl h

theorem Grows.flush (n : Nat) (fill : cellattr_T) :
    ∀ t : term_T, 1 ≤ t.tl_buffer.b_ml.ml_lines.length →
      Grows t (move_flush_skipped n fill t) n := by
  induction n with
  | zero => intro t h; exact Grows.refl t h
  | succ n ih =>
    intro t h
    simp only [move_flush_skipped, add_empty_scrollback_tail, if_true]
    have h1 := Grows.add_line t ⟨0, none, fill⟩ [] h
    have h2 := ih _ h1.2.2.2.2.2.1
    have := Grows.trans h1 h2
    rwa [Nat.add_comm] at this

theorem get_cell_mem (vt : VTerm) (pos : VTermPos) (c : VTermScreenCell)
    (h : vterm_screen_get_cell vt pos = some c) : ∃ row ∈ vt.screen, c ∈ row := by
  unfold vterm_screen_get_cell at h
  split_ifs at h
  split at h
  · exact absurd h (by simp)
  · next r hr => exact ⟨r, List.getElem?_mem hr, List.getElem?_mem h⟩

/-- The effect of one row of `move_terminal_to_buffer`. -/
theorem move_row_grows (vt : VTerm) (u : Uninit) (row : Nat) (st : MoveState)
    (hw : ∀ r ∈ vt.screen, ∀ c ∈ r, 1 ≤ c.width)
    (hl : 1 ≤ st.term.tl_buffer.b_ml.ml_lines.length) :
    ∃ st1 k, move_row vt u st row = some st1 ∧ Grows st.term st1.term k ∧
      (0 < ((List.range st.term.tl_cols.toNat).foldl
        (move_scan_step vt st.term.tl_default_color row)
        ⟨0, st.new_fill_attr, st.cell⟩).len → 0 < k) := by
  unfold move_row
  simp only
  generalize (List.range st.term.tl_cols.toNat).foldl
    (move_scan_step vt st.term.tl_default_color row) ⟨0, st.new_fill_attr, st.cell⟩ = scan
  by_cases hskip : scan.len = 0 ∧ equal_celattr scan.fill st.fill_attr = true
  · rw [if_pos hskip]
    exact ⟨_, 0, rfl, Grows.refl _ hl, fun h => by have := hskip.1; omega⟩
  · rw [if_neg hskip]
    have hfl := Grows.flush st.lines_skipped st.fill_attr st.term hl
    obtain ⟨r, hr, -⟩ := move_store_cols_some vt row scan.len
      (fun c col _ hc => by
        obtain ⟨rw, hrw, hcm⟩ := get_cell_mem vt _ c hc
        exact hw rw hrw c hcm)
      scan.len 0 scan.cell (List.replicate scan.len u.attr) [] (Nat.zero_add _).symm.le
    obtain ⟨c0, p0, ga0⟩ := r
    rw [hr]
    refine ⟨_, st.lines_skipped + 1, rfl, ?_, fun _ => Nat.succ_pos _⟩
    exact Grows.trans hfl (Grows.add_line _ _ _ hfl.2.2.2.2.2.1)

theorem move_scan_nonblank (vt : VTerm) (dflt : cellattr_T) (row : Nat) (st : RowScan)
    (c : Nat) (cell : VTermScreenCell)
    (hg : vterm_screen_get_cell vt ⟨(row : Int), (c : Nat)⟩ = some cell)
    (hnb : cell.chars.getD 0 0 ≠ 0) :
    ∀ n, c < n → c + 1 ≤ ((List.range n).foldl (move_scan_step vt dflt row) st).len := by
  intro n
  induction n with
  | zero => intro h; omega
  | succ m ih =>
    intro h
    rw [List.range_succ, List.foldl_append]
    simp only [List.foldl_cons, List.foldl_nil]
    by_cases hcm : c = m
    · subst hcm
      simp only [move_scan_step, hg, hnb, ne_eq, not_false_eq_true, if_true]
      exact le_refl _
    · have hi := ih (by omega)
      unfold move_scan_step
      split
      · split_ifs
        · simp only; omega
        · exact hi
      · exact hi

/-- The effect of the row loop of `move_terminal_to_buffer`. -/
theorem move_rows_grows (vt : VTerm) (u : Uninit)
    (hw : ∀ r ∈ vt.screen, ∀ c ∈ r, 1 ≤ c.width) :
    ∀ (rows : List Nat) (st : MoveState), 1 ≤ st.term.tl_buffer.b_ml.ml_lines.length →
      ∃ st1 k, move_rows vt u rows st = some st1 ∧ Grows st.term st1.term k ∧
        ((∃ r ∈ rows, ∃ (c : Nat) (cell : VTermScreenCell), (c : Int) < st.term.tl_cols ∧
          vterm_screen_get_cell vt ⟨(r : Nat), (c : Nat)⟩ = some cell ∧
          cell.chars.getD 0 0 ≠ 0) → 0 < k) := by
  intro rows
  induction rows with
  | nil =>
    intro st hl
    exact ⟨st, 0, rfl, Grows.refl _ hl, fun ⟨r, hr, _⟩ => absurd hr (List.not_mem_nil r)⟩
  | cons row rows ih =>
    intro st hl
    obtain ⟨st1, k1, h1, g1, n1⟩ := move_row_grows vt u row st hw hl
    obtain ⟨st2, k2, h2, g2, n2⟩ := ih st1 g1.2.2.2.2.2.1
    refine ⟨st2, k1 + k2, ?_, Grows.trans g1 g2, ?_⟩
    · rw [move_rows_cons vt u row rows st st1 h1, h2]
    · rintro ⟨r, hr, c, cell, hc, hg, hnb⟩
      rcases List.mem_cons.mp hr with hrow | hrest
      · subst hrow
        have hlen := move_scan_nonblank vt st.term.tl_default_color r
          ⟨0, st.new_fill_attr, st.cell⟩ c cell hg hnb st.term.tl_cols.toNat (by omega)
        have := n1 (by omega)
        omega
      · have := n2 ⟨r, hrest, c, cell, by rw [g1.2.1]; exact hc, hg, hnb⟩
        omega


/-- Counterexample to C7: on a 1 x 1 grid holding `a`, the first call stores one
text line and one scrollback entry, and a second call on the unchanged grid
stores the same row again. -/
theorem move_terminal_to_buffer_duplicates :
    ∃ t1 w1 t2 w2,
      move_terminal_to_buffer default
        scenario_term_a [] = some (t1, w1) ∧
      move_terminal_to_buffer default t1 w1 = some (t2, w2) ∧
      t1.tl_vterm = some scenario_vterm_a ∧
      t1.tl_buffer.b_ml.ml_lines = [[97]] ∧ t2.tl_buffer.b_ml.ml_lines = [[97], [97]] ∧
      t1.tl_scrollback.length = 1 ∧ t2.tl_scrollback.length = 2 ∧
      t2.tl_buffer.b_ml.ml_lines ≠ t1.tl_buffer.b_ml.ml_lines :=
  ⟨_, _, _, _, rfl, rfl, by decide, by decide, by decide, by decide, by decide, by decide⟩

/-- C7 as amended: `move_terminal_to_buffer` is not idempotent on a live engine.
For every session with a live engine whose grid (cells of width at least 1) has
a cell with a non-NUL first character inside `tl_rows` x `tl_cols`, a second
call right after the first, on the unchanged grid, keeps the text lines and
the scrollback entries of the first call and appends at least one more text
line and as many scrollback entries after them.  Only a session without engine
(`tl_vterm == NULL`) is left as it is by a call. -/
theorem move_terminal_to_buffer_twice (u u1 : Uninit) (term : term_T) (wins : List win_T)
    (vt : VTerm) (hvt : term.tl_vterm = some vt)
    (hw : ∀ r ∈ vt.screen, ∀ c ∈ r, 1 ≤ c.width)
    (hl : 1 ≤ term.tl_buffer.b_ml.ml_lines.length)
    (hnb : ∃ (r c : Nat) (cell : VTermScreenCell), (r : Int) < term.tl_rows ∧
      (c : Int) < term.tl_cols ∧ vterm_screen_get_cell vt ⟨(r : Nat), (c : Nat)⟩ = some cell ∧
      cell.chars.getD 0 0 ≠ 0) :
    (∃ t1 w1 t2 w2 ls es,
      move_terminal_to_buffer u term wins = some (t1, w1) ∧
      move_terminal_to_buffer u1 t1 w1 = some (t2, w2) ∧
      t1.tl_vterm = some vt ∧
      t2.tl_buffer.b_ml.ml_lines = t1.tl_buffer.b_ml.ml_lines ++ ls ∧
      t2.tl_scrollback = t1.tl_scrollback ++ es ∧
      0 < ls.length ∧ ls.length = es.length) ∧
    (∀ (t0 : term_T) (w0 : List win_T), t0.tl_vterm = none →
      move_terminal_to_buffer u t0 w0 = some (t0, w0)) := by
  obtain ⟨r, c, cell, hr, hc, hg, hcell⟩ := hnb
  have hrmem : r ∈ List.range term.tl_rows.toNat := by
    rw [List.mem_range]
    omega
  constructor
  · obtain ⟨st1, k1, h1, g1, n1⟩ := move_rows_grows vt u hw (List.range term.tl_rows.toNat)
      ⟨term, 0, term.tl_default_color, term.tl_default_color, u.cell⟩ hl
    have hk1 : 0 < k1 := n1 ⟨r, hrmem, c, cell, hc, hg, hcell⟩
    have hm1 := move_terminal_to_buffer_live u term wins vt st1 hvt h1
    obtain ⟨gv1, gc1, gr1, -, -, gl1, -, ge1⟩ := g1
    obtain ⟨t1, ht1⟩ : ∃ t1 : term_T, t1 = { st1.term with tl_default_color :=
        { st1.term.tl_default_color with fg := vt.default_fg, bg := vt.default_bg } } :=
      ⟨_, rfl⟩
    rw [← ht1] at hm1
    have hvt1 : t1.tl_vterm = some vt := by rw [ht1]; exact gv1.trans hvt
    have hrows1 : t1.tl_rows = term.tl_rows := by rw [ht1]; exact gr1
    have hcols1 : t1.tl_cols = term.tl_cols := by rw [ht1]; exact gc1
    have hl1 : 1 ≤ t1.tl_buffer.b_ml.ml_lines.length := by rw [ht1]; exact gl1
    have he1 : t1.tl_buffer.b_ml.ml_empty = false := by rw [ht1]; exact ge1 hk1
    have hrmem1 : r ∈ List.range t1.tl_rows.toNat := by
      rw [hrows1]
      exact hrmem
    obtain ⟨st2, k2, h2, g2, n2⟩ := move_rows_grows vt u1 hw (List.range t1.tl_rows.toNat)
      ⟨t1, 0, t1.tl_default_color, t1.tl_default_color, u1.cell⟩ hl1
    have hk2 : 0 < k2 :=
      n2 ⟨r, hrmem1, c, cell, by rw [hcols1]; exact hc, hg, hcell⟩
    have hm2 := move_terminal_to_buffer_live u1 t1 (wins.map (move_update_win t1)) vt st2
      hvt1 h2
    obtain ⟨-, -, -, -, ⟨es, hes, hsb⟩, -, gb2, -⟩ := g2
    obtain ⟨-, ls, hls, hlines⟩ := gb2 he1
    exact ⟨_, _, _, _, ls, es, hm1, hm2, hvt1, hlines, hsb, by omega, by omega⟩
  · intro t0 w0 h0
    unfold move_terminal_to_buffer
    rw [h0]

/-- Witness of the amended C7: the 1 x 1 grid that holds `a`. -/
theorem move_terminal_to_buffer_twice_witness :
    ∃ t1 w1 t2 w2 ls es,
      move_terminal_to_buffer default
        scenario_term_a [] = some (t1, w1) ∧
      move_terminal_to_buffer default t1 w1 = some (t2, w2) ∧
      t1.tl_vterm = some scenario_vterm_a ∧
      t2.tl_buffer.b_ml.ml_lines = t1.tl_buffer.b_ml.ml_lines ++ ls ∧
      t2.tl_scrollback = t1.tl_scrollback ++ es ∧
      0 < ls.length ∧ ls.length = es.length :=
  (move_terminal_to_buffer_twice default default scenario_term_a [] scenario_vterm_a rfl
    (by decide) (by decide)
    ⟨0, 0, scenario_cell_a, by decide, by decide, rfl, by decide⟩).1


/-! ## Swapping the two halves of a diff -/

theorem swap_top_loop_lines (mid bot : List (List Nat)) :
    ∀ (top acc : List (List Nat)) (e : Bool),
      swap_top_loop ((top.length + mid.length + acc.length : Nat) : Int) top.length
        ⟨top ++ mid ++ acc ++ bot, e⟩ =
      ⟨mid ++ acc ++ top ++ bot, if top = [] then e else false⟩ := by
  intro top
  induction top with
  | nil => intro acc e; simp [swap_top_loop]
  | cons x xs ih =>
    intro acc e
    have hstep : swap_top_step (((x :: xs).length + mid.length + acc.length : Nat) : Int)
        ⟨(x :: xs) ++ mid ++ acc ++ bot, e⟩ = ⟨xs ++ mid ++ (acc ++ [x]) ++ bot, false⟩ := by
      have hget : ml_get ⟨(x :: xs) ++ mid ++ acc ++ bot, e⟩ 1 = x := by
        unfold ml_get
        have hc : ¬ ((1 : Int) >
            (⟨(x :: xs) ++ mid ++ acc ++ bot, e⟩ : memline_T).ml_line_count) := by
          simp only [memline_T.ml_line_count, List.length_append, List.length_cons]
          omega
        rw [if_neg hc]
        rfl
      have happ : ml_append ⟨(x :: xs) ++ mid ++ acc ++ bot, e⟩
          (((x :: xs).length + mid.length + acc.length : Nat) : Int) x =
          (OK, ⟨(x :: xs) ++ mid ++ acc ++ [x] ++ bot, false⟩) := by
        unfold ml_append
        have hc : ¬ ((((x :: xs).length + mid.length + acc.length : Nat) : Int) < 0 ∨
            (((x :: xs).length + mid.length + acc.length : Nat) : Int) >
              (⟨(x :: xs) ++ mid ++ acc ++ bot, e⟩ : memline_T).ml_line_count) := by
          simp only [memline_T.ml_line_count, List.length_append, List.length_cons]
          omega
        rw [if_neg hc]
        have hlen : ((x :: xs) ++ mid ++ acc).length
            = (x :: xs).length + mid.length + acc.length := by
          simp only [List.length_append]
        simp only [Int.toNat_ofNat, ← hlen]
        rw [List.take_left', List.drop_left'] <;> rfl
      have hdel : ml_delete ⟨(x :: xs) ++ mid ++ acc ++ [x] ++ bot, false⟩ 1 =
          (OK, ⟨xs ++ mid ++ (acc ++ [x]) ++ bot, false⟩) := by
        rw [ml_delete_first]
        · simp
        · simp only [List.length_append, List.length_cons, List.length_nil]
          omega
      simp only [swap_top_step, hget, happ, hdel]
    simp only [List.length_cons, swap_top_loop]
    have hstep' := hstep
    simp only [List.length_cons] at hstep'
    rw [hstep']
    have hlen2' : (xs.length + 1 + mid.length + acc.length : Nat)
        = xs.length + mid.length + (acc ++ [x]).length := by
      simp only [List.length_append, List.length_cons, List.length_nil]
      omega
    rw [hlen2', ih (acc ++ [x]) false]
    simp


theorem getD_at_length {α : Type} (l1 : List α) (x : α) (l2 : List α) (d : α) (n : Nat)
    (h : n = l1.length) : (l1 ++ x :: l2).getD n d = x := by
  subst h
  induction l1 with
  | nil => rfl
  | cons a l ih => simpa using ih

theorem eraseIdx_at_length {α : Type} (l1 : List α) (x : α) (l2 : List α) (n : Nat)
    (h : n = l1.length) : (l1 ++ x :: l2).eraseIdx n = l1 ++ l2 := by
  subst h
  induction l1 with
  | nil => rfl
  | cons a l ih => simpa using ih

theorem set_at_length {α : Type} (l1 : List α) (x : α) (l2 : List α) (y : α) (n : Nat)
    (h : n = l1.length) : (l1 ++ x :: l2).set n y = l1 ++ y :: l2 := by
  subst h
  induction l1 with
  | nil => rfl
  | cons a l ih => simp

theorem swap_bot_loop_lines (pre : List (List Nat)) (hpre : 1 ≤ pre.length) :
    ∀ (rest done : List (List Nat)) (e : Bool),
      swap_bot_loop (pre.length : Int) rest.length ((done.length : Int) + 1)
        ⟨done ++ pre ++ rest, e⟩ =
      ⟨done ++ rest ++ pre, if rest = [] then e else false⟩ := by
  intro rest
  induction rest with
  | nil => intro done e; simp [swap_bot_loop]
  | cons x xs ih =>
    intro done e
    have hstep : swap_bot_step (pre.length : Int) ⟨done ++ pre ++ (x :: xs), e⟩
        ((done.length : Int) + 1) = ⟨(done ++ [x]) ++ pre ++ xs, false⟩ := by
      have hidx : ((pre.length : Int) + ((done.length : Int) + 1) - 1).toNat
          = (done ++ pre).length := by
        simp only [List.length_append]
        omega
      have hget : ml_get ⟨done ++ pre ++ (x :: xs), e⟩
          ((pre.length : Int) + ((done.length : Int) + 1)) = x := by
        unfold ml_get
        have hc : ¬ ((pre.length : Int) + ((done.length : Int) + 1) >
            (⟨done ++ pre ++ (x :: xs), e⟩ : memline_T).ml_line_count) := by
          simp only [memline_T.ml_line_count, List.length_append, List.length_cons]
          omega
        have hc2 : ¬ ((pre.length : Int) + ((done.length : Int) + 1) ≤ 0) := by omega
        rw [if_neg hc, if_neg hc2]
        exact getD_at_length (done ++ pre) x xs [] _ hidx
      have hdel : ml_delete ⟨done ++ pre ++ (x :: xs), e⟩
          ((pre.length : Int) + ((done.length : Int) + 1)) =
          (OK, ⟨done ++ pre ++ xs, e⟩) := by
        unfold ml_delete
        have hc : ¬ ((pre.length : Int) + ((done.length : Int) + 1) < 1 ∨
            (pre.length : Int) + ((done.length : Int) + 1) >
              (⟨done ++ pre ++ (x :: xs), e⟩ : memline_T).ml_line_count) := by
          simp only [memline_T.ml_line_count, List.length_append, List.length_cons]
          omega
        have hc2 : ¬ ((⟨done ++ pre ++ (x :: xs), e⟩ : memline_T).ml_line_count = 1) := by
          simp only [memline_T.ml_line_count, List.length_append, List.length_cons]
          omega
        rw [if_neg hc, if_neg hc2]
        simp only [eraseIdx_at_length (done ++ pre) x xs _ hidx]
      have happ : ml_append ⟨done ++ pre ++ xs, e⟩ ((done.length : Int) + 1 - 1) x =
          (OK, ⟨(done ++ [x]) ++ pre ++ xs, false⟩) := by
        unfold ml_append
        have hc : ¬ ((done.length : Int) + 1 - 1 < 0 ∨ (done.length : Int) + 1 - 1 >
            (⟨done ++ pre ++ xs, e⟩ : memline_T).ml_line_count) := by
          simp only [memline_T.ml_line_count, List.length_append]
          omega
        have hn : ((done.length : Int) + 1 - 1).toNat = done.length := by omega
        rw [if_neg hc, hn]
        simp only [List.append_assoc]
        rw [List.take_left' rfl, List.drop_left' rfl]
      simp only [swap_bot_step, hget, hdel, happ]
    simp only [List.length_cons, swap_bot_loop]
    rw [hstep]
    have hl : (done.length : Int) + 1 + 1 = ((done ++ [x]).length : Int) + 1 := by
      simp only [List.length_append, List.length_cons, List.length_nil]
      omega
    rw [hl, ih (done ++ [x]) false]
    simp

theorem swap_sb_loop_blocks (sm : List sb_line_T) :
    ∀ (st sbt d1 d2 : List sb_line_T), st.length = sbt.length → d1.length = d2.length →
      swap_sb_loop ((d1.length + st.length + sm.length : Nat) : Int) st.length d1.length
        (d1 ++ st ++ sm ++ d2 ++ sbt) = d1 ++ sbt ++ sm ++ d2 ++ st := by
  intro st
  induction st with
  | nil =>
    intro sbt d1 d2 h _
    have : sbt = [] := List.length_eq_zero.mp h.symm
    subst this
    simp [swap_sb_loop]
  | cons x xs ih =>
    intro sbt d1 d2 h hd
    match sbt, h with
    | y :: ys, h =>
      have hlen : xs.length = ys.length := by simpa using h
      have hstep : swap_sb_step ((d1.length + (x :: xs).length + sm.length : Nat) : Int)
          (d1 ++ (x :: xs) ++ sm ++ d2 ++ (y :: ys)) d1.length =
          (d1 ++ [y]) ++ xs ++ sm ++ (d2 ++ [x]) ++ ys := by
        have hidx : (((d1.length + (x :: xs).length + sm.length : Nat) : Int)
            + (d1.length : Nat)).toNat = (d1 ++ (x :: xs) ++ sm ++ d2).length := by
          simp only [List.length_append, List.length_cons]
          omega
        unfold swap_sb_step
        simp only [hidx]
        have e1 : d1 ++ (x :: xs) ++ sm ++ d2 ++ (y :: ys)
            = d1 ++ x :: (xs ++ sm ++ d2 ++ (y :: ys)) := by simp
        have g1 : (d1 ++ (x :: xs) ++ sm ++ d2 ++ (y :: ys)).getD d1.length default = x := by
          rw [e1]
          exact getD_at_length d1 x _ _ _ rfl
        have g2 : (d1 ++ (x :: xs) ++ sm ++ d2 ++ (y :: ys)).getD
            (d1 ++ (x :: xs) ++ sm ++ d2).length default = y :=
          getD_at_length _ y ys _ _ rfl
        rw [g1, g2, e1, set_at_length d1 x _ y _ rfl]
        have e2 : d1 ++ y :: (xs ++ sm ++ d2 ++ (y :: ys))
            = (d1 ++ (y :: xs) ++ sm ++ d2) ++ y :: ys := by simp
        have hl2 : (d1 ++ (x :: xs) ++ sm ++ d2).length
            = (d1 ++ (y :: xs) ++ sm ++ d2).length := by
          simp only [List.length_append, List.length_cons]
        rw [e2, hl2, set_at_length _ y ys x _ rfl]
        simp
      simp only [List.length_cons, swap_sb_loop]
      have hstep' := hstep
      simp only [List.length_cons] at hstep'
      rw [hstep']
      have hb : (d1.length + (xs.length + 1) + sm.length : Nat)
          = (d1 ++ [y]).length + xs.length + sm.length := by
        simp only [List.length_append, List.length_cons, List.length_nil]
        omega
      have hd1 : d1.length + 1 = (d1 ++ [y]).length := by simp
      rw [hb, hd1, ih ys (d1 ++ [y]) (d2 ++ [x]) hlen (by simp [hd])]
      simp

theorem memmove_blocks (st sm sbt : List sb_line_T) :
    memmove_at
      (memmove_at (memmove_at (st ++ sm ++ sbt) 0 sbt) sbt.length sm)
      (sbt.length + sm.length) st = sbt ++ sm ++ st := by
  unfold memmove_at
  simp only [List.take_zero, List.nil_append, Nat.zero_add]
  have h1 : (sbt ++ List.drop sbt.length (st ++ sm ++ sbt)).take sbt.length = sbt :=
    List.take_left' rfl
  rw [h1]
  have h2 : (sbt ++ sm ++ List.drop (sbt.length + sm.length)
      (sbt ++ List.drop sbt.length (st ++ sm ++ sbt))).take (sbt.length + sm.length)
      = sbt ++ sm := List.take_left' (by simp)
  rw [h2]
  have h3 : List.drop (sbt.length + sm.length + st.length)
      (sbt ++ sm ++ List.drop (sbt.length + sm.length)
        (sbt ++ List.drop sbt.length (st ++ sm ++ sbt))) = [] := by
    apply List.drop_eq_nil_of_le
    simp only [List.length_append, List.length_drop]
    omega
  rw [h3]
  simp


/-- One `term_swap_diff` call on a finished terminal whose text is the blocks
`top ++ mid ++ bot` and whose scrollback is the blocks `st ++ sm ++ sbt` of the
same lengths: the outer blocks are exchanged. -/
theorem term_swap_diff_blocks (term : term_T) (top mid bot : List (List Nat))
    (st sm sbt : List sb_line_T) (e : Bool)
    (hfin : term.tl_vterm = none)
    (hlines : term.tl_buffer.b_ml = ⟨top ++ mid ++ bot, e⟩)
    (hsb : term.tl_scrollback = st ++ sm ++ sbt)
    (hT : term.tl_top_diff_rows = (top.length : Int))
    (hB : term.tl_bot_diff_rows = (bot.length : Int))
    (hst : st.length = top.length) (hsm : sm.length = mid.length)
    (hsbt : sbt.length = bot.length) (htop : 1 ≤ top.length) :
    term_swap_diff (some term) =
      (OK, some { term with
        tl_buffer := { term.tl_buffer with b_ml := ⟨bot ++ mid ++ top, false⟩ },
        tl_scrollback := sbt ++ sm ++ st,
        tl_top_diff_rows := (bot.length : Int),
        tl_bot_diff_rows := (top.length : Int) }) := by
  have hcond : ¬ (term_is_finished (some term) = false ∨ term.tl_top_diff_rows = 0
      ∨ term.tl_scrollback.length = 0) := by
    have h1 : term_is_finished (some term) = true := by
      simp only [term_is_finished, hfin, Option.isNone_none]
    have h2 : term.tl_top_diff_rows ≠ 0 := by rw [hT]; omega
    have h3 : term.tl_scrollback.length ≠ 0 := by
      rw [hsb]
      simp only [List.length_append]
      omega
    rw [h1]
    simp [h2, h3]
  have hcount : term.tl_buffer.b_ml.ml_line_count
      = ((top.length + mid.length + bot.length : Nat) : Int) := by
    rw [hlines]
    simp only [memline_T.ml_line_count, List.length_append]
  have hbs : term.tl_buffer.b_ml.ml_line_count - term.tl_bot_diff_rows
      = ((top.length + mid.length + ([] : List (List Nat)).length : Nat) : Int) := by
    rw [hcount, hB]
    simp only [List.length_nil]
    omega
  have hml1 : swap_top_loop (term.tl_buffer.b_ml.ml_line_count - term.tl_bot_diff_rows)
      term.tl_top_diff_rows.toNat term.tl_buffer.b_ml = ⟨mid ++ top ++ bot, false⟩ := by
    rw [hbs, hT, hlines]
    have := swap_top_loop_lines mid bot top [] e
    simp only [List.append_nil] at this
    rw [Int.toNat_ofNat, this]
    have hne : top ≠ [] := by
      intro h
      rw [h] at htop
      simp at htop
    simp [hne]
  have hbs2 : term.tl_buffer.b_ml.ml_line_count - term.tl_bot_diff_rows
      = (((mid ++ top).length : Nat) : Int) := by
    rw [hcount, hB]
    simp only [List.length_append]
    omega
  have hml2 : swap_bot_loop (term.tl_buffer.b_ml.ml_line_count - term.tl_bot_diff_rows)
      term.tl_bot_diff_rows.toNat 1 ⟨mid ++ top ++ bot, false⟩ = ⟨bot ++ mid ++ top, false⟩ := by
    rw [hbs2, hB, Int.toNat_ofNat]
    have := swap_bot_loop_lines (mid ++ top)
      (by simp only [List.length_append]; omega) bot [] false
    simp only [List.nil_append, List.length_nil, Nat.cast_zero, zero_add] at this
    rw [this]
    simp
  have hsbnew : (if term.tl_top_diff_rows = term.tl_bot_diff_rows then
        swap_sb_loop (term.tl_buffer.b_ml.ml_line_count - term.tl_bot_diff_rows)
          term.tl_top_diff_rows.toNat 0 term.tl_scrollback
      else
        memmove_at
          (memmove_at
            (memmove_at term.tl_scrollback 0
              ((term.tl_scrollback.drop
                (term.tl_buffer.b_ml.ml_line_count - term.tl_bot_diff_rows).toNat).take
                term.tl_bot_diff_rows.toNat))
            term.tl_bot_diff_rows.toNat
            ((term.tl_scrollback.drop term.tl_top_diff_rows.toNat).take
              (term.tl_buffer.b_ml.ml_line_count - term.tl_top_diff_rows
                - term.tl_bot_diff_rows).toNat))
          (term.tl_buffer.b_ml.ml_line_count - term.tl_top_diff_rows).toNat
          (term.tl_scrollback.take term.tl_top_diff_rows.toNat)) = sbt ++ sm ++ st := by
    split_ifs with heq
    · have hlen : st.length = sbt.length := by
        rw [hT, hB] at heq
        omega
      have hbs3 : term.tl_buffer.b_ml.ml_line_count - term.tl_bot_diff_rows
          = ((([] : List sb_line_T).length + st.length + sm.length : Nat) : Int) := by
        rw [hcount, hB]
        simp only [List.length_nil]
        omega
      have := swap_sb_loop_blocks sm st sbt [] [] hlen rfl
      simp only [List.nil_append, List.append_nil, List.length_nil] at this
      rw [hbs3, hT, hsb, Int.toNat_ofNat, ← hst]
      simpa using this
    · have h1 : (term.tl_buffer.b_ml.ml_line_count - term.tl_bot_diff_rows).toNat
          = (st ++ sm).length := by
        rw [hcount, hB]
        simp only [List.length_append]
        omega
      have h2 : term.tl_bot_diff_rows.toNat = sbt.length := by rw [hB]; omega
      have h3 : term.tl_top_diff_rows.toNat = st.length := by rw [hT]; omega
      have h4 : (term.tl_buffer.b_ml.ml_line_count - term.tl_top_diff_rows
          - term.tl_bot_diff_rows).toNat = sm.length := by
        rw [hcount, hT, hB]
        omega
      have h5 : (term.tl_buffer.b_ml.ml_line_count - term.tl_top_diff_rows).toNat
          = sbt.length + sm.length := by
        rw [hcount, hT]
        omega
      rw [h1, h2, h3, h4, h5, hsb]
      have d1 : ((st ++ sm ++ sbt).drop (st ++ sm).length).take sbt.length = sbt := by
        rw [List.drop_left' rfl]
        exact List.take_of_length_le (le_refl _)
      have d2 : ((st ++ sm ++ sbt).drop st.length).take sm.length = sm := by
        rw [List.append_assoc, List.drop_left' rfl]
        exact List.take_left' rfl
      have d3 : (st ++ sm ++ sbt).take st.length = st := by
        rw [List.append_assoc]
        exact List.take_left' rfl
      rw [d1, d2, d3]
      exact memmove_blocks st sm sbt
  unfold term_swap_diff
  simp only
  rw [if_neg hcond, hml1, hml2, hsbnew, hT, hB]


theorem split_blocks {α : Type} (l : List α) (T B : Nat) (h : T + B ≤ l.length) :
    ∃ a m b, l = a ++ m ++ b ∧ a.length = T ∧ b.length = B ∧
      m.length = l.length - T - B := by
  refine ⟨l.take T, (l.drop T).take (l.length - T - B), (l.drop T).drop (l.length - T - B),
    ?_, ?_, ?_, ?_⟩
  · rw [List.append_assoc, List.take_append_drop, List.take_append_drop]
  · simp only [List.length_take]
    omega
  · simp only [List.length_drop]
    omega
  · simp only [List.length_take, List.length_drop]
    omega

/-- Counterexample to C4: the diff of a one-row dump with an empty dump has one
top row and no bottom row.  The first `term_swap_diff` returns OK and moves the
row below the comparison block; now `tl_top_diff_rows` is 0, so the second call
returns FAIL and leaves the buffer swapped. -/
theorem term_swap_diff_empty_bottom :
    ∃ t1, term_swap_diff (some scenario_diff_term) = (OK, some t1) ∧
      scenario_diff_term.tl_top_diff_rows ≠ 0 ∧
      scenario_diff_term.tl_scrollback.length ≠ 0 ∧
      (scenario_diff_term.tl_scrollback.length : Int)
        = scenario_diff_term.tl_buffer.b_ml.ml_line_count ∧
      t1.tl_buffer.b_ml.ml_lines = [[61], [45], [61], [97]] ∧
      t1.tl_top_diff_rows = 0 ∧
      term_swap_diff (some t1) = (FAIL, some t1) ∧
      t1.tl_buffer.b_ml.ml_lines ≠ scenario_diff_term.tl_buffer.b_ml.ml_lines :=
  ⟨_, rfl, by decide, by decide, by decide, by decide, by decide, by decide, by decide⟩

/-- C4 as amended: on a finished dump-diff terminal whose top and bottom row
counts are both non-zero (the two blocks fit into the text, and the scrollback
is as long as the text), `term_swap_diff` succeeds twice in a row and the
second call leaves the text lines, the scrollback entries and
`tl_top_diff_rows`/`tl_bot_diff_rows` exactly as they were before the first. -/
theorem term_swap_diff_twice (term : term_T) (hfin : term.tl_vterm = none)
    (hT : 1 ≤ term.tl_top_diff_rows) (hB : 1 ≤ term.tl_bot_diff_rows)
    (hfit : term.tl_top_diff_rows + term.tl_bot_diff_rows
      ≤ term.tl_buffer.b_ml.ml_line_count)
    (hlen : (term.tl_scrollback.length : Int) = term.tl_buffer.b_ml.ml_line_count) :
    ∃ t1 t2, term_swap_diff (some term) = (OK, some t1) ∧
      term_swap_diff (some t1) = (OK, some t2) ∧
      t2.tl_buffer.b_ml.ml_lines = term.tl_buffer.b_ml.ml_lines ∧
      t2.tl_scrollback = term.tl_scrollback ∧
      t2.tl_top_diff_rows = term.tl_top_diff_rows ∧
      t2.tl_bot_diff_rows = term.tl_bot_diff_rows := by
  have hcount : term.tl_buffer.b_ml.ml_line_count = (term.tl_buffer.b_ml.ml_lines.length : Int) :=
    rfl
  have hfitN : term.tl_top_diff_rows.toNat + term.tl_bot_diff_rows.toNat
      ≤ term.tl_buffer.b_ml.ml_lines.length := by
    rw [hcount] at hfit
    omega
  have hlenN : term.tl_scrollback.length = term.tl_buffer.b_ml.ml_lines.length := by
    rw [hcount] at hlen
    omega
  obtain ⟨top, mid, bot, hl, htop, hbot, hmid⟩ :=
    split_blocks term.tl_buffer.b_ml.ml_lines _ _ hfitN
  obtain ⟨st, sm, sbt, hs, hst, hsbt, hsm⟩ :=
    split_blocks term.tl_scrollback term.tl_top_diff_rows.toNat term.tl_bot_diff_rows.toNat
      (by rw [hlenN]; exact hfitN)
  have hTe : term.tl_top_diff_rows = (top.length : Int) := by rw [htop]; omega
  have hBe : term.tl_bot_diff_rows = (bot.length : Int) := by rw [hbot]; omega
  have hml : term.tl_buffer.b_ml = ⟨top ++ mid ++ bot, term.tl_buffer.b_ml.ml_empty⟩ := by
    rw [← hl]
  have h1 := term_swap_diff_blocks term top mid bot st sm sbt _ hfin hml hs hTe hBe
    (by rw [hst, htop]) (by rw [hsm, hmid, hlenN]) (by rw [hsbt, hbot]) (by omega)
  obtain ⟨t1, ht1⟩ : ∃ t1 : term_T, t1 = { term with
      tl_buffer := { term.tl_buffer with b_ml := ⟨bot ++ mid ++ top, false⟩ },
      tl_scrollback := sbt ++ sm ++ st,
      tl_top_diff_rows := (bot.length : Int),
      tl_bot_diff_rows := (top.length : Int) } := ⟨_, rfl⟩
  rw [← ht1] at h1
  have h2 := term_swap_diff_blocks t1 bot mid top sbt sm st false
    (by rw [ht1]; exact hfin) (by rw [ht1]) (by rw [ht1]) (by rw [ht1]) (by rw [ht1])
    (by rw [hsbt, hbot]) (by rw [hsm, hmid, hlenN]) (by rw [hst, htop]) (by omega)
  refine ⟨t1, _, h1, h2, hl.symm, hs.symm, hTe.symm, hBe.symm⟩

/-- Witness of the amended C4: the diff of the one-row dumps `a` and `b`. -/
theorem term_swap_diff_twice_witness :
    ∃ t1 t2, term_swap_diff (some scenario_diff_term_ab) = (OK, some t1) ∧
      term_swap_diff (some t1) = (OK, some t2) ∧
      t2.tl_buffer.b_ml.ml_lines = scenario_diff_term_ab.tl_buffer.b_ml.ml_lines ∧
      t2.tl_scrollback = scenario_diff_term_ab.tl_scrollback ∧
      t2.tl_top_diff_rows = scenario_diff_term_ab.tl_top_diff_rows ∧
      t2.tl_bot_diff_rows = scenario_diff_term_ab.tl_bot_diff_rows :=
  term_swap_diff_twice scenario_diff_term_ab rfl (by decide) (by decide) (by decide)
    (by decide)


/-! ## Writing and reading a dump -/

/-- C1, the code at a failing input: a row that holds `a` and then a
double-width character with the same attributes and colours.
`term_dumpwrite` writes the second cell as `|`, the character and `*&`, with
no colour fields; `read_dump_file` runs its colour loop after the `&` as well,
meets the newline and appends "CORRUPT" twice, so the text read back is not the
text of the row. -/
theorem term_dumpwrite_read_wide_cell :
    term_dumpwrite scenario_term_wide 0 0 =
      some [62, 97, 43, 48, 35, 102, 48, 102, 48, 102, 48, 48, 38,
            124, 228, 184, 173, 42, 38, 10] ∧
    ∃ t, read_dump_file 10
        [62, 97, 43, 48, 35, 102, 48, 102, 48, 102, 48, 48, 38,
         124, 228, 184, 173, 42, 38, 10] scenario_term_load = some (2, ⟨0, 0⟩, t) ∧
      t.tl_buffer.b_ml.ml_lines = [[], [97, 228, 184, 173] ++ CORRUPT ++ CORRUPT] ∧
      cell_chars_bytes [97] ++ cell_chars_bytes [0x4E2D] = [97, 228, 184, 173] ∧
      [97, 228, 184, 173] ++ CORRUPT ++ CORRUPT ≠ [97, 228, 184, 173] :=
  ⟨by decide, _, rfl, by decide, by decide, by decide⟩

/-- Counterexample to C2: the row decoded from the dump text of the spec has
the text `ab&`, not `ab`: `&` is no delimiter after a glyph and is read as a
glyph byte of the second cell. -/
theorem read_dump_file_scenario_text :
    ∃ t, read_dump_file 10 scenario_dump_ab scenario_term_load = some (2, ⟨-1, -1⟩, t) ∧
      t.tl_buffer.b_ml.ml_lines = [[], [97, 98, 38]] ∧
      t.tl_scrollback.map (fun l => l.sb_cols) = [2] ∧
      ([97, 98, 38] : List Nat) ≠ [97, 98] :=
  ⟨_, rfl, by decide, by decide, by decide⟩

/-- C2 as amended: decoding the dump text `|a+0#ff000010#00000020|b&` followed
by a newline appends one scrollback line of exactly two cells, both of width
1, style flags 0, foreground RGB ff0000 with index 10 and background RGB 000000
with index 20, and one text line `ab&`: the first cell has the glyph `a`, the
second the glyph bytes `b&`.  No cursor is reported and the width is 2. -/
theorem read_dump_file_scenario (n : Nat) (term : term_T) :
    read_dump_file (n + 4) scenario_dump_ab term =
      some (2, ⟨-1, -1⟩,
        { term with
          tl_scrollback := term.tl_scrollback ++
            [⟨2, some [⟨VTermScreenCellAttrs.zero, 1, ⟨255, 0, 0, 10⟩, ⟨0, 0, 0, 20⟩⟩,
                       ⟨VTermScreenCellAttrs.zero, 1, ⟨255, 0, 0, 10⟩, ⟨0, 0, 0, 20⟩⟩],
              term.tl_default_color⟩],
          tl_buffer := { term.tl_buffer with
            b_ml := ⟨term.tl_buffer.b_ml.ml_lines ++ [[97, 98, 38]], false⟩ } }) ∧
    vtermAttr2hl VTermScreenCellAttrs.zero = 0 := by
  refine ⟨?_, rfl⟩
  simp [read_dump_file, scenario_dump_ab, fgetc, read_dump_loop, read_dump_step, read_cell,
    read_next, read_glyph, read_attrs, read_number, read_color, isdigit, hex2nr,
    hl2vtermAttr, has_flag, read_newline, dump_is_corrupt, ml_append_at_end, c_string,
    cellattr_T.zero, VTermColor.zero, VTermScreenCellAttrs.zero,
    HL_BOLD, HL_UNDERLINE, HL_ITALIC, HL_STRIKETHROUGH, HL_INVERSE]

theorem read_dump_loop_at_repeat (start_row : Int) :
    ∀ (fuel : Nat) (st : DumpRead), st.c = 64 → st.prev_char = none →
      read_dump_loop start_row fuel st = none := by
  intro fuel
  induction fuel with
  | zero => intro st _ _; rfl
  | succ fuel ih =>
    intro st hc hp
    have hstep : read_dump_step start_row st = some (dump_is_corrupt st) := by
      unfold read_dump_step
      rw [hc, hp]
      rfl
    simp only [read_dump_loop, hstep]
    exact ih (dump_is_corrupt st) hc hp

/-- C3, the code at a failing input: on a dump whose first byte is `@` the loop
of `read_dump_file` never ends.  No cell was read, `prev_char` is NULL, the
branch for `@` calls `dump_is_corrupt` and reads no byte, so every iteration
finds the same `@` again and appends "CORRUPT" once more. -/
theorem read_dump_file_repeat_first (fuel : Nat) (rest : List Nat) (term : term_T) :
    read_dump_file fuel (64 :: rest) term = none ∧
    ∀ st : DumpRead, st.c = 64 → st.prev_char = none →
      read_dump_step (term.tl_scrollback.length : Int) st =
        some { st with ga_text := st.ga_text ++ CORRUPT, ga_text_data := true } := by
  constructor
  · unfold read_dump_file
    simp only
    rw [read_dump_loop_at_repeat _ fuel _ rfl rfl]
  · intro st hc hp
    simp [read_dump_step, hc, hp, dump_is_corrupt]


/-- C20: for every reserved or unmapped key code (`K_IGNORE`, `K_NOP`, `K_UNDO`,
`K_HELP`, `K_SELECT`, `K_CURSORHOLD`, `K_MOUSELEFT`, `K_MOUSERIGHT`, the X1 and
X2 mouse button keys, and, where the feature is compiled in, `K_DROP`, the
scrollbar keys and the tabline keys) `term_convert_key` returns 0 and makes no
call at all: no keyboard, mouse or paste injection into the engine and no read
of its output buffer; the variables it can write are left as they were. -/
theorem term_convert_key_reserved (env : KeyEnv) (st : KeyState) (c : Key)
    (h : c ∈ [Key.K_IGNORE, Key.K_NOP, Key.K_UNDO, Key.K_HELP, Key.K_SELECT, Key.K_CURSORHOLD,
          Key.K_MOUSELEFT, Key.K_MOUSERIGHT, Key.K_X1MOUSE, Key.K_X1DRAG, Key.K_X1RELEASE,
          Key.K_X2MOUSE, Key.K_X2DRAG, Key.K_X2RELEASE] ∨
        (env.feat_dnd = true ∧ c = Key.K_DROP) ∨
        (env.feat_gui = true ∧ (c = Key.K_VER_SCROLLBAR ∨ c = Key.K_HOR_SCROLLBAR)) ∨
        (env.feat_gui_tabline = true ∧ (c = Key.K_TABLINE ∨ c = Key.K_TABMENU))) :
    term_convert_key env st c = (0, [], st) := by
  rcases h with h | ⟨hf, rfl⟩ | ⟨hf, rfl | rfl⟩ | ⟨hf, rfl | rfl⟩
  · simp only [List.mem_cons, List.mem_singleton, List.not_mem_nil, or_false] at h
    rcases h with rfl | rfl | rfl | rfl | rfl | rfl | rfl | rfl | rfl | rfl | rfl | rfl | rfl | rfl <;>
      rfl
  all_goals simp [term_convert_key, convert_key_switch, hf]

/-- A witness for `term_convert_key_reserved`: in a build with drag and drop,
`K_DROP` is converted to nothing. -/
theorem term_convert_key_reserved_witness :
    term_convert_key ⟨false, false, false, true, true, 8, 3, 4, 1, 0, 0, true, false,
        fun _ => (0, 1, 0), fun calls => calls.length⟩ ⟨true, -1, -1, false⟩ Key.K_DROP
      = (0, [], ⟨true, -1, -1, false⟩) :=
  term_convert_key_reserved _ _ _ (Or.inr (Or.inl ⟨rfl, rfl⟩))

/-! ## Stopping the job -/

/-- The loop of `term_try_stop_job` returns OK in the first round that finds
the buffer, the terminal or the job gone, or the job ended. -/
theorem try_stop_job_loop_hit (world : Nat → StopView) :
    ∀ (i n count : Nat) (calls : List StopCall), i < n →
      (∀ j, j < i → ∃ s, world (count + j) = StopView.job s ∧ s < JOB_ENDED) →
      (∀ s, world (count + i) = StopView.job s → JOB_ENDED ≤ s) →
      try_stop_job_loop world n count calls =
        (OK, calls ++ (List.replicate i [StopCall.buf_valid, StopCall.job_status,
            StopCall.ui_delay 10, StopCall.mch_check_messages,
            StopCall.parse_queued_messages]).flatten ++
          (match world (count + i) with
           | StopView.job _ => [StopCall.buf_valid, StopCall.job_status]
           | _ => [StopCall.buf_valid])) := by
  intro i
  induction i with
  | zero =>
    intro n count calls hn _ hhit
    obtain ⟨m, rfl⟩ : ∃ m, n = m + 1 := ⟨n - 1, by omega⟩
    simp only [Nat.add_zero] at hhit ⊢
    unfold try_stop_job_loop
    cases hw : world count with
    | job s => simp [hhit s hw]
    | buf_invalid => simp
    | no_term => simp
    | no_job => simp
  | succ i ih =>
    intro n count calls hn hpre hhit
    obtain ⟨m, rfl⟩ : ∃ m, n = m + 1 := ⟨n - 1, by omega⟩
    obtain ⟨s, hs, hlt⟩ := hpre 0 (by omega)
    simp only [Nat.add_zero] at hs
    unfold try_stop_job_loop
    simp only [hs, ge_iff_le, not_le.mpr hlt, if_false]
    have e : count + (i + 1) = count + 1 + i := by omega
    rw [ih m (count + 1) _ (by omega)
      (fun j hj => by have := hpre (j + 1) (by omega); rwa [show count + (j + 1) = count + 1 + j by omega] at this)
      (by rw [← e]; exact hhit), e]
    simp [List.replicate_succ, List.append_assoc]

/-- The loop of `term_try_stop_job` returns FAIL after `n` rounds that all find
the job there and not ended. -/
theorem try_stop_job_loop_miss (world : Nat → StopView) :
    ∀ (n count : Nat) (calls : List StopCall),
      (∀ j, j < n → ∃ s, world (count + j) = StopView.job s ∧ s < JOB_ENDED) →
      try_stop_job_loop world n count calls =
        (FAIL, calls ++ (List.replicate n [StopCall.buf_valid, StopCall.job_status,
            StopCall.ui_delay 10, StopCall.mch_check_messages,
            StopCall.parse_queued_messages]).flatten) := by
  intro n
  induction n with
  | zero => intro count calls _; simp [try_stop_job_loop]
  | succ n ih =>
    intro count calls hpre
    obtain ⟨s, hs, hlt⟩ := hpre 0 (by omega)
    simp only [Nat.add_zero] at hs
    unfold try_stop_job_loop
    simp only [hs, ge_iff_le, not_le.mpr hlt, if_false]
    rw [ih (count + 1) _
      (fun j hj => by have := hpre (j + 1) (by omega); rwa [show count + (j + 1) = count + 1 + j by omega] at this)]
    simp [List.replicate_succ, List.append_assoc]

/-- C19: `term_try_stop_job` is bounded.  With no kill spec and no confirmation
given it returns FAIL and never calls `job_stop`.  Otherwise (a kill spec `how`,
or the answer yes to the dialog, which stands for "kill") it calls `job_stop`
once, then polls: round `i < 100` being the first that finds the buffer not
valid, the terminal or the job gone, or the job status at `JOB_ENDED` or
beyond, it returns OK there, after `i` rounds that each ended in `ui_delay(10)`,
reading the job status in the last round only if terminal and job are there;
when none of the 100 rounds finds that, it returns FAIL after 100 rounds. -/
theorem term_try_stop_job_bounded (feat_dialog confirm : Bool) (answer : Int)
    (tl_kill : Option (List Nat)) (world : Nat → StopView) :
    (how_empty tl_kill = true →
        ¬ (feat_dialog = true ∧ confirm = true ∧ answer = VIM_YES) →
      (term_try_stop_job feat_dialog confirm answer tl_kill world).1 = FAIL ∧
      ∀ how, StopCall.job_stop how ∉
        (term_try_stop_job feat_dialog confirm answer tl_kill world).2) ∧
    (∀ (pre : List StopCall) (how : List Nat),
      (how_empty tl_kill = false ∧ pre = [] ∧ how = tl_kill.getD []) ∨
      (how_empty tl_kill = true ∧ feat_dialog = true ∧ confirm = true ∧
        answer = VIM_YES ∧ pre = [StopCall.vim_dialog_yesnocancel] ∧
        how = [107, 105, 108, 108]) →
      (∀ i, i < 100 →
        (∀ j, j < i → ∃ s, world j = StopView.job s ∧ s < JOB_ENDED) →
        (∀ s, world i = StopView.job s → JOB_ENDED ≤ s) →
        term_try_stop_job feat_dialog confirm answer tl_kill world =
          (OK, pre ++ [StopCall.job_stop how] ++
            (List.replicate i [StopCall.buf_valid, StopCall.job_status,
              StopCall.ui_delay 10, StopCall.mch_check_messages,
              StopCall.parse_queued_messages]).flatten ++
            (match world i with
             | StopView.job _ => [StopCall.buf_valid, StopCall.job_status]
             | _ => [StopCall.buf_valid]))) ∧
      ((∀ j, j < 100 → ∃ s, world j = StopView.job s ∧ s < JOB_ENDED) →
        term_try_stop_job feat_dialog confirm answer tl_kill world =
          (FAIL, pre ++ [StopCall.job_stop how] ++
            (List.replicate 100 [StopCall.buf_valid, StopCall.job_status,
              StopCall.ui_delay 10, StopCall.mch_check_messages,
              StopCall.parse_queued_messages]).flatten))) := by
  refine ⟨?_, ?_⟩
  · intro h0 hno
    unfold term_try_stop_job
    cases feat_dialog <;> cases confirm <;> simp [h0] at hno ⊢
    simp only [hno, if_false]
    split_ifs <;> simp [h0]
  · intro pre how hcase
    have key : term_try_stop_job feat_dialog confirm answer tl_kill world =
        try_stop_job_loop world 100 0 (pre ++ [StopCall.job_stop how]) := by
      unfold term_try_stop_job
      rcases hcase with ⟨h0, rfl, rfl⟩ | ⟨h0, hf, hc, hy, rfl, rfl⟩
      · simp [h0]
      · simp only [h0, hf, hc, hy, Bool.and_self, and_self, if_true, ne_eq, not_true_eq_false,
          false_and, and_false, if_false]
        simp [how_empty]
    rw [key]
    refine ⟨?_, ?_⟩
    · intro i hi hpre hhit
      have := try_stop_job_loop_hit world i 100 0 (pre ++ [StopCall.job_stop how]) hi
        (fun j hj => by rw [Nat.zero_add]; exact hpre j hj)
        (by rw [Nat.zero_add]; exact hhit)
      rw [Nat.zero_add] at this
      exact this
    · intro hpre
      exact try_stop_job_loop_miss world 100 0 (pre ++ [StopCall.job_stop how])
        (fun j hj => by rw [Nat.zero_add]; exact hpre j hj)

/-- A witness for `term_try_stop_job_bounded`: with the kill spec "term" and a
job that is found ended in the third round, the function returns OK after two
delays. -/
theorem term_try_stop_job_bounded_witness :
    term_try_stop_job false false 0 (some [116, 101, 114, 109])
        (fun i => if i < 2 then StopView.job 1 else StopView.job 2) =
      (OK, [StopCall.job_stop [116, 101, 114, 109],
            StopCall.buf_valid, StopCall.job_status, StopCall.ui_delay 10,
            StopCall.mch_check_messages, StopCall.parse_queued_messages,
            StopCall.buf_valid, StopCall.job_status, StopCall.ui_delay 10,
            StopCall.mch_check_messages, StopCall.parse_queued_messages,
            StopCall.buf_valid, StopCall.job_status]) :=
  ((term_try_stop_job_bounded false false 0 (some [116, 101, 114, 109])
      (fun i => if i < 2 then StopView.job 1 else StopView.job 2)).2 []
      [116, 101, 114, 109] (Or.inl ⟨by decide, rfl, rfl⟩)).1 2 (by decide)
    (fun j hj => ⟨1, by simp [hj], by decide⟩)
    (fun s hs => by simp at hs; rw [← hs]; decide)

/-! ## Display sync: the size of the engine -/

/-- One window of the loop in `term_update_window`: the height goes down to
that of a window that shows the buffer, unless the rows are fixed. -/
theorem update_window_smallest_rows (term : term_T) (rc : Int × Int) (w : win_T) :
    (update_window_smallest term rc w).1 ≤ rc.1 ∧
    (term.tl_rows_fixed ≠ 0 → (update_window_smallest term rc w).1 = rc.1) ∧
    (term.tl_rows_fixed = 0 → w.w_buffer = term.tl_buffer.b_fnum →
      (update_window_smallest term rc w).1 ≤ w.w_height) ∧
    ((update_window_smallest term rc w).1 = rc.1 ∨
      (w.w_buffer = term.tl_buffer.b_fnum ∧
        (update_window_smallest term rc w).1 = w.w_height)) := by
  unfold update_window_smallest
  by_cases hb : w.w_buffer = term.tl_buffer.b_fnum
  · rw [if_pos hb]
    dsimp only
    by_cases hc : term.tl_rows_fixed = 0 ∧ rc.1 > w.w_height
    · rw [if_pos hc]
      exact ⟨le_of_lt hc.2, fun h => absurd hc.1 h, fun _ _ => le_refl _, Or.inr ⟨hb, rfl⟩⟩
    · rw [if_neg hc]
      exact ⟨le_refl _, fun _ => rfl, fun hf _ => not_lt.mp (fun hlt => hc ⟨hf, hlt⟩),
        Or.inl rfl⟩
  · rw [if_neg hb]
    exact ⟨le_refl _, fun _ => rfl, fun _ h => absurd h hb, Or.inl rfl⟩

/-- One window of the loop in `term_update_window`: the width goes down to that
of a window that shows the buffer, unless the columns are fixed. -/
theorem update_window_smallest_cols (term : term_T) (rc : Int × Int) (w : win_T) :
    (update_window_smallest term rc w).2 ≤ rc.2 ∧
    (term.tl_cols_fixed ≠ 0 → (update_window_smallest term rc w).2 = rc.2) ∧
    (term.tl_cols_fixed = 0 → w.w_buffer = term.tl_buffer.b_fnum →
      (update_window_smallest term rc w).2 ≤ w.w_width) ∧
    ((update_window_smallest term rc w).2 = rc.2 ∨
      (w.w_buffer = term.tl_buffer.b_fnum ∧
        (update_window_smallest term rc w).2 = w.w_width)) := by
  unfold update_window_smallest
  by_cases hb : w.w_buffer = term.tl_buffer.b_fnum
  · rw [if_pos hb]
    dsimp only
    by_cases hc : term.tl_cols_fixed = 0 ∧ rc.2 > w.w_width
    · rw [if_pos hc]
      exact ⟨le_of_lt hc.2, fun h => absurd hc.1 h, fun _ _ => le_refl _, Or.inr ⟨hb, rfl⟩⟩
    · rw [if_neg hc]
      exact ⟨le_refl _, fun _ => rfl, fun hf _ => not_lt.mp (fun hlt => hc ⟨hf, hlt⟩),
        Or.inl rfl⟩
  · rw [if_neg hb]
    exact ⟨le_refl _, fun _ => rfl, fun _ h => absurd h hb, Or.inl rfl⟩

/-- The loop over the windows in `term_update_window` ends with the smallest
height among the start value and the windows that show the buffer, unless the
rows are fixed; the same for the width. -/
theorem update_window_smallest_fold (term : term_T) :
    ∀ (wins : List win_T) (rc : Int × Int),
      ((wins.foldl (update_window_smallest term) rc).1 ≤ rc.1 ∧
       (term.tl_rows_fixed ≠ 0 → (wins.foldl (update_window_smallest term) rc).1 = rc.1) ∧
       (term.tl_rows_fixed = 0 → ∀ w ∈ wins, w.w_buffer = term.tl_buffer.b_fnum →
          (wins.foldl (update_window_smallest term) rc).1 ≤ w.w_height) ∧
       ((wins.foldl (update_window_smallest term) rc).1 = rc.1 ∨
          ∃ w ∈ wins, w.w_buffer = term.tl_buffer.b_fnum ∧
            (wins.foldl (update_window_smallest term) rc).1 = w.w_height)) ∧
      ((wins.foldl (update_window_smallest term) rc).2 ≤ rc.2 ∧
       (term.tl_cols_fixed ≠ 0 → (wins.foldl (update_window_smallest term) rc).2 = rc.2) ∧
       (term.tl_cols_fixed = 0 → ∀ w ∈ wins, w.w_buffer = term.tl_buffer.b_fnum →
          (wins.foldl (update_window_smallest term) rc).2 ≤ w.w_width) ∧
       ((wins.foldl (update_window_smallest term) rc).2 = rc.2 ∨
          ∃ w ∈ wins, w.w_buffer = term.tl_buffer.b_fnum ∧
            (wins.foldl (update_window_smallest term) rc).2 = w.w_width)) := by
  intro wins
  induction wins with
  | nil => intro rc; simp
  | cons w ws ih =>
    intro rc
    simp only [List.foldl_cons]
    obtain ⟨⟨h1, h2, h3, h4⟩, ⟨k1, k2, k3, k4⟩⟩ := ih (update_window_smallest term rc w)
    obtain ⟨e1, f1, g1, i1⟩ := update_window_smallest_rows term rc w
    obtain ⟨e2, f2, g2, i2⟩ := update_window_smallest_cols term rc w
    refine ⟨⟨le_trans h1 e1, fun hf => (h2 hf).trans (f1 hf), ?_, ?_⟩,
            ⟨le_trans k1 e2, fun hf => (k2 hf).trans (f2 hf), ?_, ?_⟩⟩
    · intro hf x hx hb
      rcases List.mem_cons.mp hx with rfl | hx
      · exact le_trans h1 (g1 hf hb)
      · exact h3 hf x hx hb
    · rcases h4 with h4 | ⟨x, hx, hb, hxe⟩
      · rcases i1 with i1 | ⟨hb, i1⟩
        · exact Or.inl (h4.trans i1)
        · exact Or.inr ⟨w, List.mem_cons_self _ _, hb, h4.trans i1⟩
      · exact Or.inr ⟨x, List.mem_cons_of_mem _ hx, hb, hxe⟩
    · intro hf x hx hb
      rcases List.mem_cons.mp hx with rfl | hx
      · exact le_trans k1 (g2 hf hb)
      · exact k3 hf x hx hb
    · rcases k4 with k4 | ⟨x, hx, hb, hxe⟩
      · rcases i2 with i2 | ⟨hb, i2⟩
        · exact Or.inl (k4.trans i2)
        · exact Or.inr ⟨w, List.mem_cons_self _ _, hb, k4.trans i2⟩
      · exact Or.inr ⟨x, List.mem_cons_of_mem _ hx, hb, hxe⟩

/-- C16: size negotiation in `term_update_window`, for a window `wp` of the
window list that shows the buffer of a terminal with a live engine, not in
Terminal-Normal mode.  When the height of `wp` differs from `tl_rows` with the
rows not fixed, or its width differs from `tl_cols` with the columns not fixed,
the function sets `tl_vterm_size_changed` and calls `vterm_set_size` and
`term_report_winsize` with the same `rows` and `cols`: `rows` is `tl_rows` when
the rows are fixed and otherwise the smallest height among the windows that
show the buffer, `cols` is `tl_cols` when the columns are fixed and otherwise
the smallest width among them.  When neither axis differs no size is pushed and
the flag is left as it was. -/
theorem term_update_window_size (wins : List win_T) (wp : win_T) (w_redr_type : Int)
    (term : term_T) (hv : term.tl_vterm ≠ none) (hn : term.tl_normal_mode = 0)
    (hwp : wp ∈ wins) (hshow : wp.w_buffer = term.tl_buffer.b_fnum) :
    ((term.tl_rows_fixed = 0 ∧ term.tl_rows ≠ wp.w_height)
        ∨ (term.tl_cols_fixed = 0 ∧ term.tl_cols ≠ wp.w_width) →
      ∃ rows cols t1,
        term_update_window wins wp w_redr_type (some term) =
          (OK, some t1, [SizeCall.vterm_set_size rows cols,
                         SizeCall.term_report_winsize rows cols]) ∧
        t1.tl_vterm_size_changed = 1 ∧
        (term.tl_rows_fixed ≠ 0 → rows = term.tl_rows) ∧
        (term.tl_rows_fixed = 0 →
          (∀ w ∈ wins, w.w_buffer = term.tl_buffer.b_fnum → rows ≤ w.w_height) ∧
          ∃ w ∈ wins, w.w_buffer = term.tl_buffer.b_fnum ∧ rows = w.w_height) ∧
        (term.tl_cols_fixed ≠ 0 → cols = term.tl_cols) ∧
        (term.tl_cols_fixed = 0 →
          (∀ w ∈ wins, w.w_buffer = term.tl_buffer.b_fnum → cols ≤ w.w_width) ∧
          ∃ w ∈ wins, w.w_buffer = term.tl_buffer.b_fnum ∧ cols = w.w_width)) ∧
    (¬ ((term.tl_rows_fixed = 0 ∧ term.tl_rows ≠ wp.w_height)
        ∨ (term.tl_cols_fixed = 0 ∧ term.tl_cols ≠ wp.w_width)) →
      ∃ t1, term_update_window wins wp w_redr_type (some term) = (OK, some t1, []) ∧
        t1.tl_vterm_size_changed = term.tl_vterm_size_changed) := by
  obtain ⟨term1, ht1⟩ : ∃ term1 : term_T, term1 =
      (if w_redr_type ≥ SOME_VALID then
        { term with tl_dirty_row_start := 0, tl_dirty_row_end := MAX_ROW }
      else term) := ⟨_, rfl⟩
  have hb : term1.tl_buffer = term.tl_buffer := by rw [ht1]; split_ifs <;> rfl
  have hrf : term1.tl_rows_fixed = term.tl_rows_fixed := by rw [ht1]; split_ifs <;> rfl
  have hcf : term1.tl_cols_fixed = term.tl_cols_fixed := by rw [ht1]; split_ifs <;> rfl
  have hr : term1.tl_rows = term.tl_rows := by rw [ht1]; split_ifs <;> rfl
  have hc : term1.tl_cols = term.tl_cols := by rw [ht1]; split_ifs <;> rfl
  have hs : term1.tl_vterm_size_changed = term.tl_vterm_size_changed := by
    rw [ht1]; split_ifs <;> rfl
  have hguard : ¬ (term.tl_vterm = none ∨ term.tl_normal_mode ≠ 0) := by
    rintro (h | h)
    · exact hv h
    · exact h hn
  have hunf : term_update_window wins wp w_redr_type (some term) =
      (OK, some { (if (term1.tl_rows_fixed = 0 ∧ term1.tl_rows ≠ wp.w_height)
            ∨ (term1.tl_cols_fixed = 0 ∧ term1.tl_cols ≠ wp.w_width) then
          (({ term1 with tl_vterm_size_changed := 1 } : term_T),
           [SizeCall.vterm_set_size
              (wins.foldl (update_window_smallest term1)
                (if term1.tl_rows_fixed ≠ 0 then term1.tl_rows else wp.w_height,
                 if term1.tl_cols_fixed ≠ 0 then term1.tl_cols else wp.w_width)).1
              (wins.foldl (update_window_smallest term1)
                (if term1.tl_rows_fixed ≠ 0 then term1.tl_rows else wp.w_height,
                 if term1.tl_cols_fixed ≠ 0 then term1.tl_cols else wp.w_width)).2,
            SizeCall.term_report_winsize
              (wins.foldl (update_window_smallest term1)
                (if term1.tl_rows_fixed ≠ 0 then term1.tl_rows else wp.w_height,
                 if term1.tl_cols_fixed ≠ 0 then term1.tl_cols else wp.w_width)).1
              (wins.foldl (update_window_smallest term1)
                (if term1.tl_rows_fixed ≠ 0 then term1.tl_rows else wp.w_height,
                 if term1.tl_cols_fixed ≠ 0 then term1.tl_cols else wp.w_width)).2])
        else (term1, [])).1 with tl_dirty_row_start := MAX_ROW, tl_dirty_row_end := 0 },
       (if (term1.tl_rows_fixed = 0 ∧ term1.tl_rows ≠ wp.w_height)
            ∨ (term1.tl_cols_fixed = 0 ∧ term1.tl_cols ≠ wp.w_width) then
          (({ term1 with tl_vterm_size_changed := 1 } : term_T),
           [SizeCall.vterm_set_size
              (wins.foldl (update_window_smallest term1)
                (if term1.tl_rows_fixed ≠ 0 then term1.tl_rows else wp.w_height,
                 if term1.tl_cols_fixed ≠ 0 then term1.tl_cols else wp.w_width)).1
              (wins.foldl (update_window_smallest term1)
                (if term1.tl_rows_fixed ≠ 0 then term1.tl_rows else wp.w_height,
                 if term1.tl_cols_fixed ≠ 0 then term1.tl_cols else wp.w_width)).2,
            SizeCall.term_report_winsize
              (wins.foldl (update_window_smallest term1)
                (if term1.tl_rows_fixed ≠ 0 then term1.tl_rows else wp.w_height,
                 if term1.tl_cols_fixed ≠ 0 then term1.tl_cols else wp.w_width)).1
              (wins.foldl (update_window_smallest term1)
                (if term1.tl_rows_fixed ≠ 0 then term1.tl_rows else wp.w_height,
                 if term1.tl_cols_fixed ≠ 0 then term1.tl_cols else wp.w_width)).2])
        else (term1, [])).2) := by
    unfold term_update_window
    simp only [if_neg hguard]
    rw [← ht1]
  rw [hunf, hrf, hcf, hr, hc]
  obtain ⟨⟨r1, r2, r3, r4⟩, ⟨c1, c2, c3, c4⟩⟩ := update_window_smallest_fold term1 wins
    (if term.tl_rows_fixed ≠ 0 then term.tl_rows else wp.w_height,
     if term.tl_cols_fixed ≠ 0 then term.tl_cols else wp.w_width)
  rw [hrf] at r2 r3
  rw [hcf] at c2 c3
  rw [hb] at r3 r4 c3 c4
  refine ⟨fun hd => ?_, fun hd => ?_⟩
  · rw [if_pos hd]
    refine ⟨_, _, _, rfl, rfl, ?_, ?_, ?_, ?_⟩
    · intro hf
      rw [r2 hf]
      exact if_pos hf
    · intro hf
      refine ⟨r3 hf, ?_⟩
      rcases r4 with r4 | r4
      · refine ⟨wp, hwp, hshow, ?_⟩
        rw [r4]
        exact if_neg (fun h => h hf)
      · exact r4
    · intro hf
      rw [c2 hf]
      exact if_pos hf
    · intro hf
      refine ⟨c3 hf, ?_⟩
      rcases c4 with c4 | c4
      · refine ⟨wp, hwp, hshow, ?_⟩
        rw [c4]
        exact if_neg (fun h => h hf)
      · exact c4
  · rw [if_neg hd]
    exact ⟨_, rfl, hs⟩

/-- A witness for `term_update_window_size`: two windows of 24 x 80 and 10 x 100
show a terminal of 24 x 80 whose size is not fixed, and the second is updated;
the engine is given 10 rows and 80 columns. -/
theorem term_update_window_size_witness :
    (∃ rows cols t1,
      term_update_window [scenario_win_24x80, scenario_win_10x100] scenario_win_10x100 0
          (some scenario_term_24x80) =
        (OK, some t1, [SizeCall.vterm_set_size rows cols,
                       SizeCall.term_report_winsize rows cols]) ∧
      t1.tl_vterm_size_changed = 1 ∧
      (scenario_term_24x80.tl_rows_fixed ≠ 0 → rows = scenario_term_24x80.tl_rows) ∧
      (scenario_term_24x80.tl_rows_fixed = 0 →
        (∀ w ∈ [scenario_win_24x80, scenario_win_10x100],
          w.w_buffer = scenario_term_24x80.tl_buffer.b_fnum → rows ≤ w.w_height) ∧
        ∃ w ∈ [scenario_win_24x80, scenario_win_10x100],
          w.w_buffer = scenario_term_24x80.tl_buffer.b_fnum ∧ rows = w.w_height) ∧
      (scenario_term_24x80.tl_cols_fixed ≠ 0 → cols = scenario_term_24x80.tl_cols) ∧
      (scenario_term_24x80.tl_cols_fixed = 0 →
        (∀ w ∈ [scenario_win_24x80, scenario_win_10x100],
          w.w_buffer = scenario_term_24x80.tl_buffer.b_fnum → cols ≤ w.w_width) ∧
        ∃ w ∈ [scenario_win_24x80, scenario_win_10x100],
          w.w_buffer = scenario_term_24x80.tl_buffer.b_fnum ∧ cols = w.w_width)) ∧
    (term_update_window [scenario_win_24x80, scenario_win_10x100] scenario_win_10x100 0
        (some scenario_term_24x80)).2.2 =
      [SizeCall.vterm_set_size 10 80, SizeCall.term_report_winsize 10 80] :=
  ⟨(term_update_window_size [scenario_win_24x80, scenario_win_10x100] scenario_win_10x100 0
      scenario_term_24x80 (by decide) (by decide) (by decide) (by decide)).1
      (Or.inl (by decide)), by decide⟩

/-! ## Session lifecycle: back to Terminal-Job mode -/

/-- With hypotheses on the widths and a buffer that has a line,
`move_terminal_to_buffer` returns. -/
theorem move_terminal_to_buffer_returns (u : Uninit) (term : term_T) (wins : List win_T)
    (hw : ∀ vt, term.tl_vterm = some vt → ∀ r ∈ vt.screen, ∀ c ∈ r, 1 ≤ c.width)
    (hl : 1 ≤ term.tl_buffer.b_ml.ml_lines.length) :
    ∃ t w, move_terminal_to_buffer u term wins = some (t, w) := by
  cases hvt : term.tl_vterm with
  | none => exact ⟨term, wins, by unfold move_terminal_to_buffer; rw [hvt]⟩
  | some vt =>
    obtain ⟨st1, k, h1, -, -⟩ := move_rows_grows vt u (hw vt hvt)
      (List.range term.tl_rows.toNat)
      ⟨term, 0, term.tl_default_color, term.tl_default_color, u.cell⟩ hl
    exact ⟨_, _, move_terminal_to_buffer_live u term wins vt st1 hvt h1⟩

/-- Deleting the last line of a buffer of at least two lines. -/
theorem ml_delete_last (ml : memline_T) (h : 2 ≤ ml.ml_lines.length) :
    (ml_delete ml ml.ml_line_count).2 =
      { ml with ml_lines := ml.ml_lines.take (ml.ml_lines.length - 1) } := by
  unfold ml_delete memline_T.ml_line_count
  have h1 : ¬ (((ml.ml_lines.length : Nat) : Int) < 1
      ∨ ((ml.ml_lines.length : Nat) : Int) > ((ml.ml_lines.length : Nat) : Int)) := by omega
  have h2 : ¬ (((ml.ml_lines.length : Nat) : Int) = 1) := by omega
  rw [if_neg h1, if_neg h2]
  have e : (((ml.ml_lines.length : Nat) : Int) - 1).toNat = ml.ml_lines.length - 1 := by omega
  simp only [e]
  congr 1
  rw [← List.dropLast_eq_take]
  exact (List.dropLast_eq_eraseIdx (by omega)).symm

/-- Deleting the only line of a buffer. -/
theorem ml_delete_only (ml : memline_T) (h : ml.ml_lines.length = 1) :
    (ml_delete ml ml.ml_line_count).2 = ⟨[[]], true⟩ := by
  unfold ml_delete memline_T.ml_line_count
  have h1 : ¬ (((ml.ml_lines.length : Nat) : Int) < 1
      ∨ ((ml.ml_lines.length : Nat) : Int) > ((ml.ml_lines.length : Nat) : Int)) := by omega
  have h2 : (((ml.ml_lines.length : Nat) : Int) = 1) := by omega
  rw [if_neg h1, if_pos h2]

/-- The loop of `term_enter_job_mode` when at least one line has scrolled off:
it takes `k = min (L - S) G` lines off the end of the text and as many entries
off the end of the scrollback. -/
theorem enter_job_mode_loop_scrolled :
    ∀ (n : Nat) (term : term_T), term.tl_scrollback.length ≤ n →
      1 ≤ term.tl_scrollback_scrolled →
      ∃ t1, enter_job_mode_loop n term = some t1 ∧
        t1.tl_buffer.b_ml.ml_lines = term.tl_buffer.b_ml.ml_lines.take
          (term.tl_buffer.b_ml.ml_lines.length -
            min (((term.tl_buffer.b_ml.ml_lines.length : Nat) : Int)
              - term.tl_scrollback_scrolled).toNat term.tl_scrollback.length) ∧
        t1.tl_scrollback = term.tl_scrollback.take
          (term.tl_scrollback.length -
            min (((term.tl_buffer.b_ml.ml_lines.length : Nat) : Int)
              - term.tl_scrollback_scrolled).toNat term.tl_scrollback.length) ∧
        t1.tl_buffer.b_ml.ml_empty = term.tl_buffer.b_ml.ml_empty ∧
        { t1 with tl_buffer := term.tl_buffer, tl_scrollback := term.tl_scrollback } = term ∧
        t1.tl_buffer.b_fnum = term.tl_buffer.b_fnum := by
  intro n
  induction n with
  | zero =>
    intro term hn hs
    have hG : term.tl_scrollback.length = 0 := by omega
    refine ⟨term, ?_, ?_, ?_, rfl, rfl, rfl⟩
    · unfold enter_job_mode_loop
      rw [if_neg (by omega)]
    · rw [hG]; simp
    · rw [hG]; simpa using List.length_eq_zero.mp hG
  | succ n ih =>
    intro term hn hs
    by_cases hc : term.tl_buffer.b_ml.ml_line_count > term.tl_scrollback_scrolled
        ∧ term.tl_scrollback.length > 0
    · have hL : 2 ≤ term.tl_buffer.b_ml.ml_lines.length := by
        have := hc.1
        unfold memline_T.ml_line_count at this
        omega
      obtain ⟨t0, ht0⟩ : ∃ t0 : term_T, t0 = { term with
          tl_buffer := { term.tl_buffer with
            b_ml := (ml_delete term.tl_buffer.b_ml term.tl_buffer.b_ml.ml_line_count).2 },
          tl_scrollback := term.tl_scrollback.dropLast } := ⟨_, rfl⟩
      have hstep : enter_job_mode_loop (n + 1) term = enter_job_mode_loop n t0 := by
        rw [ht0]
        conv_lhs => unfold enter_job_mode_loop
        rw [if_pos hc]
      have hml : t0.tl_buffer.b_ml = { term.tl_buffer.b_ml with
          ml_lines := term.tl_buffer.b_ml.ml_lines.take
            (term.tl_buffer.b_ml.ml_lines.length - 1) } := by
        rw [ht0]
        exact ml_delete_last _ hL
      have hsb : t0.tl_scrollback = term.tl_scrollback.take (term.tl_scrollback.length - 1) := by
        rw [ht0]
        exact List.dropLast_eq_take _
      have hsc : t0.tl_scrollback_scrolled = term.tl_scrollback_scrolled := by rw [ht0]
      have hfn : t0.tl_buffer.b_fnum = term.tl_buffer.b_fnum := by rw [ht0]
      have hfr : { t0 with tl_buffer := term.tl_buffer, tl_scrollback := term.tl_scrollback }
          = term := by rw [ht0]
      have hlines : t0.tl_buffer.b_ml.ml_lines = term.tl_buffer.b_ml.ml_lines.take
          (term.tl_buffer.b_ml.ml_lines.length - 1) := by rw [hml]
      have hempty : t0.tl_buffer.b_ml.ml_empty = term.tl_buffer.b_ml.ml_empty := by rw [hml]
      have hl0 : t0.tl_buffer.b_ml.ml_lines.length = term.tl_buffer.b_ml.ml_lines.length - 1 := by
        rw [hlines]; simp
      have hg0 : t0.tl_scrollback.length = term.tl_scrollback.length - 1 := by
        rw [hsb]; simp
      obtain ⟨t1, h1, h2, h3, h4, h5, h6⟩ := ih t0 (by omega) (by omega)
      have hL1 := hc.1
      unfold memline_T.ml_line_count at hL1
      refine ⟨t1, hstep.trans h1, ?_, ?_, ?_, ?_, h6.trans hfn⟩
      · rw [h2, hl0, hg0, hsc, hlines]
        simp only [List.take_take]
        congr 1
        omega
      · rw [h3, hl0, hg0, hsc, hsb]
        simp only [List.take_take]
        congr 1
        omega
      · rw [h4, hempty]
      · rw [← hfr, ← h5]
    · refine ⟨term, ?_, ?_, ?_, rfl, rfl, rfl⟩
      · unfold enter_job_mode_loop
        rw [if_neg hc]
      · have : min (((term.tl_buffer.b_ml.ml_lines.length : Nat) : Int)
              - term.tl_scrollback_scrolled).toNat term.tl_scrollback.length = 0 := by
          unfold memline_T.ml_line_count at hc
          omega
        rw [this]; simp
      · have : min (((term.tl_buffer.b_ml.ml_lines.length : Nat) : Int)
              - term.tl_scrollback_scrolled).toNat term.tl_scrollback.length = 0 := by
          unfold memline_T.ml_line_count at hc
          omega
        rw [this]; simp

/-- The loop of `term_enter_job_mode` when nothing has scrolled off: the line
count never goes below 1, so the loop runs until the scrollback is empty; a
buffer with no more lines than scrollback entries is left empty. -/
theorem enter_job_mode_loop_unscrolled :
    ∀ (n : Nat) (term : term_T), term.tl_scrollback.length ≤ n →
      term.tl_scrollback_scrolled ≤ 0 → 1 ≤ term.tl_buffer.b_ml.ml_lines.length →
      ∃ t1, enter_job_mode_loop n term = some t1 ∧
        t1.tl_scrollback = [] ∧
        (term.tl_scrollback.length < term.tl_buffer.b_ml.ml_lines.length →
          t1.tl_buffer.b_ml.ml_lines = term.tl_buffer.b_ml.ml_lines.take
            (term.tl_buffer.b_ml.ml_lines.length - term.tl_scrollback.length) ∧
          t1.tl_buffer.b_ml.ml_empty = term.tl_buffer.b_ml.ml_empty) ∧
        (term.tl_buffer.b_ml.ml_lines.length ≤ term.tl_scrollback.length →
          t1.tl_buffer.b_ml = ⟨[[]], true⟩) ∧
        { t1 with tl_buffer := term.tl_buffer, tl_scrollback := term.tl_scrollback } = term ∧
        t1.tl_buffer.b_fnum = term.tl_buffer.b_fnum := by
  intro n
  induction n with
  | zero =>
    intro term hn hs hl
    have hG : term.tl_scrollback.length = 0 := by omega
    refine ⟨term, ?_, List.length_eq_zero.mp hG, ?_, ?_, rfl, rfl⟩
    · unfold enter_job_mode_loop
      rw [if_neg (by omega)]
    · intro _; rw [hG]; simp
    · intro h; omega
  | succ n ih =>
    intro term hn hs hl
    by_cases hG : term.tl_scrollback.length = 0
    · refine ⟨term, ?_, List.length_eq_zero.mp hG, ?_, ?_, rfl, rfl⟩
      · unfold enter_job_mode_loop
        rw [if_neg (by omega)]
      · intro _; rw [hG]; simp
      · intro h; omega
    · have hc : term.tl_buffer.b_ml.ml_line_count > term.tl_scrollback_scrolled
          ∧ term.tl_scrollback.length > 0 := by
        unfold memline_T.ml_line_count
        omega
      obtain ⟨t0, ht0⟩ : ∃ t0 : term_T, t0 = { term with
          tl_buffer := { term.tl_buffer with
            b_ml := (ml_delete term.tl_buffer.b_ml term.tl_buffer.b_ml.ml_line_count).2 },
          tl_scrollback := term.tl_scrollback.dropLast } := ⟨_, rfl⟩
      have hstep : enter_job_mode_loop (n + 1) term = enter_job_mode_loop n t0 := by
        rw [ht0]
        conv_lhs => unfold enter_job_mode_loop
        rw [if_pos hc]
      have hsb : t0.tl_scrollback = term.tl_scrollback.take (term.tl_scrollback.length - 1) := by
        rw [ht0]
        exact List.dropLast_eq_take _
      have hsc : t0.tl_scrollback_scrolled = term.tl_scrollback_scrolled := by rw [ht0]
      have hfn : t0.tl_buffer.b_fnum = term.tl_buffer.b_fnum := by rw [ht0]
      have hfr : { t0 with tl_buffer := term.tl_buffer, tl_scrollback := term.tl_scrollback }
          = term := by rw [ht0]
      have hg0 : t0.tl_scrollback.length = term.tl_scrollback.length - 1 := by
        rw [hsb]; simp
      by_cases hL : 2 ≤ term.tl_buffer.b_ml.ml_lines.length
      · have hml : t0.tl_buffer.b_ml = { term.tl_buffer.b_ml with
            ml_lines := term.tl_buffer.b_ml.ml_lines.take
              (term.tl_buffer.b_ml.ml_lines.length - 1) } := by
          rw [ht0]
          exact ml_delete_last _ hL
        have hlines : t0.tl_buffer.b_ml.ml_lines = term.tl_buffer.b_ml.ml_lines.take
            (term.tl_buffer.b_ml.ml_lines.length - 1) := by rw [hml]
        have hempty : t0.tl_buffer.b_ml.ml_empty = term.tl_buffer.b_ml.ml_empty := by rw [hml]
        have hl0 : t0.tl_buffer.b_ml.ml_lines.length
            = term.tl_buffer.b_ml.ml_lines.length - 1 := by
          rw [hlines]; simp
        obtain ⟨t1, h1, h2, h3, h4, h5, h6⟩ := ih t0 (by omega) (by omega) (by omega)
        refine ⟨t1, hstep.trans h1, h2, ?_, ?_, ?_, h6.trans hfn⟩
        · intro hlt
          obtain ⟨h3a, h3b⟩ := h3 (by omega)
          refine ⟨?_, h3b.trans hempty⟩
          rw [h3a, hl0, hg0, hlines]
          simp only [List.take_take]
          congr 1
          omega
        · intro hle
          exact h4 (by omega)
        · rw [← hfr, ← h5]
      · have hL1 : term.tl_buffer.b_ml.ml_lines.length = 1 := by omega
        have hml : t0.tl_buffer.b_ml = ⟨[[]], true⟩ := by
          rw [ht0]
          exact ml_delete_only _ hL1
        have hl0 : t0.tl_buffer.b_ml.ml_lines.length = 1 := by simp [hml]
        obtain ⟨t1, h1, h2, h3, h4, h5, h6⟩ := ih t0 (by omega) (by omega) (by omega)
        refine ⟨t1, hstep.trans h1, h2, ?_, ?_, ?_, h6.trans hfn⟩
        · intro hlt; omega
        · intro _
          by_cases hg1 : t0.tl_scrollback.length < t0.tl_buffer.b_ml.ml_lines.length
          · obtain ⟨h3a, h3b⟩ := h3 hg1
            have hg00 : t0.tl_scrollback.length = 0 := by omega
            have e1 : t1.tl_buffer.b_ml.ml_lines = [[]] := by
              rw [h3a, hl0, hg00, hml]; rfl
            have e2 : t1.tl_buffer.b_ml.ml_empty = true := by
              rw [h3b, hml]
            cases hb : t1.tl_buffer.b_ml with
            | mk ls e =>
              rw [hb] at e1 e2
              simp only at e1 e2
              rw [e1, e2]
          · exact h4 (by omega)
        · rw [← hfr, ← h5]

/-- What `cleanup_vterm` returns has no engine and is not in Terminal-Normal
mode. -/
theorem cleanup_vterm_released (u : Uninit) (term : term_T) (wins : List win_T)
    (t : term_T) (w : List win_T) (h : cleanup_vterm u term wins = some (t, w)) :
    t.tl_vterm = none ∧ t.tl_normal_mode = 0 := by
  unfold cleanup_vterm at h
  split at h
  · exact absurd h (by simp)
  · simp only [Option.some.injEq, Prod.mk.injEq] at h
    rw [← h.1]
    exact ⟨rfl, rfl⟩

/-- The loop of `term_enter_job_mode` on a terminal whose buffer has L >= 1
text lines, with G scrollback entries and scrolled offset S, by the sign of S.
The loop returns and writes the text lines and the scrollback only.  When
S >= 1 it deletes min(L - S, G) lines (none when L < S) from the end of the
text and as many entries from the end of the scrollback.  When S <= 0 all G
entries are removed; for G < L the last G lines are deleted, and for G >= L
the buffer is left empty (one empty line, flagged `ML_EMPTY`).  Then
`tl_normal_mode` is cleared; with `tl_channel_closed` not set that is the
result, and with `tl_channel_closed` set `cleanup_vterm` follows. -/
theorem term_enter_job_mode_loop_result (u : Uninit) (term : term_T) (wins : List win_T)
    (hl : 1 ≤ term.tl_buffer.b_ml.ml_lines.length) :
    ∃ t1, enter_job_mode_loop term.tl_scrollback.length term = some t1 ∧
      { t1 with tl_buffer := term.tl_buffer, tl_scrollback := term.tl_scrollback } = term ∧
      t1.tl_buffer.b_fnum = term.tl_buffer.b_fnum ∧
      (1 ≤ term.tl_scrollback_scrolled →
        t1.tl_buffer.b_ml.ml_lines = term.tl_buffer.b_ml.ml_lines.take
          (term.tl_buffer.b_ml.ml_lines.length -
            min (((term.tl_buffer.b_ml.ml_lines.length : Nat) : Int)
              - term.tl_scrollback_scrolled).toNat term.tl_scrollback.length) ∧
        t1.tl_scrollback = term.tl_scrollback.take
          (term.tl_scrollback.length -
            min (((term.tl_buffer.b_ml.ml_lines.length : Nat) : Int)
              - term.tl_scrollback_scrolled).toNat term.tl_scrollback.length) ∧
        t1.tl_buffer.b_ml.ml_empty = term.tl_buffer.b_ml.ml_empty) ∧
      (term.tl_scrollback_scrolled ≤ 0 →
        t1.tl_scrollback = [] ∧
        (term.tl_scrollback.length < term.tl_buffer.b_ml.ml_lines.length →
          t1.tl_buffer.b_ml.ml_lines = term.tl_buffer.b_ml.ml_lines.take
            (term.tl_buffer.b_ml.ml_lines.length - term.tl_scrollback.length) ∧
          t1.tl_buffer.b_ml.ml_empty = term.tl_buffer.b_ml.ml_empty) ∧
        (term.tl_buffer.b_ml.ml_lines.length ≤ term.tl_scrollback.length →
          t1.tl_buffer.b_ml = ⟨[[]], true⟩)) ∧
      (term.tl_channel_closed = 0 →
        term_enter_job_mode u term wins = some ({ t1 with tl_normal_mode := 0 }, wins)) ∧
      (term.tl_channel_closed ≠ 0 →
        term_enter_job_mode u term wins
          = cleanup_vterm u { t1 with tl_normal_mode := 0 } wins ∧
        (∀ t w, term_enter_job_mode u term wins = some (t, w) →
          t.tl_vterm = none ∧ t.tl_normal_mode = 0) ∧
        ((∀ vt, term.tl_vterm = some vt → ∀ r ∈ vt.screen, ∀ c ∈ r, 1 ≤ c.width) →
          ∃ t w, term_enter_job_mode u term wins = some (t, w))) := by
  have main : ∃ t1, enter_job_mode_loop term.tl_scrollback.length term = some t1 ∧
      { t1 with tl_buffer := term.tl_buffer, tl_scrollback := term.tl_scrollback } = term ∧
      t1.tl_buffer.b_fnum = term.tl_buffer.b_fnum ∧
      1 ≤ t1.tl_buffer.b_ml.ml_lines.length ∧
      (1 ≤ term.tl_scrollback_scrolled →
        t1.tl_buffer.b_ml.ml_lines = term.tl_buffer.b_ml.ml_lines.take
          (term.tl_buffer.b_ml.ml_lines.length -
            min (((term.tl_buffer.b_ml.ml_lines.length : Nat) : Int)
              - term.tl_scrollback_scrolled).toNat term.tl_scrollback.length) ∧
        t1.tl_scrollback = term.tl_scrollback.take
          (term.tl_scrollback.length -
            min (((term.tl_buffer.b_ml.ml_lines.length : Nat) : Int)
              - term.tl_scrollback_scrolled).toNat term.tl_scrollback.length) ∧
        t1.tl_buffer.b_ml.ml_empty = term.tl_buffer.b_ml.ml_empty) ∧
      (term.tl_scrollback_scrolled ≤ 0 →
        t1.tl_scrollback = [] ∧
        (term.tl_scrollback.length < term.tl_buffer.b_ml.ml_lines.length →
          t1.tl_buffer.b_ml.ml_lines = term.tl_buffer.b_ml.ml_lines.take
            (term.tl_buffer.b_ml.ml_lines.length - term.tl_scrollback.length) ∧
          t1.tl_buffer.b_ml.ml_empty = term.tl_buffer.b_ml.ml_empty) ∧
        (term.tl_buffer.b_ml.ml_lines.length ≤ term.tl_scrollback.length →
          t1.tl_buffer.b_ml = ⟨[[]], true⟩)) := by
    by_cases hs : 1 ≤ term.tl_scrollback_scrolled
    · obtain ⟨t1, h1, h2, h3, h4, h5, h6⟩ :=
        enter_job_mode_loop_scrolled term.tl_scrollback.length term (le_refl _) hs
      refine ⟨t1, h1, h5, h6, ?_, fun _ => ⟨h2, h3, h4⟩, fun h => by omega⟩
      rw [h2, List.length_take]
      omega
    · obtain ⟨t1, h1, h2, h3, h4, h5, h6⟩ :=
        enter_job_mode_loop_unscrolled term.tl_scrollback.length term (le_refl _)
          (by omega) hl
      refine ⟨t1, h1, h5, h6, ?_, fun h => absurd h hs, fun _ => ⟨h2, h3, h4⟩⟩
      by_cases hg : term.tl_scrollback.length < term.tl_buffer.b_ml.ml_lines.length
      · rw [(h3 hg).1, List.length_take]
        omega
      · rw [h4 (by omega)]
        exact le_refl _
  obtain ⟨t1, h1, hfr, hfn, hlen, ha, hb⟩ := main
  have hcc : t1.tl_channel_closed = term.tl_channel_closed := by
    have h := congrArg term_T.tl_channel_closed hfr
    exact h
  have hvt : t1.tl_vterm = term.tl_vterm := by
    have h := congrArg term_T.tl_vterm hfr
    exact h
  have hunf : term_enter_job_mode u term wins =
      (if (set_terminal_mode t1 0).tl_channel_closed ≠ 0 then
        cleanup_vterm u (set_terminal_mode t1 0) wins
      else some (set_terminal_mode t1 0, wins)) := by
    unfold term_enter_job_mode
    rw [h1]
  have hcc2 : (set_terminal_mode t1 0).tl_channel_closed = term.tl_channel_closed := hcc
  refine ⟨t1, h1, hfr, hfn, ha, hb, ?_, ?_⟩
  · intro h0
    rw [hunf, if_neg (by rw [hcc2]; exact fun h => h h0)]
    rfl
  · intro h0
    have e : term_enter_job_mode u term wins
        = cleanup_vterm u { t1 with tl_normal_mode := 0 } wins := by
      rw [hunf, if_pos (by rw [hcc2]; exact h0)]
      rfl
    refine ⟨e, ?_, ?_⟩
    · intro t w h
      rw [e] at h
      exact cleanup_vterm_released u _ wins t w h
    · intro hw
      rw [e]
      unfold cleanup_vterm
      by_cases hf : ({ t1 with tl_normal_mode := 0 } : term_T).tl_finish ≠ TL_FINISH_CLOSE
      · rw [if_pos hf]
        obtain ⟨t, w, hm⟩ := move_terminal_to_buffer_returns u
          ({ t1 with tl_normal_mode := 0 } : term_T) wins
          (fun vt hv => hw vt (by rw [← hvt]; exact hv)) hlen
        rw [hm]
        exact ⟨_, _, rfl⟩
      · rw [if_neg hf]
        exact ⟨_, _, rfl⟩

/-! ## Cell/Scrollback store: the line invariant -/

/-- The empty scrollback line satisfies the line invariant. -/
theorem sb_line_inv_empty (fill : cellattr_T) : sb_line_inv ⟨0, none, fill⟩ :=
  ⟨fun _ h => absurd h (by simp), fun _ => rfl⟩

/-- A line made of a length and an array of that length, stored as NULL when
the length is 0, satisfies the line invariant. -/
theorem sb_line_inv_of_len (n : Nat) (p : List cellattr_T) (fill : cellattr_T)
    (h : p.length = n) :
    sb_line_inv ⟨(n : Int), if n = 0 then none else some p, fill⟩ := by
  constructor
  · intro cells hc
    by_cases h0 : n = 0
    · rw [if_pos h0] at hc
      exact absurd hc (by simp)
    · rw [if_neg h0] at hc
      simp only [Option.some.injEq] at hc
      rw [← hc, h]
  · intro h0
    have h1 : (n : Int) = 0 := h0
    have : n = 0 := by exact_mod_cast h1
    simp [this]

/-- The loop that stores the cells of a row in `move_terminal_to_buffer` keeps
the length of the array. -/
theorem move_store_cols_length (vt : VTerm) (row : Int) (len : Nat) :
    ∀ (fuel col : Nat) (cell : VTermScreenCell) (p : List cellattr_T) (ga : List Nat)
      (r : VTermScreenCell × List cellattr_T × List Nat),
      move_store_cols vt row len fuel col cell p ga = some r → r.2.1.length = p.length := by
  intro fuel
  induction fuel with
  | zero =>
    intro col cell p ga r h
    unfold move_store_cols at h
    split_ifs at h
    simp only [Option.some.injEq] at h
    rw [← h]
  | succ fuel ih =>
    intro col cell p ga r h
    unfold move_store_cols at h
    split_ifs at h with hc
    · split at h
      · have := ih _ _ _ _ _ h
        simpa using this
      · have := ih _ _ _ _ _ h
        simpa using this
    · simp only [Option.some.injEq] at h
      rw [← h]

/-- A relation between terminals that holds across a change of the buffer,
across the addition of a scrollback line that satisfies the line invariant,
and across a change of the default colour, holds across the loop that adds
skipped lines. -/
theorem move_flush_skipped_rel (R : term_T → term_T → Prop)
    (hrefl : ∀ t, R t t) (htrans : ∀ a b c, R a b → R b c → R a c)
    (hbuf : ∀ t b, R t { t with tl_buffer := b })
    (hpush : ∀ t l, sb_line_inv l → R t { t with tl_scrollback := t.tl_scrollback ++ [l] })
    (fill : cellattr_T) :
    ∀ (n : Nat) (t : term_T), R t (move_flush_skipped n fill t) := by
  intro n
  induction n with
  | zero => intro t; exact hrefl t
  | succ n ih =>
    intro t
    simp only [move_flush_skipped, add_empty_scrollback_tail, if_true]
    refine htrans _ _ _ (htrans _ _ _ (hpush t ⟨0, none, fill⟩ (sb_line_inv_empty fill)) ?_)
      (ih _)
    unfold add_scrollback_line_to_buffer
    exact hbuf _ _

/-- Such a relation holds across one row of `move_terminal_to_buffer`. -/
theorem move_row_rel (R : term_T → term_T → Prop)
    (hrefl : ∀ t, R t t) (htrans : ∀ a b c, R a b → R b c → R a c)
    (hbuf : ∀ t b, R t { t with tl_buffer := b })
    (hpush : ∀ t l, sb_line_inv l → R t { t with tl_scrollback := t.tl_scrollback ++ [l] })
    (vt : VTerm) (u : Uninit) (row : Nat) (st st1 : MoveState)
    (h : move_row vt u st row = some st1) : R st.term st1.term := by
  unfold move_row at h
  simp only at h
  generalize (List.range st.term.tl_cols.toNat).foldl
    (move_scan_step vt st.term.tl_default_color row) ⟨0, st.new_fill_attr, st.cell⟩ = scan at h
  by_cases hskip : scan.len = 0 ∧ equal_celattr scan.fill st.fill_attr = true
  · rw [if_pos hskip] at h
    simp only [Option.some.injEq] at h
    rw [← h]
    exact hrefl _
  · rw [if_neg hskip] at h
    cases hs : move_store_cols vt row scan.len scan.len 0 scan.cell
        (List.replicate scan.len u.attr) [] with
    | none => rw [hs] at h; exact absurd h (by simp)
    | some r =>
      obtain ⟨c0, p0, ga0⟩ := r
      have hlen := move_store_cols_length vt row scan.len _ _ _ _ _ _ hs
      simp only [List.length_replicate] at hlen
      rw [hs] at h
      simp only [Option.some.injEq] at h
      rw [← h]
      have e1 := move_flush_skipped_rel R hrefl htrans hbuf hpush st.fill_attr
        st.lines_skipped st.term
      have e2 := hpush (move_flush_skipped st.lines_skipped st.fill_attr st.term) _
        (sb_line_inv_of_len scan.len p0 scan.fill hlen)
      refine htrans _ _ _ e1 (htrans _ _ _ e2 ?_)
      unfold add_scrollback_line_to_buffer
      exact hbuf _ _

/-- Such a relation holds across the row loop of `move_terminal_to_buffer`. -/
theorem move_rows_rel (R : term_T → term_T → Prop)
    (hrefl : ∀ t, R t t) (htrans : ∀ a b c, R a b → R b c → R a c)
    (hbuf : ∀ t b, R t { t with tl_buffer := b })
    (hpush : ∀ t l, sb_line_inv l → R t { t with tl_scrollback := t.tl_scrollback ++ [l] })
    (vt : VTerm) (u : Uninit) :
    ∀ (rows : List Nat) (st st1 : MoveState),
      move_rows vt u rows st = some st1 → R st.term st1.term := by
  intro rows
  induction rows with
  | nil =>
    intro st st1 h
    simp only [move_rows, Option.some.injEq] at h
    rw [← h]
    exact hrefl _
  | cons row rows ih =>
    intro st st1 h
    cases hr : move_row vt u st row with
    | none => simp [move_rows, hr] at h
    | some st0 =>
      rw [move_rows_cons vt u row rows st st0 hr] at h
      exact htrans _ _ _ (move_row_rel R hrefl htrans hbuf hpush vt u row st st0 hr)
        (ih st0 st1 h)

/-- Such a relation, when it also holds across a change of the default colour,
holds across `move_terminal_to_buffer`. -/
theorem move_terminal_to_buffer_rel (R : term_T → term_T → Prop)
    (hrefl : ∀ t, R t t) (htrans : ∀ a b c, R a b → R b c → R a c)
    (hbuf : ∀ t b, R t { t with tl_buffer := b })
    (hpush : ∀ t l, sb_line_inv l → R t { t with tl_scrollback := t.tl_scrollback ++ [l] })
    (hcol : ∀ t d, R t { t with tl_default_color := d })
    (u : Uninit) (term : term_T) (wins : List win_T) (t1 : term_T) (w1 : List win_T)
    (h : move_terminal_to_buffer u term wins = some (t1, w1)) : R term t1 := by
  cases hvt : term.tl_vterm with
  | none =>
    unfold move_terminal_to_buffer at h
    rw [hvt] at h
    simp only [Option.some.injEq, Prod.mk.injEq] at h
    rw [← h.1]
    exact hrefl _
  | some vt =>
    cases hm : move_rows vt u (List.range term.tl_rows.toNat)
        ⟨term, 0, term.tl_default_color, term.tl_default_color, u.cell⟩ with
    | none =>
      unfold move_terminal_to_buffer at h
      rw [hvt] at h
      simp only [hm] at h
      exact absurd h (by simp)
    | some st =>
      rw [move_terminal_to_buffer_live u term wins vt st hvt hm] at h
      simp only [Option.some.injEq, Prod.mk.injEq] at h
      rw [← h.1]
      exact htrans _ _ _ (move_rows_rel R hrefl htrans hbuf hpush vt u _ _ _ hm) (hcol _ _)
/-! ## Dump/Diff codec: what the reader does to the terminal -/

theorem read_color_term (is_bg : Bool) (st : DumpRead) :
    (read_color is_bg st).term = st.term := by
  unfold read_color
  by_cases h1 : st.c = 38
  · rw [if_pos h1]; rfl
  · rw [if_neg h1]
    by_cases h2 : st.c = 35
    · rw [if_pos h2]
      simp only
      by_cases h3 : isdigit (read_next (read_next (read_next (read_next (read_next
          (read_next (read_next st))))))).c = true
      · simp only [h3, if_true]; rfl
      · simp only [h3, if_false]; rfl
    · rw [if_neg h2]; rfl

theorem read_attrs_term (st : DumpRead) : (read_attrs st).term = st.term := by
  unfold read_attrs
  simp only [read_color_term]
  split_ifs <;> rfl

theorem read_cell_term (start_row : Int) (st : DumpRead) :
    (read_cell start_row st).term = st.term := by
  unfold read_cell
  simp only
  split_ifs <;> first | rfl | (simp only [read_attrs_term]; done) | (simp only [read_attrs_term]; rfl)

theorem read_repeat_term (prev_char : List Nat) :
    ∀ (n : Nat) (st : DumpRead), (read_repeat prev_char n st).term = st.term := by
  intro n
  induction n with
  | zero => intro st; rfl
  | succ n ih => intro st; rw [read_repeat, ih]

/-- The terminal after the branch of the reader for a newline: one scrollback
line, made of the cells read in the row, and one text line are appended. -/
theorem read_newline_term (st : DumpRead) :
    (read_newline st).term =
      { st.term with
        tl_scrollback := st.term.tl_scrollback ++
          [⟨(st.ga_cell.length : Int), if st.ga_cell.isEmpty then none else some st.ga_cell,
            st.term.tl_default_color⟩],
        tl_buffer := { st.term.tl_buffer with
          b_ml := (ml_append st.term.tl_buffer.b_ml st.term.tl_buffer.b_ml.ml_line_count
            (c_string (if st.ga_text_data = false then st.ga_text ++ CORRUPT
                       else st.ga_text))).2 } } := by
  unfold read_newline
  by_cases h : st.ga_text_data = false
  · simp only [h, if_true]
    rfl
  · simp only [h, if_false]
    rfl

/-- A relation between terminals that holds across the addition of a scrollback
line, made of a cell array and its length, together with a text line, holds
across one iteration of the reader. -/
theorem read_dump_step_rel (R : term_T → term_T → Prop) (hrefl : ∀ t, R t t)
    (hline : ∀ (t : term_T) (cells : List cellattr_T) (text : List Nat),
      R t { t with
        tl_scrollback := t.tl_scrollback ++
          [⟨(cells.length : Int), if cells.isEmpty then none else some cells,
            t.tl_default_color⟩],
        tl_buffer := { t.tl_buffer with
          b_ml := (ml_append t.tl_buffer.b_ml t.tl_buffer.b_ml.ml_line_count text).2 } })
    (start_row : Int) (st st1 : DumpRead) (h : read_dump_step start_row st = some st1) :
    R st.term st1.term := by
  unfold read_dump_step at h
  split_ifs at h with h1 h2 h3 h4
  · simp only [Option.some.injEq] at h
    rw [← h, read_newline_term]
    exact hline _ _ _
  · simp only [Option.some.injEq] at h
    rw [← h, read_cell_term]
    exact hrefl _
  · split at h
    · simp only [Option.some.injEq] at h
      rw [← h]
      exact hrefl _
    · simp only [Option.some.injEq] at h
      rw [← h, read_repeat_term]
      exact hrefl _
  · simp only [Option.some.injEq] at h
    rw [← h]
    exact hrefl _

/-- Such a relation holds across the loop of the reader. -/
theorem read_dump_loop_rel (R : term_T → term_T → Prop) (hrefl : ∀ t, R t t)
    (htrans : ∀ a b c, R a b → R b c → R a c)
    (hline : ∀ (t : term_T) (cells : List cellattr_T) (text : List Nat),
      R t { t with
        tl_scrollback := t.tl_scrollback ++
          [⟨(cells.length : Int), if cells.isEmpty then none else some cells,
            t.tl_default_color⟩],
        tl_buffer := { t.tl_buffer with
          b_ml := (ml_append t.tl_buffer.b_ml t.tl_buffer.b_ml.ml_line_count text).2 } })
    (start_row : Int) :
    ∀ (fuel : Nat) (st st1 : DumpRead), read_dump_loop start_row fuel st = some st1 →
      R st.term st1.term := by
  intro fuel
  induction fuel with
  | zero => intro st st1 h; simp [read_dump_loop] at h
  | succ fuel ih =>
    intro st st1 h
    unfold read_dump_loop at h
    cases hs : read_dump_step start_row st with
    | none =>
      rw [hs] at h
      simp only [Option.some.injEq] at h
      rw [← h]
      exact hrefl _
    | some s =>
      rw [hs] at h
      exact htrans _ _ _ (read_dump_step_rel R hrefl hline start_row st s hs) (ih s st1 h)

/-- Such a relation, when it also holds across the addition of a text line
alone, holds across `read_dump_file`. -/
theorem read_dump_file_rel (R : term_T → term_T → Prop) (hrefl : ∀ t, R t t)
    (htrans : ∀ a b c, R a b → R b c → R a c)
    (hline : ∀ (t : term_T) (cells : List cellattr_T) (text : List Nat),
      R t { t with
        tl_scrollback := t.tl_scrollback ++
          [⟨(cells.length : Int), if cells.isEmpty then none else some cells,
            t.tl_default_color⟩],
        tl_buffer := { t.tl_buffer with
          b_ml := (ml_append t.tl_buffer.b_ml t.tl_buffer.b_ml.ml_line_count text).2 } })
    (htail : ∀ (t : term_T) (text : List Nat),
      R t { t with tl_buffer := { t.tl_buffer with
          b_ml := (ml_append t.tl_buffer.b_ml t.tl_buffer.b_ml.ml_line_count text).2 } })
    (fuel : Nat) (fd : List Nat) (term : term_T) (r : Int × VTermPos × term_T)
    (h : read_dump_file fuel fd term = some r) : R term r.2.2 := by
  unfold read_dump_file at h
  simp only at h
  split at h
  · exact absurd h (by simp)
  · next st hst =>
    simp only [Option.some.injEq] at h
    rw [← h]
    have h1 := read_dump_loop_rel R hrefl htrans hline _ fuel _ st hst
    simp only at h1
    split_ifs
    · exact htrans _ _ _ h1 (htail _ _)
    · exact h1
/-- The loop that stores the cells of a row in `handle_pushline` keeps the
length of the array. -/
theorem pushline_store_cols_length (cells : List VTermScreenCell) (a : PushAlloc)
    (len : Nat) :
    ∀ (fuel col : Nat) (p : List cellattr_T) (ga : List Nat)
      (r : List cellattr_T × List Nat),
      pushline_store_cols cells a len fuel col p ga = some r → r.1.length = p.length := by
  intro fuel
  induction fuel with
  | zero =>
    intro col p ga r h
    unfold pushline_store_cols at h
    split_ifs at h
    simp only [Option.some.injEq] at h
    rw [← h]
  | succ fuel ih =>
    intro col p ga r h
    unfold pushline_store_cols at h
    split_ifs at h with hc ht
    · simp only [Option.some.injEq] at h
      rw [← h]
    · have := ih _ _ _ _ h
      simpa using this
    · simp only [Option.some.injEq] at h
      rw [← h]

/-- The line invariant holds for every entry of the store after
`handle_pushline`, whatever the outcome of its allocations. -/
theorem handle_pushline_line_inv (u : Uninit) (a : PushAlloc) (cols : Int)
    (cells : List VTermScreenCell) (term t1 : term_T)
    (h0 : ∀ l ∈ term.tl_scrollback, sb_line_inv l)
    (h : handle_pushline u a cols cells term = some t1) :
    ∀ l ∈ t1.tl_scrollback, sb_line_inv l := by
  unfold handle_pushline at h
  by_cases hg : a.sb_grow = true
  · rw [if_pos hg] at h
    simp only at h
    generalize (List.range cols.toNat).foldl (pushline_scan_step cells)
      ⟨0, term.tl_default_color, VTermScreenCell.zero⟩ = scan at h
    by_cases hc : scan.len > 0 ∧ a.cells = true
    · rw [if_pos hc] at h
      cases hs : pushline_store_cols cells a scan.len scan.len 0
          (List.replicate scan.len u.attr) [] with
      | none => rw [hs] at h; exact absurd h (by simp)
      | some r =>
        obtain ⟨p, ga⟩ := r
        have hlen := pushline_store_cols_length cells a scan.len _ _ _ _ _ hs
        simp only [List.length_replicate] at hlen
        rw [hs] at h
        simp only [Option.some.injEq] at h
        rw [← h]
        intro l hl
        simp only [add_scrollback_line_to_buffer, List.mem_append, List.mem_singleton] at hl
        rcases hl with hl | hl
        · exact h0 l hl
        · rw [hl]
          refine ⟨fun cs hcs => ?_, fun hz => ?_⟩
          · simp only [Option.some.injEq] at hcs
            rw [← hcs, hlen]
          · have h1 : (scan.len : Int) = 0 := hz
            omega
    · rw [if_neg hc] at h
      simp only [Option.some.injEq] at h
      rw [← h]
      intro l hl
      simp only [add_scrollback_line_to_buffer, List.mem_append, List.mem_singleton] at hl
      rcases hl with hl | hl
      · exact h0 l hl
      · rw [hl]
        exact ⟨fun cs hcs => absurd hcs (by simp), fun _ => rfl⟩
  · rw [if_neg hg] at h
    simp only [Option.some.injEq] at h
    rw [← h]
    exact h0

/-- The shift loop of `add_empty_scrollback` keeps the line invariant of the
slots of the array. -/
theorem add_empty_scrollback_shift_inv :
    ∀ (n : Nat) (a : List sb_line_T) (line : Nat), (∀ l ∈ a, sb_line_inv l) →
      ∀ l ∈ (add_empty_scrollback_shift n a line).1, sb_line_inv l := by
  intro n
  induction n with
  | zero => intro a line h; exact h
  | succ n ih =>
    intro a line h
    unfold add_empty_scrollback_shift
    apply ih
    intro l hl
    rcases List.mem_or_eq_of_mem_set hl with hl | hl
    · exact h l hl
    · rw [hl, List.getD_eq_getElem?_getD]
      cases hg : a[line - 1]? with
      | none => exact ⟨fun _ hc => absurd hc (by simp), fun _ => rfl⟩
      | some x => exact h x (List.getElem?_mem hg)

/-- The line invariant holds for every entry of the store after
`add_empty_scrollback`, at the end or at a position. -/
theorem add_empty_scrollback_line_inv (term : term_T) (fill : cellattr_T) (lnum : Int)
    (h0 : ∀ l ∈ term.tl_scrollback, sb_line_inv l) :
    ∀ l ∈ (add_empty_scrollback term fill lnum).2.tl_scrollback, sb_line_inv l := by
  unfold add_empty_scrollback
  simp only
  have ha : ∀ l ∈ term.tl_scrollback ++ [(default : sb_line_T)], sb_line_inv l := by
    intro l hl
    rcases List.mem_append.mp hl with hl | hl
    · exact h0 l hl
    · rw [List.mem_singleton.mp hl]
      exact ⟨fun _ hc => absurd hc (by simp), fun _ => rfl⟩
  intro l hl
  rcases List.mem_or_eq_of_mem_set hl with hl | hl
  · split_ifs at hl
    · exact add_empty_scrollback_shift_inv _ _ _ ha l hl
    · exact ha l hl
  · rw [hl]
    exact sb_line_inv_empty fill

/-- The line that the reader appends for a row satisfies the line invariant. -/
theorem sb_line_inv_of_cells (cells : List cellattr_T) (fill : cellattr_T) :
    sb_line_inv ⟨(cells.length : Int), if cells.isEmpty then none else some cells, fill⟩ := by
  cases cells with
  | nil => exact ⟨fun _ hc => absurd hc (by simp), fun _ => rfl⟩
  | cons c cs =>
    refine ⟨fun x hx => ?_, fun hz => ?_⟩
    · simp only [List.isEmpty_cons, Bool.false_eq_true, if_false, Option.some.injEq] at hx
      rw [← hx]
    · have h1 : (((c :: cs).length : Nat) : Int) = 0 := hz
      simp only [List.length_cons] at h1
      omega

/-- The line invariant holds for every entry of the store at every iteration of
the loop of the reader. -/
theorem read_dump_run_line_inv (start_row : Int) :
    ∀ (n : Nat) (st : DumpRead), (∀ l ∈ st.term.tl_scrollback, sb_line_inv l) →
      ∀ l ∈ (read_dump_run start_row n st).term.tl_scrollback, sb_line_inv l := by
  intro n
  induction n with
  | zero => intro st h; exact h
  | succ n ih =>
    intro st h
    unfold read_dump_run
    cases hs : read_dump_step start_row st with
    | none => exact h
    | some s =>
      simp only
      apply ih
      exact read_dump_step_rel
        (fun t t1 => (∀ l ∈ t.tl_scrollback, sb_line_inv l) →
          ∀ l ∈ t1.tl_scrollback, sb_line_inv l)
        (fun _ h => h)
        (fun t cells _ h l hl => by
          rcases List.mem_append.mp hl with hl | hl
          · exact h l hl
          · rw [List.mem_singleton.mp hl]
            exact sb_line_inv_of_cells cells _)
        start_row st s hs h

/-- C11: every scrollback line created by `handle_pushline`,
`move_terminal_to_buffer`, `add_empty_scrollback` or `read_dump_file` satisfies
the line invariant (when `sb_cells` is not NULL it holds exactly `sb_cols` cell
attributes, and `sb_cols == 0` implies `sb_cells == NULL`): a store whose
entries satisfy it has only such entries after any sequence of calls of the
four functions, and, inside `read_dump_file`, after any number of iterations
of its loop. -/
theorem sb_ops_run_line_inv :
    (∀ (ops : List SbOp) (term term1 : term_T),
      (∀ l ∈ term.tl_scrollback, sb_line_inv l) → sb_ops_run ops term = some term1 →
      ∀ l ∈ term1.tl_scrollback, sb_line_inv l) ∧
    (∀ (start_row : Int) (n : Nat) (st : DumpRead),
      (∀ l ∈ st.term.tl_scrollback, sb_line_inv l) →
      ∀ l ∈ (read_dump_run start_row n st).term.tl_scrollback, sb_line_inv l) := by
  refine ⟨?_, read_dump_run_line_inv⟩
  intro ops
  induction ops with
  | nil =>
    intro term term1 h0 h
    simp only [sb_ops_run, Option.some.injEq] at h
    rw [← h]
    exact h0
  | cons op ops ih =>
    intro term term1 h0 h
    unfold sb_ops_run at h
    cases hop : sb_op_run op term with
    | none => rw [hop] at h; exact absurd h (by simp)
    | some t =>
      rw [hop] at h
      refine ih t term1 ?_ h
      cases op with
      | pushline u a cols cells => exact handle_pushline_line_inv u a cols cells term t h0 hop
      | move u wins =>
        simp only [sb_op_run, Option.map_eq_some'] at hop
        obtain ⟨r, hr, hrt⟩ := hop
        rw [← hrt]
        exact move_terminal_to_buffer_rel
          (fun t t1 => (∀ l ∈ t.tl_scrollback, sb_line_inv l) →
            ∀ l ∈ t1.tl_scrollback, sb_line_inv l)
          (fun _ h => h) (fun _ _ _ h1 h2 h => h2 (h1 h)) (fun _ _ h => h)
          (fun t l hinv h x hx => by
            rcases List.mem_append.mp hx with hx | hx
            · exact h x hx
            · rw [List.mem_singleton.mp hx]
              exact hinv)
          (fun _ _ h => h) u term wins r.1 r.2 hr h0
      | add_empty fill lnum =>
        simp only [sb_op_run, Option.some.injEq] at hop
        rw [← hop]
        exact add_empty_scrollback_line_inv term fill lnum h0
      | read_dump fuel fd =>
        simp only [sb_op_run, Option.map_eq_some'] at hop
        obtain ⟨r, hr, hrt⟩ := hop
        rw [← hrt]
        exact read_dump_file_rel
          (fun t t1 => (∀ l ∈ t.tl_scrollback, sb_line_inv l) →
            ∀ l ∈ t1.tl_scrollback, sb_line_inv l)
          (fun _ h => h) (fun _ _ _ h1 h2 h => h2 (h1 h))
          (fun t cells _ h l hl => by
            rcases List.mem_append.mp hl with hl | hl
            · exact h l hl
            · rw [List.mem_singleton.mp hl]
              exact sb_line_inv_of_cells cells _)
          (fun _ _ h => h) fuel fd term r hr h0

/-- A witness for `sb_ops_run_line_inv`: on the fresh terminal of a dump, the
dump of the spec is read, an empty line is added with `lnum` 1, a row is pushed
by the engine and an empty line is added at the end; the four entries of the
store satisfy the line invariant. -/
theorem sb_ops_run_line_inv_witness :
    ∃ t, sb_ops_run [SbOp.read_dump 100 scenario_dump_ab, SbOp.add_empty cellattr_T.zero 1,
        scenario_pushed_row, SbOp.add_empty cellattr_T.zero 0] scenario_term_load = some t ∧
      t.tl_scrollback.map (fun l => l.sb_cols) = [2, 0, 1, 0] ∧
      ∀ l ∈ t.tl_scrollback, sb_line_inv l :=
  ⟨_, rfl, by decide,
    sb_ops_run_line_inv.1 [SbOp.read_dump 100 scenario_dump_ab,
      SbOp.add_empty cellattr_T.zero 1, scenario_pushed_row,
      SbOp.add_empty cellattr_T.zero 0] scenario_term_load _
      (fun l hl => absurd hl (List.not_mem_nil l)) rfl⟩

/-! ## Session lifecycle: the channel is closed -/

theorem unread_fgetc (fd : List Nat) :
    unread (fgetc fd).1 (fgetc fd).2 = fd.map Int.ofNat := by
  cases fd with
  | nil => rfl
  | cons b rest =>
    have : ((b : Nat) : Int) ≠ -1 := by omega
    simp [fgetc, unread, this]

theorem map_suffix_unread (c : Int) (fd : List Nat) :
    fd.map Int.ofNat <:+ unread c fd :=
  List.suffix_append _ _

theorem unread_length_lt (c : Int) (fd : List Nat) (h : c ≠ -1) :
    (fd.map Int.ofNat).length < (unread c fd).length := by
  simp [unread, h]

theorem read_glyph_suffix :
    ∀ (fd acc : List Nat),
      unread (read_glyph fd acc).1 (read_glyph fd acc).2.1 <:+ fd.map Int.ofNat := by
  intro fd
  induction fd with
  | nil => intro acc; exact List.suffix_refl _
  | cons b rest ih =>
    intro acc
    unfold read_glyph
    split_ifs with h
    · have : ((b : Nat) : Int) ≠ -1 := by omega
      simp only [unread, this, if_false, List.map_cons]
      exact List.suffix_refl _
    · exact List.IsSuffix.trans (ih _) (List.suffix_cons _ _)

theorem read_number_suffix :
    ∀ (fd : List Nat) (c n : Int),
      unread (read_number fd c n).2.1 (read_number fd c n).2.2 <:+ unread c fd := by
  intro fd
  induction fd with
  | nil =>
    intro c n
    unfold read_number
    split_ifs with h
    · simp [unread]
    · exact List.suffix_refl _
  | cons b rest ih =>
    intro c n
    unfold read_number
    split_ifs with h
    · refine List.IsSuffix.trans (ih _ _) ?_
      have hb : ((b : Nat) : Int) ≠ -1 := by omega
      have : unread (b : Int) rest = (b :: rest).map Int.ofNat := by
        simp [unread, hb]
      rw [this]
      exact map_suffix_unread _ _
    · exact List.suffix_refl _

theorem read_count_suffix :
    ∀ (fd : List Nat) (n : Nat),
      unread (read_count fd n).2.1 (read_count fd n).2.2 <:+ fd.map Int.ofNat := by
  intro fd
  induction fd with
  | nil => intro n; exact List.suffix_refl _
  | cons b rest ih =>
    intro n
    unfold read_count
    split_ifs with h
    · exact List.IsSuffix.trans (ih _) (List.suffix_cons _ _)
    · have : ((b : Nat) : Int) ≠ -1 := by omega
      simp only [unread, this, if_false, List.map_cons]
      exact List.suffix_refl _

theorem unread_read_next (st : DumpRead) :
    unread (read_next st).c (read_next st).fd = st.fd.map Int.ofNat :=
  unread_fgetc st.fd

theorem read_next_suffix (st : DumpRead) :
    unread (read_next st).c (read_next st).fd <:+ unread st.c st.fd := by
  rw [unread_read_next]
  exact map_suffix_unread _ _

theorem read_color_suffix (is_bg : Bool) (st : DumpRead) :
    unread (read_color is_bg st).c (read_color is_bg st).fd <:+ unread st.c st.fd := by
  unfold read_color
  by_cases h1 : st.c = 38
  · rw [if_pos h1]; exact read_next_suffix st
  · rw [if_neg h1]
    by_cases h2 : st.c = 35
    · rw [if_pos h2]
      simp only
      have h7 : unread (read_next (read_next (read_next (read_next (read_next
          (read_next (read_next st))))))).c (read_next (read_next (read_next (read_next
          (read_next (read_next (read_next st))))))).fd <:+ unread st.c st.fd :=
        (read_next_suffix _).trans ((read_next_suffix _).trans ((read_next_suffix _).trans
          ((read_next_suffix _).trans ((read_next_suffix _).trans
            ((read_next_suffix _).trans (read_next_suffix _))))))
      by_cases h3 : isdigit (read_next (read_next (read_next (read_next (read_next
          (read_next (read_next st))))))).c = true
      · simp only [h3, if_true]
        exact (read_number_suffix _ _ _).trans h7
      · simp only [h3, if_false]
        exact (read_number_suffix _ _ _).trans h7
    · rw [if_neg h2]; exact List.suffix_refl _

theorem read_attrs_suffix (st : DumpRead) :
    unread (read_attrs st).c (read_attrs st).fd <:+ st.fd.map Int.ofNat := by
  unfold read_attrs
  simp only
  obtain ⟨s1, hs1⟩ : ∃ s1 : DumpRead, s1 = read_next { st with cell := { st.cell with
      width := if st.c = 43 then 1 else 2 } } := ⟨_, rfl⟩
  have h1 : unread s1.c s1.fd = st.fd.map Int.ofNat := by
    rw [hs1]; exact unread_fgetc st.fd
  rw [← hs1, ← h1]
  refine (read_color_suffix _ _).trans ((read_color_suffix _ _).trans ?_)
  by_cases h2 : s1.c = 38
  · rw [if_pos h2]; exact read_next_suffix _
  · rw [if_neg h2]
    by_cases h3 : isdigit s1.c = true
    · rw [if_pos h3]; exact read_number_suffix _ _ _
    · rw [if_neg h3]; exact List.suffix_refl _

/-- The stages of the branch of the reader for a cell. -/
theorem read_cell_stages (start_row : Int) (st : DumpRead) :
    ∃ s1 s2 s3 s4 s5 s6 : DumpRead,
      s1 = (if st.c = 62 then
          { (if st.cursor_pos.row ≠ -1 then dump_is_corrupt st else st) with
            cursor_pos := { row := (st.term.tl_scrollback.length : Int) - start_row,
                            col := (st.ga_cell.length : Int) } }
        else st) ∧
      s2 = read_next s1 ∧
      s3 = (if s2.c ≠ -1 then
          { s2 with ga_text := s2.ga_text ++ [s2.c.toNat], ga_text_data := true }
        else s2) ∧
      s4 = { s3 with c := (read_glyph s3.fd []).1, fd := (read_glyph s3.fd []).2.1,
                     ga_text := s3.ga_text ++ (read_glyph s3.fd []).2.2,
                     ga_text_data := s3.ga_text_data || !(read_glyph s3.fd []).2.2.isEmpty } ∧
      s5 = (if s4.ga_text_data then
          { s4 with prev_char := some (s4.ga_text.drop st.ga_text.length) } else s4) ∧
      s6 = (if s5.c = 64 ∨ s5.c = 124 ∨ s5.c = 62 ∨ s5.c = 10 then s5
        else if s5.c = 43 ∨ s5.c = 42 then read_attrs s5
        else dump_is_corrupt s5) ∧
      read_cell start_row st = { s6 with ga_cell := s6.ga_cell ++ [s6.cell] } :=
  ⟨_, _, _, _, _, _, rfl, rfl, rfl, rfl, rfl, rfl, rfl⟩

theorem read_cell_suffix (start_row : Int) (st : DumpRead) :
    unread (read_cell start_row st).c (read_cell start_row st).fd
      <:+ st.fd.map Int.ofNat := by
  obtain ⟨s1, s2, s3, s4, s5, s6, h1, h2, h3, h4, h5, h6, h⟩ := read_cell_stages start_row st
  have e1 : s1.fd = st.fd := by rw [h1]; split_ifs <;> rfl
  have e2 : unread s2.c s2.fd = st.fd.map Int.ofNat := by
    rw [h2, unread_read_next, e1]
  have e3 : s3.c = s2.c ∧ s3.fd = s2.fd := by rw [h3]; split_ifs <;> exact ⟨rfl, rfl⟩
  have e4 : unread s4.c s4.fd <:+ st.fd.map Int.ofNat := by
    rw [h4]
    refine (read_glyph_suffix s3.fd []).trans ?_
    rw [← e2, ← e3.1, ← e3.2]
    exact map_suffix_unread _ _
  have e5 : s5.c = s4.c ∧ s5.fd = s4.fd := by rw [h5]; split_ifs <;> exact ⟨rfl, rfl⟩
  have e6 : unread s6.c s6.fd <:+ unread s5.c s5.fd := by
    rw [h6]
    split_ifs
    · exact List.suffix_refl _
    · exact (read_attrs_suffix s5).trans (map_suffix_unread _ _)
    · exact List.suffix_refl _
  rw [h]
  rw [e5.1, e5.2] at e6
  exact e6.trans e4

theorem read_repeat_c_fd (prev_char : List Nat) :
    ∀ (n : Nat) (st : DumpRead),
      (read_repeat prev_char n st).c = st.c ∧ (read_repeat prev_char n st).fd = st.fd := by
  intro n
  induction n with
  | zero => intro st; exact ⟨rfl, rfl⟩
  | succ n ih => intro st; rw [read_repeat]; exact ih _

theorem unread_read_newline (st : DumpRead) :
    unread (read_newline st).c (read_newline st).fd = st.fd.map Int.ofNat := by
  unfold read_newline
  simp only
  rw [unread_read_next]
  split_ifs <;> rfl

/-- One iteration of the reader handles at least one byte, unless it is at `@`
before any cell was read. -/
theorem read_dump_step_unread (start_row : Int) (st st1 : DumpRead)
    (h : read_dump_step start_row st = some st1) :
    unread st1.c st1.fd <:+ unread st.c st.fd ∧
    (¬ (st.c = 64 ∧ st.prev_char = none) →
      (unread st1.c st1.fd).length < (unread st.c st.fd).length) := by
  unfold read_dump_step at h
  by_cases h0 : st.c = -1
  · rw [if_pos h0] at h; exact absurd h (by simp)
  · rw [if_neg h0] at h
    have hlt := unread_length_lt st.c st.fd h0
    have key : ∀ s : DumpRead, unread s.c s.fd <:+ st.fd.map Int.ofNat →
        unread s.c s.fd <:+ unread st.c st.fd ∧
        (¬ (st.c = 64 ∧ st.prev_char = none) →
          (unread s.c s.fd).length < (unread st.c st.fd).length) :=
      fun s hs => ⟨hs.trans (map_suffix_unread _ _),
        fun _ => lt_of_le_of_lt hs.length_le hlt⟩
    split_ifs at h with h1 h2 h3
    · simp only [Option.some.injEq] at h
      rw [← h]
      exact key _ (by rw [unread_read_newline])
    · simp only [Option.some.injEq] at h
      rw [← h]
      exact key _ (read_cell_suffix start_row st)
    · split at h
      · next hp =>
        simp only [Option.some.injEq] at h
        rw [← h]
        exact ⟨List.suffix_refl _, fun hn => absurd ⟨h3, hp⟩ hn⟩
      · next pc hp =>
        simp only [Option.some.injEq] at h
        rw [← h]
        refine key _ ?_
        rw [(read_repeat_c_fd pc _ _).1, (read_repeat_c_fd pc _ _).2]
        exact read_count_suffix st.fd 0
    · simp only [Option.some.injEq] at h
      rw [← h]
      exact key _ (by
        have := unread_read_next (dump_is_corrupt st)
        rw [this]; exact List.suffix_refl _)

theorem read_dump_step_none (start_row : Int) (st : DumpRead) :
    read_dump_step start_row st = none ↔ st.c = -1 := by
  unfold read_dump_step
  constructor
  · intro h
    by_contra h0
    rw [if_neg h0] at h
    split_ifs at h
    split at h <;> exact absurd h (by simp)
  · intro h; rw [if_pos h]

theorem read_dump_run_step (start_row : Int) (n : Nat) (st s : DumpRead)
    (h : read_dump_step start_row st = some s) :
    read_dump_run start_row (n + 1) st = read_dump_run start_row n s := by
  simp only [read_dump_run, h]

theorem read_dump_run_eof (start_row : Int) :
    ∀ (n : Nat) (st : DumpRead), st.c = -1 → read_dump_run start_row n st = st := by
  intro n
  cases n with
  | zero => intro st _; rfl
  | succ n =>
    intro st h
    simp only [read_dump_run, (read_dump_step_none start_row st).mpr h]

/-- The bytes not yet handled after some iterations are a suffix of those not
yet handled before. -/
theorem read_dump_run_unread (start_row : Int) :
    ∀ (n : Nat) (st : DumpRead),
      unread (read_dump_run start_row n st).c (read_dump_run start_row n st).fd
        <:+ unread st.c st.fd := by
  intro n
  induction n with
  | zero => intro st; exact List.suffix_refl _
  | succ n ih =>
    intro st
    cases hs : read_dump_step start_row st with
    | none => simp only [read_dump_run, hs]; exact List.suffix_refl _
    | some s =>
      rw [read_dump_run_step start_row n st s hs]
      exact (ih s).trans (read_dump_step_unread start_row st s hs).1

/-- The loop of the reader is left within as many iterations as there are bytes
not yet handled, plus one, provided no `@` is met at the start of a cell before
any cell was read. -/
theorem read_dump_loop_terminates (start_row : Int) :
    ∀ (n : Nat) (st : DumpRead), (unread st.c st.fd).length < n →
      (∀ k, (read_dump_run start_row k st).c = 64 →
        (read_dump_run start_row k st).prev_char ≠ none) →
      ∃ st1, read_dump_loop start_row n st = some st1 ∧ st1.c = -1 ∧
        ∃ k, st1 = read_dump_run start_row k st := by
  intro n
  induction n with
  | zero => intro st h _; exact absurd h (Nat.not_lt_zero _)
  | succ n ih =>
    intro st hlen hat
    cases hs : read_dump_step start_row st with
    | none =>
      refine ⟨st, by simp only [read_dump_loop, hs], (read_dump_step_none _ _).mp hs, 0, rfl⟩
    | some s =>
      have h0 := (read_dump_step_unread start_row st s hs).2
        (fun h => hat 0 h.1 h.2)
      obtain ⟨st1, h1, h2, k, h3⟩ := ih s (by omega)
        (fun k => by
          have := hat (k + 1)
          rwa [read_dump_run_step start_row k st s hs] at this)
      refine ⟨st1, by simp only [read_dump_loop, hs]; exact h1, h2, k + 1, ?_⟩
      rw [read_dump_run_step start_row k st s hs]
      exact h3

/-- The text of the row grows at its end in the branches of the reader. -/
theorem read_color_text (is_bg : Bool) (st : DumpRead) :
    st.ga_text <+: (read_color is_bg st).ga_text := by
  unfold read_color
  by_cases h1 : st.c = 38
  · rw [if_pos h1]; exact List.prefix_refl _
  · rw [if_neg h1]
    by_cases h2 : st.c = 35
    · rw [if_pos h2]
      simp only
      by_cases h3 : isdigit (read_next (read_next (read_next (read_next (read_next
          (read_next (read_next st))))))).c = true
      · simp only [h3, if_true]; exact List.prefix_refl _
      · simp only [h3, if_false]; exact List.prefix_append _ _
    · rw [if_neg h2]; exact List.prefix_append _ _

theorem read_attrs_text (st : DumpRead) : st.ga_text <+: (read_attrs st).ga_text := by
  unfold read_attrs
  simp only
  obtain ⟨s1, hs1⟩ : ∃ s1 : DumpRead, s1 = read_next { st with cell := { st.cell with
      width := if st.c = 43 then 1 else 2 } } := ⟨_, rfl⟩
  have ht : s1.ga_text = st.ga_text := by rw [hs1]; rfl
  rw [← hs1, ← ht]
  refine List.IsPrefix.trans ?_ (read_color_text _ _)
  refine List.IsPrefix.trans ?_ (read_color_text _ _)
  by_cases h2 : s1.c = 38
  · rw [if_pos h2]; exact List.prefix_refl _
  · rw [if_neg h2]
    by_cases h3 : isdigit s1.c = true
    · rw [if_pos h3]
    · rw [if_neg h3]; exact List.prefix_append _ _

theorem read_cell_text (start_row : Int) (st : DumpRead) :
    (if st.c = 62 ∧ st.cursor_pos.row ≠ -1 then st.ga_text ++ CORRUPT else st.ga_text)
      <+: (read_cell start_row st).ga_text := by
  obtain ⟨s1, s2, s3, s4, s5, s6, h1, h2, h3, h4, h5, h6, h⟩ := read_cell_stages start_row st
  have e1 : s1.ga_text =
      (if st.c = 62 ∧ st.cursor_pos.row ≠ -1 then st.ga_text ++ CORRUPT else st.ga_text) := by
    rw [h1]
    by_cases ha : st.c = 62
    · by_cases hb : st.cursor_pos.row ≠ -1
      · rw [if_pos ha, if_pos hb, if_pos ⟨ha, hb⟩]; rfl
      · rw [if_pos ha, if_neg hb, if_neg (fun h => hb h.2)]
    · rw [if_neg ha, if_neg (fun h => ha h.1)]
  have e2 : s2.ga_text = s1.ga_text := by rw [h2]; rfl
  have e3 : s2.ga_text <+: s3.ga_text := by
    rw [h3]; split_ifs
    · exact List.prefix_append _ _
    · exact List.prefix_refl _
  have e4 : s3.ga_text <+: s4.ga_text := by rw [h4]; exact List.prefix_append _ _
  have e5 : s5.ga_text = s4.ga_text := by rw [h5]; split_ifs <;> rfl
  have e6 : s5.ga_text <+: s6.ga_text := by
    rw [h6]; split_ifs
    · exact List.prefix_refl _
    · exact read_attrs_text _
    · exact List.prefix_append _ _
  rw [h, ← e1, ← e2]
  exact e3.trans (e4.trans (by rw [← e5]; exact e6))

/-- Reading a dump without `@` ends within as many iterations as it has bytes,
plus one. -/
theorem read_dump_file_returns (fd : List Nat) (term : term_T) (h : 64 ∉ fd) :
    ∃ r, read_dump_file (fd.length + 1) fd term = some r := by
  unfold read_dump_file
  simp only
  obtain ⟨st0, hst0⟩ : ∃ st0 : DumpRead, st0 =
      { c := (fgetc fd).1, fd := (fgetc fd).2, ga_text := [], ga_text_data := false,
        ga_cell := [], prev_char := none, attr := 0, cell := cellattr_T.zero, term := term,
        cursor_pos := ⟨-1, -1⟩, max_cells := 0 } := ⟨_, rfl⟩
  rw [← hst0]
  have hu : unread st0.c st0.fd = fd.map Int.ofNat := by
    rw [hst0]; exact unread_fgetc fd
  obtain ⟨st1, h1, -, -⟩ := read_dump_loop_terminates (term.tl_scrollback.length : Int)
    (fd.length + 1) st0 (by rw [hu, List.length_map]; exact Nat.lt_succ_self _)
    (fun k hk => by
      exfalso
      have hs := read_dump_run_unread (term.tl_scrollback.length : Int) k st0
      rw [hu] at hs
      have hm : (64 : Int) ∈ unread (read_dump_run (term.tl_scrollback.length : Int) k st0).c
          (read_dump_run (term.tl_scrollback.length : Int) k st0).fd := by
        rw [hk]
        simp [unread]
      have := hs.subset hm
      simp only [List.mem_map] at this
      obtain ⟨b, hb, hb64⟩ := this
      have : b = 64 := by
        have h1 : ((b : Nat) : Int) = 64 := hb64
        omega
      exact h (by subst this; exact hb))
  rw [h1]
  exact ⟨_, rfl⟩

/-- A newline right after `|` is the glyph of the cell.  In the dump with the
rows `>a>b`, `|` and `|c` the second `>` of the first row is marked: its text
is "aCORRUPTb".  The newline of the row `|` is read as the glyph of its cell,
so that row and the row `|c` are one line with two cells. -/
theorem read_dump_file_glyph_newline :
    ∃ t, read_dump_file 11 scenario_dump_second_cursor scenario_term_load
        = some (2, ⟨0, 1⟩, t) ∧
      t.tl_buffer.b_ml.ml_lines = [[], [97, 67, 79, 82, 82, 85, 80, 84, 98], [10, 99]] ∧
      t.tl_scrollback.map (fun l => l.sb_cols) = [2, 2] ∧
      (scenario_dump_second_cursor.filter (fun b => b = 10)).length = 3 :=
  ⟨_, rfl, by decide, by decide, by decide⟩

/-- The steps of the loop of `read_dump_file` at damaged input.  At a second
`>` cell after a cursor was recorded the cell is read and the text of the row
continues with "CORRUPT" right after what it held; at a byte at the start of a
cell that is none of `|`, `>`, `@`, newline the text of the row gets "CORRUPT"
at its end and the next byte is read.  Every newline that is met at the start
of a cell appends the text of the row as a text line, together with a
scrollback entry for the cells of the row.  The loop is left within as many
iterations as the dump has bytes, plus one, provided no `@` is met at the start
of a cell before any cell was read, which holds for a dump without `@`. -/
theorem read_dump_file_goes_on :
    (∀ (start_row : Int) (st : DumpRead), st.c = 62 → st.cursor_pos.row ≠ -1 →
      read_dump_step start_row st = some (read_cell start_row st) ∧
      (st.ga_text ++ CORRUPT) <+: (read_cell start_row st).ga_text) ∧
    (∀ (start_row : Int) (st : DumpRead),
      st.c ≠ -1 → st.c ≠ 10 → st.c ≠ 124 → st.c ≠ 62 → st.c ≠ 64 →
      read_dump_step start_row st = some (read_next (dump_is_corrupt st)) ∧
      (read_next (dump_is_corrupt st)).ga_text = st.ga_text ++ CORRUPT) ∧
    (∀ (start_row : Int) (st : DumpRead), st.c = 10 →
      ∃ st1, read_dump_step start_row st = some st1 ∧
        st1.term.tl_scrollback = st.term.tl_scrollback ++
          [⟨(st.ga_cell.length : Int), if st.ga_cell.isEmpty then none else some st.ga_cell,
            st.term.tl_default_color⟩] ∧
        st1.term.tl_buffer.b_ml.ml_lines = st.term.tl_buffer.b_ml.ml_lines ++
          [c_string (if st.ga_text_data = false then st.ga_text ++ CORRUPT
                     else st.ga_text)]) ∧
    (∀ (start_row : Int) (st : DumpRead),
      (∀ k, (read_dump_run start_row k st).c = 64 →
        (read_dump_run start_row k st).prev_char ≠ none) →
      ∃ st1, read_dump_loop start_row ((unread st.c st.fd).length + 1) st = some st1 ∧
        st1.c = -1) ∧
    (∀ (fd : List Nat) (term : term_T), 64 ∉ fd →
      ∃ r, read_dump_file (fd.length + 1) fd term = some r) := by
  refine ⟨?_, ?_, ?_, ?_, read_dump_file_returns⟩
  · intro start_row st hc hrow
    refine ⟨?_, ?_⟩
    · unfold read_dump_step
      rw [hc]
      rfl
    · have := read_cell_text start_row st
      rwa [if_pos ⟨hc, hrow⟩] at this
  · intro start_row st h1 h2 h3 h4 h5
    refine ⟨?_, rfl⟩
    unfold read_dump_step
    rw [if_neg h1, if_neg h2, if_neg (fun h => h.elim h3 h4), if_neg h5]
  · intro start_row st hc
    refine ⟨read_newline st, ?_, ?_, ?_⟩
    · unfold read_dump_step
      rw [hc]
      rfl
    · rw [read_newline_term]
    · rw [read_newline_term]
      simp only [ml_append_at_end]
  · intro start_row st hat
    obtain ⟨st1, h1, h2, -⟩ := read_dump_loop_terminates start_row
      ((unread st.c st.fd).length + 1) st (Nat.lt_succ_self _) hat
    exact ⟨st1, h1, h2⟩

/-- A witness for `read_dump_file_goes_on`: the dump of the rows `>a>b`, `|`
and `|c` has no `@`, and reading it returns. -/
theorem read_dump_file_goes_on_witness :
    ∃ r, read_dump_file (scenario_dump_second_cursor.length + 1) scenario_dump_second_cursor
      scenario_term_load = some r :=
  read_dump_file_goes_on.2.2.2.2 scenario_dump_second_cursor scenario_term_load (by decide)

/-! ## Dump/Diff codec: the layout of the buffer of a diff -/

theorem c_string_replicate (n b : Nat) (hb : b ≠ 0) :
    c_string (List.replicate n b) = List.replicate n b := by
  unfold c_string
  rw [List.takeWhile_eq_self_iff]
  intro x hx
  rw [List.eq_of_mem_replicate hx]
  simpa using hb

theorem ml_append_mid (ml : memline_T) (a b : List (List Nat)) (lnum : Int)
    (line : List Nat) (h : ml.ml_lines = a ++ b) (hl : lnum = (a.length : Int)) :
    (ml_append ml lnum line).2.ml_lines = a ++ [line] ++ b := by
  unfold ml_append memline_T.ml_line_count
  have hle : ¬ (lnum < 0 ∨ lnum > ((ml.ml_lines.length : Nat) : Int)) := by
    rw [h, List.length_append]
    omega
  rw [if_neg hle]
  have e : lnum.toNat = a.length := by omega
  simp only [e, h, List.take_left', List.drop_left']

theorem add_empty_scrollback_frame (term : term_T) (fill : cellattr_T) (lnum : Int) :
    (add_empty_scrollback term fill lnum).1 = OK ∧
    (add_empty_scrollback term fill lnum).2.tl_buffer = term.tl_buffer ∧
    (add_empty_scrollback term fill lnum).2.tl_top_diff_rows = term.tl_top_diff_rows ∧
    (add_empty_scrollback term fill lnum).2.tl_default_color = term.tl_default_color :=
  ⟨rfl, rfl, rfl, rfl⟩

/-- A row that `term_load_dump` adds goes into the text after line
`tl_top_diff_rows + lnum`. -/
theorem load_dump_add_row_lines (term : term_T) (lnum : Int) (textline : List Nat)
    (a b : List (List Nat)) (h : term.tl_buffer.b_ml.ml_lines = a ++ b)
    (hl : term.tl_top_diff_rows + lnum = (a.length : Int)) :
    (load_dump_add_row term lnum textline).tl_buffer.b_ml.ml_lines
      = a ++ [c_string textline] ++ b ∧
    (load_dump_add_row term lnum textline).tl_top_diff_rows = term.tl_top_diff_rows := by
  unfold load_dump_add_row
  simp only [(add_empty_scrollback_frame term term.tl_default_color term.tl_top_diff_rows).1,
    if_true]
  exact ⟨ml_append_mid _ a b _ _ h hl, rfl⟩

/-- The two rows of `=` that `term_load_dump` adds. -/
theorem load_dump_separators_lines (width : Nat) (term : term_T) :
    (load_dump_separators width term).tl_buffer.b_ml.ml_lines
      = term.tl_buffer.b_ml.ml_lines ++ [List.replicate width 61, List.replicate width 61] ∧
    (load_dump_separators width term).tl_top_diff_rows = term.tl_top_diff_rows := by
  unfold load_dump_separators
  simp only [add_empty_scrollback_tail, if_true, ml_append_at_end,
    c_string_replicate width 61 (by decide), List.append_assoc, List.singleton_append]
  exact ⟨trivial, trivial⟩

/-- What `read_dump_file` does to the text: it appends lines at the end, and it
leaves `tl_top_diff_rows` as it was. -/
theorem read_dump_file_lines (fuel : Nat) (fd : List Nat) (term : term_T)
    (r : Int × VTermPos × term_T) (h : read_dump_file fuel fd term = some r) :
    r.2.2.tl_top_diff_rows = term.tl_top_diff_rows ∧
    ∃ new, r.2.2.tl_buffer.b_ml.ml_lines = term.tl_buffer.b_ml.ml_lines ++ new :=
  read_dump_file_rel
    (fun t t1 => t1.tl_top_diff_rows = t.tl_top_diff_rows ∧
      ∃ new, t1.tl_buffer.b_ml.ml_lines = t.tl_buffer.b_ml.ml_lines ++ new)
    (fun _ => ⟨rfl, [], (List.append_nil _).symm⟩)
    (fun a b c h1 h2 => by
      obtain ⟨e1, n1, l1⟩ := h1
      obtain ⟨e2, n2, l2⟩ := h2
      exact ⟨e2.trans e1, n1 ++ n2, by rw [l2, l1, List.append_assoc]⟩)
    (fun t cells text => ⟨rfl, [text], by simp only [ml_append_at_end]⟩)
    (fun t text => ⟨rfl, [text], by simp only [ml_append_at_end]⟩)
    fuel fd term r h

/-- The loop over the bottom rows without top row in `term_load_dump` returns
and puts rows of `+` after the rows that are between the two rows of `=`. -/
theorem load_dump_bot_rows_lines (width : Nat) (L1 L2 : List (List Nat)) (sep : List Nat) :
    ∀ (fuel : Nat) (term : term_T) (M : List (List Nat)),
      term.tl_top_diff_rows = (L1.length : Int) →
      term.tl_buffer.b_ml.ml_lines = L1 ++ [sep] ++ M ++ [sep] ++ L2 →
      fuel = L2.length - M.length →
      ∃ t, load_dump_bot_rows width fuel term ((M.length : Int) + 1)
          ((L1.length : Int) + 2 + M.length) = some t ∧
        t.tl_buffer.b_ml.ml_lines = L1 ++ [sep] ++
          (M ++ List.replicate (L2.length - M.length) (List.replicate width 43))
          ++ [sep] ++ L2 ∧
        t.tl_top_diff_rows = (L1.length : Int) := by
  intro fuel
  induction fuel with
  | zero =>
    intro term M h1 h2 hf
    have hc : ¬ ((M.length : Int) + 1 + ((L1.length : Int) + 2 + M.length)
        ≤ term.tl_buffer.b_ml.ml_line_count) := by
      unfold memline_T.ml_line_count
      rw [h2]
      simp only [List.length_append, List.length_cons, List.length_nil]
      push_cast
      omega
    refine ⟨term, by unfold load_dump_bot_rows; rw [if_neg hc], ?_, h1⟩
    rw [h2, ← hf]
    simp
  | succ fuel ih =>
    intro term M h1 h2 hf
    have hc : (M.length : Int) + 1 + ((L1.length : Int) + 2 + M.length)
        ≤ term.tl_buffer.b_ml.ml_line_count := by
      unfold memline_T.ml_line_count
      rw [h2]
      simp only [List.length_append, List.length_cons, List.length_nil]
      push_cast
      omega
    have hrow := load_dump_add_row_lines term ((M.length : Int) + 1) (List.replicate width 43)
      (L1 ++ [sep] ++ M) ([sep] ++ L2) (by rw [h2]; simp only [List.append_assoc])
      (by rw [h1]; simp only [List.length_append, List.length_cons, List.length_nil]
          push_cast; omega)
    rw [c_string_replicate width 43 (by decide)] at hrow
    obtain ⟨t, e1, e2, e3⟩ := ih (load_dump_add_row term ((M.length : Int) + 1)
      (List.replicate width 43)) (M ++ [List.replicate width 43])
      (by rw [hrow.2, h1]) (by rw [hrow.1]; simp only [List.append_assoc])
      (by simp only [List.length_append, List.length_cons, List.length_nil]; omega)
    refine ⟨t, ?_, ?_, e3⟩
    · unfold load_dump_bot_rows
      rw [if_pos hc]
      have a1 : ((M ++ [List.replicate width 43]).length : Int) + 1
          = (M.length : Int) + 1 + 1 := by
        simp only [List.length_append, List.length_cons, List.length_nil]; push_cast; ring
      have a2 : (L1.length : Int) + 2 + ((M ++ [List.replicate width 43]).length : Nat)
          = (L1.length : Int) + 2 + M.length + 1 := by
        simp only [List.length_append, List.length_cons, List.length_nil]; push_cast; ring
      rw [a1, a2] at e1
      exact e1
    · rw [e2]
      have : L2.length - M.length = (L2.length - (M ++ [List.replicate width 43]).length) + 1 := by
        simp only [List.length_append, List.length_cons, List.length_nil]; omega
      rw [this, List.replicate_succ]
      simp only [List.append_assoc, List.singleton_append]

theorem getD_of_initial_segment {α : Type} (a b : List α) (h : a <+: b) (i : Nat) (d : α)
    (hi : i < a.length) : b.getD i d = a.getD i d := by
  obtain ⟨t, rfl⟩ := h
  rw [List.getD_append _ _ _ _ hi]

theorem diff_rest_cols_spec (utfc_ptr2len : List Nat → Nat) :
    ∀ (n : Nat) (p1 p2 textline : List Nat),
      textline <+: diff_rest_cols utfc_ptr2len n p1 p2 textline ∧
      (diff_rest_cols utfc_ptr2len n p1 p2 textline).length = textline.length + n ∧
      (∀ x ∈ diff_rest_cols utfc_ptr2len n p1 p2 textline,
        x ∈ textline ∨ x = 63 ∨ x = 43 ∨ x = 45) := by
  intro n
  induction n with
  | zero =>
    intro p1 p2 textline
    exact ⟨List.prefix_refl _, rfl, fun x hx => Or.inl hx⟩
  | succ n ih =>
    intro p1 p2 textline
    unfold diff_rest_cols
    split_ifs
    · obtain ⟨h1, h2, h3⟩ := ih p1 p2 (textline ++ [63])
      refine ⟨(List.prefix_append _ _).trans h1, by rw [h2]; simp; omega, fun x hx => ?_⟩
      rcases h3 x hx with h | h
      · rcases List.mem_append.mp h with h | h
        · exact Or.inl h
        · exact Or.inr (Or.inl (List.mem_singleton.mp h))
      · exact Or.inr h
    · obtain ⟨h1, h2, h3⟩ := ih p1 (p2.drop (utfc_ptr2len p2)) (textline ++ [43])
      refine ⟨(List.prefix_append _ _).trans h1, by rw [h2]; simp; omega, fun x hx => ?_⟩
      rcases h3 x hx with h | h
      · rcases List.mem_append.mp h with h | h
        · exact Or.inl h
        · exact Or.inr (Or.inr (Or.inl (List.mem_singleton.mp h)))
      · exact Or.inr h
    · obtain ⟨h1, h2, h3⟩ := ih (p1.drop (utfc_ptr2len p1)) p2 (textline ++ [45])
      refine ⟨(List.prefix_append _ _).trans h1, by rw [h2]; simp; omega, fun x hx => ?_⟩
      rcases h3 x hx with h | h
      · rcases List.mem_append.mp h with h | h
        · exact Or.inl h
        · exact Or.inr (Or.inr (Or.inr (List.mem_singleton.mp h)))
      · exact Or.inr h

theorem diff_mark_values (len1 len2 : Nat) (p1 p2 : List Nat) (lnum : Int) (col : Nat)
    (c1 c2 : VTermPos) (a1 a2 : Option (List cellattr_T)) :
    diff_mark len1 len2 p1 p2 lnum col c1 c2 a1 a2 ∈ [88, 62, 60, 119, 102, 98, 97, 32] := by
  unfold diff_mark
  split_ifs
  · simp
  · simp
  · simp
  · split
    · split_ifs <;> simp
    · simp

theorem diff_both_cols_spec (utfc_ptr2len : List Nat → Nat) (lnum : Int)
    (c1 c2 : VTermPos) (a1 a2 : Option (List cellattr_T)) :
    ∀ (n col : Nat) (p1 p2 textline : List Nat), textline.length = col →
      textline <+: (diff_both_cols utfc_ptr2len lnum c1 c2 a1 a2 n col p1 p2 textline).1 ∧
      (diff_both_cols utfc_ptr2len lnum c1 c2 a1 a2 n col p1 p2 textline).1.length
        = (diff_both_cols utfc_ptr2len lnum c1 c2 a1 a2 n col p1 p2 textline).2.1 ∧
      (diff_both_cols utfc_ptr2len lnum c1 c2 a1 a2 n col p1 p2 textline).2.1 ≤ col + n ∧
      (∀ x ∈ (diff_both_cols utfc_ptr2len lnum c1 c2 a1 a2 n col p1 p2 textline).1,
        x ∈ textline ∨ x ∈ [88, 62, 60, 119, 102, 98, 97, 32]) ∧
      (∀ j, j < n →
        (∀ i, i ≤ j → diff_advance utfc_ptr2len i p1 ≠ []
          ∧ diff_advance utfc_ptr2len i p2 ≠ []) →
        col + j < (diff_both_cols utfc_ptr2len lnum c1 c2 a1 a2 n col p1 p2 textline).2.1 ∧
        (diff_both_cols utfc_ptr2len lnum c1 c2 a1 a2 n col p1 p2 textline).1.getD (col + j) 0
          = diff_mark (utfc_ptr2len (diff_advance utfc_ptr2len j p1))
              (utfc_ptr2len (diff_advance utfc_ptr2len j p2))
              (diff_advance utfc_ptr2len j p1) (diff_advance utfc_ptr2len j p2)
              lnum (col + j) c1 c2 a1 a2) := by
  intro n
  induction n with
  | zero =>
    intro col p1 p2 textline hl
    exact ⟨List.prefix_refl _, hl, le_refl _, fun x hx => Or.inl hx,
      fun j hj => absurd hj (Nat.not_lt_zero _)⟩
  | succ n ih =>
    intro col p1 p2 textline hl
    unfold diff_both_cols
    by_cases hp : p1 ≠ [] ∧ p2 ≠ []
    · rw [if_pos hp]
      obtain ⟨h1, h2, h3, h4, h5⟩ := ih (col + 1) (p1.drop (utfc_ptr2len p1))
        (p2.drop (utfc_ptr2len p2))
        (textline ++ [diff_mark (utfc_ptr2len p1) (utfc_ptr2len p2) p1 p2 lnum col c1 c2 a1 a2])
        (by simp [hl])
      refine ⟨(List.prefix_append _ _).trans h1, h2, by omega, fun x hx => ?_, fun j hj hadv => ?_⟩
      · rcases h4 x hx with h | h
        · rcases List.mem_append.mp h with h | h
          · exact Or.inl h
          · rw [List.mem_singleton.mp h]
            exact Or.inr (diff_mark_values _ _ _ _ _ _ _ _ _ _)
        · exact Or.inr h
      · cases j with
        | zero =>
          have hlen : col < (diff_both_cols utfc_ptr2len lnum c1 c2 a1 a2 n (col + 1)
              (p1.drop (utfc_ptr2len p1)) (p2.drop (utfc_ptr2len p2))
              (textline ++ [diff_mark (utfc_ptr2len p1) (utfc_ptr2len p2) p1 p2 lnum col
                c1 c2 a1 a2])).2.1 := by
            rw [← h2]
            have := h1.length_le
            simp only [List.length_append, List.length_cons, List.length_nil, hl] at this
            omega
          refine ⟨hlen, ?_⟩
          simp only [Nat.add_zero, diff_advance]
          rw [getD_of_initial_segment _ _ h1 col 0 (by simp [hl])]
          rw [List.getD_append_right _ _ _ _ (by omega), hl, Nat.sub_self]
          rfl
        | succ j =>
          have := h5 j (by omega) (fun i hi => hadv (i + 1) (by omega))
          rw [show col + (j + 1) = col + 1 + j by omega]
          exact this
    · rw [if_neg hp]
      refine ⟨List.prefix_refl _, hl, Nat.le_add_right col (n + 1), fun x hx => Or.inl hx,
        fun j _ hadv => ?_⟩
      exact absurd (hadv 0 (Nat.zero_le _)) hp

/-- The row that `term_load_dump` builds for a row present in both dumps: it
has `width` marks, none of them NUL, and at a column up to which both rows
have text the mark is the one chosen by `diff_mark`. -/
theorem diff_row_spec (utfc_ptr2len : List Nat → Nat) (width : Nat) (lnum : Int)
    (c1 c2 : VTermPos) (line1 line2 : List Nat) (a1 a2 : Option (List cellattr_T)) :
    (diff_row utfc_ptr2len width lnum c1 c2 line1 line2 a1 a2).length = width ∧
    (∀ x ∈ diff_row utfc_ptr2len width lnum c1 c2 line1 line2 a1 a2, x ≠ 0) ∧
    (∀ col, col < width →
      (∀ i, i ≤ col → diff_advance utfc_ptr2len i line1 ≠ []
        ∧ diff_advance utfc_ptr2len i line2 ≠ []) →
      (diff_row utfc_ptr2len width lnum c1 c2 line1 line2 a1 a2).getD col 0
        = diff_mark (utfc_ptr2len (diff_advance utfc_ptr2len col line1))
            (utfc_ptr2len (diff_advance utfc_ptr2len col line2))
            (diff_advance utfc_ptr2len col line1) (diff_advance utfc_ptr2len col line2)
            lnum col c1 c2 a1 a2) := by
  obtain ⟨h1, h2, h3, h4, h5⟩ := diff_both_cols_spec utfc_ptr2len lnum c1 c2 a1 a2 width 0
    line1 line2 [] rfl
  unfold diff_row
  simp only
  generalize diff_both_cols utfc_ptr2len lnum c1 c2 a1 a2 width 0 line1 line2 [] = r
    at h1 h2 h3 h4 h5
  obtain ⟨g1, g2, g3⟩ := diff_rest_cols_spec utfc_ptr2len (width - r.2.1) r.2.2.1 r.2.2.2 r.1
  refine ⟨by rw [g2, h2]; omega, fun x hx => ?_, fun col hc hadv => ?_⟩
  · rcases g3 x hx with h | h | h | h
    · rcases h4 x h with h | h
      · exact absurd h (List.not_mem_nil _)
      · simp only [List.mem_cons, List.mem_singleton, List.not_mem_nil, or_false] at h
        rcases h with h | h | h | h | h | h | h | h <;> rw [h] <;> decide
    · rw [h]; decide
    · rw [h]; decide
    · rw [h]; decide
  · obtain ⟨k1, k2⟩ := h5 col hc hadv
    rw [Nat.zero_add] at k1 k2
    rw [getD_of_initial_segment _ _ g1 col 0 (by rw [h2]; exact k1)]
    exact k2
/-! ## Dump/Diff codec: the cells that the comparison reads -/

/-- The shift loop of `add_empty_scrollback` moves the entries from a position
on up by one place. -/
theorem add_empty_scrollback_shift_at (pre : List sb_line_T) :
    ∀ (n : Nat) (mid : List sb_line_T) (x : sb_line_T) (post : List sb_line_T),
      mid.length = n →
      ∃ y, add_empty_scrollback_shift n (pre ++ mid ++ x :: post) (pre.length + mid.length)
        = (pre ++ y :: mid ++ post, pre.length) := by
  intro n
  induction n with
  | zero =>
    intro mid x post h
    have hm : mid = [] := List.length_eq_zero.mp h
    subst hm
    exact ⟨x, by simp [add_empty_scrollback_shift]⟩
  | succ n ih =>
    intro mid x post h
    rcases List.eq_nil_or_concat mid with hm | ⟨mid1, m, hm⟩
    · subst hm; simp at h
    · rw [List.concat_eq_append] at hm
      subst hm
      have hl : mid1.length = n := by simpa using h
      obtain ⟨y, hy⟩ := ih mid1 m (m :: post) hl
      refine ⟨y, ?_⟩
      unfold add_empty_scrollback_shift
      have e1 : pre.length + (mid1 ++ [m]).length - 1 = pre.length + mid1.length := by
        simp only [List.length_append, List.length_cons, List.length_nil]; omega
      have e2 : pre ++ (mid1 ++ [m]) ++ x :: post = (pre ++ mid1 ++ [m]) ++ x :: post := by
        simp only [List.append_assoc]
      have e3 : (pre ++ mid1 ++ [m] ++ x :: post).getD (pre.length + mid1.length) default
          = m := by
        have : pre ++ mid1 ++ [m] ++ x :: post = (pre ++ mid1) ++ m :: (x :: post) := by
          simp only [List.append_assoc, List.singleton_append]
        rw [this]
        exact getD_at_length _ _ _ _ _ (by simp)
      rw [e1, e2, e3, set_at_length (pre ++ mid1 ++ [m]) x post m _ (by simp)]
      have e4 : pre ++ mid1 ++ [m] ++ m :: post = pre ++ mid1 ++ m :: m :: post := by
        simp only [List.append_assoc, List.singleton_append]
      rw [e4, hy]
      simp only [List.append_assoc, List.cons_append, List.singleton_append, List.nil_append]

/-- An empty line that `add_empty_scrollback` adds at a position inside the
array goes between the entries before that position and those from it on. -/
theorem add_empty_scrollback_at (term : term_T) (fill : cellattr_T)
    (pre post : List sb_line_T) (lnum : Int) (h : term.tl_scrollback = pre ++ post)
    (hl : lnum = (pre.length : Int)) (h0 : 0 < lnum) :
    (add_empty_scrollback term fill lnum).2.tl_scrollback
      = pre ++ [⟨0, none, fill⟩] ++ post := by
  unfold add_empty_scrollback
  simp only [if_pos h0]
  have e1 : (((term.tl_scrollback.length : Nat) : Int) - lnum).toNat = post.length := by
    rw [h, List.length_append, hl]; push_cast; omega
  have e2 : term.tl_scrollback.length = pre.length + post.length := by
    rw [h, List.length_append]
  have e3 : term.tl_scrollback ++ [default] = pre ++ post ++ default :: [] := by rw [h]
  obtain ⟨y, hy⟩ := add_empty_scrollback_shift_at pre post.length post default [] rfl
  rw [e1, e2, e3, hy]
  simp only [List.append_nil]
  have : pre ++ y :: post = pre ++ y :: post := rfl
  rw [set_at_length pre y post _ _ rfl]
  simp only [List.append_assoc, List.singleton_append]

/-- What `read_dump_file` does to the scrollback: it appends entries at the
end. -/
theorem read_dump_file_sb (fuel : Nat) (fd : List Nat) (term : term_T)
    (r : Int × VTermPos × term_T) (h : read_dump_file fuel fd term = some r) :
    ∃ new, r.2.2.tl_scrollback = term.tl_scrollback ++ new :=
  read_dump_file_rel
    (fun t t1 => ∃ new, t1.tl_scrollback = t.tl_scrollback ++ new)
    (fun _ => ⟨[], (List.append_nil _).symm⟩)
    (fun a b c h1 h2 => by
      obtain ⟨n1, l1⟩ := h1
      obtain ⟨n2, l2⟩ := h2
      exact ⟨n1 ++ n2, by rw [l2, l1, List.append_assoc]⟩)
    (fun t cells text => ⟨_, rfl⟩)
    (fun t text => ⟨[], (List.append_nil _).symm⟩)
    fuel fd term r h

/-- The two rows of `=` that `term_load_dump` adds have their two entries at
the end of the scrollback. -/
theorem load_dump_separators_sb (width : Nat) (term : term_T) :
    ∃ B, B.length = 2 ∧
      (load_dump_separators width term).tl_scrollback = term.tl_scrollback ++ B := by
  unfold load_dump_separators
  simp only [add_empty_scrollback_tail, if_true, List.append_assoc]
  exact ⟨_, by rfl, rfl⟩

theorem load_dump_add_row_sb (term : term_T) (lnum : Int) (textline : List Nat) :
    (load_dump_add_row term lnum textline).tl_scrollback
      = (add_empty_scrollback term term.tl_default_color
          term.tl_top_diff_rows).2.tl_scrollback := by
  unfold load_dump_add_row
  simp only [(add_empty_scrollback_frame term term.tl_default_color term.tl_top_diff_rows).1,
    if_true]

theorem c_string_of_ne_zero (s : List Nat) (h : ∀ x ∈ s, x ≠ 0) : c_string s = s := by
  unfold c_string
  rw [List.takeWhile_eq_self_iff]
  intro x hx
  simpa using h x hx

/-- One round of the loop over the top rows in `term_load_dump`, when every
line of the first dump has its entry in the scrollback: the row added compares
line `n + 1` of the first dump and its cells with line `n + 1` of the second
dump and its cells, or is a row of `-` when the second dump has no such
line. -/
theorem load_dump_top_row_step (utfc_ptr2len : List Nat → Nat) (width : Nat)
    (cursor_pos1 cursor_pos2 : VTermPos) (L1 L2 M : List (List Nat))
    (S1 S2 B : List sb_line_T) (sep : List Nat) (n : Nat) (st : term_T × Int)
    (hS : S1.length = L1.length) (hn : n < L1.length) (hM : M.length = n)
    (hB : B.length = n + 2)
    (h1 : st.1.tl_top_diff_rows = (L1.length : Int))
    (h2 : st.2 = (L1.length : Int) + 2 + n)
    (h3 : st.1.tl_buffer.b_ml.ml_lines = L1 ++ [sep] ++ M ++ [sep] ++ L2)
    (h4 : st.1.tl_scrollback = S1 ++ B ++ S2) :
    (load_dump_top_row utfc_ptr2len width cursor_pos1 cursor_pos2 st
        (n + 1)).1.tl_buffer.b_ml.ml_lines
      = L1 ++ [sep] ++ (M ++ [if L2.length ≤ n then List.replicate width 45
          else diff_row utfc_ptr2len width ((n + 1 : Nat) : Int) cursor_pos1 cursor_pos2
            (L1.getD n []) (L2.getD n []) (S1.getD n default).sb_cells
            (S2.getD n default).sb_cells]) ++ [sep] ++ L2 ∧
    (load_dump_top_row utfc_ptr2len width cursor_pos1 cursor_pos2 st
        (n + 1)).1.tl_scrollback
      = S1 ++ (⟨0, none, st.1.tl_default_color⟩ :: B) ++ S2 ∧
    (load_dump_top_row utfc_ptr2len width cursor_pos1 cursor_pos2 st
        (n + 1)).1.tl_top_diff_rows = (L1.length : Int) ∧
    (load_dump_top_row utfc_ptr2len width cursor_pos1 cursor_pos2 st (n + 1)).2
      = (L1.length : Int) + 2 + (n + 1 : Nat) := by
  have hcount : st.1.tl_buffer.b_ml.ml_line_count
      = (L1.length : Int) + 2 + n + L2.length := by
    unfold memline_T.ml_line_count
    rw [h3]
    simp only [List.length_append, List.length_cons, List.length_nil, hM]
    push_cast; ring
  have hcond : (((n + 1 : Nat) : Int) + st.2 > st.1.tl_buffer.b_ml.ml_line_count)
      ↔ L2.length ≤ n := by
    rw [hcount, h2]; push_cast; omega
  have hg1 : ml_get st.1.tl_buffer.b_ml ((n + 1 : Nat) : Int) = L1.getD n [] := by
    unfold ml_get
    rw [if_neg (by rw [hcount]; push_cast; omega), if_neg (by push_cast; omega), h3]
    have e : (((n + 1 : Nat) : Int) - 1).toNat = n := by push_cast; omega
    rw [e]
    simp only [List.append_assoc]
    rw [List.getD_append _ _ _ _ hn]
  have hg2 : ¬ L2.length ≤ n →
      ml_get st.1.tl_buffer.b_ml (((n + 1 : Nat) : Int) + st.2) = L2.getD n [] := by
    intro hlt
    unfold ml_get
    rw [if_neg (by rw [hcount, h2]; push_cast; omega),
      if_neg (by rw [h2]; push_cast; omega), h3]
    have e : (((n + 1 : Nat) : Int) + st.2 - 1).toNat
        = (L1 ++ [sep] ++ M ++ [sep]).length + n := by
      rw [h2]
      simp only [List.length_append, List.length_cons, List.length_nil, hM]
      push_cast; omega
    rw [e, List.getD_append_right _ _ _ _ (Nat.le_add_right _ _), Nat.add_sub_cancel_left]
  have hs1 : (st.1.tl_scrollback.getD (n + 1 - 1) default) = S1.getD n default := by
    rw [h4, Nat.add_sub_cancel]
    simp only [List.append_assoc]
    rw [List.getD_append _ _ _ _ (by rw [hS]; exact hn)]
  have hs2 : (st.1.tl_scrollback.getD (((n + 1 : Nat) : Int) + st.2 - 1).toNat default)
      = S2.getD n default := by
    have e : (((n + 1 : Nat) : Int) + st.2 - 1).toNat = (S1 ++ B).length + n := by
      rw [h2]
      simp only [List.length_append, hB, hS]
      push_cast; omega
    rw [h4, e, List.getD_append_right _ _ _ _ (Nat.le_add_right _ _), Nat.add_sub_cancel_left]
  obtain ⟨textline, htl⟩ : ∃ textline, textline =
      (if L2.length ≤ n then List.replicate width 45
        else diff_row utfc_ptr2len width ((n + 1 : Nat) : Int) cursor_pos1 cursor_pos2
          (L1.getD n []) (L2.getD n []) (S1.getD n default).sb_cells
          (S2.getD n default).sb_cells) := ⟨_, rfl⟩
  have hc : c_string textline = textline := by
    rw [htl]
    split_ifs
    · exact c_string_replicate width 45 (by decide)
    · exact c_string_of_ne_zero _ (diff_row_spec _ _ _ _ _ _ _ _ _).2.1
  have hrow : load_dump_top_row utfc_ptr2len width cursor_pos1 cursor_pos2 st (n + 1)
      = (load_dump_add_row st.1 ((n + 1 : Nat) : Int) textline, st.2 + 1) := by
    unfold load_dump_top_row
    simp only
    by_cases hle : L2.length ≤ n
    · rw [if_pos (hcond.mpr hle), htl, if_pos hle]
    · rw [if_neg (fun h => hle (hcond.mp h)), htl, if_neg hle, hg1, hg2 hle, hs1, hs2]
  rw [hrow, ← htl]
  have hadd := load_dump_add_row_lines st.1 ((n + 1 : Nat) : Int) textline (L1 ++ [sep] ++ M)
    ([sep] ++ L2) (by rw [h3]; simp only [List.append_assoc])
    (by rw [h1]; simp only [List.length_append, List.length_cons, List.length_nil, hM]
        push_cast; omega)
  refine ⟨?_, ?_, ?_, ?_⟩
  · show (load_dump_add_row st.1 ((n + 1 : Nat) : Int) textline).tl_buffer.b_ml.ml_lines = _
    rw [hadd.1, hc]; simp only [List.append_assoc]
  · show (load_dump_add_row st.1 ((n + 1 : Nat) : Int) textline).tl_scrollback = _
    rw [load_dump_add_row_sb, add_empty_scrollback_at st.1 st.1.tl_default_color S1 (B ++ S2)
      st.1.tl_top_diff_rows (by rw [h4, List.append_assoc]) (by rw [h1, hS])
      (by rw [h1]; exact_mod_cast Nat.lt_of_le_of_lt (Nat.zero_le _) hn)]
    simp only [List.append_assoc, List.singleton_append, List.cons_append, List.nil_append]
  · show (load_dump_add_row st.1 ((n + 1 : Nat) : Int) textline).tl_top_diff_rows = _
    rw [hadd.2, h1]
  · show st.2 + 1 = _
    rw [h2]; push_cast; ring

/-- The loop over the top rows in `term_load_dump`, when every line of the
first dump has its entry in the scrollback: row `i + 1` of the comparison
compares line `i + 1` of both dumps and their cells, or is a row of `-`. -/
theorem load_dump_top_rows_marks (utfc_ptr2len : List Nat → Nat) (width : Nat)
    (cursor_pos1 cursor_pos2 : VTermPos) (L1 L2 : List (List Nat))
    (S1 S2 : List sb_line_T) (sep : List Nat) (hS : S1.length = L1.length) :
    ∀ (n : Nat) (st : term_T × Int), n ≤ L1.length →
      st.1.tl_top_diff_rows = (L1.length : Int) →
      st.2 = (L1.length : Int) + 2 →
      st.1.tl_buffer.b_ml.ml_lines = L1 ++ [sep] ++ [] ++ [sep] ++ L2 →
      (∃ B, B.length = 2 ∧ st.1.tl_scrollback = S1 ++ B ++ S2) →
      ((List.range n).foldl (fun st i => load_dump_top_row utfc_ptr2len width cursor_pos1
          cursor_pos2 st (i + 1)) st).1.tl_buffer.b_ml.ml_lines
        = L1 ++ [sep] ++ (List.range n).map (fun i =>
            if L2.length ≤ i then List.replicate width 45
            else diff_row utfc_ptr2len width ((i + 1 : Nat) : Int) cursor_pos1 cursor_pos2
              (L1.getD i []) (L2.getD i []) (S1.getD i default).sb_cells
              (S2.getD i default).sb_cells) ++ [sep] ++ L2 ∧
      (∃ B, B.length = n + 2 ∧
        ((List.range n).foldl (fun st i => load_dump_top_row utfc_ptr2len width cursor_pos1
          cursor_pos2 st (i + 1)) st).1.tl_scrollback = S1 ++ B ++ S2) ∧
      ((List.range n).foldl (fun st i => load_dump_top_row utfc_ptr2len width cursor_pos1
        cursor_pos2 st (i + 1)) st).1.tl_top_diff_rows = (L1.length : Int) ∧
      ((List.range n).foldl (fun st i => load_dump_top_row utfc_ptr2len width cursor_pos1
        cursor_pos2 st (i + 1)) st).2 = (L1.length : Int) + 2 + n := by
  intro n
  induction n with
  | zero =>
    intro st _ h1 h2 h3 h4
    exact ⟨by simpa using h3, by simpa using h4, by simpa using h1, by simpa using h2⟩
  | succ n ih =>
    intro st hn h1 h2 h3 h4
    obtain ⟨e1, ⟨B, hB, e4⟩, e2, e3⟩ := ih st (Nat.le_of_succ_le hn) h1 h2 h3 h4
    rw [List.range_succ, List.foldl_append]
    simp only [List.foldl_cons, List.foldl_nil]
    generalize (List.range n).foldl (fun st i => load_dump_top_row utfc_ptr2len width
      cursor_pos1 cursor_pos2 st (i + 1)) st = s at e1 e2 e3 e4
    obtain ⟨r1, r2, r3, r4⟩ := load_dump_top_row_step utfc_ptr2len width cursor_pos1
      cursor_pos2 L1 L2 _ S1 S2 B sep n s hS hn (by simp) hB e2 e3 e1 e4
    refine ⟨?_, ⟨_, ?_, r2⟩, r3, ?_⟩
    · rw [r1, List.map_append]
      simp only [List.map_cons, List.map_nil]
    · simp only [List.length_cons, hB]
    · rw [r4]
/-- The comparison rows that `term_load_dump` leaves for a diff, when every
line of the first dump has its entry in the scrollback: one row for each line
of the first dump, which compares it with the same line of the second dump or
is a row of `-`, and a row of `+` for each further line of the second dump. -/
theorem term_load_dump_rows (utfc_ptr2len : List Nat → Nat) (fuel : Nat)
    (fd1 fd2 : List Nat) (term : term_T) (w1 : Int) (c1 : VTermPos) (t1 : term_T)
    (h1 : read_dump_file fuel fd1 term = some (w1, c1, t1))
    (w2 : Int) (c2 : VTermPos) (t5 : term_T)
    (h2 : read_dump_file fuel fd2 (load_dump_separators w1.toNat
      { t1 with
        tl_buffer := { t1.tl_buffer with b_ml := (ml_delete t1.tl_buffer.b_ml 1).2 },
        tl_top_diff_rows := (ml_delete t1.tl_buffer.b_ml 1).2.ml_line_count })
      = some (w2, c2, t5))
    (hS : t1.tl_scrollback.length = (ml_delete t1.tl_buffer.b_ml 1).2.ml_lines.length) :
    ∃ t L2 S2 B, term_load_dump utfc_ptr2len fuel true fd1 fd2 term = some t ∧
      t5.tl_buffer.b_ml.ml_lines = (ml_delete t1.tl_buffer.b_ml 1).2.ml_lines
        ++ [List.replicate w1.toNat 61, List.replicate w1.toNat 61] ++ L2 ∧
      t5.tl_scrollback = t1.tl_scrollback ++ B ++ S2 ∧ B.length = 2 ∧
      t.tl_buffer.b_ml.ml_lines = (ml_delete t1.tl_buffer.b_ml 1).2.ml_lines
        ++ [List.replicate w1.toNat 61]
        ++ ((List.range (ml_delete t1.tl_buffer.b_ml 1).2.ml_lines.length).map (fun i =>
            if L2.length ≤ i then List.replicate (if w2 > w1 then w2 else w1).toNat 45
            else diff_row utfc_ptr2len (if w2 > w1 then w2 else w1).toNat ((i + 1 : Nat) : Int)
              c1 c2 ((ml_delete t1.tl_buffer.b_ml 1).2.ml_lines.getD i []) (L2.getD i [])
              (t1.tl_scrollback.getD i default).sb_cells (S2.getD i default).sb_cells)
          ++ List.replicate (L2.length - (ml_delete t1.tl_buffer.b_ml 1).2.ml_lines.length)
            (List.replicate (if w2 > w1 then w2 else w1).toNat 43))
        ++ [List.replicate w1.toNat 61] ++ L2 := by
  obtain ⟨L1, hL1⟩ : ∃ L1, L1 = (ml_delete t1.tl_buffer.b_ml 1).2.ml_lines := ⟨_, rfl⟩
  obtain ⟨t4, ht4⟩ : ∃ t4 : term_T, t4 = load_dump_separators w1.toNat
      { t1 with
        tl_buffer := { t1.tl_buffer with b_ml := (ml_delete t1.tl_buffer.b_ml 1).2 },
        tl_top_diff_rows := (ml_delete t1.tl_buffer.b_ml 1).2.ml_line_count } := ⟨_, rfl⟩
  rw [← ht4] at h2
  have hs := load_dump_separators_lines w1.toNat
      { t1 with
        tl_buffer := { t1.tl_buffer with b_ml := (ml_delete t1.tl_buffer.b_ml 1).2 },
        tl_top_diff_rows := (ml_delete t1.tl_buffer.b_ml 1).2.ml_line_count }
  obtain ⟨B, hB, hsb⟩ := load_dump_separators_sb w1.toNat
      { t1 with
        tl_buffer := { t1.tl_buffer with b_ml := (ml_delete t1.tl_buffer.b_ml 1).2 },
        tl_top_diff_rows := (ml_delete t1.tl_buffer.b_ml 1).2.ml_line_count }
  rw [← ht4] at hs hsb
  simp only at hs hsb
  rw [← hL1] at hs hS ⊢
  have hs2 : t4.tl_top_diff_rows = (L1.length : Int) := by rw [hs.2, hL1]; rfl
  obtain ⟨e5, L2, l5⟩ := read_dump_file_lines fuel fd2 t4 _ h2
  obtain ⟨S2, s5⟩ := read_dump_file_sb fuel fd2 t4 _ h2
  simp only at e5 l5 s5
  rw [hs.1] at l5
  rw [hsb] at s5
  have hcount4 : t4.tl_buffer.b_ml.ml_line_count = (L1.length : Int) + 2 := by
    unfold memline_T.ml_line_count
    rw [hs.1]
    simp only [List.length_append, List.length_cons, List.length_nil]
    push_cast; ring
  obtain ⟨width, hwidth⟩ : ∃ width : Int, width = if w2 > w1 then w2 else w1 := ⟨_, rfl⟩
  rw [← hwidth]
  obtain ⟨t6, ht6⟩ : ∃ t6 : term_T, t6 = { t5 with tl_bot_diff_rows :=
      t5.tl_buffer.b_ml.ml_line_count - t4.tl_buffer.b_ml.ml_line_count } := ⟨_, rfl⟩
  have h6top : t6.tl_top_diff_rows = (L1.length : Int) := by rw [ht6]; exact e5.trans hs2
  have h6lines : t6.tl_buffer.b_ml.ml_lines
      = L1 ++ [List.replicate w1.toNat 61] ++ [] ++ [List.replicate w1.toNat 61] ++ L2 := by
    rw [ht6]
    show t5.tl_buffer.b_ml.ml_lines = _
    rw [l5]
    simp only [List.append_assoc, List.nil_append, List.singleton_append]
  have h6sb : ∃ B, B.length = 2 ∧ t6.tl_scrollback = t1.tl_scrollback ++ B ++ S2 :=
    ⟨B, hB, by rw [ht6]; exact s5⟩
  obtain ⟨m1, -, m2, m3⟩ := load_dump_top_rows_marks utfc_ptr2len width.toNat c1 c2 L1 L2
    t1.tl_scrollback S2 (List.replicate w1.toNat 61) hS L1.length
    (t6, t4.tl_buffer.b_ml.ml_line_count) (Nat.le_refl _) h6top hcount4 h6lines h6sb
  obtain ⟨top, htop⟩ : ∃ top, top = (List.range L1.length).foldl
      (fun st i => load_dump_top_row utfc_ptr2len width.toNat c1 c2 st (i + 1))
      (t6, t4.tl_buffer.b_ml.ml_line_count) := ⟨_, rfl⟩
  rw [← htop] at m1 m2 m3
  obtain ⟨M, hMdef⟩ : ∃ M, M = (List.range L1.length).map (fun i =>
      if L2.length ≤ i then List.replicate width.toNat 45
      else diff_row utfc_ptr2len width.toNat ((i + 1 : Nat) : Int) c1 c2 (L1.getD i [])
        (L2.getD i []) (t1.tl_scrollback.getD i default).sb_cells
        (S2.getD i default).sb_cells) := ⟨_, rfl⟩
  rw [← hMdef] at m1
  have hM : M.length = L1.length := by rw [hMdef, List.length_map, List.length_range]
  have hcounttop : top.1.tl_buffer.b_ml.ml_line_count
      = (L1.length : Int) + 2 + M.length + L2.length := by
    unfold memline_T.ml_line_count
    rw [m1]
    simp only [List.length_append, List.length_cons, List.length_nil]
    push_cast; ring
  obtain ⟨t7, b1, b2, -⟩ := load_dump_bot_rows_lines width.toNat L1 L2
    (List.replicate w1.toNat 61) (L2.length - M.length) top.1 M m2 m1 rfl
  have hfuel : (top.1.tl_buffer.b_ml.ml_line_count + 1 - (t6.tl_top_diff_rows + 1) - top.2).toNat
      = L2.length - M.length := by
    rw [hcounttop, h6top, m3, hM]
    omega
  have hl : t6.tl_top_diff_rows + 1 = (M.length : Int) + 1 := by rw [h6top, hM]
  have hb : top.2 = (L1.length : Int) + 2 + M.length := by rw [m3, hM]
  refine ⟨{ t7 with tl_cols := width }, L2, S2, B, ?_, l5, s5, hB, ?_⟩
  · unfold term_load_dump
    rw [h1]
    simp only [Bool.true_eq_false, if_false]
    rw [← ht4, h2]
    simp only
    have h5top : t5.tl_top_diff_rows = (L1.length : Int) := e5.trans hs2
    rw [← hwidth, ← ht6, h5top]
    simp only [Int.toNat_ofNat]
    rw [← htop]
    rw [h6top] at hfuel hl
    rw [hfuel, hl, hb, b1]
  · show t7.tl_buffer.b_ml.ml_lines = _
    rw [b2, hM, hMdef]

theorem diff_advance_nil (utfc_ptr2len : List Nat → Nat) :
    ∀ n, diff_advance utfc_ptr2len n [] = [] := by
  intro n
  induction n with
  | zero => rfl
  | succ n ih => unfold diff_advance; rw [List.drop_nil]; exact ih

/-- A row that has text at a column has text at every column before it. -/
theorem diff_advance_ne_nil_of_le (utfc_ptr2len : List Nat → Nat) :
    ∀ (i j : Nat) (p : List Nat), diff_advance utfc_ptr2len (i + j) p ≠ [] →
      diff_advance utfc_ptr2len i p ≠ [] := by
  intro i
  induction i with
  | zero =>
    intro j p h hp
    rw [Nat.zero_add] at h
    have : p = [] := hp
    rw [this] at h
    exact h (diff_advance_nil utfc_ptr2len j)
  | succ i ih =>
    intro j p h
    rw [Nat.succ_add] at h
    unfold diff_advance at h ⊢
    exact ih j _ h

/-- The test `len1 != len2 || STRNCMP(p1, p2, len1) != 0` of `term_load_dump`
says that the two glyphs differ. -/
theorem diff_glyph_differs (len1 len2 : Nat) (p1 p2 : List Nat) (h1 : len1 ≤ p1.length)
    (h2 : len2 ≤ p2.length) :
    (len1 ≠ len2 ∨ p1.take len1 ≠ p2.take len1) ↔ p1.take len1 ≠ p2.take len2 := by
  constructor
  · intro h e
    have hl := congrArg List.length e
    rw [List.length_take, List.length_take, Nat.min_eq_left h1, Nat.min_eq_left h2] at hl
    rcases h with h | h
    · exact h hl
    · rw [← hl] at e; exact h e
  · intro h
    by_cases hl : len1 = len2
    · right; rw [← hl] at h; exact h
    · left; exact hl

/-- The order of the tests that choose the mark of a column. -/
theorem diff_mark_priority (len1 len2 : Nat) (p1 p2 : List Nat) (lnum : Int) (col : Nat)
    (c1 c2 : VTermPos) (a1 a2 : Option (List cellattr_T)) (m : Nat)
    (hm : m = diff_mark len1 len2 p1 p2 lnum col c1 c2 a1 a2) :
    ((len1 ≠ len2 ∨ p1.take len1 ≠ p2.take len1) → m = 88) ∧
    (¬ (len1 ≠ len2 ∨ p1.take len1 ≠ p2.take len1) →
      ((lnum = c1.row + 1 ∧ (col : Int) = c1.col ∧ c1 ≠ c2) → m = 62) ∧
      (¬ (lnum = c1.row + 1 ∧ (col : Int) = c1.col ∧ c1 ≠ c2) →
        ((lnum = c2.row + 1 ∧ (col : Int) = c2.col ∧ c1 ≠ c2) → m = 60) ∧
        (¬ (lnum = c2.row + 1 ∧ (col : Int) = c2.col ∧ c1 ≠ c2) →
          ((a1 = none ∨ a2 = none) → m = 32) ∧
          ∀ x1 x2 x y, a1 = some x1 → a2 = some x2 → x1[col]? = some x → x2[col]? = some y →
            (x.width ≠ y.width → m = 119) ∧
            (x.width = y.width →
              (same_color x.fg y.fg = false → m = 102) ∧
              (same_color x.fg y.fg = true →
                (same_color x.bg y.bg = false → m = 98) ∧
                (same_color x.bg y.bg = true →
                  (vtermAttr2hl x.attrs ≠ vtermAttr2hl y.attrs → m = 97) ∧
                  (vtermAttr2hl x.attrs = vtermAttr2hl y.attrs → m = 32))))))) := by
  have hc : c1 ≠ c2 ↔ (c1.row ≠ c2.row ∨ c1.col ≠ c2.col) := by
    obtain ⟨r1, k1⟩ := c1
    obtain ⟨r2, k2⟩ := c2
    simp only [ne_eq, VTermPos.mk.injEq]
    tauto
  rw [hc]
  subst hm
  unfold diff_mark
  refine ⟨fun h => by rw [if_pos h], fun h => ?_⟩
  rw [if_neg h]
  refine ⟨fun h1 => by rw [if_pos h1], fun h1 => ?_⟩
  rw [if_neg h1]
  refine ⟨fun h2 => by rw [if_pos h2], fun h2 => ?_⟩
  rw [if_neg h2]
  refine ⟨?_, ?_⟩
  · rintro (h3 | h3)
    · subst h3; rfl
    · subst h3; cases a1 <;> rfl
  · intro x1 x2 x y e1 e2 e3 e4
    subst e1 e2
    have g1 : x1.getD col default = x := by
      rw [List.getD_eq_getElem?_getD, e3]; rfl
    have g2 : x2.getD col default = y := by
      rw [List.getD_eq_getElem?_getD, e4]; rfl
    simp only [g1, g2]
    refine ⟨fun h => by rw [if_pos h], fun h => ?_⟩
    rw [if_neg (not_not.mpr h)]
    refine ⟨fun h => by rw [if_pos h], fun h => ?_⟩
    rw [if_neg (by rw [h]; decide)]
    refine ⟨fun h => by rw [if_pos h], fun h => ?_⟩
    rw [if_neg (by rw [h]; decide)]
    exact ⟨fun h => by rw [if_pos h], fun h => by rw [if_neg (not_not.mpr h)]⟩

/-- The marks of a diff when every text line of the first dump has its
scrollback entry.  In the comparison block that `term_load_dump` builds for a
diff (both files read to their end), row `k` of the block, for a line `k`
present in both dumps, has at every column where both lines still have text
the mark chosen by this priority: `X` (88) if the two glyphs differ; else `>`
(62) if the cursor of the first dump is at this cell and the two cursor
positions differ; else `<` (60) if the cursor of the second dump is at this
cell and the positions differ; else `w` (119), `f` (102), `b` (98), `a` (97)
for the first of width, foreground, background, style flags that differs
between the two cells; else a space (32).  A line of the first dump without a
line of the second has a row of `-` (45) only, a line of the second dump
without a line of the first a row of `+` (43) only. -/
theorem term_load_dump_marks (utfc_ptr2len : List Nat → Nat)
    (hutfc : ∀ p, utfc_ptr2len p ≤ p.length) (fuel : Nat)
    (fd1 fd2 : List Nat) (term : term_T) (w1 : Int) (c1 : VTermPos) (t1 : term_T)
    (h1 : read_dump_file fuel fd1 term = some (w1, c1, t1))
    (w2 : Int) (c2 : VTermPos) (t5 : term_T)
    (h2 : read_dump_file fuel fd2 (load_dump_separators w1.toNat
      { t1 with
        tl_buffer := { t1.tl_buffer with b_ml := (ml_delete t1.tl_buffer.b_ml 1).2 },
        tl_top_diff_rows := (ml_delete t1.tl_buffer.b_ml 1).2.ml_line_count })
      = some (w2, c2, t5))
    (hS : t1.tl_scrollback.length = (ml_delete t1.tl_buffer.b_ml 1).2.ml_lines.length) :
    ∃ t L1 L2 S2 B M, term_load_dump utfc_ptr2len fuel true fd1 fd2 term = some t ∧
      L1 = (ml_delete t1.tl_buffer.b_ml 1).2.ml_lines ∧
      t5.tl_buffer.b_ml.ml_lines
        = L1 ++ [List.replicate w1.toNat 61, List.replicate w1.toNat 61] ++ L2 ∧
      t5.tl_scrollback = t1.tl_scrollback ++ B ++ S2 ∧ B.length = 2 ∧
      t.tl_buffer.b_ml.ml_lines
        = L1 ++ [List.replicate w1.toNat 61] ++ M ++ [List.replicate w1.toNat 61] ++ L2 ∧
      M.length = max L1.length L2.length ∧
      (∀ k col p1 p2 m, k < L1.length → k < L2.length →
        col < (if w2 > w1 then w2 else w1).toNat →
        p1 = diff_advance utfc_ptr2len col (L1.getD k []) →
        p2 = diff_advance utfc_ptr2len col (L2.getD k []) →
        p1 ≠ [] → p2 ≠ [] →
        m = (M.getD k []).getD col 0 →
        (p1.take (utfc_ptr2len p1) ≠ p2.take (utfc_ptr2len p2) → m = 88) ∧
        (p1.take (utfc_ptr2len p1) = p2.take (utfc_ptr2len p2) →
          (((k : Int) = c1.row ∧ (col : Int) = c1.col ∧ c1 ≠ c2) → m = 62) ∧
          (¬ ((k : Int) = c1.row ∧ (col : Int) = c1.col ∧ c1 ≠ c2) →
            (((k : Int) = c2.row ∧ (col : Int) = c2.col ∧ c1 ≠ c2) → m = 60) ∧
            (¬ ((k : Int) = c2.row ∧ (col : Int) = c2.col ∧ c1 ≠ c2) →
              ∀ x1 x2 x y, (t1.tl_scrollback.getD k default).sb_cells = some x1 →
                (S2.getD k default).sb_cells = some x2 →
                x1[col]? = some x → x2[col]? = some y →
                (x.width ≠ y.width → m = 119) ∧
                (x.width = y.width →
                  (same_color x.fg y.fg = false → m = 102) ∧
                  (same_color x.fg y.fg = true →
                    (same_color x.bg y.bg = false → m = 98) ∧
                    (same_color x.bg y.bg = true →
                      (vtermAttr2hl x.attrs ≠ vtermAttr2hl y.attrs → m = 97) ∧
                      (vtermAttr2hl x.attrs = vtermAttr2hl y.attrs → m = 32)))))))) ∧
      (∀ k, k < L1.length → L2.length ≤ k →
        M.getD k [] = List.replicate (if w2 > w1 then w2 else w1).toNat 45) ∧
      (∀ k, L1.length ≤ k → k < L2.length →
        M.getD k [] = List.replicate (if w2 > w1 then w2 else w1).toNat 43) := by
  obtain ⟨t, L2, S2, B, e1, e2, e3, e4, e5⟩ := term_load_dump_rows utfc_ptr2len fuel fd1 fd2
    term w1 c1 t1 h1 w2 c2 t5 h2 hS
  obtain ⟨L1, hL1⟩ : ∃ L1, L1 = (ml_delete t1.tl_buffer.b_ml 1).2.ml_lines := ⟨_, rfl⟩
  obtain ⟨width, hwidth⟩ : ∃ width : Nat, width = (if w2 > w1 then w2 else w1).toNat :=
    ⟨_, rfl⟩
  rw [← hL1] at e2 e5
  rw [← hwidth] at e5 ⊢
  have hrow : ∀ k, k < L1.length →
      ((List.range L1.length).map (fun i =>
          if L2.length ≤ i then List.replicate width 45
          else diff_row utfc_ptr2len width ((i + 1 : Nat) : Int) c1 c2 (L1.getD i [])
            (L2.getD i []) (t1.tl_scrollback.getD i default).sb_cells
            (S2.getD i default).sb_cells)
        ++ List.replicate (L2.length - L1.length) (List.replicate width 43)).getD k []
      = if L2.length ≤ k then List.replicate width 45
        else diff_row utfc_ptr2len width ((k + 1 : Nat) : Int) c1 c2 (L1.getD k [])
          (L2.getD k []) (t1.tl_scrollback.getD k default).sb_cells
          (S2.getD k default).sb_cells := by
    intro k hk
    have hk2 : k < ((List.range L1.length).map (fun i =>
          if L2.length ≤ i then List.replicate width 45
          else diff_row utfc_ptr2len width ((i + 1 : Nat) : Int) c1 c2 (L1.getD i [])
            (L2.getD i []) (t1.tl_scrollback.getD i default).sb_cells
            (S2.getD i default).sb_cells)).length := by
      rw [List.length_map, List.length_range]; exact hk
    rw [List.getD_append _ _ _ _ hk2, List.getD_eq_getElem _ _ hk2, List.getElem_map,
      List.getElem_range]
  refine ⟨t, L1, L2, S2, B, _, e1, hL1, e2, e3, e4, e5, ?_, ?_, ?_, ?_⟩
  · simp only [List.length_append, List.length_map, List.length_range, List.length_replicate]
    omega
  · intro k col p1 p2 m hk1 hk2 hcol hp1 hp2 hn1 hn2 hm
    rw [hrow k hk1, if_neg (by omega)] at hm
    have hall : ∀ i, i ≤ col → diff_advance utfc_ptr2len i (L1.getD k []) ≠ []
        ∧ diff_advance utfc_ptr2len i (L2.getD k []) ≠ [] := by
      intro i hi
      obtain ⟨j, hj⟩ := Nat.exists_eq_add_of_le hi
      constructor
      · apply diff_advance_ne_nil_of_le utfc_ptr2len i j
        rw [← hj, ← hp1]; exact hn1
      · apply diff_advance_ne_nil_of_le utfc_ptr2len i j
        rw [← hj, ← hp2]; exact hn2
    have hmark := (diff_row_spec utfc_ptr2len width ((k + 1 : Nat) : Int) c1 c2 (L1.getD k [])
      (L2.getD k []) (t1.tl_scrollback.getD k default).sb_cells
      (S2.getD k default).sb_cells).2.2 col hcol hall
    rw [← hp1, ← hp2] at hmark
    rw [hmark] at hm
    have hg := diff_glyph_differs (utfc_ptr2len p1) (utfc_ptr2len p2) p1 p2 (hutfc p1)
      (hutfc p2)
    have hpri := diff_mark_priority _ _ _ _ _ _ _ _ _ _ m hm
    have hk : ∀ r : Int, (((k + 1 : Nat) : Int) = r + 1) ↔ ((k : Int) = r) := by
      intro r; push_cast; omega
    simp only [hk] at hpri
    refine ⟨fun h => hpri.1 (hg.mpr h), fun h => ?_⟩
    have := hpri.2 (fun hx => (hg.mp hx) h)
    refine ⟨this.1, fun hc1 => ⟨(this.2 hc1).1, fun hc2 => ?_⟩⟩
    exact ((this.2 hc1).2 hc2).2
  · intro k hk1 hk2
    rw [hrow k hk1, if_pos hk2]
  · intro k hk1 hk2
    have hlen : ((List.range L1.length).map (fun i =>
          if L2.length ≤ i then List.replicate width 45
          else diff_row utfc_ptr2len width ((i + 1 : Nat) : Int) c1 c2 (L1.getD i [])
            (L2.getD i []) (t1.tl_scrollback.getD i default).sb_cells
            (S2.getD i default).sb_cells)).length ≤ k := by
      rw [List.length_map, List.length_range]; exact hk1
    rw [List.getD_append_right _ _ _ _ hlen, List.length_map, List.length_range,
      List.getD_eq_getElem _ _ (by rw [List.length_replicate]; omega), List.getElem_replicate]

/-- A witness for `term_load_dump_marks`: the diff of the dump of the row `a`
with a red foreground and the dump of the rows `a`, with a green foreground,
and `b`: the comparison block is the row `f` and the row `+`. -/
theorem term_load_dump_marks_witness :
    (∃ t, term_load_dump scenario_utfc_ptr2len 100 true scenario_dump_a scenario_dump_a_b
        scenario_term_load = some t) ∧
    (term_load_dump scenario_utfc_ptr2len 100 true scenario_dump_a scenario_dump_a_b
        scenario_term_load).map (fun t => t.tl_buffer.b_ml.ml_lines)
      = some [[97], [61], [102], [43], [61], [97], [98]] :=
  ⟨(term_load_dump_marks scenario_utfc_ptr2len
      (fun p => by
        unfold scenario_utfc_ptr2len
        cases p with
        | nil => simp
        | cons a l => simp)
      100 scenario_dump_a scenario_dump_a_b scenario_term_load _ _ _ rfl _ _ _ rfl
      (by decide)).imp (fun _ h => h.choose_spec.choose_spec.choose_spec.choose_spec.choose_spec.1),
   by decide⟩

/-! ## Writing and reading a dump: the cursor -/

/-- C12, the code at a failing input: a row that holds a double-width
character, its right half and `a`.  With the cursor on `a`, at row 0 and
column 2, `term_dumpwrite` marks the one cell `a` with `>`, the text of the row
is read back as it is, and `read_dump_file` reports the cursor at row 0,
column 1: it counts the cells read, and the writer has written one cell for the
two columns of the wide character.  With the cursor on the right half, at
column 1, inside the dumped area, no cell is marked with `>` and the position
read back is (-1, -1). -/
theorem term_dumpwrite_read_cursor_after_wide :
    (scenario_vterm_cursor_wide ⟨0, 2⟩).cursor_pos = ⟨0, 2⟩ ∧
    term_dumpwrite (scenario_term_cursor_wide ⟨0, 2⟩) 0 0 =
      some [124, 228, 184, 173, 42, 48, 35, 102, 48, 102, 48, 102, 48, 48, 38,
            62, 97, 43, 48, 35, 102, 102, 48, 48, 48, 48, 49, 48, 38, 10] ∧
    (∃ t, read_dump_file 100
        [124, 228, 184, 173, 42, 48, 35, 102, 48, 102, 48, 102, 48, 48, 38,
         62, 97, 43, 48, 35, 102, 102, 48, 48, 48, 48, 49, 48, 38, 10] scenario_term_load
        = some (2, ⟨0, 1⟩, t) ∧
      t.tl_buffer.b_ml.ml_lines = [[], [228, 184, 173, 97]]) ∧
    (⟨0, 1⟩ : VTermPos) ≠ ⟨0, 2⟩ ∧
    term_dumpwrite (scenario_term_cursor_wide ⟨0, 1⟩) 0 0 =
      some [124, 228, 184, 173, 42, 48, 35, 102, 48, 102, 48, 102, 48, 48, 38,
            124, 97, 43, 48, 35, 102, 102, 48, 48, 48, 48, 49, 48, 38, 10] ∧
    (∃ t, read_dump_file 100
        [124, 228, 184, 173, 42, 48, 35, 102, 48, 102, 48, 102, 48, 48, 38,
         124, 97, 43, 48, 35, 102, 102, 48, 48, 48, 48, 49, 48, 38, 10] scenario_term_load
        = some (2, ⟨-1, -1⟩, t)) :=
  ⟨rfl, by decide, ⟨_, rfl, by decide⟩, by decide, by decide, ⟨_, rfl⟩⟩

/-! ## Color resolver: the colour cube -/

/-- The counter that a loop over the cube thresholds leaves is the number of
thresholds that are at most the value. -/
theorem cube_level_eq_spec (v : Nat) : cube_level (v : Int) = spec_cube_q v := by
  unfold cube_level spec_cube_q cube_cutoff
  simp only [cutoff_scan, List.filter]
  by_cases h1 : v < 0x2F
  · have e1 : ((v : Int) < 0x2F) := by exact_mod_cast h1
    have a1 : ¬ 0x2F ≤ v := by omega
    have a2 : ¬ 0x73 ≤ v := by omega
    have a3 : ¬ 0x9B ≤ v := by omega
    have a4 : ¬ 0xC3 ≤ v := by omega
    have a5 : ¬ 0xEB ≤ v := by omega
    simp [e1, a1, a2, a3, a4, a5]
  · have e1 : ¬ ((v : Int) < 0x2F) := by
      have : (0x2F : Int) ≤ v := by exact_mod_cast (by omega : 0x2F ≤ v)
      omega
    have a1 : 0x2F ≤ v := by omega
    by_cases h2 : v < 0x73
    · have e2 : ((v : Int) < 0x73) := by exact_mod_cast h2
      have a2 : ¬ 0x73 ≤ v := by omega
      have a3 : ¬ 0x9B ≤ v := by omega
      have a4 : ¬ 0xC3 ≤ v := by omega
      have a5 : ¬ 0xEB ≤ v := by omega
      simp [e1, e2, a1, a2, a3, a4, a5]
    · have e2 : ¬ ((v : Int) < 0x73) := by
        have : (0x73 : Int) ≤ v := by exact_mod_cast (by omega : 0x73 ≤ v)
        omega
      have a2 : 0x73 ≤ v := by omega
      by_cases h3 : v < 0x9B
      · have e3 : ((v : Int) < 0x9B) := by exact_mod_cast h3
        have a3 : ¬ 0x9B ≤ v := by omega
        have a4 : ¬ 0xC3 ≤ v := by omega
        have a5 : ¬ 0xEB ≤ v := by omega
        simp [e1, e2, e3, a1, a2, a3, a4, a5]
      · have e3 : ¬ ((v : Int) < 0x9B) := by
          have : (0x9B : Int) ≤ v := by exact_mod_cast (by omega : 0x9B ≤ v)
          omega
        have a3 : 0x9B ≤ v := by omega
        by_cases h4 : v < 0xC3
        · have e4 : ((v : Int) < 0xC3) := by exact_mod_cast h4
          have a4 : ¬ 0xC3 ≤ v := by omega
          have a5 : ¬ 0xEB ≤ v := by omega
          simp [e1, e2, e3, e4, a1, a2, a3, a4, a5]
        · have e4 : ¬ ((v : Int) < 0xC3) := by
            have : (0xC3 : Int) ≤ v := by exact_mod_cast (by omega : 0xC3 ≤ v)
            omega
          have a4 : 0xC3 ≤ v := by omega
          by_cases h5 : v < 0xEB
          · have e5 : ((v : Int) < 0xEB) := by exact_mod_cast h5
            have a5 : ¬ 0xEB ≤ v := by omega
            simp [e1, e2, e3, e4, e5, a1, a2, a3, a4, a5]
          · have e5 : ¬ ((v : Int) < 0xEB) := by
              have : (0xEB : Int) ≤ v := by exact_mod_cast (by omega : 0xEB ≤ v)
              omega
            have a5 : 0xEB ≤ v := by omega
            simp [e1, e2, e3, e4, e5, a1, a2, a3, a4, a5]

theorem spec_cube_q_range (v : Nat) : 0 ≤ spec_cube_q v ∧ spec_cube_q v ≤ 5 := by
  unfold spec_cube_q
  constructor
  · exact Int.natCast_nonneg _
  · have := List.length_filter_le (fun c => decide (c ≤ v)) ([0x2F, 0x73, 0x9B, 0xC3, 0xEB] : List Nat)
    have h5 : ([0x2F, 0x73, 0x9B, 0xC3, 0xEB] : List Nat).length = 5 := rfl
    rw [h5] at this
    exact_mod_cast this

/-- C24: on a display with at least 256 colours, for every colour without a
palette index whose three channels are not all equal, `color2index` returns
17 + 36 q(red) + 6 q(green) + q(blue), where q(v) is the number of thresholds
of the table {0x2F, 0x73, 0x9B, 0xC3, 0xEB} that are at most v; each q lies in
0..5 and the result in 17..232; `*boldp` is left as it was. -/
theorem color2index_cube (d : Display) (c : VTermColor) (fg boldp : Int)
    (h256 : d.t_colors ≥ 256) (hnone : c.ansi_index = VTERM_ANSI_INDEX_NONE)
    (hne : ¬ (c.red = c.green ∧ c.green = c.blue)) :
    color2index d c fg boldp
      = (17 + 36 * spec_cube_q c.red + 6 * spec_cube_q c.green + spec_cube_q c.blue, boldp) ∧
    (0 ≤ spec_cube_q c.red ∧ spec_cube_q c.red ≤ 5) ∧
    (0 ≤ spec_cube_q c.green ∧ spec_cube_q c.green ≤ 5) ∧
    (0 ≤ spec_cube_q c.blue ∧ spec_cube_q c.blue ≤ 5) ∧
    17 ≤ (color2index d c fg boldp).1 ∧ (color2index d c fg boldp).1 ≤ 232 := by
  have hgrey : ¬ ((c.red : Int) = (c.blue : Int) ∧ (c.red : Int) = (c.green : Int)) := by
    rintro ⟨h1, h2⟩
    have h1' : c.red = c.blue := by exact_mod_cast h1
    have h2' : c.red = c.green := by exact_mod_cast h2
    exact hne ⟨h2', by rw [← h2', h1']⟩
  have key : color2index d c fg boldp
      = (17 + cube_level (c.red : Int) * 36 + cube_level (c.green : Int) * 6
          + cube_level (c.blue : Int), boldp) := by
    simp only [color2index, hnone, ne_eq, not_true_eq_false, if_false, h256, if_true, hgrey]
  have hr := spec_cube_q_range c.red
  have hg := spec_cube_q_range c.green
  have hb := spec_cube_q_range c.blue
  rw [key, cube_level_eq_spec, cube_level_eq_spec, cube_level_eq_spec]
  refine ⟨?_, hr, hg, hb, ?_, ?_⟩
  · congr 1; ring
  · show (17 : Int) ≤ 17 + spec_cube_q c.red * 36 + spec_cube_q c.green * 6 + spec_cube_q c.blue
    omega
  · show 17 + spec_cube_q c.red * 36 + spec_cube_q c.green * 6 + spec_cube_q c.blue ≤ (232 : Int)
    omega

/-- Witness of C24: the colour (0x30, 0x80, 0xF0) on a 256 colour display has
the levels 1, 2 and 5 and resolves to 17 + 36 + 12 + 5 = 70. -/
theorem color2index_cube_witness :
    color2index ⟨256, fun _ _ b => (0, b)⟩ ⟨0x30, 0x80, 0xF0, VTERM_ANSI_INDEX_NONE⟩ 1 0
      = (70, 0) ∧
    spec_cube_q 0x30 = 1 ∧ spec_cube_q 0x80 = 2 ∧ spec_cube_q 0xF0 = 5 :=
  ⟨((color2index_cube ⟨256, fun _ _ b => (0, b)⟩ ⟨0x30, 0x80, 0xF0, VTERM_ANSI_INDEX_NONE⟩ 1 0
      (by decide) rfl (by decide)).1).trans (by decide), by decide, by decide, by decide⟩

/-! ## Scrollback store: adding a blank line -/

/-- C23: for a store of n entries and a fill attribute f, `add_empty_scrollback`
with 0 < lnum <= n returns OK and yields a store of n + 1 entries in which the
entry at index lnum is a blank line (`sb_cols` 0, `sb_cells` NULL, fill f), the
entries at indexes below lnum are unchanged and each former entry at an index
i >= lnum is at index i + 1 with the same content; with lnum = 0 it returns OK
and appends the blank line at the tail, the first n entries unchanged. -/
theorem add_empty_scrollback_inserts (term : term_T) (fill : cellattr_T) (lnum : Nat) :
    (add_empty_scrollback term fill lnum).1 = OK ∧
    (0 < lnum → lnum ≤ term.tl_scrollback.length →
      (add_empty_scrollback term fill lnum).2.tl_scrollback.length
        = term.tl_scrollback.length + 1 ∧
      (add_empty_scrollback term fill lnum).2.tl_scrollback
        = term.tl_scrollback.take lnum ++ [⟨0, none, fill⟩] ++ term.tl_scrollback.drop lnum ∧
      (add_empty_scrollback term fill lnum).2.tl_scrollback[lnum]?
        = some ⟨0, none, fill⟩ ∧
      (∀ i, i < lnum →
        (add_empty_scrollback term fill lnum).2.tl_scrollback[i]? = term.tl_scrollback[i]?) ∧
      (∀ i, lnum ≤ i → i < term.tl_scrollback.length →
        (add_empty_scrollback term fill lnum).2.tl_scrollback[i + 1]?
          = term.tl_scrollback[i]?)) ∧
    (lnum = 0 →
      (add_empty_scrollback term fill lnum).2.tl_scrollback
        = term.tl_scrollback ++ [⟨0, none, fill⟩]) := by
  refine ⟨rfl, ?_, ?_⟩
  · intro h0 hn
    have hlen : (term.tl_scrollback.take lnum).length = lnum := by
      rw [List.length_take]; exact Nat.min_eq_left hn
    have key := add_empty_scrollback_at term fill (term.tl_scrollback.take lnum)
      (term.tl_scrollback.drop lnum) (lnum : Int) (List.take_append_drop _ _).symm
      (by rw [hlen]) (by exact_mod_cast h0)
    rw [key]
    refine ⟨?_, rfl, ?_, ?_, ?_⟩
    · simp only [List.length_append, List.length_cons, List.length_nil, hlen,
        List.length_drop]
      omega
    · rw [List.append_assoc, List.getElem?_append_right (by rw [hlen]), hlen, Nat.sub_self]
      simp
    · intro i hi
      rw [List.append_assoc, List.getElem?_append_left (by rw [hlen]; exact hi),
        List.getElem?_take_of_lt hi]
    · intro i hi hin
      rw [List.getElem?_append_right (by
        simp only [List.length_append, List.length_cons, List.length_nil, hlen]; omega)]
      simp only [List.length_append, List.length_cons, List.length_nil, hlen]
      rw [List.getElem?_drop]
      congr 1
      omega
  · intro h0
    subst h0
    have := add_empty_scrollback_tail term fill
    simp only [Nat.cast_zero]
    rw [this]

/-- Witness of C23: a blank line added at position 1 of a store of the two
entries of sizes 1 and 2 goes between them, and one added with lnum 0 goes to
the tail. -/
theorem add_empty_scrollback_inserts_witness :
    (add_empty_scrollback
        { scenario_term_load with tl_scrollback :=
            [⟨1, none, cellattr_T.zero⟩, ⟨2, none, cellattr_T.zero⟩] }
        cellattr_T.zero (1 : Nat)).2.tl_scrollback
      = [⟨1, none, cellattr_T.zero⟩, ⟨0, none, cellattr_T.zero⟩, ⟨2, none, cellattr_T.zero⟩] ∧
    (add_empty_scrollback
        { scenario_term_load with tl_scrollback :=
            [⟨1, none, cellattr_T.zero⟩, ⟨2, none, cellattr_T.zero⟩] }
        cellattr_T.zero (0 : Nat)).2.tl_scrollback
      = [⟨1, none, cellattr_T.zero⟩, ⟨2, none, cellattr_T.zero⟩, ⟨0, none, cellattr_T.zero⟩] :=
  ⟨((add_empty_scrollback_inserts
      { scenario_term_load with tl_scrollback :=
          [⟨1, none, cellattr_T.zero⟩, ⟨2, none, cellattr_T.zero⟩] }
      cellattr_T.zero 1).2.1 (by decide) (by decide)).2.1,
   (add_empty_scrollback_inserts
      { scenario_term_load with tl_scrollback :=
          [⟨1, none, cellattr_T.zero⟩, ⟨2, none, cellattr_T.zero⟩] }
      cellattr_T.zero 0).2.2 rfl⟩

/-! ## Style flags: the two conversions -/

/-- The test `attr & flag` for one of the five style flags reads the low byte
of `attr` only. -/
theorem has_flag_low_byte (attr : Int) :
    has_flag attr HL_BOLD = decide ((attr % 256).toNat / 2 % 2 = 1) ∧
    has_flag attr HL_UNDERLINE = decide ((attr % 256).toNat / 8 % 2 = 1) ∧
    has_flag attr HL_ITALIC = decide ((attr % 256).toNat / 4 % 2 = 1) ∧
    has_flag attr HL_STRIKETHROUGH = decide ((attr % 256).toNat / 128 % 2 = 1) ∧
    has_flag attr HL_INVERSE = decide ((attr % 256).toNat / 1 % 2 = 1) := by
  unfold has_flag HL_BOLD HL_UNDERLINE HL_ITALIC HL_STRIKETHROUGH HL_INVERSE
  refine ⟨?_, ?_, ?_, ?_, ?_⟩ <;>
    (rw [Bool.eq_iff_iff]; simp only [beq_iff_eq, decide_eq_true_eq, Nat.cast_ofNat,
      Nat.cast_one]; omega)

set_option maxRecDepth 1000000 in
theorem style_flags_of_byte :
    ∀ m : Fin 256,
      ((if (if m.val / 2 % 2 = 1 then 1 else 0) ≠ 0 then HL_BOLD else 0)
        ||| (if (if m.val / 8 % 2 = 1 then 1 else 0) ≠ 0 then HL_UNDERLINE else 0)
        ||| (if (if m.val / 4 % 2 = 1 then 1 else 0) ≠ 0 then HL_ITALIC else 0)
        ||| (if (if m.val / 128 % 2 = 1 then 1 else 0) ≠ 0 then HL_STRIKETHROUGH else 0)
        ||| (if (if m.val / 1 % 2 = 1 then 1 else 0) ≠ 0 then HL_INVERSE else 0))
      = m.val &&& (HL_BOLD ||| HL_UNDERLINE ||| HL_ITALIC ||| HL_STRIKETHROUGH ||| HL_INVERSE) := by
  decide

/-- C30: for every integer `attr`, `vtermAttr2hl` of the cell attributes that
`hl2vtermAttr` stores for `attr` is `attr` restricted to the five flags
HL_BOLD, HL_UNDERLINE, HL_ITALIC, HL_STRIKETHROUGH and HL_INVERSE (the low byte
of `attr` in two's complement, masked with the five flags); and for every set
of cell attributes `a` whose one-bit fields hold 0 or 1, `hl2vtermAttr` of
`vtermAttr2hl a` has the bold, italic, strike and reverse flags of `a`,
underline 1 when `a` has any underline and 0 otherwise, and every other field
zero; the other fields of the cell are left as they are. -/
theorem style_flags_round_trip :
    (∀ (attr : Int) (cell : cellattr_T),
      vtermAttr2hl (hl2vtermAttr attr cell).attrs
        = (attr % 256).toNat
          &&& (HL_BOLD ||| HL_UNDERLINE ||| HL_ITALIC ||| HL_STRIKETHROUGH ||| HL_INVERSE)) ∧
    (∀ (a : VTermScreenCellAttrs) (cell : cellattr_T),
      a.bold ≤ 1 → a.italic ≤ 1 → a.strike ≤ 1 → a.reverse ≤ 1 →
      hl2vtermAttr (vtermAttr2hl a : Nat) cell
        = { cell with attrs :=
            { bold := a.bold, underline := if a.underline ≠ 0 then 1 else 0,
              italic := a.italic, blink := 0, reverse := a.reverse, strike := a.strike,
              font := 0, dwl := 0, dhl := 0 } }) := by
  constructor
  · intro attr cell
    obtain ⟨h1, h2, h3, h4, h5⟩ := has_flag_low_byte attr
    have hlt : (attr % 256).toNat < 256 := by omega
    have key := style_flags_of_byte ⟨(attr % 256).toNat, hlt⟩
    simp only at key
    rw [← key]
    unfold vtermAttr2hl hl2vtermAttr
    simp only [h1, h2, h3, h4, h5, decide_eq_true_eq]
  · intro a cell hb hi hs hr
    have b1 : a.bold = 0 ∨ a.bold = 1 := by omega
    have b2 : a.italic = 0 ∨ a.italic = 1 := by omega
    have b3 : a.strike = 0 ∨ a.strike = 1 := by omega
    have b4 : a.reverse = 0 ∨ a.reverse = 1 := by omega
    unfold vtermAttr2hl hl2vtermAttr VTermScreenCellAttrs.zero
    by_cases hu : a.underline = 0
    · rcases b1 with e1 | e1 <;> rcases b2 with e2 | e2 <;> rcases b3 with e3 | e3 <;>
        rcases b4 with e4 | e4 <;> simp only [e1, e2, e3, e4, hu] <;> rfl
    · rcases b1 with e1 | e1 <;> rcases b2 with e2 | e2 <;> rcases b3 with e3 | e3 <;>
        rcases b4 with e4 | e4 <;>
        simp only [e1, e2, e3, e4, hu, ne_eq, not_false_eq_true, if_true] <;> rfl

/-- Witness of C30: `attr` = -1 has all bits set and comes back as the five
flags, 0x8F; the attributes bold, underline 3, blink and font 2 come back as
bold and underline 1 with blink and font zero. -/
theorem style_flags_round_trip_witness :
    vtermAttr2hl (hl2vtermAttr (-1) cellattr_T.zero).attrs = 0x8F ∧
    (hl2vtermAttr (vtermAttr2hl ⟨1, 3, 0, 1, 0, 0, 2, 0, 0⟩ : Nat) cellattr_T.zero).attrs
      = ⟨1, 1, 0, 0, 0, 0, 0, 0, 0⟩ :=
  ⟨(style_flags_round_trip.1 (-1) cellattr_T.zero).trans (by decide),
   (congrArg cellattr_T.attrs (style_flags_round_trip.2 ⟨1, 3, 0, 1, 0, 0, 2, 0, 0⟩
      cellattr_T.zero (by decide) (by decide) (by decide) (by decide))).trans (by decide)⟩

/-! ## Engine callbacks -/

/-- C25: `handle_damage` widens the dirty range to the union: afterwards
`tl_dirty_row_start` is the smaller of the old start and `rect.start_row` and
`tl_dirty_row_end` the larger of the old end and `rect.end_row`, so the new
range contains the old range and the rows of the rectangle; from the empty
sentinel range (start `MAX_ROW`, end 0) the result is the row range of a
rectangle of the screen (rows from 0, below `MAX_ROW`); a redraw of the buffer
is scheduled and the rest of the terminal is left as it is. -/
theorem handle_damage_union (rect : VTermRect) (term : term_T) :
    (handle_damage rect term).2.1.tl_dirty_row_start
      = min term.tl_dirty_row_start rect.start_row ∧
    (handle_damage rect term).2.1.tl_dirty_row_end
      = max term.tl_dirty_row_end rect.end_row ∧
    ((handle_damage rect term).2.1.tl_dirty_row_start ≤ term.tl_dirty_row_start ∧
      (handle_damage rect term).2.1.tl_dirty_row_start ≤ rect.start_row ∧
      term.tl_dirty_row_end ≤ (handle_damage rect term).2.1.tl_dirty_row_end ∧
      rect.end_row ≤ (handle_damage rect term).2.1.tl_dirty_row_end) ∧
    (term.tl_dirty_row_start = MAX_ROW → term.tl_dirty_row_end = 0 →
      rect.start_row ≤ MAX_ROW → 0 ≤ rect.end_row →
      (handle_damage rect term).2.1.tl_dirty_row_start = rect.start_row ∧
      (handle_damage rect term).2.1.tl_dirty_row_end = rect.end_row) ∧
    (handle_damage rect term).2.1
      = { term with
          tl_dirty_row_start := min term.tl_dirty_row_start rect.start_row,
          tl_dirty_row_end := max term.tl_dirty_row_end rect.end_row } ∧
    (handle_damage rect term).2.2
      = [HostCall.redraw_buf_later term.tl_buffer.b_fnum NOT_VALID] := by
  have hmin : MIN term.tl_dirty_row_start rect.start_row
      = min term.tl_dirty_row_start rect.start_row := by
    unfold MIN
    split_ifs with h
    · exact (min_eq_left (le_of_lt h)).symm
    · exact (min_eq_right (not_lt.mp h)).symm
  have hmax : MAX term.tl_dirty_row_end rect.end_row
      = max term.tl_dirty_row_end rect.end_row := by
    unfold MAX
    split_ifs with h
    · exact (max_eq_left (le_of_lt h)).symm
    · exact (max_eq_right (not_lt.mp h)).symm
  have e1 : (handle_damage rect term).2.1.tl_dirty_row_start
      = min term.tl_dirty_row_start rect.start_row := hmin
  have e2 : (handle_damage rect term).2.1.tl_dirty_row_end
      = max term.tl_dirty_row_end rect.end_row := hmax
  refine ⟨e1, e2, ?_, ?_, ?_, rfl⟩
  · rw [e1, e2]
    exact ⟨min_le_left _ _, min_le_right _ _, le_max_left _ _, le_max_right _ _⟩
  · intro h1 h2 h3 h4
    rw [e1, e2, h1, h2]
    exact ⟨min_eq_right h3, max_eq_right h4⟩
  · rw [← hmin, ← hmax]
    rfl

/-- Witness of C25: from the empty sentinel range, damage of the rows 2 up to
5 leaves the dirty rows 2 up to 5. -/
theorem handle_damage_union_witness :
    (handle_damage ⟨2, 5, 0, 80⟩
        { scenario_term_24x80 with tl_dirty_row_start := MAX_ROW, tl_dirty_row_end := 0 }
      ).2.1.tl_dirty_row_start = 2 ∧
    (handle_damage ⟨2, 5, 0, 80⟩
        { scenario_term_24x80 with tl_dirty_row_start := MAX_ROW, tl_dirty_row_end := 0 }
      ).2.1.tl_dirty_row_end = 5 :=
  (handle_damage_union ⟨2, 5, 0, 80⟩
    { scenario_term_24x80 with tl_dirty_row_start := MAX_ROW, tl_dirty_row_end := 0 }).2.2.2.1
    rfl rfl (by decide) (by decide)

/-- C26, the code at two failing inputs.  With the dirty rows 3 up to 10 a
move to the destination rows 0 up to 2 leaves the dirty rows 0 up to 2: the
rows 2 to 9, dirty before, are no longer in the range.  With the dirty rows 3
up to 10 a move to the destination rows 5 up to 12 leaves the end at 10: the
destination rows 10 and 11 are not in the range.  `handle_moverect` takes the
smaller of the old end and `dest.end_row`, where `handle_damage` takes the
larger. -/
theorem handle_moverect_shrinks :
    ((handle_moverect ⟨0, 2, 0, 80⟩ ⟨1, 3, 0, 80⟩ scenario_term_dirty [scenario_win_24x80]
        0).2.1.tl_dirty_row_start,
      (handle_moverect ⟨0, 2, 0, 80⟩ ⟨1, 3, 0, 80⟩ scenario_term_dirty [scenario_win_24x80]
        0).2.1.tl_dirty_row_end) = (0, 2) ∧
    (scenario_term_dirty.tl_dirty_row_start, scenario_term_dirty.tl_dirty_row_end) = (3, 10) ∧
    ((handle_moverect ⟨5, 12, 0, 80⟩ ⟨6, 13, 0, 80⟩ scenario_term_dirty [scenario_win_24x80]
        0).2.1.tl_dirty_row_start,
      (handle_moverect ⟨5, 12, 0, 80⟩ ⟨6, 13, 0, 80⟩ scenario_term_dirty [scenario_win_24x80]
        0).2.1.tl_dirty_row_end) = (3, 10) ∧
    ((handle_damage ⟨5, 12, 0, 80⟩ scenario_term_dirty).2.1.tl_dirty_row_start,
      (handle_damage ⟨5, 12, 0, 80⟩ scenario_term_dirty).2.1.tl_dirty_row_end) = (3, 12) :=
  ⟨by decide, by decide, by decide, by decide⟩

/-- C27: `handle_resize` always records the reported size in `tl_rows` and
`tl_cols`; when the flag `tl_vterm_size_changed` is set it clears the flag and
leaves every window as it is; when the flag is clear it gives exactly the
windows that show the buffer of the terminal the reported height and width,
leaves every other window, and every other field of those windows, as it is,
and schedules a redraw of the buffer. -/
theorem handle_resize_frame (rows cols : Int) (term : term_T) (wins : List win_T) :
    (handle_resize rows cols term wins).1 = 1 ∧
    (handle_resize rows cols term wins).2.1.tl_rows = rows ∧
    (handle_resize rows cols term wins).2.1.tl_cols = cols ∧
    (term.tl_vterm_size_changed ≠ 0 →
      (handle_resize rows cols term wins).2.1.tl_vterm_size_changed = 0 ∧
      (handle_resize rows cols term wins).2.2.1 = wins ∧
      (handle_resize rows cols term wins).2.2.2 = []) ∧
    (term.tl_vterm_size_changed = 0 →
      (handle_resize rows cols term wins).2.1.tl_vterm_size_changed = 0 ∧
      (handle_resize rows cols term wins).2.2.1.length = wins.length ∧
      (∀ (i : Nat) (wp : win_T), wins[i]? = some wp →
        (wp.w_buffer = term.tl_buffer.b_fnum →
          (handle_resize rows cols term wins).2.2.1[i]?
            = some { wp with w_height := rows, w_width := cols }) ∧
        (wp.w_buffer ≠ term.tl_buffer.b_fnum →
          (handle_resize rows cols term wins).2.2.1[i]? = some wp)) ∧
      (handle_resize rows cols term wins).2.2.2
        = [HostCall.redraw_buf_later term.tl_buffer.b_fnum NOT_VALID]) := by
  by_cases hf : term.tl_vterm_size_changed = 0
  · have hr : handle_resize rows cols term wins
        = (1, { term with tl_rows := rows, tl_cols := cols },
           wins.map (fun wp =>
             if wp.w_buffer = term.tl_buffer.b_fnum then
               win_setwidth_win cols (win_setheight_win rows wp)
             else wp),
           [HostCall.redraw_buf_later term.tl_buffer.b_fnum NOT_VALID]) := by
      unfold handle_resize
      simp only [hf, ne_eq, not_true_eq_false, if_false]
    rw [hr]
    refine ⟨rfl, rfl, rfl, fun h => absurd hf h, fun _ => ⟨hf, ?_, ?_, rfl⟩⟩
    · simp only [List.length_map]
    · intro i wp hi
      simp only [List.getElem?_map, hi, Option.map_some']
      constructor
      · intro hb
        rw [if_pos hb]
        rfl
      · intro hb
        rw [if_neg hb]
  · have hr : handle_resize rows cols term wins
        = (1, { term with tl_rows := rows, tl_cols := cols, tl_vterm_size_changed := 0 },
           wins, []) := by
      unfold handle_resize
      simp only [hf, ne_eq, not_false_eq_true, if_true]
    rw [hr]
    exact ⟨rfl, rfl, rfl, fun _ => ⟨rfl, rfl, rfl⟩, fun h => absurd h hf⟩

/-- Witness of C27: a resize to 30 x 90 reported for the terminal in buffer 1,
with a window on buffer 1 and a window on buffer 2: with the flag clear the
first window becomes 30 x 90 and the second stays; with the flag set both
stay. -/
theorem handle_resize_frame_witness :
    (handle_resize 30 90 scenario_term_24x80
        [scenario_win_24x80, { scenario_win_10x100 with w_buffer := 2 }]).2.2.1[0]?
      = some { scenario_win_24x80 with w_height := 30, w_width := 90 } ∧
    (handle_resize 30 90 scenario_term_24x80
        [scenario_win_24x80, { scenario_win_10x100 with w_buffer := 2 }]).2.2.1[1]?
      = some { scenario_win_10x100 with w_buffer := 2 } ∧
    (handle_resize 30 90 { scenario_term_24x80 with tl_vterm_size_changed := 1 }
        [scenario_win_24x80, { scenario_win_10x100 with w_buffer := 2 }]).2.2.1
      = [scenario_win_24x80, { scenario_win_10x100 with w_buffer := 2 }] :=
  ⟨((((handle_resize_frame 30 90 scenario_term_24x80
      [scenario_win_24x80, { scenario_win_10x100 with w_buffer := 2 }]).2.2.2.2
      (by decide)).2.2.1 0 scenario_win_24x80 rfl).1 (by decide)),
   ((((handle_resize_frame 30 90 scenario_term_24x80
      [scenario_win_24x80, { scenario_win_10x100 with w_buffer := 2 }]).2.2.2.2
      (by decide)).2.2.1 1 { scenario_win_10x100 with w_buffer := 2 } rfl).2 (by decide)),
   ((handle_resize_frame 30 90 { scenario_term_24x80 with tl_vterm_size_changed := 1 }
      [scenario_win_24x80, { scenario_win_10x100 with w_buffer := 2 }]).2.2.2.1
      (by decide)).2.1⟩

/-! ## Dump/Diff codec: one swap of a diff -/

/-- C21: one `term_swap_diff` call that returns OK on a terminal whose text is
a top block (the first `tl_top_diff_rows` lines), a middle block and a bottom
block (the last `tl_bot_diff_rows` lines), with the scrollback laid out in
blocks of the same lengths, leaves the text bottom ++ middle ++ top and the
scrollback entries permuted in the same way, the middle lines and their
entries unchanged and in the same order, and exchanges `tl_top_diff_rows` and
`tl_bot_diff_rows`, whether the two counts are equal or not; nothing else of
the terminal changes.  A call that returns FAIL modifies nothing. -/
theorem term_swap_diff_permutes :
    (∀ (term : term_T) (top mid bot : List (List Nat)) (st sm sbt : List sb_line_T)
      (e : Bool),
      (term_swap_diff (some term)).1 = OK →
      term.tl_buffer.b_ml = ⟨top ++ mid ++ bot, e⟩ →
      term.tl_scrollback = st ++ sm ++ sbt →
      term.tl_top_diff_rows = (top.length : Int) →
      term.tl_bot_diff_rows = (bot.length : Int) →
      st.length = top.length → sm.length = mid.length → sbt.length = bot.length →
      term_swap_diff (some term) =
        (OK, some { term with
          tl_buffer := { term.tl_buffer with b_ml := ⟨bot ++ mid ++ top, false⟩ },
          tl_scrollback := sbt ++ sm ++ st,
          tl_top_diff_rows := term.tl_bot_diff_rows,
          tl_bot_diff_rows := term.tl_top_diff_rows })) ∧
    (∀ b_term : Option term_T, (term_swap_diff b_term).1 = FAIL →
      (term_swap_diff b_term).2 = b_term) := by
  constructor
  · intro term top mid bot st sm sbt e hOK hlines hsb hT hB hst hsm hsbt
    have hcond : ¬ (term_is_finished (some term) = false ∨ term.tl_top_diff_rows = 0
        ∨ term.tl_scrollback.length = 0) := by
      intro hc
      have : term_swap_diff (some term) = (FAIL, some term) := by
        unfold term_swap_diff
        simp only [hc, if_true]
      rw [this] at hOK
      have hne : FAIL ≠ OK := by decide
      exact absurd hOK hne
    have hfin : term.tl_vterm = none := by
      by_contra hv
      apply hcond
      left
      unfold term_is_finished
      simp only
      cases h : term.tl_vterm with
      | none => exact absurd h hv
      | some v => rfl
    have htop : 1 ≤ top.length := by
      by_contra hlt
      apply hcond
      right; left
      rw [hT]
      have : top.length = 0 := by omega
      rw [this]; rfl
    have key := term_swap_diff_blocks term top mid bot st sm sbt e hfin hlines hsb hT hB
      hst hsm hsbt htop
    rw [key, hT, hB]
  · intro b_term hF
    cases b_term with
    | none => rfl
    | some term =>
      by_cases hc : term_is_finished (some term) = false ∨ term.tl_top_diff_rows = 0
          ∨ term.tl_scrollback.length = 0
      · have : term_swap_diff (some term) = (FAIL, some term) := by
          unfold term_swap_diff
          simp only [hc, if_true]
        rw [this]
      · have h1 : (term_swap_diff (some term)).1 = OK := by
          unfold term_swap_diff
          simp only [hc, if_false]
        rw [h1] at hF
        have hne : OK ≠ FAIL := by decide
        exact absurd hF hne

/-- Witness of C21: the swap of a diff with one top row and one bottom row
(equal counts), and of a diff with one top row and no bottom row (different
counts). -/
theorem term_swap_diff_permutes_witness :
    (∃ t, term_swap_diff (some scenario_diff_term_ab) = (OK, some t) ∧
      t.tl_buffer.b_ml.ml_lines = [[98], [61], [88], [61], [97]] ∧
      t.tl_scrollback.map (fun l => l.sb_cols) = [1, 0, 0, 0, 1]) ∧
    (∃ t, term_swap_diff (some scenario_diff_term) = (OK, some t) ∧
      t.tl_buffer.b_ml.ml_lines = [[61], [45], [61], [97]] ∧
      t.tl_scrollback.map (fun l => l.sb_cols) = [0, 0, 0, 1]) :=
  ⟨⟨_, term_swap_diff_permutes.1 scenario_diff_term_ab [[97]] [[61], [88], [61]] [[98]]
      [scenario_diff_term_ab.tl_scrollback.getD 0 default]
      [⟨0, none, default⟩, ⟨0, none, default⟩, ⟨0, none, default⟩]
      [scenario_diff_term_ab.tl_scrollback.getD 4 default] false
      (by decide) rfl rfl rfl rfl rfl rfl rfl, rfl, by decide⟩,
   ⟨_, term_swap_diff_permutes.1 scenario_diff_term [[97]] [[61], [45], [61]] []
      [scenario_diff_term.tl_scrollback.getD 0 default]
      [⟨0, none, default⟩, ⟨0, none, default⟩, ⟨0, none, default⟩]
      [] false
      (by decide) rfl rfl rfl rfl rfl rfl rfl, rfl, by decide⟩⟩

/-! ## Cell/Scrollback store: deferred blank rows -/

/-- The index of the last `true` plus one: it is at most the length, the entry
before it is `true` unless it is zero, and no entry from it on is `true`. -/
theorem last_true_succ_spec :
    ∀ F : List Bool, last_true_succ F ≤ F.length ∧
      (last_true_succ F = 0 ∨ F.getD (last_true_succ F - 1) false = true) ∧
      (∀ i, last_true_succ F ≤ i → F.getD i false = false) := by
  intro F
  induction F with
  | nil => exact ⟨Nat.le_refl _, Or.inl rfl, fun i _ => rfl⟩
  | cons b rest ih =>
    obtain ⟨h1, h2, h3⟩ := ih
    unfold last_true_succ
    by_cases hk : last_true_succ rest ≠ 0
    · rw [if_pos hk]
      refine ⟨by simp only [List.length_cons]; omega, Or.inr ?_, ?_⟩
      · rcases h2 with h2 | h2
        · exact absurd h2 hk
        · have : last_true_succ rest + 1 - 1 = (last_true_succ rest - 1) + 1 := by omega
          rw [this, List.getD_cons_succ]
          exact h2
      · intro i hi
        obtain ⟨j, rfl⟩ : ∃ j, i = j + 1 := ⟨i - 1, by omega⟩
        rw [List.getD_cons_succ]
        exact h3 j (by omega)
    · rw [if_neg hk]
      have hk0 : last_true_succ rest = 0 := not_not.mp hk
      cases b with
      | true =>
        refine ⟨by simp, Or.inr rfl, ?_⟩
        intro i hi
        simp only [if_true] at hi
        obtain ⟨j, rfl⟩ : ∃ j, i = j + 1 := ⟨i - 1, by omega⟩
        rw [List.getD_cons_succ]
        exact h3 j (by omega)
      | false =>
        refine ⟨by simp, Or.inl (by simp), ?_⟩
        intro i _
        cases i with
        | zero => rfl
        | succ j =>
          rw [List.getD_cons_succ]
          exact h3 j (by omega)

/-- In a row all of whose cells can be read the scan does not depend on the
`new_fill_attr` and `cell` it starts with, when there is a column. -/
theorem move_scan_start (vt : VTerm) (dflt : cellattr_T) (row : Nat) (cols : Nat)
    (hg : ∀ col, col < cols + 1 → ∃ c, vterm_screen_get_cell vt ⟨(row : Int), (col : Nat)⟩
      = some c)
    (f1 f2 : cellattr_T) (c1 c2 : VTermScreenCell) :
    (List.range (cols + 1)).foldl (move_scan_step vt dflt row) ⟨0, f1, c1⟩
      = (List.range (cols + 1)).foldl (move_scan_step vt dflt row) ⟨0, f2, c2⟩ := by
  rw [List.range_succ_eq_map, List.foldl_cons, List.foldl_cons]
  obtain ⟨c, hc⟩ := hg 0 (Nat.succ_pos _)
  have e : move_scan_step vt dflt row ⟨0, f1, c1⟩ 0 = move_scan_step vt dflt row ⟨0, f2, c2⟩ 0 := by
    unfold move_scan_step
    rw [hc]
  rw [e]

/-- The scan that `move_row` runs is the scan of the row from the default
colour. -/
theorem move_scan_row_eq (vt : VTerm) (dflt : cellattr_T) (row : Nat) (cols : Nat)
    (hg : ∀ col, col < cols → ∃ c, vterm_screen_get_cell vt ⟨(row : Int), (col : Nat)⟩
      = some c)
    (f : cellattr_T) (c1 c2 : VTermScreenCell) (h0 : cols = 0 → f = dflt) :
    ((List.range cols).foldl (move_scan_step vt dflt row) ⟨0, f, c1⟩).len
      = (move_scan_row vt dflt cols c2 row).len ∧
    ((List.range cols).foldl (move_scan_step vt dflt row) ⟨0, f, c1⟩).fill
      = (move_scan_row vt dflt cols c2 row).fill := by
  unfold move_scan_row
  cases cols with
  | zero =>
    simp only [List.range_zero, List.foldl_nil]
    exact ⟨trivial, h0 rfl⟩
  | succ n =>
    rw [move_scan_start vt dflt row n hg f dflt c1 c2]
    exact ⟨rfl, rfl⟩

/-- With no column the scan leaves the fill attribute it started with. -/
theorem move_scan_row_zero (vt : VTerm) (dflt : cellattr_T) (cell : VTermScreenCell)
    (row : Nat) : (move_scan_row vt dflt 0 cell row).fill = dflt := rfl

theorem stores_refl (t : term_T) (h : 1 ≤ t.tl_buffer.b_ml.ml_lines.length) : Stores t t [] :=
  ⟨Grows.refl t h, (List.append_nil _).symm, fun _ => rfl, by simp⟩

theorem stores_trans {t t1 t2 : term_T} {e1 e2 : List sb_line_T} (h1 : Stores t t1 e1)
    (h2 : Stores t1 t2 e2) : Stores t t2 (e1 ++ e2) := by
  obtain ⟨g1, s1, b1, c1⟩ := h1
  obtain ⟨g2, s2, b2, c2⟩ := h2
  refine ⟨?_, ?_, ?_, ?_⟩
  · rw [List.length_append]; exact Grows.trans g1 g2
  · rw [s2, s1, List.append_assoc]
  · intro h
    obtain ⟨ha, hb⟩ := List.append_eq_nil.mp h
    rw [b2 hb, b1 ha]
  · by_cases he : e1 = []
    · subst he
      rw [b1 rfl] at c2
      simpa using c2
    · have hk : 0 < e1.length := List.length_pos.mpr he
      have hne : t1.tl_buffer.b_ml.ml_empty = false := g1.2.2.2.2.2.2.2 hk
      rw [hne] at c2
      simp only [Bool.false_eq_true, false_and, if_false, Nat.add_zero] at c2
      simp only [hk, and_true] at c1
      have hk2 : 0 < e1.length + e2.length := by omega
      simp only [List.length_append, hk2, and_true]
      omega

theorem stores_add_line (t : term_T) (line : sb_line_T) (text : List Nat)
    (h : 1 ≤ t.tl_buffer.b_ml.ml_lines.length) :
    Stores t (add_scrollback_line_to_buffer
      { t with tl_scrollback := t.tl_scrollback ++ [line] } text) [line] := by
  refine ⟨Grows.add_line t line text h, rfl, fun hc => absurd hc (by simp), ?_⟩
  have := (add_line_count { t with tl_scrollback := t.tl_scrollback ++ [line] } text h).2
  simp only [List.length_cons, List.length_nil, Nat.zero_add, Nat.lt_one_iff, and_true]
  exact this

theorem stores_flush (fill : cellattr_T) :
    ∀ (n : Nat) (t : term_T), 1 ≤ t.tl_buffer.b_ml.ml_lines.length →
      Stores t (move_flush_skipped n fill t) (List.replicate n ⟨0, none, fill⟩) := by
  intro n
  induction n with
  | zero => intro t h; exact stores_refl t h
  | succ n ih =>
    intro t h
    simp only [move_flush_skipped, add_empty_scrollback_tail, if_true]
    have h1 := stores_add_line t ⟨0, none, fill⟩ [] h
    have h2 := ih _ h1.1.2.2.2.2.2.1
    have := stores_trans h1 h2
    rw [List.replicate_succ]
    exact this

/-- What one round of the row loop of `move_terminal_to_buffer` does: a blank
row whose fill colour is that of the row stored before is counted, any other
row is stored after an empty line for each row counted. -/
theorem move_row_stores (vt : VTerm) (u : Uninit) (row : Nat) (st : MoveState)
    (scan : RowScan)
    (hscan : scan = (List.range st.term.tl_cols.toNat).foldl
      (move_scan_step vt st.term.tl_default_color row) ⟨0, st.new_fill_attr, st.cell⟩)
    (hw : ∀ r ∈ vt.screen, ∀ c ∈ r, 1 ≤ c.width)
    (hl : 1 ≤ st.term.tl_buffer.b_ml.ml_lines.length) :
    ((scan.len = 0 ∧ equal_celattr scan.fill st.fill_attr = true) →
      move_row vt u st row
        = some { st with lines_skipped := st.lines_skipped + 1,
                         new_fill_attr := scan.fill, cell := scan.cell }) ∧
    (¬ (scan.len = 0 ∧ equal_celattr scan.fill st.fill_attr = true) →
      ∃ st1 p, move_row vt u st row = some st1 ∧
        Stores st.term st1.term (List.replicate st.lines_skipped ⟨0, none, st.fill_attr⟩
          ++ [⟨(scan.len : Int), if scan.len = 0 then none else some p, scan.fill⟩]) ∧
        st1.lines_skipped = 0 ∧ st1.fill_attr = scan.fill ∧
        st1.new_fill_attr = scan.fill) := by
  unfold move_row
  simp only
  rw [← hscan]
  constructor
  · intro hskip
    rw [if_pos hskip]
  · intro hskip
    rw [if_neg hskip]
    have hfl := stores_flush st.fill_attr st.lines_skipped st.term hl
    obtain ⟨r, hr, -⟩ := move_store_cols_some vt row scan.len
      (fun c col _ hc => by
        obtain ⟨rw, hrw, hcm⟩ := get_cell_mem vt _ c hc
        exact hw rw hrw c hcm)
      scan.len 0 scan.cell (List.replicate scan.len u.attr) [] (Nat.zero_add _).symm.le
    obtain ⟨c0, p0, ga0⟩ := r
    rw [hr]
    refine ⟨_, p0, rfl, ?_, rfl, rfl, rfl⟩
    exact stores_trans hfl (stores_add_line _ _ _ hfl.1.2.2.2.2.2.1)

theorem last_true_succ_cons_true (F : List Bool) :
    last_true_succ (true :: F) = last_true_succ F + 1 := by
  show (if last_true_succ F ≠ 0 then last_true_succ F + 1 else if true then 1 else 0) = _
  by_cases h : last_true_succ F ≠ 0
  · rw [if_pos h]
  · rw [if_neg h, not_not.mp h]; rfl

theorem last_true_succ_cons_false (F : List Bool) :
    last_true_succ (false :: F) = if last_true_succ F = 0 then 0 else last_true_succ F + 1 := by
  show (if last_true_succ F ≠ 0 then last_true_succ F + 1 else if false then 1 else 0) = _
  by_cases h : last_true_succ F = 0
  · rw [if_neg (not_not.mpr h), if_pos h]; rfl
  · rw [if_pos h, if_neg h]

/-- The row loop of `move_terminal_to_buffer` on a grid whose cells can all be
read: the entries it adds are an empty line for each row counted before, and
the rows up to the last forcing row, each with the length that its scan
found. -/
theorem move_rows_defers (vt : VTerm) (u : Uninit) (dflt : cellattr_T) (cols : Nat)
    (hw : ∀ r ∈ vt.screen, ∀ c ∈ r, 1 ≤ c.width) :
    ∀ (rows : List Nat) (st : MoveState),
      st.term.tl_default_color = dflt → st.term.tl_cols.toNat = cols →
      1 ≤ st.term.tl_buffer.b_ml.ml_lines.length →
      (∀ r ∈ rows, ∀ col, col < cols →
        ∃ c, vterm_screen_get_cell vt ⟨((r : Nat) : Int), ((col : Nat) : Int)⟩ = some c) →
      (cols = 0 → st.new_fill_attr = dflt) →
      ∃ st1 es, move_rows vt u rows st = some st1 ∧ Stores st.term st1.term es ∧
        es.map (fun l => (l.sb_cols, l.sb_cells.isSome)) =
          (if last_true_succ (spec_forcing st.fill_attr
              (rows.map (move_scan_row vt dflt cols u.cell))) = 0 then []
           else List.replicate st.lines_skipped ((0 : Int), false) ++
            ((rows.map (move_scan_row vt dflt cols u.cell)).take
              (last_true_succ (spec_forcing st.fill_attr
                (rows.map (move_scan_row vt dflt cols u.cell))))).map
              (fun s => ((s.len : Int), decide (s.len ≠ 0)))) := by
  intro rows
  induction rows with
  | nil =>
    intro st _ _ hl _ _
    exact ⟨st, [], rfl, stores_refl _ hl, rfl⟩
  | cons row rest ih =>
    intro st hd hc hl hg h0
    obtain ⟨scan, hscan⟩ : ∃ scan, scan = (List.range st.term.tl_cols.toNat).foldl
      (move_scan_step vt st.term.tl_default_color row) ⟨0, st.new_fill_attr, st.cell⟩ :=
      ⟨_, rfl⟩
    obtain ⟨S, hS⟩ : ∃ S, S = move_scan_row vt dflt cols u.cell row := ⟨_, rfl⟩
    have hse := move_scan_row_eq vt dflt row cols (hg row (List.mem_cons_self _ _))
      st.new_fill_attr st.cell u.cell h0
    rw [← hc, ← hd, ← hscan] at hse
    rw [hd, hc, ← hS] at hse
    obtain ⟨hlen, hfill⟩ := hse
    have hS0 : cols = 0 → S.fill = dflt := by
      intro hz
      rw [hS, hz]
      rfl
    obtain ⟨hskip, hforce⟩ := move_row_stores vt u row st scan hscan hw hl
    rw [List.map_cons, ← hS]
    by_cases hcond : scan.len = 0 ∧ equal_celattr scan.fill st.fill_attr = true
    · have hrow := hskip hcond
      have hnf : ¬ (S.len ≠ 0 ∨ equal_celattr S.fill st.fill_attr = false) := by
        rw [← hlen, ← hfill]
        rintro (h | h)
        · exact h hcond.1
        · rw [hcond.2] at h; exact absurd h (by decide)
      obtain ⟨st1, es, e1, e2, e3⟩ := ih
        { st with lines_skipped := st.lines_skipped + 1,
                  new_fill_attr := scan.fill, cell := scan.cell } hd hc hl
        (fun r hr => hg r (List.mem_cons_of_mem _ hr))
        (fun hz => by show scan.fill = dflt; rw [hfill]; exact hS0 hz)
      refine ⟨st1, es, ?_, e2, ?_⟩
      · rw [move_rows_cons vt u row rest st _ hrow]; exact e1
      · rw [e3]
        show _ = if last_true_succ (spec_forcing st.fill_attr (S :: _)) = 0 then _ else _
        have hsf : spec_forcing st.fill_attr (S :: rest.map (move_scan_row vt dflt cols u.cell))
            = false :: spec_forcing st.fill_attr (rest.map (move_scan_row vt dflt cols u.cell)) := by
          conv_lhs => unfold spec_forcing
          rw [if_neg hnf]
        rw [hsf, last_true_succ_cons_false]
        simp only
        by_cases hk : last_true_succ (spec_forcing st.fill_attr
            (rest.map (move_scan_row vt dflt cols u.cell))) = 0
        · simp only [hk, if_true]
        · simp only [hk, if_false, Nat.add_one_ne_zero, List.take_succ_cons, List.map_cons]
          have hz : S.len = 0 := by rw [← hlen]; exact hcond.1
          rw [hz, List.replicate_succ']
          simp
    · obtain ⟨st1, p, hrow, hst, hs0, hfa, hnfa⟩ := hforce hcond
      have hf : S.len ≠ 0 ∨ equal_celattr S.fill st.fill_attr = false := by
        rw [← hlen, ← hfill]
        by_cases hz : scan.len = 0
        · right
          cases hb : equal_celattr scan.fill st.fill_attr with
          | false => rfl
          | true => exact absurd ⟨hz, hb⟩ hcond
        · left; exact hz
      obtain ⟨st2, es, e1, e2, e3⟩ := ih st1 (hst.1.2.2.2.1.trans hd)
        (by rw [hst.1.2.1]; exact hc) hst.1.2.2.2.2.2.1
        (fun r hr => hg r (List.mem_cons_of_mem _ hr))
        (fun hz => by rw [hnfa, hfill]; exact hS0 hz)
      refine ⟨st2, _, ?_, stores_trans hst e2, ?_⟩
      · rw [move_rows_cons vt u row rest st _ hrow]; exact e1
      · have hsf : spec_forcing st.fill_attr (S :: rest.map (move_scan_row vt dflt cols u.cell))
            = true :: spec_forcing S.fill (rest.map (move_scan_row vt dflt cols u.cell)) := by
          conv_lhs => unfold spec_forcing
          rw [if_pos hf]
        rw [hsf, last_true_succ_cons_true, if_neg (Nat.add_one_ne_zero _),
          List.take_succ_cons, List.map_cons, List.map_append, List.map_append, e3, hs0, hfa,
          hfill]
        simp only [List.map_replicate, List.map_cons, List.map_nil]
        have hsome : ((if scan.len = 0 then none else some p : Option (List cellattr_T))).isSome
            = decide (S.len ≠ 0) := by
          rw [hlen]
          by_cases hz : S.len = 0
          · simp [hz]
          · simp [hz]
        rw [hsome, hlen]
        by_cases hk : last_true_succ (spec_forcing S.fill
            (rest.map (move_scan_row vt dflt cols u.cell))) = 0
        · simp [hk]
        · simp [hk]

theorem spec_forcing_length :
    ∀ (S : List RowScan) (prev : cellattr_T), (spec_forcing prev S).length = S.length := by
  intro S
  induction S with
  | nil => intro prev; rfl
  | cons s rest ih =>
    intro prev
    unfold spec_forcing
    split_ifs
    · rw [List.length_cons, ih, List.length_cons]
    · rw [List.length_cons, ih, List.length_cons]

/-- The scan of a row finds a length other than 0 exactly when the row has a
cell that is not blank. -/
theorem move_scan_len_ne_zero (vt : VTerm) (dflt : cellattr_T) (row : Nat) :
    ∀ (n : Nat) (st : RowScan),
      ((List.range n).foldl (move_scan_step vt dflt row) st).len ≠ 0 →
      st.len ≠ 0 ∨ ∃ col, col < n ∧ ∃ c,
        vterm_screen_get_cell vt ⟨(row : Int), ((col : Nat) : Int)⟩ = some c ∧
        c.chars.getD 0 0 ≠ 0 := by
  intro n
  induction n with
  | zero => intro st h; exact Or.inl h
  | succ m ih =>
    intro st h
    rw [List.range_succ, List.foldl_append] at h
    simp only [List.foldl_cons, List.foldl_nil] at h
    have lift : (st.len ≠ 0 ∨ ∃ col, col < m ∧ ∃ c,
        vterm_screen_get_cell vt ⟨(row : Int), ((col : Nat) : Int)⟩ = some c ∧
        c.chars.getD 0 0 ≠ 0) →
        st.len ≠ 0 ∨ ∃ col, col < m + 1 ∧ ∃ c,
        vterm_screen_get_cell vt ⟨(row : Int), ((col : Nat) : Int)⟩ = some c ∧
        c.chars.getD 0 0 ≠ 0 := by
      rintro (h1 | ⟨col, hc, x⟩)
      · exact Or.inl h1
      · exact Or.inr ⟨col, Nat.lt_succ_of_lt hc, x⟩
    unfold move_scan_step at h
    split at h
    · next c hc =>
      split_ifs at h with hnb
      · exact Or.inr ⟨m, Nat.lt_succ_self _, c, hc, hnb⟩
      · exact lift (ih st h)
    · exact lift (ih st h)

theorem move_scan_row_nonblank (vt : VTerm) (dflt : cellattr_T) (cols : Nat)
    (cell : VTermScreenCell) (row : Nat) :
    (move_scan_row vt dflt cols cell row).len ≠ 0 ↔
      ∃ col, col < cols ∧ ∃ c,
        vterm_screen_get_cell vt ⟨(row : Int), ((col : Nat) : Int)⟩ = some c ∧
        c.chars.getD 0 0 ≠ 0 := by
  unfold move_scan_row
  constructor
  · intro h
    rcases move_scan_len_ne_zero vt dflt row cols _ h with h0 | h1
    · exact absurd rfl h0
    · exact h1
  · rintro ⟨col, hc, c, hg, hnb⟩
    have := move_scan_nonblank vt dflt row ⟨0, dflt, cell⟩ col c hg hnb cols hc
    omega

/-- C22: `move_terminal_to_buffer` defers blank rows.  On a live terminal whose
grid cells can all be read (each of width 1 or more), with the rows called
forcing as `spec_forcing` says (a row with a non-blank cell, or a blank row
whose fill colour differs from that of the row stored before, at first the
default colour): the function returns, the number of scrollback entries it
appends is the index of the last forcing row plus one, or zero when no row is
forcing; entry `i` has the length that the scan of row `i` found, so each
blank row up to the last forcing row is an empty line (`sb_cols` 0, no cells)
and the blank rows after it are not stored; as many text lines are added, the
first in the place of the empty line of a buffer flagged empty. -/
theorem move_terminal_to_buffer_defers (u : Uninit) (term : term_T) (wins : List win_T)
    (vt : VTerm) (hvt : term.tl_vterm = some vt)
    (hw : ∀ r ∈ vt.screen, ∀ c ∈ r, 1 ≤ c.width)
    (hgrid : ∀ (row col : Nat), row < term.tl_rows.toNat → col < term.tl_cols.toNat →
      ∃ c, vterm_screen_get_cell vt ⟨(row : Int), (col : Int)⟩ = some c)
    (hl : 1 ≤ term.tl_buffer.b_ml.ml_lines.length) :
    ∃ t1 w1 es, move_terminal_to_buffer u term wins = some (t1, w1) ∧
      t1.tl_scrollback = term.tl_scrollback ++ es ∧
      es.length ≤ term.tl_rows.toNat ∧
      (es.length = 0 ∨
        (spec_forcing term.tl_default_color ((List.range term.tl_rows.toNat).map
          (move_scan_row vt term.tl_default_color term.tl_cols.toNat u.cell))).getD
            (es.length - 1) false = true) ∧
      (∀ i, es.length ≤ i →
        (spec_forcing term.tl_default_color ((List.range term.tl_rows.toNat).map
          (move_scan_row vt term.tl_default_color term.tl_cols.toNat u.cell))).getD
            i false = false) ∧
      (∀ i, i < es.length →
        (es.getD i default).sb_cols
          = ((move_scan_row vt term.tl_default_color term.tl_cols.toNat u.cell i).len : Int) ∧
        ((move_scan_row vt term.tl_default_color term.tl_cols.toNat u.cell i).len = 0 →
          (es.getD i default).sb_cells = none)) ∧
      (∀ row, ((move_scan_row vt term.tl_default_color term.tl_cols.toNat u.cell row).len ≠ 0
        ↔ ∃ col, col < term.tl_cols.toNat ∧ ∃ c,
          vterm_screen_get_cell vt ⟨(row : Int), ((col : Nat) : Int)⟩ = some c ∧
          c.chars.getD 0 0 ≠ 0)) ∧
      t1.tl_buffer.b_ml.ml_lines.length
          + (if term.tl_buffer.b_ml.ml_empty = true ∧ 0 < es.length then 1 else 0)
        = term.tl_buffer.b_ml.ml_lines.length + es.length ∧
      (term.tl_buffer.b_ml.ml_empty = false →
        ∃ ls, ls.length = es.length ∧
          t1.tl_buffer.b_ml.ml_lines = term.tl_buffer.b_ml.ml_lines ++ ls) := by
  obtain ⟨S, hS⟩ : ∃ S, S = (List.range term.tl_rows.toNat).map
      (move_scan_row vt term.tl_default_color term.tl_cols.toNat u.cell) := ⟨_, rfl⟩
  obtain ⟨F, hF⟩ : ∃ F, F = spec_forcing term.tl_default_color S := ⟨_, rfl⟩
  obtain ⟨st1, es, e1, e2, e3⟩ := move_rows_defers vt u term.tl_default_color
    term.tl_cols.toNat hw (List.range term.tl_rows.toNat)
    ⟨term, 0, term.tl_default_color, term.tl_default_color, u.cell⟩ rfl rfl hl
    (fun r hr col hc => hgrid r col (List.mem_range.mp hr) hc) (fun _ => rfl)
  simp only at e2 e3
  rw [← hS, ← hF] at e3 ⊢
  obtain ⟨k1, k2, k3⟩ := last_true_succ_spec F
  have hFl : F.length = S.length := by rw [hF]; exact spec_forcing_length S _
  have hSl : S.length = term.tl_rows.toNat := by rw [hS, List.length_map, List.length_range]
  have e4 : es.map (fun l => (l.sb_cols, l.sb_cells.isSome))
      = (S.take (last_true_succ F)).map (fun s => ((s.len : Int), decide (s.len ≠ 0))) := by
    rw [e3]
    by_cases hk : last_true_succ F = 0
    · rw [if_pos hk, hk]; rfl
    · rw [if_neg hk]; rfl
  have hlen : es.length = last_true_succ F := by
    have := congrArg List.length e4
    rw [List.length_map, List.length_map, List.length_take] at this
    omega
  obtain ⟨g, hsb, -, hcount⟩ := e2
  refine ⟨_, _, es, move_terminal_to_buffer_live u term wins vt st1 hvt e1, hsb, ?_, ?_, ?_, ?_,
    ?_, hcount, ?_⟩
  · rw [hlen]; omega
  · rw [hlen]; exact k2
  · intro i hi; exact k3 i (by rw [← hlen]; exact hi)
  · intro i hi
    have hiS : i < S.length := by omega
    have ht : i < last_true_succ F := by rw [← hlen]; exact hi
    have hSi : S[i]? = some (move_scan_row vt term.tl_default_color term.tl_cols.toNat
        u.cell i) := by
      rw [List.getElem?_eq_getElem hiS]
      simp only [hS, List.getElem_map, List.getElem_range]
    have h5 : (es.map (fun l => (l.sb_cols, l.sb_cells.isSome)))[i]?
        = ((S.take (last_true_succ F)).map
            (fun s => ((s.len : Int), decide (s.len ≠ 0))))[i]? := by rw [e4]
    rw [List.getElem?_map, List.getElem?_map, List.getElem?_take_of_lt ht, hSi,
      List.getElem?_eq_getElem hi] at h5
    simp only [Option.map_some', Option.some.injEq, Prod.mk.injEq] at h5
    rw [List.getD_eq_getElem _ _ hi]
    refine ⟨h5.1, fun hz => ?_⟩
    have h6 := h5.2
    rw [hz] at h6
    cases hcells : (es[i]).sb_cells with
    | none => rfl
    | some p =>
      rw [hcells] at h6
      exact absurd h6 (by simp)
  · intro row
    exact move_scan_row_nonblank vt term.tl_default_color term.tl_cols.toNat u.cell row
  · intro hne
    exact (g.2.2.2.2.2.2.1 hne).2

/-- Witness of C22: a grid of four rows, `a`, a blank row in the default
colours, a blank row that ends on blue and a blank row on blue: the rows 0 and
2 are forcing, three entries of the lengths 1, 0 and 0 are stored and the last
row is not. -/
theorem move_terminal_to_buffer_defers_witness :
    (∃ t1 w1 es, move_terminal_to_buffer default scenario_term_rows [] = some (t1, w1) ∧
      t1.tl_scrollback = scenario_term_rows.tl_scrollback ++ es ∧
      es.length ≤ scenario_term_rows.tl_rows.toNat) ∧
    spec_forcing scenario_term_rows.tl_default_color ((List.range 4).map
      (move_scan_row scenario_vterm_rows scenario_term_rows.tl_default_color 2
        (default : Uninit).cell)) = [true, false, true, false] ∧
    (move_terminal_to_buffer default scenario_term_rows []).map
      (fun r => (r.1.tl_scrollback.map (fun l => (l.sb_cols, l.sb_cells.isSome)),
        r.1.tl_buffer.b_ml.ml_lines))
      = some ([(1, true), (0, false), (0, false)], [[97], [], []]) :=
  ⟨(move_terminal_to_buffer_defers default scenario_term_rows [] scenario_vterm_rows rfl
      (by decide)
      (fun row col hr hc => by
        have hr4 : row < 4 := hr
        have hc2 : col < 2 := hc
        interval_cases row <;> interval_cases col <;> exact ⟨_, rfl⟩)
      (by decide)).imp
      (fun _ h => h.imp (fun _ h => h.imp (fun _ h => ⟨h.1, h.2.1, h.2.2.1⟩))),
   by decide, by decide⟩

/-! ## Cell/Scrollback store: the two row scans -/

/-- The cell that `vterm_screen_get_cell` reads in row 0 of a grid of one
row. -/
theorem get_cell_single_row (cells : List VTermScreenCell) (fg bg : VTermColor)
    (pos : VTermPos) (n : Nat) :
    vterm_screen_get_cell ⟨[cells], fg, bg, pos⟩ ⟨((0 : Nat) : Int), ((n : Nat) : Int)⟩
      = cells[n]? := by
  unfold vterm_screen_get_cell
  have h : ¬ ((0 : Int) < 0 ∨ ((n : Nat) : Int) < 0) := by omega
  simp only [Nat.cast_zero, h, if_false, Int.toNat_zero, List.getElem?_cons_zero,
    Int.toNat_ofNat]

/-- Both scans find the same length in the first `n` cells of a row. -/
theorem scan_len_agree (cells : List VTermScreenCell) (dflt : cellattr_T)
    (fg bg : VTermColor) (pos : VTermPos) (c0 : VTermScreenCell) :
    ∀ n, n ≤ cells.length →
      ((List.range n).foldl (pushline_scan_step cells)
          ⟨0, dflt, VTermScreenCell.zero⟩).len
        = ((List.range n).foldl (move_scan_step ⟨[cells], fg, bg, pos⟩ dflt ((0 : Nat) : Int))
          ⟨0, dflt, c0⟩).len := by
  intro n
  induction n with
  | zero => intro _; rfl
  | succ m ih =>
    intro hm
    have hlt : m < cells.length := hm
    rw [List.range_succ, List.foldl_append, List.foldl_append]
    simp only [List.foldl_cons, List.foldl_nil]
    have hi := ih (Nat.le_of_succ_le hm)
    unfold pushline_scan_step move_scan_step
    rw [get_cell_single_row, List.getElem?_eq_getElem hlt, List.getD_eq_getElem _ _ hlt]
    simp only
    split_ifs
    · rfl
    · exact hi

/-- C28, the code at a failing input, with what does agree.  For every row of
cells `handle_pushline` and the scan of `move_terminal_to_buffer` find the same
stored column count, and for a row that ends in a blank cell the same fill
attribute, that of the last cell.  For the row of a blank cell on blue followed
by `a` both find the count 2, but `handle_pushline` leaves the fill attribute
of the blank cell (blue background) and `move_terminal_to_buffer` the default
colour: it sets `new_fill_attr` back to the default at a non-blank cell, which
`handle_pushline` does not. -/
theorem pushline_move_scan_fill :
    (∀ (cells : List VTermScreenCell) (dflt : cellattr_T) (fg bg : VTermColor)
      (pos : VTermPos) (c0 : VTermScreenCell),
      ((List.range cells.length).foldl (pushline_scan_step cells)
          ⟨0, dflt, VTermScreenCell.zero⟩).len
        = (move_scan_row ⟨[cells], fg, bg, pos⟩ dflt cells.length c0 0).len) ∧
    (∀ (pre : List VTermScreenCell) (a dflt : cellattr_T) (fg bg : VTermColor)
      (pos : VTermPos) (c0 : VTermScreenCell),
      ((List.range (pre ++ [blank_cell a]).length).foldl
          (pushline_scan_step (pre ++ [blank_cell a]))
          ⟨0, dflt, VTermScreenCell.zero⟩).fill = a ∧
      (move_scan_row ⟨[pre ++ [blank_cell a]], fg, bg, pos⟩ dflt
          (pre ++ [blank_cell a]).length c0 0).fill = a) ∧
    ((List.range 2).foldl (pushline_scan_step scenario_row_blank_a)
        ⟨0, scenario_default_color, VTermScreenCell.zero⟩).len = 2 ∧
    (move_scan_row ⟨[scenario_row_blank_a], ⟨240, 240, 240, 0⟩, ⟨0, 0, 0, 0⟩, ⟨0, 0⟩⟩
        scenario_default_color 2 VTermScreenCell.zero 0).len = 2 ∧
    ((List.range 2).foldl (pushline_scan_step scenario_row_blank_a)
        ⟨0, scenario_default_color, VTermScreenCell.zero⟩).fill
      = ⟨VTermScreenCellAttrs.zero, 1, ⟨240, 240, 240, 0⟩, ⟨0, 0, 255, 0⟩⟩ ∧
    (move_scan_row ⟨[scenario_row_blank_a], ⟨240, 240, 240, 0⟩, ⟨0, 0, 0, 0⟩, ⟨0, 0⟩⟩
        scenario_default_color 2 VTermScreenCell.zero 0).fill
      = scenario_default_color ∧
    (⟨VTermScreenCellAttrs.zero, 1, ⟨240, 240, 240, 0⟩, ⟨0, 0, 255, 0⟩⟩ : cellattr_T)
      ≠ scenario_default_color := by
  refine ⟨?_, ?_, by decide, by decide, by decide, by decide, by decide⟩
  · intro cells dflt fg bg pos c0
    exact scan_len_agree cells dflt fg bg pos c0 cells.length (Nat.le_refl _)
  · intro pre a dflt fg bg pos c0
    have hlen : (pre ++ [blank_cell a]).length = pre.length + 1 := by simp
    have hget : (pre ++ [blank_cell a])[pre.length]? = some (blank_cell a) := by simp
    have hgetD : (pre ++ [blank_cell a]).getD pre.length VTermScreenCell.zero = blank_cell a := by
      rw [List.getD_eq_getElem?_getD, hget]; rfl
    unfold move_scan_row
    rw [hlen, List.range_succ, List.foldl_append, List.foldl_append]
    simp only [List.foldl_cons, List.foldl_nil]
    constructor
    · unfold pushline_scan_step
      rw [hgetD]
      rfl
    · unfold move_scan_step
      rw [get_cell_single_row, hget]
      rfl
/-! ## Writing a dump: the repeat run -/

/-- C29, the code at a failing input.  A cell with a space followed by a blank
cell (first character NUL) of the same width, style flags and colours, not at
the cursor: `term_dumpwrite` writes the blank cell out again as `|` and a
space, and so it does for a blank cell followed by a space; two cells with a
space are written as one cell and `@1`.  The loop that computes `same_chars`
sets `c` and `pc`, "For the first character NUL is the same as space", and
then compares `cell.chars[i]` with `prev_cell.chars[i]`. -/
theorem term_dumpwrite_nul_space :
    term_dumpwrite { (default : term_T) with
        tl_vterm := some scenario_vterm_space_nul, tl_rows := 1, tl_cols := 2 } 0 0
      = some [62, 32, 43, 48, 35, 102, 48, 102, 48, 102, 48, 48, 38, 124, 32, 10] ∧
    term_dumpwrite { (default : term_T) with
        tl_vterm := some scenario_vterm_nul_space, tl_rows := 1, tl_cols := 2 } 0 0
      = some [62, 32, 43, 48, 35, 102, 48, 102, 48, 102, 48, 48, 38, 124, 32, 10] ∧
    term_dumpwrite { (default : term_T) with
        tl_vterm := some scenario_vterm_space_space, tl_rows := 1, tl_cols := 2 } 0 0
      = some [62, 32, 43, 48, 35, 102, 48, 102, 48, 102, 48, 48, 38, 64, 49, 10] ∧
    same_chars_loop [] [32] VTERM_MAX_CHARS_PER_CELL 0 true = false ∧
    same_chars_loop [32] [] VTERM_MAX_CHARS_PER_CELL 0 true = false ∧
    same_chars_loop [32] [32] VTERM_MAX_CHARS_PER_CELL 0 true = true :=
  ⟨by decide, by decide, by decide, by decide, by decide, by decide⟩

/-! ## Reading a dump: one damaged byte -/

/-- C13, the code at a failing input: a dump whose first byte, the `|` of the
first cell, is damaged (here `x`) and whose row goes on with `@`.  The byte
`x` at cell-start position is none of `|`, `>`, `@` and newline:
`read_dump_file` appends "CORRUPT" and reads the next byte, the `@`.  No cell
was read, `prev_char` is NULL, the branch for `@` appends "CORRUPT" and reads
no byte, and the loop never ends: for every fuel the result is `none`, so the
later row `|a` of the dump `x@1`, `|a` is never appended.  The same dump with
its first two bytes intact, `|a@1`, `|a`, is read to its end. -/
theorem read_dump_file_damaged_byte (fuel : Nat) (rest : List Nat) (term : term_T) :
    read_dump_file fuel (120 :: 64 :: rest) term = none ∧
    read_dump_file fuel [120, 64, 49, 10, 124, 97, 10] term = none ∧
    read_dump_step (term.tl_scrollback.length : Int)
        { c := 120, fd := 64 :: rest, ga_text := [], ga_text_data := false,
          ga_cell := [], prev_char := none, attr := 0, cell := cellattr_T.zero, term := term,
          cursor_pos := ⟨-1, -1⟩, max_cells := 0 }
      = some
        { c := 64, fd := rest, ga_text := CORRUPT, ga_text_data := true,
          ga_cell := [], prev_char := none, attr := 0, cell := cellattr_T.zero, term := term,
          cursor_pos := ⟨-1, -1⟩, max_cells := 0 } ∧
    (read_dump_file 100 [124, 97, 64, 49, 10, 124, 97, 10] scenario_term_load).map
        (fun r => (r.2.2.tl_buffer.b_ml.ml_lines, r.2.2.tl_scrollback.map (fun l => l.sb_cols)))
      = some ([[], [97, 97], [97]], [2, 1]) := by
  have hstep : ∀ rest : List Nat, read_dump_step (term.tl_scrollback.length : Int)
        { c := 120, fd := 64 :: rest, ga_text := [], ga_text_data := false,
          ga_cell := [], prev_char := none, attr := 0, cell := cellattr_T.zero, term := term,
          cursor_pos := ⟨-1, -1⟩, max_cells := 0 }
      = some
        { c := 64, fd := rest, ga_text := CORRUPT, ga_text_data := true,
          ga_cell := [], prev_char := none, attr := 0, cell := cellattr_T.zero, term := term,
          cursor_pos := ⟨-1, -1⟩, max_cells := 0 } := by
    intro rest
    simp [read_dump_step, read_next, dump_is_corrupt, fgetc]
  have hnone : ∀ rest : List Nat, read_dump_file fuel (120 :: 64 :: rest) term = none := by
    intro rest
    unfold read_dump_file
    simp only [fgetc]
    cases fuel with
    | zero => rfl
    | succ n =>
      have h120 : ((120 : Nat) : Int) = 120 := rfl
      rw [h120]
      simp only [read_dump_loop, hstep rest]
      rw [read_dump_loop_at_repeat _ n _ rfl rfl]
  exact ⟨hnone rest, hnone _, hstep rest, by decide⟩

/-! ## Dump/Diff codec: the cells that the comparison reads -/

/-- C15, the code at a failing input: the diff of a dump of the rows `a`, red,
and `b`, green, that is cut off before its last newline, with the complete
dump of the same two rows.  `read_dump_file` appends the text after the last
newline as a text line without a scrollback entry, so the first dump has two
text lines and one entry; `term_load_dump` takes the cells of line `lnum` of
the second dump from entry `lnum + bot_lnum - 1`, which is then the entry of
the next row.  Row 0 is the same cell `a` in both dumps and is marked `f`
(102): the red of `a` is compared with the green of `b`.  The diff of the
complete dump with itself marks both rows with a space.  The last two parts
give the text lines and, per scrollback entry, the number of cells and the red
and green of their foreground, as read from the cut and the complete dump. -/
theorem term_load_dump_cut_first_dump :
    (term_load_dump scenario_utfc_ptr2len 100 true scenario_dump_a_b_cut scenario_dump_a_b_full
        scenario_term_load).map (fun t => t.tl_buffer.b_ml.ml_lines)
      = some [[97], [98, 67, 79, 82, 82, 85, 80, 84], [61], [102], [32], [61], [97], [98]] ∧
    (term_load_dump scenario_utfc_ptr2len 100 true scenario_dump_a_b_full scenario_dump_a_b_full
        scenario_term_load).map (fun t => t.tl_buffer.b_ml.ml_lines)
      = some [[97], [98], [61], [32], [32], [61], [97], [98]] ∧
    (read_dump_file 100 scenario_dump_a_b_cut scenario_term_load).map
        (fun r => (r.2.2.tl_buffer.b_ml.ml_lines, r.2.2.tl_scrollback.map
          (fun l => (l.sb_cols, l.sb_cells.map (List.map (fun c => (c.fg.red, c.fg.green)))))))
      = some ([[], [97], [98, 67, 79, 82, 82, 85, 80, 84]], [(1, some [(255, 0)])]) ∧
    (read_dump_file 100 scenario_dump_a_b_full scenario_term_load).map
        (fun r => (r.2.2.tl_buffer.b_ml.ml_lines, r.2.2.tl_scrollback.map
          (fun l => (l.sb_cols, l.sb_cells.map (List.map (fun c => (c.fg.red, c.fg.green)))))))
      = some ([[], [97], [98]], [(1, some [(255, 0)]), (1, some [(0, 255)])]) :=
  ⟨by decide, by decide, by rfl, by rfl⟩

/-! ## Session lifecycle: back to Terminal-Job mode -/

/-- C17: `term_enter_job_mode` on a terminal with L >= 1 text lines, G
scrollback entries and scrolled offset S, where no more entries are stored
than the text has lines (G <= L; needed only when nothing has scrolled off,
S <= 0): with k = min(max(L - S, 0), G) the loop deletes exactly k lines from
the end of the text and the same k entries from the end of the scrollback,
leaving the first L - k lines and the first G - k entries as they were (when
all L lines are deleted the buffer is empty: one empty line, flagged
`ML_EMPTY`), and writes nothing else.  Then `tl_normal_mode` is
cleared; with `tl_channel_closed` not set that is the result, and with
`tl_channel_closed` set `cleanup_vterm` follows, after which `tl_vterm` is
NULL; the function returns when the cells of the engine have a width of at
least 1. -/
theorem term_enter_job_mode_discards (u : Uninit) (term : term_T) (wins : List win_T)
    (hl : 1 ≤ term.tl_buffer.b_ml.ml_lines.length)
    (hG : term.tl_scrollback_scrolled ≤ 0 →
      term.tl_scrollback.length ≤ term.tl_buffer.b_ml.ml_lines.length) :
    ∃ t1 k, k = (min (max (((term.tl_buffer.b_ml.ml_lines.length : Nat) : Int)
          - term.tl_scrollback_scrolled) 0) ((term.tl_scrollback.length : Nat) : Int)).toNat ∧
      enter_job_mode_loop term.tl_scrollback.length term = some t1 ∧
      { t1 with tl_buffer := term.tl_buffer, tl_scrollback := term.tl_scrollback } = term ∧
      t1.tl_buffer.b_fnum = term.tl_buffer.b_fnum ∧
      t1.tl_scrollback = term.tl_scrollback.take (term.tl_scrollback.length - k) ∧
      (k < term.tl_buffer.b_ml.ml_lines.length →
        t1.tl_buffer.b_ml.ml_lines = term.tl_buffer.b_ml.ml_lines.take
          (term.tl_buffer.b_ml.ml_lines.length - k) ∧
        t1.tl_buffer.b_ml.ml_empty = term.tl_buffer.b_ml.ml_empty) ∧
      (k = term.tl_buffer.b_ml.ml_lines.length → t1.tl_buffer.b_ml = ⟨[[]], true⟩) ∧
      (term.tl_channel_closed = 0 →
        term_enter_job_mode u term wins = some ({ t1 with tl_normal_mode := 0 }, wins)) ∧
      (term.tl_channel_closed ≠ 0 →
        term_enter_job_mode u term wins
          = cleanup_vterm u { t1 with tl_normal_mode := 0 } wins ∧
        (∀ t w, term_enter_job_mode u term wins = some (t, w) →
          t.tl_vterm = none ∧ t.tl_normal_mode = 0) ∧
        ((∀ vt, term.tl_vterm = some vt → ∀ r ∈ vt.screen, ∀ c ∈ r, 1 ≤ c.width) →
          ∃ t w, term_enter_job_mode u term wins = some (t, w))) := by
  obtain ⟨t1, h1, hfr, hfn, ha, hb, hc0, hc1⟩ := term_enter_job_mode_loop_result u term wins hl
  by_cases hs : 1 ≤ term.tl_scrollback_scrolled
  · obtain ⟨a1, a2, a3⟩ := ha hs
    have hk : (min (max (((term.tl_buffer.b_ml.ml_lines.length : Nat) : Int)
          - term.tl_scrollback_scrolled) 0) ((term.tl_scrollback.length : Nat) : Int)).toNat
        = min (((term.tl_buffer.b_ml.ml_lines.length : Nat) : Int)
              - term.tl_scrollback_scrolled).toNat term.tl_scrollback.length := by
      omega
    refine ⟨t1, _, rfl, h1, hfr, hfn, ?_, ?_, ?_, hc0, hc1⟩
    · rw [hk]; exact a2
    · intro _
      rw [hk]
      exact ⟨a1, a3⟩
    · intro hkl
      rw [hk] at hkl
      omega
  · obtain ⟨b1, b2, b3⟩ := hb (by omega)
    have hG1 := hG (by omega)
    have hk : (min (max (((term.tl_buffer.b_ml.ml_lines.length : Nat) : Int)
          - term.tl_scrollback_scrolled) 0) ((term.tl_scrollback.length : Nat) : Int)).toNat
        = term.tl_scrollback.length := by
      omega
    refine ⟨t1, _, rfl, h1, hfr, hfn, ?_, ?_, ?_, hc0, hc1⟩
    · rw [hk, b1, Nat.sub_self, List.take_zero]
    · intro hkl
      rw [hk] at hkl ⊢
      exact b2 hkl
    · intro hkl
      rw [hk] at hkl
      exact b3 (by omega)

/-- A witness for `term_enter_job_mode_discards`: a terminal in Terminal-Normal
mode with L = 2 text lines, G = 2 scrollback entries and scrolled offset S = 0:
k = 2, both entries and both lines are deleted, the buffer is empty, and
`tl_normal_mode` is cleared. -/
theorem term_enter_job_mode_discards_witness :
    ∃ t1 k, k = 2 ∧ enter_job_mode_loop 2 scenario_term_normal = some t1 ∧
      t1.tl_scrollback = [] ∧ t1.tl_buffer.b_ml = ⟨[[]], true⟩ ∧
      term_enter_job_mode default scenario_term_normal []
        = some ({ t1 with tl_normal_mode := 0 }, []) := by
  obtain ⟨t1, k, hk, h1, -, -, h2, -, h3, h4, -⟩ :=
    term_enter_job_mode_discards default scenario_term_normal [] (by decide) (by decide)
  have hk2 : k = 2 := by rw [hk]; decide
  refine ⟨t1, k, hk2, h1, ?_, h3 (by rw [hk2]; rfl), h4 (by decide)⟩
  rw [h2, hk2]
  rfl

/-! ## Session lifecycle: every session of the closed job -/

end Terminal
